import Mathlib

/-!
Cuik semantic analyser (`src/mid/sema.c`): shallow embedding.

The C front end keeps every AST entity in a per-kind arena and refers to it by
an integer handle.  The arenas are modelled as lists indexed by natural
numbers; a read outside an arena yields the all-zero entry.  C unions are
modelled with one record field per union member (no type punning).
Functions that mutate the translation unit return the new translation unit.
-/

namespace Cuik

abbrev TypeIndex := Nat
abbrev ExprIndex := Nat
abbrev StmtIndex := Nat
abbrev ParamIndex := Nat
abbrev MemberIndex := Nat
abbrev SourceLocIndex := Nat
abbrev Atom := String

/-- Modelled from the spec: the `TypeKind` enumeration is declared in a header
that is not part of `src/`.  The enumerators are the ones `sema.c` names; their
order follows the spec's list of type variants (`Void, Bool, Char, Short, Int,
Long, Float, Double, Enum, Struct, Union, Pointer, Array, Function, Typeof`). -/
inductive TypeKind where
  | KIND_VOID | KIND_BOOL | KIND_CHAR | KIND_SHORT | KIND_INT | KIND_LONG
  | KIND_FLOAT | KIND_DOUBLE | KIND_ENUM | KIND_STRUCT | KIND_UNION
  | KIND_PTR | KIND_ARRAY | KIND_FUNC | KIND_TYPEOF
  deriving DecidableEq, Inhabited

namespace TypeKind

/-- Numeric value of an enumerator (position in the enumeration). -/
def toNat : TypeKind → Nat
  | KIND_VOID => 0 | KIND_BOOL => 1 | KIND_CHAR => 2 | KIND_SHORT => 3
  | KIND_INT => 4 | KIND_LONG => 5 | KIND_FLOAT => 6 | KIND_DOUBLE => 7
  | KIND_ENUM => 8 | KIND_STRUCT => 9 | KIND_UNION => 10 | KIND_PTR => 11
  | KIND_ARRAY => 12 | KIND_FUNC => 13 | KIND_TYPEOF => 14

/-- The C test `lo <= k && k <= hi` on enumerator values. -/
def inRange (k lo hi : TypeKind) : Bool :=
  decide (lo.toNat ≤ k.toNat) && decide (k.toNat ≤ hi.toNat)

end TypeKind

open TypeKind

/-- Payload `record` of a struct or union type: name and member range. -/
structure RecordInfo where
  name : Atom := ""
  kids_start : MemberIndex := 0
  kids_end : MemberIndex := 0
  deriving DecidableEq, Inhabited

/-- Payload `func` of a function type. -/
structure FuncInfo where
  name : Atom := ""
  return_type : TypeIndex := 0
  param_list : ParamIndex := 0
  param_count : Nat := 0
  has_varargs : Bool := false
  deriving DecidableEq, Inhabited

/-- Payload `typeof_` of an unresolved `typeof` type. -/
structure TypeofInfo where
  src : ExprIndex := 0
  deriving DecidableEq, Inhabited

/-- Payload `enumerator` of an enum type. -/
structure EnumInfo where
  name : Atom := ""
  deriving DecidableEq, Inhabited

/-- One entry of `tu->types` (the C `Type`). -/
structure CType where
  kind : TypeKind := KIND_VOID
  size : Nat := 0
  align : Nat := 0
  ptr_to : TypeIndex := 0
  array_of : TypeIndex := 0
  array_count : Nat := 0
  record : RecordInfo := {}
  func : FuncInfo := {}
  typeof_ : TypeofInfo := {}
  enumerator : EnumInfo := {}
  deriving DecidableEq, Inhabited

/-- One entry of `tu->params`. -/
structure Param where
  type : TypeIndex := 0
  name : Atom := ""
  deriving DecidableEq, Inhabited

/-- One entry of `tu->members`. -/
structure Member where
  type : TypeIndex := 0
  name : Atom := ""
  deriving DecidableEq, Inhabited

/-- Operators of `Expr` that `sema.c` names. -/
inductive ExprOp where
  | EXPR_INT | EXPR_ENUM | EXPR_FLOAT32 | EXPR_FLOAT64 | EXPR_CHAR | EXPR_STR
  | EXPR_SIZEOF | EXPR_ALIGNOF | EXPR_SIZEOF_T | EXPR_ALIGNOF_T
  | EXPR_INITIALIZER | EXPR_LOGICAL_NOT
  | EXPR_NOT | EXPR_NEGATE | EXPR_PRE_INC | EXPR_PRE_DEC | EXPR_POST_INC | EXPR_POST_DEC
  | EXPR_ADDR | EXPR_SYMBOL | EXPR_PARAM | EXPR_CAST | EXPR_SUBSCRIPT | EXPR_DEREF
  | EXPR_CALL | EXPR_TERNARY | EXPR_COMMA | EXPR_DOT | EXPR_ARROW
  | EXPR_LOGICAL_AND | EXPR_LOGICAL_OR
  | EXPR_PLUS | EXPR_MINUS | EXPR_TIMES | EXPR_SLASH | EXPR_PERCENT
  | EXPR_AND | EXPR_OR | EXPR_XOR | EXPR_SHL | EXPR_SHR
  | EXPR_CMPEQ | EXPR_CMPNE | EXPR_CMPGT | EXPR_CMPGE | EXPR_CMPLT | EXPR_CMPLE
  | EXPR_PLUS_ASSIGN | EXPR_MINUS_ASSIGN | EXPR_ASSIGN | EXPR_TIMES_ASSIGN
  | EXPR_SLASH_ASSIGN | EXPR_AND_ASSIGN | EXPR_OR_ASSIGN | EXPR_XOR_ASSIGN
  | EXPR_SHL_ASSIGN | EXPR_SHR_ASSIGN
  | EXPR_PTRADD | EXPR_PTRSUB | EXPR_PTRDIFF
  deriving DecidableEq, Inhabited

/-- Suffix tag of an integer literal. -/
inductive IntSuffix where
  | INT_SUFFIX_NONE | INT_SUFFIX_U | INT_SUFFIX_L | INT_SUFFIX_LL
  | INT_SUFFIX_UL | INT_SUFFIX_ULL
  deriving DecidableEq, Inhabited

/-- Payload `int_num`. -/
structure IntNum where
  num : Nat := 0
  suffix : IntSuffix := IntSuffix.INT_SUFFIX_NONE
  deriving DecidableEq, Inhabited

/-- One node of a flattened initializer tree. -/
structure InitNode where
  kids_count : Nat := 0
  expr : ExprIndex := 0
  deriving DecidableEq, Inhabited

/-- Payload `init`: target type and the pre-order node sequence
(`count` top-level nodes, stored at `nodes`). -/
structure InitInfo where
  type : TypeIndex := 0
  count : Nat := 0
  nodes : List InitNode := []
  deriving DecidableEq, Inhabited

/-- Payload `unary_op`. -/
structure UnaryOp where
  src : ExprIndex := 0
  deriving DecidableEq, Inhabited

/-- Payload `bin_op`. -/
structure BinOp where
  left : ExprIndex := 0
  right : ExprIndex := 0
  deriving DecidableEq, Inhabited

/-- Payload `ternary_op`. -/
structure TernaryOp where
  left : ExprIndex := 0
  middle : ExprIndex := 0
  right : ExprIndex := 0
  deriving DecidableEq, Inhabited

/-- Payload `x_of_expr` (sizeof / alignof of an expression). -/
structure XOfExpr where
  expr : ExprIndex := 0
  deriving DecidableEq, Inhabited

/-- Payload `x_of_type` (sizeof / alignof of a type). -/
structure XOfType where
  type : TypeIndex := 0
  deriving DecidableEq, Inhabited

/-- Payload `cast`. -/
structure CastInfo where
  type : TypeIndex := 0
  src : ExprIndex := 0
  deriving DecidableEq, Inhabited

/-- Payload `subscript`. -/
structure SubscriptInfo where
  base : ExprIndex := 0
  index : ExprIndex := 0
  deriving DecidableEq, Inhabited

/-- Payload `call`: the argument handles `param_start[0 .. param_count)`. -/
structure CallInfo where
  target : ExprIndex := 0
  param_start : List ExprIndex := []
  param_count : Nat := 0
  deriving DecidableEq, Inhabited

/-- Payload `dot` / `arrow`. -/
structure MemberAccess where
  base : ExprIndex := 0
  name : Atom := ""
  member : MemberIndex := 0
  deriving DecidableEq, Inhabited

/-- One entry of `tu->exprs` (the C `Expr`).  `str` is the raw token text
`[str.start, str.end)` of a string literal. -/
structure Expr where
  op : ExprOp := ExprOp.EXPR_INT
  loc : SourceLocIndex := 0
  type : TypeIndex := 0
  cast_type : TypeIndex := 0
  next_symbol_in_chain : ExprIndex := 0
  int_num : IntNum := {}
  str : List Char := []
  x_of_expr : XOfExpr := {}
  x_of_type : XOfType := {}
  init : InitInfo := {}
  unary_op : UnaryOp := {}
  symbol : StmtIndex := 0
  param_num : Nat := 0
  cast : CastInfo := {}
  subscript : SubscriptInfo := {}
  call : CallInfo := {}
  ternary_op : TernaryOp := {}
  bin_op : BinOp := {}
  dot : MemberAccess := {}
  arrow : MemberAccess := {}
  deriving DecidableEq, Inhabited

/-- Statement operators that `sema.c` names. -/
inductive StmtOp where
  | STMT_LABEL | STMT_GOTO | STMT_COMPOUND | STMT_DECL | STMT_EXPR | STMT_RETURN
  | STMT_IF | STMT_WHILE | STMT_DO_WHILE | STMT_FOR | STMT_SWITCH | STMT_CASE
  | STMT_DEFAULT | STMT_CONTINUE | STMT_BREAK | STMT_FUNC_DECL | STMT_GLOBAL_DECL
  deriving DecidableEq, Inhabited

/-- Declaration attributes `decl.attrs`. -/
structure Attribs where
  is_static : Bool := false
  is_extern : Bool := false
  is_inline : Bool := false
  is_used : Bool := false
  is_root : Bool := false
  deriving DecidableEq, Inhabited

/-- Payload `decl` of a declaration statement. -/
structure DeclInfo where
  type : TypeIndex := 0
  name : Atom := ""
  initial : Nat := 0
  attrs : Attribs := {}
  deriving DecidableEq, Inhabited

/-- Payload `backing`: the IR ids attached to a statement. -/
structure Backing where
  f : Nat := 0
  g : Nat := 0
  e : Nat := 0
  l : Nat := 0
  deriving DecidableEq, Inhabited

/-- Payload `compound`. -/
structure CompoundInfo where
  kids : List StmtIndex := []
  kids_count : Nat := 0
  first_symbol : ExprIndex := 0
  deriving DecidableEq, Inhabited

/-- Payload of a statement holding one expression (`expr`, `return_`, `goto_`). -/
structure ExprRef where
  expr : ExprIndex := 0
  deriving DecidableEq, Inhabited

/-- Payload `goto_`. -/
structure GotoInfo where
  target : ExprIndex := 0
  deriving DecidableEq, Inhabited

/-- Payload `if_`. -/
structure IfInfo where
  cond : ExprIndex := 0
  body : StmtIndex := 0
  next : StmtIndex := 0
  deriving DecidableEq, Inhabited

/-- Payload `while_` and `do_while`. -/
structure LoopInfo where
  cond : ExprIndex := 0
  body : StmtIndex := 0
  deriving DecidableEq, Inhabited

/-- Payload `for_`. -/
structure ForInfo where
  first : StmtIndex := 0
  cond : ExprIndex := 0
  body : StmtIndex := 0
  next : ExprIndex := 0
  deriving DecidableEq, Inhabited

/-- Payload `switch_`. -/
structure SwitchInfo where
  condition : ExprIndex := 0
  body : StmtIndex := 0
  deriving DecidableEq, Inhabited

/-- Payload `case_` and `default_`. -/
structure BodyRef where
  body : StmtIndex := 0
  deriving DecidableEq, Inhabited

/-- One entry of `tu->stmts` (the C `Stmt`). -/
structure Stmt where
  op : StmtOp := StmtOp.STMT_COMPOUND
  loc : SourceLocIndex := 0
  decl : DeclInfo := {}
  backing : Backing := {}
  compound : CompoundInfo := {}
  expr : ExprRef := {}
  return_ : ExprRef := {}
  goto_ : GotoInfo := {}
  if_ : IfInfo := {}
  while_ : LoopInfo := {}
  do_while : LoopInfo := {}
  for_ : ForInfo := {}
  switch_ : SwitchInfo := {}
  case_ : BodyRef := {}
  default_ : BodyRef := {}
  deriving DecidableEq, Inhabited

/-- The arenas of one translation unit. -/
structure TranslationUnit where
  types : List CType := []
  exprs : List Expr := []
  stmts : List Stmt := []
  params : List Param := []
  members : List Member := []
  top_level_stmts : List StmtIndex := []
  deriving DecidableEq, Inhabited

namespace TranslationUnit

/-- The read `tu->types[i]`. -/
def typeAt (tu : TranslationUnit) (i : TypeIndex) : CType := tu.types.getD i {}

/-- The read `tu->exprs[i]`. -/
def exprAt (tu : TranslationUnit) (i : ExprIndex) : Expr := tu.exprs.getD i {}

/-- The read `tu->stmts[i]`. -/
def stmtAt (tu : TranslationUnit) (i : StmtIndex) : Stmt := tu.stmts.getD i {}

/-- The read `tu->params[i]`. -/
def paramAt (tu : TranslationUnit) (i : ParamIndex) : Param := tu.params.getD i {}

/-- The read `tu->members[i]`. -/
def memberAt (tu : TranslationUnit) (i : MemberIndex) : Member := tu.members.getD i {}

/-- The write `tu->types[i] = t`. -/
def setType (tu : TranslationUnit) (i : TypeIndex) (t : CType) : TranslationUnit :=
  { tu with types := tu.types.set i t }

/-- The write `tu->exprs[i] = x`. -/
def setExpr (tu : TranslationUnit) (i : ExprIndex) (x : Expr) : TranslationUnit :=
  { tu with exprs := tu.exprs.set i x }

/-- The write `tu->stmts[i] = s`. -/
def setStmt (tu : TranslationUnit) (i : StmtIndex) (s : Stmt) : TranslationUnit :=
  { tu with stmts := tu.stmts.set i s }

end TranslationUnit

/-- Modelled from the spec: `new_pointer` is defined outside `src/`.  The spec
gives `new_pointer(pointee) → TypeH`, constructing a `Pointer{pointee}` type;
interning is optional, so the model appends a fresh entry and returns its
handle.  Size and alignment of the new entry (8 bytes) are not fixed by the
spec and no result below depends on them. -/
def new_pointer (tu : TranslationUnit) (base : TypeIndex) : TypeIndex × TranslationUnit :=
  (tu.types.length,
   { tu with types := tu.types ++ [{ kind := KIND_PTR, size := 8, align := 8, ptr_to := base }] })

/-- Parts of the program that `sema.c` uses and that are defined outside `src/`:
the handles of the builtin types, structural type equality (`type_equal`,
which reads the type and parameter arenas), the
usual arithmetic conversions (`get_common_type`, which yields the common type
and the entries it appends to the type arena), the `settings.pedantic`
flag, and the string copy `cstr_copy(len, dst, src)` of `type_as_string`, of
which the number it returns is kept.  Every definition below takes them as a
parameter. -/
structure Env where
  TYPE_VOID : TypeIndex
  TYPE_BOOL : TypeIndex
  TYPE_CHAR : TypeIndex
  TYPE_SHORT : TypeIndex
  TYPE_INT : TypeIndex
  TYPE_UINT : TypeIndex
  TYPE_LONG : TypeIndex
  TYPE_ULONG : TypeIndex
  TYPE_FLOAT : TypeIndex
  TYPE_DOUBLE : TypeIndex
  type_equal : List CType → List Param → TypeIndex → TypeIndex → Bool
  get_common_type : TranslationUnit → TypeIndex → TypeIndex → TypeIndex × List CType
  pedantic : Bool
  cstr_copy : Nat → String → Nat

/-- The step `if (t->kind == KIND_ARRAY) { as_ptr = new_pointer(tu, t->array_of); t = &tu->types[as_ptr]; }`
that `type_compatible` applies to its source and to its destination
(implicitly convert arrays into pointers): the entry to go on with, and the
translation unit. -/
def decay_array (tu : TranslationUnit) (t : CType) : CType × TranslationUnit :=
  if t.kind = KIND_ARRAY then
    ((new_pointer tu t.array_of).2.typeAt (new_pointer tu t.array_of).1,
      (new_pointer tu t.array_of).2)
  else (t, tu)

/-- Translation of `type_compatible(tu, a, b, a_expr)`: may `a` (the type of
expression `a_expr`) be converted implicitly to `b`?  Returns the answer and
the translation unit, whose type arena grows when an array operand decays. -/
def type_compatible (env : Env) (tu : TranslationUnit) (a b : TypeIndex)
    (a_expr : ExprIndex) : Bool × TranslationUnit :=
  if a = b then (true, tu) else
  -- implicitly convert arrays into pointers
  let s := decay_array tu (tu.typeAt a)
  let d := decay_array s.2 (tu.typeAt b)
  let src := s.1
  let dst := d.1
  let tu := d.2
  (if src.kind ≠ dst.kind then
      if src.kind.inRange KIND_BOOL KIND_LONG && dst.kind.inRange KIND_BOOL KIND_LONG then
        -- just all integer casts are good
        true
      else if src.kind.inRange KIND_BOOL KIND_LONG && decide (dst.kind = KIND_PTR) then
        -- is_nullptr
        decide ((tu.exprAt a_expr).op = ExprOp.EXPR_INT)
          && decide ((tu.exprAt a_expr).int_num.num = 0)
      else if src.kind = KIND_FLOAT ∨ dst.kind = KIND_DOUBLE then true
      else if src.kind = KIND_DOUBLE ∨ dst.kind = KIND_FLOAT then true
      else if src.kind = KIND_FUNC ∧ dst.kind = KIND_PTR then
        if (tu.typeAt dst.ptr_to).kind = KIND_FUNC then
          env.type_equal tu.types tu.params a dst.ptr_to
        else false
      else false
    else if src.kind = KIND_FUNC then
      env.type_equal tu.types tu.params a b
    else if dst.kind = KIND_PTR then
      -- void* -> T* is fine
      if (tu.typeAt src.ptr_to).kind = KIND_VOID then true
      -- T* -> void* is fine
      else if (tu.typeAt dst.ptr_to).kind = KIND_VOID then true
      else env.type_equal tu.types tu.params src.ptr_to dst.ptr_to
    else
      -- but by default kind matching is enough
      true,
   tu)

/-! ## Checker state and results -/

/-- Severity passed to `report`. -/
inductive ReportLevel where
  | REPORT_INFO | REPORT_WARNING | REPORT_ERROR
  deriving DecidableEq, Inhabited

/-- One call of `report`: severity, source location index and format string.
The formatted arguments (the output of `type_as_string`) are not recorded. -/
structure Report where
  level : ReportLevel := ReportLevel.REPORT_ERROR
  loc : SourceLocIndex := 0
  fmt : String := ""
  deriving DecidableEq, Inhabited

/-- State of the checker: the translation unit, the diagnostics reported so far
(oldest first), the thread-local `function_stmt`, and the number of label ids
handed out by the IR builder. -/
structure Sema where
  tu : TranslationUnit := {}
  reports : List Report := []
  function_stmt : StmtIndex := 0
  label_count : Nat := 0
  deriving DecidableEq, Inhabited

/-- Outcome of running a checker function: it returns a value in a new state,
or the process is terminated (`abort()`, `sema_fatal`, a failed `assert`), or
the model ran out of fuel before the function returned. -/
inductive Res (α : Type) where
  | ok (val : α) (st : Sema)
  | abort
  | out_of_fuel
  deriving DecidableEq, Inhabited

namespace Res

/-- Sequencing: continue with the value and state of a returned call. -/
def bind {α β : Type} (r : Res α) (k : α → Sema → Res β) : Res β :=
  match r with
  | ok v st => k v st
  | abort => abort
  | out_of_fuel => out_of_fuel

/-- The state in which a call returned (the empty state if it did not return). -/
def state {α : Type} (r : Res α) : Sema :=
  match r with
  | ok _ st => st
  | abort => {}
  | out_of_fuel => {}

end Res

/-- Translation of the macro `sema_error(loc, fmt, ...)`. -/
def sema_error (st : Sema) (loc : SourceLocIndex) (fmt : String) : Sema :=
  { st with reports := st.reports ++ [{ level := ReportLevel.REPORT_ERROR, loc := loc, fmt := fmt }] }

namespace Sema

/-- The read `tu->exprs[e]` in the current state. -/
def exprAt (st : Sema) (e : ExprIndex) : Expr := st.tu.exprAt e

/-- The read `tu->types[t]` in the current state. -/
def typeAt (st : Sema) (t : TypeIndex) : CType := st.tu.typeAt t

/-- The read `tu->stmts[s]` in the current state. -/
def stmtAt (st : Sema) (s : StmtIndex) : Stmt := st.tu.stmtAt s

/-- The write `tu->exprs[e] = x`. -/
def setExpr (st : Sema) (e : ExprIndex) (x : Expr) : Sema :=
  { st with tu := st.tu.setExpr e x }

/-- The write `tu->types[t] = ty`. -/
def setType (st : Sema) (t : TypeIndex) (ty : CType) : Sema :=
  { st with tu := st.tu.setType t ty }

/-- The write `tu->stmts[s] = x`. -/
def setStmt (st : Sema) (s : StmtIndex) (x : Stmt) : Sema :=
  { st with tu := st.tu.setStmt s x }

/-- The write `tu->exprs[e].cast_type = t`. -/
def setCastType (st : Sema) (e : ExprIndex) (t : TypeIndex) : Sema :=
  st.setExpr e { st.exprAt e with cast_type := t }

/-- The write `tu->exprs[e].type = t`. -/
def setExprType (st : Sema) (e : ExprIndex) (t : TypeIndex) : Sema :=
  st.setExpr e { st.exprAt e with type := t }

/-- The write `tu->exprs[e].op = op`. -/
def setOp (st : Sema) (e : ExprIndex) (op : ExprOp) : Sema :=
  st.setExpr e { st.exprAt e with op := op }

/-- The statement `swap(ep->bin_op.left, ep->bin_op.right)`. -/
def swapBinOp (st : Sema) (e : ExprIndex) : Sema :=
  st.setExpr e { st.exprAt e with
    bin_op := { left := (st.exprAt e).bin_op.right, right := (st.exprAt e).bin_op.left } }

/-- The statement `swap(ep->subscript.base, ep->subscript.index)`. -/
def swapSubscript (st : Sema) (e : ExprIndex) : Sema :=
  st.setExpr e { st.exprAt e with
    subscript := { base := (st.exprAt e).subscript.index, index := (st.exprAt e).subscript.base } }

/-- The write `ep->dot.member = m`. -/
def setDotMember (st : Sema) (e : ExprIndex) (m : MemberIndex) : Sema :=
  st.setExpr e { st.exprAt e with dot := { (st.exprAt e).dot with member := m } }

/-- The write `ep->init.type = t`. -/
def setInitType (st : Sema) (e : ExprIndex) (t : TypeIndex) : Sema :=
  st.setExpr e { st.exprAt e with init := { (st.exprAt e).init with type := t } }

/-- The write `tu->types[tp].array_count = n`. -/
def setArrayCount (st : Sema) (tp : TypeIndex) (n : Nat) : Sema :=
  st.setType tp { st.typeAt tp with array_count := n }

/-- The write `tu->types[tp].size = n`. -/
def setTypeSize (st : Sema) (tp : TypeIndex) (n : Nat) : Sema :=
  st.setType tp { st.typeAt tp with size := n }

/-- The write `sp->decl.type = t`. -/
def setDeclType (st : Sema) (s : StmtIndex) (t : TypeIndex) : Sema :=
  st.setStmt s { st.stmtAt s with decl := { (st.stmtAt s).decl with type := t } }

/-- The state after a helper that may have appended to the type arena
(`type_compatible`, `new_pointer`, `new_array`) returned translation unit `tu`. -/
def withTu (st : Sema) (tu : TranslationUnit) : Sema := { st with tu := tu }

/-- The type arena grows by the entries a helper appended. -/
def appendTypes (st : Sema) (ts : List CType) : Sema :=
  { st with tu := { st.tu with types := st.tu.types ++ ts } }

end Sema

/-- The statement `return (ep->type = t);` of `sema_expr`. -/
def ret_type (st : Sema) (e : ExprIndex) (t : TypeIndex) : Res TypeIndex :=
  Res.ok t (st.setExprType e t)

/-- Modelled from the spec: `new_array` is defined outside `src/`.  The spec
gives `new_array(elem, count) → TypeH` and says that constructing an array whose
element size is not positive is fatal (`none`).  Otherwise the model appends an
`Array{elem, count}` entry of size `count * elem.size` and alignment
`elem.align`, and returns its handle. -/
def new_array (tu : TranslationUnit) (base : TypeIndex) (count : Nat) :
    Option (TypeIndex × TranslationUnit) :=
  if (tu.typeAt base).size = 0 then none
  else
    some (tu.types.length,
      { tu with types := tu.types ++
          [{ kind := KIND_ARRAY, size := count * (tu.typeAt base).size,
             align := (tu.typeAt base).align, array_of := base, array_count := count }] })

/-- Translation of `is_scalar_type`. -/
def is_scalar_type (tu : TranslationUnit) (type_index : TypeIndex) : Bool :=
  (tu.typeAt type_index).kind.inRange KIND_BOOL KIND_FUNC

/-- The test `kind == KIND_PTR || kind == KIND_ARRAY` that `sema_expr` applies to
operand types. -/
def is_ptr_or_array (tu : TranslationUnit) (t : TypeIndex) : Bool :=
  decide ((tu.typeAt t).kind = KIND_PTR) || decide ((tu.typeAt t).kind = KIND_ARRAY)

/-- The member search loop of the `EXPR_DOT` and `EXPR_ARROW` cases: the first
index `m` among `start, start+1, ..., start+count-1` whose member has the
requested name (`cstr_equals`). -/
def find_member (tu : TranslationUnit) (name : Atom) : Nat → MemberIndex → Option MemberIndex
  | 0, _ => none
  | count + 1, m =>
    if name = (tu.memberAt m).name then some m
    else find_member tu name count (m + 1)

/-! ## `type_as_string`

The function writes the text of a type into a buffer of `max_len` bytes and
returns the number of characters written.  The diagnostics of the model keep
the format string only, so what matters of a call is whether it returns: it
does not when it reaches `abort()`, and a write outside the buffer is undefined
behaviour, for which the model has no result either (`none`). -/

/-- The `size_t` sum `a + b`. -/
def size_add (a b : Nat) : Nat := (a + b) % 2 ^ 64

/-- The `size_t` difference `a - b`. -/
def size_sub (a b : Nat) : Nat := (a + 2 ^ 64 - b % 2 ^ 64) % 2 ^ 64

/-- The statement `buffer[i++] = c` of `type_as_string` on a buffer of `max_len`
bytes: the new `i`, and no result when the write is outside the buffer. -/
def put_char (max_len i : Nat) : Option Nat :=
  if i < max_len then some (i + 1) else none

/-- The call `sprintf_s(&buffer[i], n, "%zu", v)`: the number of digits written;
digits that do not fit `n` bytes with the terminator are a runtime-constraint
violation, for which the model has no result. -/
def sprintf_s_zu (n v : Nat) : Option Nat :=
  if (Nat.toDigits 10 v).length < n then some (Nat.toDigits 10 v).length else none

/-- The `for` loop over the parameters in the `KIND_FUNC` case of
`type_as_string`: parameters `j, j+1, ...` (`count` of them), `i` being the
number of characters written so far; `self` is the recursive call. -/
def type_as_string_params (env : Env) (tu : TranslationUnit)
    (self : Nat → TypeIndex → Option Nat) (max_len : Nat) (param_list : ParamIndex) :
    Nat → Nat → Nat → Option Nat
  | 0, _, i => some i
  | count + 1, j, i =>
    (if j ≠ 0 then put_char max_len i else some i).bind fun i =>
      (self (size_sub max_len i) (tu.paramAt (param_list + j)).type).bind fun n =>
        (if (tu.paramAt (param_list + j)).name ≠ "" then
            (put_char max_len (size_add i n)).bind fun i =>
              some (size_add i (env.cstr_copy (size_sub max_len i) (tu.paramAt (param_list + j)).name))
          else some (size_add i n)).bind fun i =>
          type_as_string_params env tu self max_len param_list count (j + 1) i

/-- The body of `type_as_string(tu, max_len, buffer, type_index)`; `self` is the
recursive call.  A null name is the empty atom.  The result is the value
returned, `none` when the call does not return: `abort()` (an array whose
element text leaves less than 13 bytes), or a write outside the buffer (one of
the unchecked `buffer[i++] = c`, or the terminator `buffer[i] = 0` with
`i >= max_len`).  Every `TypeKind` has a case, so the `default: abort()` is not
reached. -/
def type_as_string_body (env : Env) (tu : TranslationUnit)
    (self : Nat → TypeIndex → Option Nat) (max_len : Nat) (type_index : TypeIndex) :
    Option Nat :=
  let type := tu.typeAt type_index
  let written : Option Nat :=
    match type.kind with
    | KIND_VOID => some "void".length
    | KIND_BOOL => some "_Bool".length
    | KIND_CHAR => some "char".length
    | KIND_SHORT => some "short".length
    | KIND_INT => some "int".length
    | KIND_LONG => some "long".length
    | KIND_FLOAT => some "float".length
    | KIND_DOUBLE => some "double".length
    | KIND_ENUM =>
      let i := size_add 0 (env.cstr_copy max_len "enum ")
      some (size_add i (env.cstr_copy (size_sub max_len i)
        (if type.enumerator.name ≠ "" then type.enumerator.name else "__unnamed__")))
    | KIND_UNION =>
      let i := size_add 0 (env.cstr_copy max_len "union ")
      some (size_add i (env.cstr_copy (size_sub max_len i)
        (if type.record.name ≠ "" then type.record.name else "__unnamed__")))
    | KIND_STRUCT =>
      let i := size_add 0 (env.cstr_copy max_len "struct ")
      some (size_add i (env.cstr_copy (size_sub max_len i)
        (if type.record.name ≠ "" then type.record.name else "__unnamed__")))
    | KIND_PTR =>
      (self max_len type.ptr_to).bind fun i => put_char max_len i
    | KIND_ARRAY =>
      (self max_len type.array_of).bind fun i =>
        if i + 12 < max_len then
          (put_char max_len i).bind fun i =>
            (sprintf_s_zu (size_sub max_len i) type.array_count).bind fun n =>
              put_char max_len (size_add i n)
        else none
    | KIND_FUNC =>
      (self max_len type.func.return_type).bind fun i =>
        (if type.func.name ≠ "" then
            (put_char max_len i).bind fun i =>
              some (size_add i (env.cstr_copy (size_sub max_len i) type.func.name))
          else some i).bind fun i =>
          (put_char max_len i).bind fun i =>
            (type_as_string_params env tu self max_len type.func.param_list
                type.func.param_count 0 i).bind fun i =>
              put_char max_len i
    | KIND_TYPEOF => some (size_add 0 (env.cstr_copy max_len "typeof(???)"))
  written.bind fun i => if i < max_len then some i else none

/-- `type_as_string` with a bound on the depth of the nested calls. -/
def type_as_string_fuel (env : Env) (tu : TranslationUnit) :
    Nat → Nat → TypeIndex → Option Nat
  | 0, _, _ => none
  | fuel + 1, max_len, type_index =>
    type_as_string_body env tu (type_as_string_fuel env tu fuel) max_len type_index

/-- Translation of `type_as_string(tu, max_len, buffer, type_index)`.  The depth
of the nested calls is bounded by one more than the number of type entries: a
deeper descent goes through one entry twice, and the recursion of the source,
which repeats from there, does not return. -/
def type_as_string (env : Env) (tu : TranslationUnit) (max_len : Nat) (type_index : TypeIndex) :
    Option Nat :=
  type_as_string_fuel env tu (tu.types.length + 1) max_len type_index

/-- The statement `type_as_string(tu, sizeof(temp_string), temp_string, t);` in
front of the rest `k` of a run: `temp_string0` and `temp_string1` are buffers
of 256 bytes, and the run ends where the call does not return. -/
def with_type_string {α : Type} (env : Env) (st : Sema) (t : TypeIndex) (k : Res α) : Res α :=
  match type_as_string env st.tu 256 t with
  | some _ => k
  | none => Res.abort

/-! ## `try_resolve_typeof`, `walk_initializer_for_sema`, `sema_expr`:
mutual recursion through fuel

The three functions call each other.  Each takes a fuel argument that bounds the
depth of nested calls and loop iterations; `sema_expr` is defined by recursion
on it, and the two helpers receive the expression checker to call as their
first argument. -/

/-- The `for` loop of `try_resolve_typeof` over the members `m, m+1, ...` of a
record (`count` iterations), calling `resolve` on each member's type. -/
def resolve_members (resolve : Sema → TypeIndex → Res Unit) :
    Nat → Sema → MemberIndex → Res Unit
  | 0, st, _ => Res.ok () st
  | count + 1, st, m =>
    (resolve st (st.tu.memberAt m).type).bind fun _ st =>
      resolve_members resolve count st (m + 1)

/-- Translation of `try_resolve_typeof(tu, type)`.  `ty` of the source is the
entry at handle `type`; an iteration of the `while` loop that moves `ty` to the
pointee or element is the recursive call on that handle, and an iteration on a
record, which leaves `ty` where it is, is followed by the recursive call on the
same handle. -/
def try_resolve_typeof (sema : Sema → ExprIndex → Res TypeIndex) :
    Nat → Sema → TypeIndex → Res Unit
  | 0, _, _ => Res.out_of_fuel
  | fuel + 1, st, type =>
    let ty := st.typeAt type
    if ty.kind = KIND_PTR then
      try_resolve_typeof sema fuel st ty.ptr_to
    else if ty.kind = KIND_ARRAY then
      try_resolve_typeof sema fuel st ty.array_of
    else if ty.kind = KIND_UNION ∨ ty.kind = KIND_STRUCT then
      (resolve_members (try_resolve_typeof sema fuel)
          (ty.record.kids_end - ty.record.kids_start) st ty.record.kids_start).bind fun _ st =>
        try_resolve_typeof sema fuel st type
    else if ty.kind = KIND_TYPEOF then
      (sema st ty.typeof_.src).bind fun resolved st =>
        Res.ok () (st.setType type (st.typeAt resolved))
    else Res.ok () st

/-- Translation of `walk_initializer_for_sema(tu, node_count, node)`, where
`node` points at position `pos` of the node sequence `nodes`; returns the
position after the nodes walked. -/
def walk_initializer_for_sema (sema : Sema → ExprIndex → Res TypeIndex)
    (nodes : List InitNode) : Nat → Sema → Nat → Nat → Res Nat
  | 0, _, _, _ => Res.out_of_fuel
  | _ + 1, st, 0, pos => Res.ok pos st
  | fuel + 1, st, node_count + 1, pos =>
    if (nodes.getD pos {}).kids_count = 0 then
      (sema st (nodes.getD pos {}).expr).bind fun _ st =>
        walk_initializer_for_sema sema nodes fuel st node_count (pos + 1)
    else
      (walk_initializer_for_sema sema nodes fuel st (nodes.getD pos {}).kids_count (pos + 1)).bind
        fun pos st => walk_initializer_for_sema sema nodes fuel st node_count pos

/-- The loops of the `EXPR_CALL` case that check arguments against parameters:
for `i = first, ..., first+count-1`, check `args[i]`; when it cannot be converted
to `params[i].type`, write the texts of the two types with `type_as_string`,
report and stop (`false`, the `goto failure`), and
otherwise set its `cast_type`: to the parameter type in a variadic call
(`to_param = true`), to the argument's own stored type otherwise. -/
def check_call_args (env : Env) (sema : Sema → ExprIndex → Res TypeIndex)
    (args : List ExprIndex) (param_list : ParamIndex) (to_param : Bool) :
    Nat → Sema → Nat → Res Bool
  | 0, st, _ => Res.ok true st
  | count + 1, st, i =>
    (sema st (args.getD i 0)).bind fun arg_type st =>
      let r := type_compatible env st.tu arg_type (st.tu.paramAt (param_list + i)).type (args.getD i 0)
      let st := st.withTu r.2
      if r.1 = false then
        with_type_string env st arg_type
          (with_type_string env st (st.tu.paramAt (param_list + i)).type
            (Res.ok false
              (sema_error st (st.exprAt (args.getD i 0)).loc
                "Could not implicitly convert type %s into %s.")))
      else
        let st := st.setCastType (args.getD i 0)
          (if to_param then (st.tu.paramAt (param_list + i)).type
           else (st.exprAt (args.getD i 0)).type)
        check_call_args env sema args param_list to_param count st (i + 1)

/-- The second loop of a variadic call: check each remaining argument and set
its `cast_type` to its own type. -/
def check_untyped_args (sema : Sema → ExprIndex → Res TypeIndex) (args : List ExprIndex) :
    Nat → Sema → Nat → Res Unit
  | 0, st, _ => Res.ok () st
  | count + 1, st, i =>
    (sema st (args.getD i 0)).bind fun src st =>
      check_untyped_args sema args count (st.setCastType (args.getD i 0) src) (i + 1)

/-- The rewrite `*ep = (Expr) { .op = EXPR_INT, .type = TYPE_ULONG, .int_num = { num, suffix } }`
of the sizeof / alignof cases: every other field of the node becomes zero. -/
def int_literal_node (env : Env) (num : Nat) (suffix : IntSuffix) : Expr :=
  { op := ExprOp.EXPR_INT, type := env.TYPE_ULONG, int_num := { num := num, suffix := suffix } }

/-- The pointer-arithmetic branch of the arithmetic case of `sema_expr`
(`ep->op` is `EXPR_PLUS` or `EXPR_MINUS` and an operand type is a pointer or an
array); `lhs`, `rhs` are the operand types. -/
def sema_expr_ptr_arith (env : Env) (st : Sema) (e : ExprIndex) (lhs rhs : TypeIndex) :
    Res TypeIndex :=
  let swapped := decide ((st.exprAt e).op = ExprOp.EXPR_PLUS) && is_ptr_or_array st.tu rhs
  let st := if swapped then st.swapBinOp e else st
  let lhs' := if swapped then rhs else lhs
  let rhs' := if swapped then lhs else rhs
  if is_ptr_or_array st.tu rhs' then
    if (st.exprAt e).op = ExprOp.EXPR_MINUS then
      -- ptr - ptr = ptrdiff_t
      let st := st.setCastType (st.exprAt e).bin_op.left lhs'
      let st := st.setCastType (st.exprAt e).bin_op.right rhs'
      let st := st.setOp e ExprOp.EXPR_PTRDIFF
      ret_type st e env.TYPE_LONG
    else
      ret_type
        (sema_error st (st.exprAt e).loc
          "Cannot do pointer addition with two pointer operands, one must be an integral type.")
        e env.TYPE_VOID
  else
    let st := st.setCastType (st.exprAt e).bin_op.left lhs'
    let st := st.setCastType (st.exprAt e).bin_op.right env.TYPE_ULONG
    let st := st.setOp e
      (if (st.exprAt e).op = ExprOp.EXPR_PLUS then ExprOp.EXPR_PTRADD else ExprOp.EXPR_PTRSUB)
    ret_type st e lhs'

/-- The arithmetic / bitwise / shift case of `sema_expr` from the point where
both operands have been checked; `lhs`, `rhs` are their types. -/
def sema_expr_arith (env : Env) (st : Sema) (e : ExprIndex) (lhs rhs : TypeIndex) :
    Res TypeIndex :=
  if ((st.exprAt e).op = ExprOp.EXPR_PLUS ∨ (st.exprAt e).op = ExprOp.EXPR_MINUS)
      ∧ (is_ptr_or_array st.tu lhs = true ∨ is_ptr_or_array st.tu rhs = true) then
    -- Pointer arithmetic
    sema_expr_ptr_arith env st e lhs rhs
  else
    if ((st.typeAt lhs).kind.inRange KIND_BOOL KIND_DOUBLE
        && (st.typeAt rhs).kind.inRange KIND_BOOL KIND_DOUBLE) = false then
      with_type_string env st lhs
        (with_type_string env st rhs
          (ret_type (sema_error st (st.exprAt e).loc "Cannot apply binary operator to %s and %s.")
            e env.TYPE_VOID))
    else
      let c := env.get_common_type st.tu lhs rhs
      let st := st.appendTypes c.2
      let st := st.setCastType (st.exprAt e).bin_op.left c.1
      let st := st.setCastType (st.exprAt e).bin_op.right c.1
      ret_type st e c.1

/-- The body of `sema_expr(tu, e)`: `self` checks sub-expressions, `fuel` is
handed to `try_resolve_typeof` and `walk_initializer_for_sema`.  `ep` of the
source points into `tu->exprs`, so every access through it reads the current
state.  The operands of a two-argument call such as
`get_common_type(tu, sema_expr(..), sema_expr(..))` are evaluated left to right. -/
def sema_expr_body (env : Env) (self : Sema → ExprIndex → Res TypeIndex) (fuel : Nat)
    (st : Sema) (e : ExprIndex) : Res TypeIndex :=
  match (st.exprAt e).op with
  | ExprOp.EXPR_INT =>
    match (st.exprAt e).int_num.suffix with
    | IntSuffix.INT_SUFFIX_NONE =>
      let original := (st.exprAt e).int_num.num % 2 ^ 32
      let expected := (st.exprAt e).int_num.num % 2 ^ 64
      let st := if original ≠ expected then
          sema_error st (st.exprAt e).loc
            "Could not represent integer literal as int. (%ulld or %ullx)"
        else st
      ret_type st e env.TYPE_INT
    | IntSuffix.INT_SUFFIX_U =>
      let original := (st.exprAt e).int_num.num % 2 ^ 32
      let expected := (st.exprAt e).int_num.num % 2 ^ 64
      let st := if original ≠ expected then
          sema_error st (st.exprAt e).loc "Could not represent integer literal as unsigned int."
        else st
      ret_type st e env.TYPE_UINT
    | IntSuffix.INT_SUFFIX_L => ret_type st e env.TYPE_LONG
    | IntSuffix.INT_SUFFIX_LL => ret_type st e env.TYPE_LONG
    | IntSuffix.INT_SUFFIX_UL => ret_type st e env.TYPE_ULONG
    | IntSuffix.INT_SUFFIX_ULL => ret_type st e env.TYPE_ULONG
  | ExprOp.EXPR_ENUM => ret_type st e env.TYPE_INT
  | ExprOp.EXPR_FLOAT32 => ret_type st e env.TYPE_FLOAT
  | ExprOp.EXPR_FLOAT64 => ret_type st e env.TYPE_DOUBLE
  | ExprOp.EXPR_CHAR => ret_type st e env.TYPE_CHAR
  | ExprOp.EXPR_STR =>
    -- start = str.start + 1, end = str.end - 1, count = (end - start) + 1
    let is_wide_string := decide ((st.exprAt e).str.head? = some 'L')
    let count := (((st.exprAt e).str.length : Int) - 2 + 1) % 2 ^ 64
    match new_array st.tu (if is_wide_string then env.TYPE_SHORT else env.TYPE_CHAR) count.toNat with
    | none => Res.abort
    | some (t, tu) => ret_type (st.withTu tu) e t
  | ExprOp.EXPR_SIZEOF =>
    (self st (st.exprAt e).x_of_expr.expr).bind fun src st =>
      let st := st.setExpr e (int_literal_node env (st.typeAt src).size IntSuffix.INT_SUFFIX_ULL)
      ret_type st e env.TYPE_ULONG
  | ExprOp.EXPR_ALIGNOF =>
    (self st (st.exprAt e).x_of_expr.expr).bind fun src st =>
      let st := st.setExpr e (int_literal_node env (st.typeAt src).align IntSuffix.INT_SUFFIX_ULL)
      ret_type st e env.TYPE_ULONG
  | ExprOp.EXPR_SIZEOF_T =>
    (try_resolve_typeof self fuel st (st.exprAt e).x_of_type.type).bind fun _ st =>
      let st := st.setExpr e
        (int_literal_node env (st.typeAt (st.exprAt e).x_of_type.type).size IntSuffix.INT_SUFFIX_NONE)
      ret_type st e env.TYPE_ULONG
  | ExprOp.EXPR_ALIGNOF_T =>
    (try_resolve_typeof self fuel st (st.exprAt e).x_of_type.type).bind fun _ st =>
      let st := st.setExpr e
        (int_literal_node env (st.typeAt (st.exprAt e).x_of_type.type).align IntSuffix.INT_SUFFIX_NONE)
      ret_type st e env.TYPE_ULONG
  | ExprOp.EXPR_INITIALIZER =>
    (try_resolve_typeof self fuel st (st.exprAt e).init.type).bind fun _ st =>
      (walk_initializer_for_sema self (st.exprAt e).init.nodes fuel st
          (st.exprAt e).init.count 0).bind fun _ st =>
        ret_type st e (st.exprAt e).init.type
  | ExprOp.EXPR_LOGICAL_NOT =>
    (self st (st.exprAt e).unary_op.src).bind fun _ st => ret_type st e env.TYPE_BOOL
  | ExprOp.EXPR_NOT | ExprOp.EXPR_NEGATE | ExprOp.EXPR_PRE_INC | ExprOp.EXPR_PRE_DEC
  | ExprOp.EXPR_POST_INC | ExprOp.EXPR_POST_DEC =>
    (self st (st.exprAt e).unary_op.src).bind fun src st => ret_type st e src
  | ExprOp.EXPR_ADDR =>
    (self st (st.exprAt e).unary_op.src).bind fun src st =>
      let r := new_pointer st.tu src
      ret_type (st.withTu r.2) e r.1
  | ExprOp.EXPR_SYMBOL =>
    let stmt := (st.exprAt e).symbol
    if (st.stmtAt stmt).op = StmtOp.STMT_LABEL then ret_type st e 0
    else
      let type := (st.stmtAt stmt).decl.type
      let st :=
        if (st.typeAt type).kind = KIND_ARRAY then
          -- this is the only example where something sets its own cast_type
          let r := new_pointer st.tu (st.typeAt type).array_of
          (st.withTu r.2).setCastType e r.1
        else st
      ret_type st e type
  | ExprOp.EXPR_PARAM =>
    let func_type := st.typeAt (st.stmtAt st.function_stmt).decl.type
    ret_type st e (st.tu.paramAt (func_type.func.param_list + (st.exprAt e).param_num)).type
  | ExprOp.EXPR_CAST =>
    (try_resolve_typeof self fuel st (st.exprAt e).cast.type).bind fun _ st =>
      (self st (st.exprAt e).cast.src).bind fun _ st =>
        -- set child's cast type
        let st := st.setCastType (st.exprAt e).cast.src (st.exprAt e).cast.type
        ret_type st e (st.exprAt e).cast.type
  | ExprOp.EXPR_SUBSCRIPT =>
    (self st (st.exprAt e).subscript.base).bind fun base st =>
      (self st (st.exprAt e).subscript.index).bind fun index st =>
        let swapped := is_ptr_or_array st.tu index
        let st := if swapped then st.swapSubscript e else st
        let base := if swapped then index else base
        if (st.typeAt base).kind = KIND_ARRAY then
          let r := new_pointer st.tu (st.typeAt base).array_of
          let st := st.withTu r.2
          ret_type st e (st.typeAt r.1).ptr_to
        else ret_type st e (st.typeAt base).ptr_to
  | ExprOp.EXPR_DEREF =>
    (self st (st.exprAt e).unary_op.src).bind fun base st =>
      if (st.typeAt base).kind = KIND_PTR then ret_type st e (st.typeAt base).ptr_to
      else if (st.typeAt base).kind = KIND_ARRAY then ret_type st e (st.typeAt base).array_of
      else Res.abort
  | ExprOp.EXPR_CALL =>
    (self st (st.exprAt e).call.target).bind fun func_ptr st =>
      -- implicit dereference
      let func_ptr := if (st.typeAt func_ptr).kind = KIND_PTR then (st.typeAt func_ptr).ptr_to
        else func_ptr
      let st := st.setCastType (st.exprAt e).call.target func_ptr
      let failure := fun (st : Sema) => ret_type st e (st.typeAt func_ptr).func.return_type
      if (st.typeAt func_ptr).kind ≠ KIND_FUNC then
        failure (sema_error st (st.exprAt e).loc "function call target must be a function-type.")
      else
        let args := (st.exprAt e).call.param_start
        let arg_count := (st.exprAt e).call.param_count
        let param_list := (st.typeAt func_ptr).func.param_list
        let param_count := (st.typeAt func_ptr).func.param_count
        if (st.typeAt func_ptr).func.has_varargs then
          if arg_count < param_count then
            failure (sema_error st (st.exprAt e).loc
              "Not enough arguments (expected at least %d, got %d)")
          else
            -- type-check the parameters with a known type
            (check_call_args env self args param_list true param_count st 0).bind fun done st =>
              if done then
                -- type-check the untyped arguments
                (check_untyped_args self args (arg_count - param_count) st param_count).bind
                  fun _ st => failure st
              else failure st
        else
          if arg_count ≠ param_count then
            failure (sema_error st (st.exprAt e).loc
              "Argument count mismatch (expected %d, got %d)")
          else
            (check_call_args env self args param_list false arg_count st 0).bind fun _ st =>
              failure st
  | ExprOp.EXPR_TERNARY =>
    (self st (st.exprAt e).ternary_op.left).bind fun cond_type st =>
      (if is_scalar_type st.tu cond_type = false then
          with_type_string env st cond_type
            (Res.ok ()
              (sema_error st (st.exprAt e).loc "Could not convert type %s into boolean."))
        else Res.ok () st).bind fun _ st =>
      let st := st.setCastType (st.exprAt e).ternary_op.left env.TYPE_BOOL
      (self st (st.exprAt e).ternary_op.middle).bind fun m st =>
        (self st (st.exprAt e).ternary_op.right).bind fun r st =>
          let c := env.get_common_type st.tu m r
          let st := st.appendTypes c.2
          let st := st.setCastType (st.exprAt e).ternary_op.middle c.1
          let st := st.setCastType (st.exprAt e).ternary_op.right c.1
          ret_type st e c.1
  | ExprOp.EXPR_COMMA =>
    (self st (st.exprAt e).bin_op.left).bind fun _ st =>
      (self st (st.exprAt e).bin_op.right).bind fun r st => ret_type st e r
  | ExprOp.EXPR_DOT =>
    (self st (st.exprAt e).dot.base).bind fun base_type st =>
      let is_ptr := decide ((st.typeAt base_type).kind = KIND_PTR)
      -- Implicit dereference
      let record_type := if is_ptr then st.typeAt (st.typeAt base_type).ptr_to
        else st.typeAt base_type
      if is_ptr && env.pedantic then
        ret_type
          (sema_error st (st.exprAt e).loc
            "Implicit dereference is a non-standard extension (disable -P to allow it).")
          e env.TYPE_VOID
      else if record_type.kind ≠ KIND_STRUCT ∧ record_type.kind ≠ KIND_UNION then
        ret_type (sema_error st (st.exprAt e).loc "Cannot get the member of a non-record type.")
          e env.TYPE_VOID
      else
        match find_member st.tu (st.exprAt e).dot.name
            (record_type.record.kids_end - record_type.record.kids_start)
            record_type.record.kids_start with
        | some m =>
          ret_type (st.setDotMember e m) e (st.tu.memberAt m).type
        | none =>
          ret_type (sema_error st (st.exprAt e).loc "Could not find member under that name.")
            e env.TYPE_VOID
  | ExprOp.EXPR_ARROW =>
    (self st (st.exprAt e).arrow.base).bind fun base_type st =>
      if (st.typeAt base_type).kind ≠ KIND_PTR ∧ (st.typeAt base_type).kind ≠ KIND_ARRAY then
        ret_type (sema_error st (st.exprAt e).loc "Cannot do arrow operator on non-pointer type.")
          e env.TYPE_VOID
      else
        let record_type := st.typeAt (st.typeAt base_type).ptr_to
        if record_type.kind ≠ KIND_STRUCT ∧ record_type.kind ≠ KIND_UNION then
          ret_type (sema_error st (st.exprAt e).loc "Cannot get the member of a non-record type.")
            e env.TYPE_VOID
        else
          match find_member st.tu (st.exprAt e).arrow.name
              (record_type.record.kids_end - record_type.record.kids_start)
              record_type.record.kids_start with
          | some m =>
            ret_type (st.setDotMember e m) e (st.tu.memberAt m).type
          | none =>
            ret_type (sema_error st (st.exprAt e).loc "Could not find member under that name.")
              e env.TYPE_VOID
  | ExprOp.EXPR_LOGICAL_AND | ExprOp.EXPR_LOGICAL_OR =>
    (self st (st.exprAt e).bin_op.left).bind fun _ st =>
      (self st (st.exprAt e).bin_op.right).bind fun _ st =>
        let st := st.setCastType (st.exprAt e).bin_op.left env.TYPE_BOOL
        let st := st.setCastType (st.exprAt e).bin_op.right env.TYPE_BOOL
        ret_type st e env.TYPE_BOOL
  | ExprOp.EXPR_PLUS | ExprOp.EXPR_MINUS | ExprOp.EXPR_TIMES | ExprOp.EXPR_SLASH
  | ExprOp.EXPR_PERCENT | ExprOp.EXPR_AND | ExprOp.EXPR_OR | ExprOp.EXPR_XOR
  | ExprOp.EXPR_SHL | ExprOp.EXPR_SHR =>
    (self st (st.exprAt e).bin_op.left).bind fun lhs st =>
      (self st (st.exprAt e).bin_op.right).bind fun rhs st => sema_expr_arith env st e lhs rhs
  | ExprOp.EXPR_CMPEQ | ExprOp.EXPR_CMPNE | ExprOp.EXPR_CMPGT | ExprOp.EXPR_CMPGE
  | ExprOp.EXPR_CMPLT | ExprOp.EXPR_CMPLE =>
    (self st (st.exprAt e).bin_op.left).bind fun l st =>
      (self st (st.exprAt e).bin_op.right).bind fun r st =>
        let c := env.get_common_type st.tu l r
        let st := st.appendTypes c.2
        let st := st.setCastType (st.exprAt e).bin_op.left c.1
        let st := st.setCastType (st.exprAt e).bin_op.right c.1
        ret_type st e env.TYPE_BOOL
  | ExprOp.EXPR_PLUS_ASSIGN | ExprOp.EXPR_MINUS_ASSIGN | ExprOp.EXPR_ASSIGN
  | ExprOp.EXPR_TIMES_ASSIGN | ExprOp.EXPR_SLASH_ASSIGN | ExprOp.EXPR_AND_ASSIGN
  | ExprOp.EXPR_OR_ASSIGN | ExprOp.EXPR_XOR_ASSIGN | ExprOp.EXPR_SHL_ASSIGN
  | ExprOp.EXPR_SHR_ASSIGN =>
    (self st (st.exprAt e).bin_op.left).bind fun l st =>
      (self st (st.exprAt e).bin_op.right).bind fun r st =>
        let c := env.get_common_type st.tu l r
        let st := st.appendTypes c.2
        let st := st.setCastType (st.exprAt e).bin_op.left c.1
        let st := st.setCastType (st.exprAt e).bin_op.right c.1
        ret_type st e c.1
  | ExprOp.EXPR_PTRADD | ExprOp.EXPR_PTRSUB | ExprOp.EXPR_PTRDIFF => Res.abort

/-- Translation of `sema_expr(tu, e)`: check expression `e`, returning its type.
Needs one unit of fuel per level of nested calls. -/
def sema_expr (env : Env) : Nat → Sema → ExprIndex → Res TypeIndex
  | 0, _, _ => Res.out_of_fuel
  | fuel + 1, st, e => sema_expr_body env (sema_expr env fuel) fuel st e


/-! ## `sema_stmt` -/

/-- The loop of the `STMT_COMPOUND` case: check `kids[i]`, `kids[i+1]`, ...
(`count` statements) with `stmt`. -/
def sema_stmt_kids (stmt : Sema → StmtIndex → Res Unit) (kids : List StmtIndex) :
    Nat → Sema → Nat → Res Unit
  | 0, st, _ => Res.ok () st
  | count + 1, st, i =>
    (stmt st (kids.getD i 0)).bind fun _ st => sema_stmt_kids stmt kids count st (i + 1)

/-- The block `if (ep->op == EXPR_INITIALIZER) { ... } else if (ep->op == EXPR_STR) { ... }`
of the `STMT_DECL` case: infer the count of an array of unknown length and
propagate the declared type into a compound initializer.  Returns the new value
of the local `expr_type` and the state.  `sp` of the source points into
`tu->stmts` and `ep`, `tp` into `tu->exprs`, `tu->types`, so every access reads
the current state. -/
def sema_stmt_decl_infer (st : Sema) (s : StmtIndex) (expr_type : TypeIndex) : TypeIndex × Sema :=
  let initial := (st.stmtAt s).decl.initial
  if (st.exprAt initial).op = ExprOp.EXPR_INITIALIZER then
    let tp := (st.stmtAt s).decl.type
    -- Auto-detect array count from initializer
    let st :=
      if (st.typeAt tp).kind = KIND_ARRAY ∧ (st.typeAt tp).array_count = 0 then
        let st := st.setArrayCount tp (st.exprAt initial).init.count
        st.setTypeSize tp ((st.exprAt initial).init.count * (st.typeAt (st.typeAt tp).array_of).size)
      else st
    ((st.stmtAt s).decl.type, st.setInitType initial (st.stmtAt s).decl.type)
  else if (st.exprAt initial).op = ExprOp.EXPR_STR then
    let tp := (st.stmtAt s).decl.type
    -- Auto-detect array count from string
    if (st.typeAt tp).kind = KIND_ARRAY ∧ (st.typeAt tp).array_count = 0 then
      (expr_type, st.setDeclType s expr_type)
    else (expr_type, st)
  else (expr_type, st)

/-- The end of the `STMT_DECL` case: set the initializer's `cast_type` to the
declared type and, when `expr_type` cannot be converted to it, write the texts
of the two types with `type_as_string` and report. -/
def sema_stmt_decl_convert (env : Env) (st : Sema) (s : StmtIndex) (expr_type : TypeIndex) :
    Res Unit :=
  let st := st.setCastType (st.stmtAt s).decl.initial (st.stmtAt s).decl.type
  let c := type_compatible env st.tu expr_type (st.stmtAt s).decl.type (st.stmtAt s).decl.initial
  let st := st.withTu c.2
  if c.1 = false then
    with_type_string env st expr_type
      (with_type_string env st (st.stmtAt s).decl.type
        (Res.ok ()
          (sema_error st (st.stmtAt s).loc "Could not implicitly convert type %s into %s.")))
  else Res.ok () st

/-- The `STMT_DECL` case of `sema_stmt` from the point where the initializer has
been checked; `expr_type` is the type `sema_expr` returned for it. -/
def sema_stmt_decl_finish (env : Env) (st : Sema) (s : StmtIndex) (expr_type : TypeIndex) :
    Res Unit :=
  sema_stmt_decl_convert env (sema_stmt_decl_infer st s expr_type).2 s
    (sema_stmt_decl_infer st s expr_type).1

/-- The `STMT_DECL` case of `sema_stmt` for a declaration `s` whose `decl.initial`
is not zero. -/
def sema_stmt_decl (env : Env) (fuel : Nat) (st : Sema) (s : StmtIndex) : Res Unit :=
  (try_resolve_typeof (sema_expr env fuel) fuel st (st.stmtAt s).decl.type).bind fun _ st =>
    (sema_expr env fuel st (st.stmtAt s).decl.initial).bind fun expr_type st =>
      sema_stmt_decl_finish env st s expr_type

/-- Translation of `sema_stmt(tu, s)`.  The label id that the `STMT_LABEL` case
obtains from the IR builder (`tb_inst_new_label_id`, outside `src/`) is modelled
as the next unused number.  The `default: assert(0)` case terminates the
process. -/
def sema_stmt (env : Env) : Nat → Sema → StmtIndex → Res Unit
  | 0, _, _ => Res.out_of_fuel
  | fuel + 1, st, s =>
    match (st.stmtAt s).op with
    | StmtOp.STMT_LABEL =>
      Res.ok ()
        { st.setStmt s { st.stmtAt s with backing := { (st.stmtAt s).backing with l := st.label_count } }
          with label_count := st.label_count + 1 }
    | StmtOp.STMT_GOTO =>
      (sema_expr env fuel st (st.stmtAt s).goto_.target).bind fun _ st => Res.ok () st
    | StmtOp.STMT_COMPOUND =>
      sema_stmt_kids (sema_stmt env fuel) (st.stmtAt s).compound.kids
        (st.stmtAt s).compound.kids_count st 0
    | StmtOp.STMT_DECL =>
      if (st.stmtAt s).decl.initial ≠ 0 then sema_stmt_decl env fuel st s
      else Res.ok () st
    | StmtOp.STMT_EXPR =>
      (sema_expr env fuel st (st.stmtAt s).expr.expr).bind fun _ st => Res.ok () st
    | StmtOp.STMT_RETURN =>
      if (st.stmtAt s).return_.expr ≠ 0 then
        (sema_expr env fuel st (st.stmtAt s).return_.expr).bind fun expr_type st =>
          let return_type := (st.typeAt (st.stmtAt st.function_stmt).decl.type).func.return_type
          let c := type_compatible env st.tu expr_type return_type (st.stmtAt s).return_.expr
          let st := st.withTu c.2
          Res.ok () (st.setCastType (st.stmtAt s).return_.expr return_type)
      else Res.ok () st
    | StmtOp.STMT_IF =>
      (sema_expr env fuel st (st.stmtAt s).if_.cond).bind fun cond_type st =>
        (if is_scalar_type st.tu cond_type = false then
            with_type_string env st cond_type
              (Res.ok ()
                (sema_error st (st.stmtAt s).loc "Could not convert type %s into boolean."))
          else Res.ok () st).bind fun _ st =>
        let st := st.setCastType (st.stmtAt s).if_.cond env.TYPE_BOOL
        (sema_stmt env fuel st (st.stmtAt s).if_.body).bind fun _ st =>
          if (st.stmtAt s).if_.next ≠ 0 then sema_stmt env fuel st (st.stmtAt s).if_.next
          else Res.ok () st
    | StmtOp.STMT_WHILE =>
      (sema_expr env fuel st (st.stmtAt s).while_.cond).bind fun _ st =>
        if (st.stmtAt s).while_.body ≠ 0 then sema_stmt env fuel st (st.stmtAt s).while_.body
        else Res.ok () st
    | StmtOp.STMT_DO_WHILE =>
      (if (st.stmtAt s).do_while.body ≠ 0 then sema_stmt env fuel st (st.stmtAt s).do_while.body
        else Res.ok () st).bind fun _ st =>
        (sema_expr env fuel st (st.stmtAt s).do_while.cond).bind fun _ st => Res.ok () st
    | StmtOp.STMT_FOR =>
      (if (st.stmtAt s).for_.first ≠ 0 then sema_stmt env fuel st (st.stmtAt s).for_.first
        else Res.ok () st).bind fun _ st =>
        (if (st.stmtAt s).for_.cond ≠ 0 then
            (sema_expr env fuel st (st.stmtAt s).for_.cond).bind fun _ st => Res.ok () st
          else Res.ok () st).bind fun _ st =>
          (sema_stmt env fuel st (st.stmtAt s).for_.body).bind fun _ st =>
            if (st.stmtAt s).for_.next ≠ 0 then
              (sema_expr env fuel st (st.stmtAt s).for_.next).bind fun _ st => Res.ok () st
            else Res.ok () st
    | StmtOp.STMT_SWITCH =>
      (sema_expr env fuel st (st.stmtAt s).switch_.condition).bind fun _ st =>
        sema_stmt env fuel st (st.stmtAt s).switch_.body
    | StmtOp.STMT_CASE => sema_stmt env fuel st (st.stmtAt s).case_.body
    | StmtOp.STMT_DEFAULT => sema_stmt env fuel st (st.stmtAt s).default_.body
    | StmtOp.STMT_CONTINUE => Res.ok () st
    | StmtOp.STMT_BREAK => Res.ok () st
    | StmtOp.STMT_FUNC_DECL => Res.abort
    | StmtOp.STMT_GLOBAL_DECL => Res.abort


/-- The type a pointer-like entry points to, arrays counting as pointers to
their element type (the decay performed at the top of `type_compatible`). -/
def pointee (t : CType) : TypeIndex :=
  if t.kind = KIND_ARRAY then t.array_of else t.ptr_to

/-- Modelled from the spec: `type_equal` is defined outside `src/`.  The spec
says equality is structural on kind and payload, pointer and array element
types being compared by a recursive call.  `fuel` bounds the recursion depth. -/
def type_equal_fuel : Nat → TranslationUnit → TypeIndex → TypeIndex → Bool
  | 0, _, _, _ => false
  | fuel + 1, tu, a, b =>
    if a = b then true
    else if (tu.typeAt a).kind ≠ (tu.typeAt b).kind then false
    else
      match (tu.typeAt a).kind with
      | KIND_PTR => type_equal_fuel fuel tu (tu.typeAt a).ptr_to (tu.typeAt b).ptr_to
      | KIND_ARRAY =>
        decide ((tu.typeAt a).array_count = (tu.typeAt b).array_count)
          && type_equal_fuel fuel tu (tu.typeAt a).array_of (tu.typeAt b).array_of
      | KIND_FUNC =>
        decide ((tu.typeAt a).func.param_count = (tu.typeAt b).func.param_count)
          && decide ((tu.typeAt a).func.has_varargs = (tu.typeAt b).func.has_varargs)
          && type_equal_fuel fuel tu (tu.typeAt a).func.return_type (tu.typeAt b).func.return_type
          && (List.range (tu.typeAt a).func.param_count).all (fun i =>
                type_equal_fuel fuel tu
                  (tu.paramAt ((tu.typeAt a).func.param_list + i)).type
                  (tu.paramAt ((tu.typeAt b).func.param_list + i)).type)
      | KIND_STRUCT => decide ((tu.typeAt a).record = (tu.typeAt b).record)
      | KIND_UNION => decide ((tu.typeAt a).record = (tu.typeAt b).record)
      | KIND_ENUM => decide ((tu.typeAt a).enumerator = (tu.typeAt b).enumerator)
      | KIND_TYPEOF => decide ((tu.typeAt a).typeof_ = (tu.typeAt b).typeof_)
      | _ => true

/-- Structural equality with a recursion depth of one more than the number of
type entries, enough for every acyclic chain of pointers and arrays. -/
def type_equal (types : List CType) (params : List Param) (a b : TypeIndex) : Bool :=
  type_equal_fuel (types.length + 1) { types := types, params := params } a b

/-! ## Concrete data used to evaluate the definitions on examples -/

/-- Modelled from the spec: `get_common_type` is defined outside `src/`.  The
spec says that two scalar operands are promoted to the wider of the two,
floating kinds being preferred over integer kinds, and that other operands are
left unchanged.  Signedness is not part of the type model. -/
def get_common_type (tu : TranslationUnit) (a b : TypeIndex) : TypeIndex × List CType :=
  if (tu.typeAt a).kind.inRange KIND_BOOL KIND_DOUBLE
      && (tu.typeAt b).kind.inRange KIND_BOOL KIND_DOUBLE then
    (if (tu.typeAt a).kind.toNat < (tu.typeAt b).kind.toNat then b else a, [])
  else (a, [])

/-- An environment for the examples: handle 0 is the null handle, the builtin
types follow from handle 1 on, the checker is not pedantic, and `cstr_copy`
returns the length of the string it copies. -/
def exampleEnv : Env :=
  { TYPE_VOID := 1, TYPE_BOOL := 2, TYPE_CHAR := 3, TYPE_SHORT := 4, TYPE_INT := 5,
    TYPE_LONG := 6, TYPE_UINT := 7, TYPE_ULONG := 8, TYPE_FLOAT := 9, TYPE_DOUBLE := 10,
    type_equal := type_equal, get_common_type := get_common_type, pedantic := false,
    cstr_copy := fun _ src => src.length }

/-- The type arena holding the null entry and the builtin types of `exampleEnv`. -/
def builtinTypes : List CType :=
  [ {},
    { kind := KIND_VOID, size := 0, align := 0 },
    { kind := KIND_BOOL, size := 1, align := 1 },
    { kind := KIND_CHAR, size := 1, align := 1 },
    { kind := KIND_SHORT, size := 2, align := 2 },
    { kind := KIND_INT, size := 4, align := 4 },
    { kind := KIND_LONG, size := 8, align := 8 },
    { kind := KIND_INT, size := 4, align := 4 },
    { kind := KIND_LONG, size := 8, align := 8 },
    { kind := KIND_FLOAT, size := 4, align := 4 },
    { kind := KIND_DOUBLE, size := 8, align := 8 } ]

/-- Example for the assignability rules.  Types: 11 = `int*`, 12 = `void*`,
13 = `struct S` (members 0..1), 14 = `struct T` (members 1..3), 15 = `char[5]`,
16 = `char*`, 17 = `struct S*`.  Expressions: 0 = literal `0`, 1 = literal `7`,
2 = a symbol. -/
def tuAssign : TranslationUnit :=
  { types := builtinTypes ++
      [ { kind := KIND_PTR, size := 8, align := 8, ptr_to := 5 },
        { kind := KIND_PTR, size := 8, align := 8, ptr_to := 1 },
        { kind := KIND_STRUCT, size := 4, align := 4,
          record := { name := "S", kids_start := 0, kids_end := 1 } },
        { kind := KIND_STRUCT, size := 8, align := 4,
          record := { name := "T", kids_start := 1, kids_end := 3 } },
        { kind := KIND_ARRAY, size := 5, align := 1, array_of := 3, array_count := 5 },
        { kind := KIND_PTR, size := 8, align := 8, ptr_to := 3 },
        { kind := KIND_PTR, size := 8, align := 8, ptr_to := 13 } ],
    exprs :=
      [ { op := ExprOp.EXPR_INT, type := 5, int_num := { num := 0 } },
        { op := ExprOp.EXPR_INT, type := 5, int_num := { num := 7 } },
        { op := ExprOp.EXPR_SYMBOL, type := 5, symbol := 0 } ],
    stmts := [ { op := StmtOp.STMT_DECL, decl := { type := 5, name := "x" } } ],
    members :=
      [ { type := 5, name := "x" }, { type := 5, name := "a" }, { type := 9, name := "b" } ] }

/-- Example for the expression and statement checker, over the types of
`tuAssign`.  Statements: 1 = `int *p;`, 2 = `char arr[5];`, 3 = `int x = 0;`,
4 = `int *q` initialised with the compound literal `(int)` holding `5`, 5 = `int *r = x;`, 6 = `int *z = 0;`.
Expressions: 1 = `0`, 2 = `p`, 3 = `1`, 4 = `p + 1`, 5 = `1 + p`, 6 = `1 - p`,
7 = `arr`, 8 = `arr + 1`, 9 = `5`, 10 = the compound literal, 11 = `x`,
12 = `p - 1`, 13 = `p - p`. -/
def stExample : Sema :=
  { tu :=
      { tuAssign with
        exprs :=
          [ {},
            { op := ExprOp.EXPR_INT, loc := 1, int_num := { num := 0 } },
            { op := ExprOp.EXPR_SYMBOL, loc := 2, symbol := 1 },
            { op := ExprOp.EXPR_INT, loc := 3, int_num := { num := 1 } },
            { op := ExprOp.EXPR_PLUS, loc := 4, bin_op := { left := 2, right := 3 } },
            { op := ExprOp.EXPR_PLUS, loc := 5, bin_op := { left := 3, right := 2 } },
            { op := ExprOp.EXPR_MINUS, loc := 6, bin_op := { left := 3, right := 2 } },
            { op := ExprOp.EXPR_SYMBOL, loc := 7, symbol := 2 },
            { op := ExprOp.EXPR_PLUS, loc := 8, bin_op := { left := 7, right := 3 } },
            { op := ExprOp.EXPR_INT, loc := 9, int_num := { num := 5 } },
            { op := ExprOp.EXPR_INITIALIZER, loc := 10,
              init := { type := 5, count := 1, nodes := [{ kids_count := 0, expr := 9 }] } },
            { op := ExprOp.EXPR_SYMBOL, loc := 11, symbol := 3 },
            { op := ExprOp.EXPR_MINUS, loc := 12, bin_op := { left := 2, right := 3 } },
            { op := ExprOp.EXPR_MINUS, loc := 13, bin_op := { left := 2, right := 2 } } ],
        stmts :=
          [ {},
            { op := StmtOp.STMT_DECL, loc := 101, decl := { type := 11, name := "p" } },
            { op := StmtOp.STMT_DECL, loc := 102, decl := { type := 15, name := "arr" } },
            { op := StmtOp.STMT_DECL, loc := 103, decl := { type := 5, name := "x", initial := 1 } },
            { op := StmtOp.STMT_DECL, loc := 104, decl := { type := 11, name := "q", initial := 10 } },
            { op := StmtOp.STMT_DECL, loc := 105, decl := { type := 11, name := "r", initial := 11 } },
            { op := StmtOp.STMT_DECL, loc := 106, decl := { type := 11, name := "z", initial := 1 } } ] } }

/-- Second example, for calls, subscripts and member access.  Types as in
`tuAssign`, followed by 18 = `int f(int, int*)`, 19 = the variadic
`int g(int, ...)`, 20 = pointer to type 18.  Statements: 1 = `int *p;`,
2 = `char arr[5];`, 3 = `int x;`, 4 = the label `L:`, 5 = `f`, 6 = `g`,
7 = `struct S s;`, 8 = `struct S *ps;`, 9 = `fp` of type 20, 10 = `struct T t;`.
Expressions: 1 = `0`, 2 = `p`, 3 = `1`, 4 = `x`, 5 = `x * 1`, 6 = `p * 1`,
7 = `arr`, 8 = `sizeof x`, 9 = `sizeof(int)`, 10 = `L`, 11 = `f`, 12 = `f(1, 0)`,
13 = `f(1)`, 14 = `f(p, 9)`, 15 = `9`, 16 = `g`, 17 = `g()`, 18 = `p[1]`,
19 = `1[p]`, 20 = `arr[1]`, 21 = `s`, 22 = `s.x`, 23 = `s.zz`, 24 = `ps`,
25 = `ps.x`, 26 = `ps->x`, 27 = `t`, 28 = `t.b`, 29 = `fp`, 30 = `fp(1, 0)`,
31 = `_Alignof(int)`, 32 = `sizeof arr`, 33 = `_Alignof x`, 34 = `x / p`. -/
def stExample2 : Sema :=
  { tu :=
      { tuAssign with
        types := tuAssign.types ++
          [ { kind := KIND_FUNC, size := 1, align := 1,
              func := { name := "f", return_type := 5, param_list := 0, param_count := 2 } },
            { kind := KIND_FUNC, size := 1, align := 1,
              func := { name := "g", return_type := 5, param_list := 2, param_count := 1,
                        has_varargs := true } },
            { kind := KIND_PTR, size := 8, align := 8, ptr_to := 18 } ],
        params := [ { type := 5, name := "a" }, { type := 11, name := "b" }, { type := 5, name := "n" } ],
        exprs :=
          [ {},
            { op := ExprOp.EXPR_INT, loc := 1, int_num := { num := 0 } },
            { op := ExprOp.EXPR_SYMBOL, loc := 2, symbol := 1 },
            { op := ExprOp.EXPR_INT, loc := 3, int_num := { num := 1 } },
            { op := ExprOp.EXPR_SYMBOL, loc := 4, symbol := 3 },
            { op := ExprOp.EXPR_TIMES, loc := 5, bin_op := { left := 4, right := 3 } },
            { op := ExprOp.EXPR_TIMES, loc := 6, bin_op := { left := 2, right := 3 } },
            { op := ExprOp.EXPR_SYMBOL, loc := 7, symbol := 2 },
            { op := ExprOp.EXPR_SIZEOF, loc := 8, x_of_expr := { expr := 4 } },
            { op := ExprOp.EXPR_SIZEOF_T, loc := 9, x_of_type := { type := 5 } },
            { op := ExprOp.EXPR_SYMBOL, loc := 10, symbol := 4 },
            { op := ExprOp.EXPR_SYMBOL, loc := 11, symbol := 5 },
            { op := ExprOp.EXPR_CALL, loc := 12,
              call := { target := 11, param_start := [3, 1], param_count := 2 } },
            { op := ExprOp.EXPR_CALL, loc := 13,
              call := { target := 11, param_start := [3], param_count := 1 } },
            { op := ExprOp.EXPR_CALL, loc := 14,
              call := { target := 11, param_start := [2, 15], param_count := 2 } },
            { op := ExprOp.EXPR_INT, loc := 15, int_num := { num := 9 } },
            { op := ExprOp.EXPR_SYMBOL, loc := 16, symbol := 6 },
            { op := ExprOp.EXPR_CALL, loc := 17,
              call := { target := 16, param_start := [], param_count := 0 } },
            { op := ExprOp.EXPR_SUBSCRIPT, loc := 18, subscript := { base := 2, index := 3 } },
            { op := ExprOp.EXPR_SUBSCRIPT, loc := 19, subscript := { base := 3, index := 2 } },
            { op := ExprOp.EXPR_SUBSCRIPT, loc := 20, subscript := { base := 7, index := 3 } },
            { op := ExprOp.EXPR_SYMBOL, loc := 21, symbol := 7 },
            { op := ExprOp.EXPR_DOT, loc := 22, dot := { base := 21, name := "x" } },
            { op := ExprOp.EXPR_DOT, loc := 23, dot := { base := 21, name := "zz" } },
            { op := ExprOp.EXPR_SYMBOL, loc := 24, symbol := 8 },
            { op := ExprOp.EXPR_DOT, loc := 25, dot := { base := 24, name := "x" } },
            { op := ExprOp.EXPR_ARROW, loc := 26, arrow := { base := 24, name := "x" } },
            { op := ExprOp.EXPR_SYMBOL, loc := 27, symbol := 10 },
            { op := ExprOp.EXPR_DOT, loc := 28, dot := { base := 27, name := "b" } },
            { op := ExprOp.EXPR_SYMBOL, loc := 29, symbol := 9 },
            { op := ExprOp.EXPR_CALL, loc := 30,
              call := { target := 29, param_start := [3, 1], param_count := 2 } },
            { op := ExprOp.EXPR_ALIGNOF_T, loc := 31, x_of_type := { type := 5 } },
            { op := ExprOp.EXPR_SIZEOF, loc := 32, x_of_expr := { expr := 7 } },
            { op := ExprOp.EXPR_ALIGNOF, loc := 33, x_of_expr := { expr := 4 } },
            { op := ExprOp.EXPR_SLASH, loc := 34, bin_op := { left := 4, right := 2 } } ],
        stmts :=
          [ {},
            { op := StmtOp.STMT_DECL, loc := 101, decl := { type := 11, name := "p" } },
            { op := StmtOp.STMT_DECL, loc := 102, decl := { type := 15, name := "arr" } },
            { op := StmtOp.STMT_DECL, loc := 103, decl := { type := 5, name := "x" } },
            { op := StmtOp.STMT_LABEL, loc := 104 },
            { op := StmtOp.STMT_GLOBAL_DECL, loc := 105, decl := { type := 18, name := "f" } },
            { op := StmtOp.STMT_GLOBAL_DECL, loc := 106, decl := { type := 19, name := "g" } },
            { op := StmtOp.STMT_DECL, loc := 107, decl := { type := 13, name := "s" } },
            { op := StmtOp.STMT_DECL, loc := 108, decl := { type := 17, name := "ps" } },
            { op := StmtOp.STMT_DECL, loc := 109, decl := { type := 20, name := "fp" } },
            { op := StmtOp.STMT_DECL, loc := 110, decl := { type := 14, name := "t" } } ] } }

/-- The example environment with the `pedantic` setting on. -/
def pedanticEnv : Env := { exampleEnv with pedantic := true }

/-- Property of the result `r` of checking node `e`: if `r` is a return of handle
`t`, its final step was the write `ep->type = t` of `return (ep->type = t)`. -/
def StoresType (e : ExprIndex) (r : Res TypeIndex) : Prop :=
  ∀ t st', r = Res.ok t st' → ∃ s : Sema, st' = s.setExprType e t

/-- Third example, for literals and declarations with initializers.  Types as in
`tuAssign`, followed by 18 = `int[]` (array of unknown length) and
19 = `int[3]`.  Expressions: 1 = `2147483648`, 2 = `4294967296`,
3 = `4294967296U`, 4 = `9223372036854775808L`, 5 = the string literal of raw
text quote `abc` quote, 6 = the wide string literal `L` quote `abc` quote
(character 34 is the double quote), 7, 8, 9 = `1`, `2`, `3`,
10 = the initializer list of 7, 8, 9, 11 = the initializer list of 7, 8,
12 = `sizeof(struct S)`, 13 = the initializer list of 7, 14 = `2147483647`.
Statements: 1 = `int a[]` initialised with 10, 2 = `int b[3]` initialised
with 11, 3 = `struct S s` initialised with 13. -/
def stExample3 : Sema :=
  { tu :=
      { tuAssign with
        types := tuAssign.types ++
          [ { kind := KIND_ARRAY, size := 0, align := 4, array_of := 5, array_count := 0 },
            { kind := KIND_ARRAY, size := 12, align := 4, array_of := 5, array_count := 3 } ],
        exprs :=
          [ {},
            { op := ExprOp.EXPR_INT, loc := 1, int_num := { num := 2147483648 } },
            { op := ExprOp.EXPR_INT, loc := 2, int_num := { num := 4294967296 } },
            { op := ExprOp.EXPR_INT, loc := 3,
              int_num := { num := 4294967296, suffix := IntSuffix.INT_SUFFIX_U } },
            { op := ExprOp.EXPR_INT, loc := 4,
              int_num := { num := 9223372036854775808, suffix := IntSuffix.INT_SUFFIX_L } },
            { op := ExprOp.EXPR_STR, loc := 5,
              str := [Char.ofNat 34, 'a', 'b', 'c', Char.ofNat 34] },
            { op := ExprOp.EXPR_STR, loc := 6,
              str := ['L', Char.ofNat 34, 'a', 'b', 'c', Char.ofNat 34] },
            { op := ExprOp.EXPR_INT, loc := 7, int_num := { num := 1 } },
            { op := ExprOp.EXPR_INT, loc := 8, int_num := { num := 2 } },
            { op := ExprOp.EXPR_INT, loc := 9, int_num := { num := 3 } },
            { op := ExprOp.EXPR_INITIALIZER, loc := 10,
              init := { count := 3, nodes := [{ expr := 7 }, { expr := 8 }, { expr := 9 }] } },
            { op := ExprOp.EXPR_INITIALIZER, loc := 11,
              init := { count := 2, nodes := [{ expr := 7 }, { expr := 8 }] } },
            { op := ExprOp.EXPR_SIZEOF_T, loc := 12, x_of_type := { type := 13 } },
            { op := ExprOp.EXPR_INITIALIZER, loc := 13,
              init := { count := 1, nodes := [{ expr := 7 }] } },
            { op := ExprOp.EXPR_INT, loc := 14, int_num := { num := 2147483647 } } ],
        stmts :=
          [ {},
            { op := StmtOp.STMT_DECL, loc := 101, decl := { type := 18, name := "a", initial := 10 } },
            { op := StmtOp.STMT_DECL, loc := 102, decl := { type := 19, name := "b", initial := 11 } },
            { op := StmtOp.STMT_DECL, loc := 103, decl := { type := 13, name := "s", initial := 13 } } ] } }

/-! ## Reachability pass: `sema_mark_children`, `sema_remove_unused` -/

namespace Sema

/-- The write `sp->decl.attrs.is_used = true` on statement `s`. -/
def setUsed (st : Sema) (s : StmtIndex) : Sema :=
  st.setStmt s { st.stmtAt s with
    decl := { (st.stmtAt s).decl with
      attrs := { (st.stmtAt s).decl.attrs with is_used := true } } }

end Sema

/-- The loop `while (sym) { sema_mark_children(tu, sym); sym = tu->exprs[sym].next_symbol_in_chain; }`
of `sema_mark_children` and of `sema_remove_unused`, with `mark` for the call;
one unit of fuel per iteration. -/
def mark_symbol_chain (mark : Sema → ExprIndex → Res Unit) : Nat → Sema → ExprIndex → Res Unit
  | 0, _, _ => Res.out_of_fuel
  | fuel + 1, st, sym =>
    if sym = 0 then Res.ok () st
    else
      (mark st sym).bind fun _ st =>
        mark_symbol_chain mark fuel st (st.exprAt sym).next_symbol_in_chain

/-- Translation of `sema_mark_children(tu, e)`.  The failed
`assert(ep->op == EXPR_SYMBOL)` terminates the process.  Needs one unit of fuel
per level of nested calls and per iteration of the chain loop. -/
def sema_mark_children : Nat → Sema → ExprIndex → Res Unit
  | 0, _, _ => Res.out_of_fuel
  | fuel + 1, st, e =>
    if (st.exprAt e).op = ExprOp.EXPR_ENUM then Res.ok () st
    else if (st.exprAt e).op ≠ ExprOp.EXPR_SYMBOL then Res.abort
    else
      let s := (st.exprAt e).symbol
      if (st.stmtAt s).decl.attrs.is_used = false then
        if (st.stmtAt s).op = StmtOp.STMT_FUNC_DECL then
          let st := st.setUsed s
          mark_symbol_chain (sema_mark_children fuel) fuel st
            (st.stmtAt (st.stmtAt s).decl.initial).compound.first_symbol
        else if (st.stmtAt s).op = StmtOp.STMT_DECL ∨ (st.stmtAt s).op = StmtOp.STMT_GLOBAL_DECL then
          Res.ok () (st.setUsed s)
        else Res.ok () st
      else Res.ok () st

/-- The `for` loop of `sema_remove_unused` over the entries `i, i+1, ...` of
`tu->top_level_stmts` (`count` iterations). -/
def sema_remove_unused_loop (fuel : Nat) : Nat → Sema → Nat → Res Unit
  | 0, st, _ => Res.ok () st
  | count + 1, st, i =>
    let s := st.tu.top_level_stmts.getD i 0
    if (st.stmtAt s).decl.attrs.is_root then
      let st := st.setUsed s
      (if (st.stmtAt s).op = StmtOp.STMT_FUNC_DECL then
          mark_symbol_chain (sema_mark_children fuel) fuel st
            (st.stmtAt (st.stmtAt s).decl.initial).compound.first_symbol
        else Res.ok () st).bind fun _ st =>
        sema_remove_unused_loop fuel count st (i + 1)
    else sema_remove_unused_loop fuel count st (i + 1)

/-- Translation of `sema_remove_unused(tu)`; `fuel` bounds the nesting of
`sema_mark_children` and the length of the symbol chains. -/
def sema_remove_unused (fuel : Nat) (st : Sema) : Res Unit :=
  sema_remove_unused_loop fuel st.tu.top_level_stmts.length st 0

/-! ## Predicates used to state and prove the properties -/

/-- The statement `x` with its `is_used` flag set. -/
def Stmt.markUsed (x : Stmt) : Stmt :=
  { x with decl := { x.decl with attrs := { x.decl.attrs with is_used := true } } }

/-- State `st'` differs from `st` at most in `is_used` flags of statements, each
either as in `st` or set: nothing else in the state is changed and no flag is
cleared. -/
def MarksOnly (st st' : Sema) : Prop :=
  st' = { st with tu := { st.tu with stmts := st'.tu.stmts } }
  ∧ st'.tu.stmts.length = st.tu.stmts.length
  ∧ ∀ s, st'.stmtAt s = st.stmtAt s ∨ st'.stmtAt s = (st.stmtAt s).markUsed

/-- Result `r` of a run started in a state related to `st`: if it is a return,
the state it returns in is related to `st` by `R`. -/
def Keeps (R : Sema → Sema → Prop) (st : Sema) {α : Type} (r : Res α) : Prop :=
  ∀ v st', r = Res.ok v st' → R st st'

/-- Expression `e` lies on the symbol chain that starts at `start`: it is reached
from `start` through `next_symbol_in_chain` links, none of the expressions on
the way being the null handle 0 that ends the chain. -/
inductive OnChain (tu : TranslationUnit) (start : ExprIndex) : ExprIndex → Prop
  | here : start ≠ 0 → OnChain tu start start
  | next (e : ExprIndex) : OnChain tu start e → (tu.exprAt e).next_symbol_in_chain ≠ 0 →
      OnChain tu start (tu.exprAt e).next_symbol_in_chain

/-- Statement `d` is referenced from the body of function `f`: a Symbol
expression on the symbol chain of the body of the function declaration `f`
refers to `d`, and `d` is a declaration (function, local or global). -/
def ReferencedBy (tu : TranslationUnit) (f d : StmtIndex) : Prop :=
  (tu.stmtAt f).op = StmtOp.STMT_FUNC_DECL
  ∧ ∃ e, OnChain tu (tu.stmtAt (tu.stmtAt f).decl.initial).compound.first_symbol e
      ∧ (tu.exprAt e).op = ExprOp.EXPR_SYMBOL
      ∧ (tu.exprAt e).symbol = d
      ∧ ((tu.stmtAt d).op = StmtOp.STMT_FUNC_DECL ∨ (tu.stmtAt d).op = StmtOp.STMT_DECL
          ∨ (tu.stmtAt d).op = StmtOp.STMT_GLOBAL_DECL)

/-- Statement `d` is reachable from a root through function bodies: it is a
top-level statement with `is_root` set, or it is referenced from the body of a
reachable function. -/
inductive Reachable (tu : TranslationUnit) : StmtIndex → Prop
  | root (s : StmtIndex) : s ∈ tu.top_level_stmts → (tu.stmtAt s).decl.attrs.is_root = true →
      Reachable tu s
  | ref (f d : StmtIndex) : Reachable tu f → ReferencedBy tu f d → Reachable tu d

/-- Example translation unit for the reachability pass and the top-level
checker.  Types: the builtin types, 11 = `int main(void)`, 12 = `int (int)`,
13 = `struct S` (member 0), 14 = `struct S (int)`.  Statements:
1 = `int main(void)` (root, body 2), 3 = `static int helper(int)` (body 4),
5 = `int g;`, 6 = `static int dead(int)` (body 7), 8 = `int h;`,
9 = the root `extern int _mm_pause(int);`, 10 = `inline int sq(int)` (body 11),
12 = the root `int counter;`, 13 = the root `extern int ext;`, 14 = the root
`struct S mk(int)` (body 11).
Symbol chains: `main` refers to `helper`, `sq` and `main` (expressions 1, 2, 3);
`helper` refers to `g`, an enumerator and `helper` (4, 5, 7); `dead` refers to
`h` (6). -/
def stUnit : Sema :=
  { tu :=
      { types := builtinTypes ++
          [ { kind := KIND_FUNC, size := 1, align := 1,
              func := { name := "main", return_type := 5, param_list := 0, param_count := 0 } },
            { kind := KIND_FUNC, size := 1, align := 1,
              func := { name := "fn", return_type := 5, param_list := 0, param_count := 1 } },
            { kind := KIND_STRUCT, size := 4, align := 4,
              record := { name := "S", kids_start := 0, kids_end := 1 } },
            { kind := KIND_FUNC, size := 1, align := 1,
              func := { name := "mk", return_type := 13, param_list := 0, param_count := 1 } } ],
        params := [ { type := 5, name := "n" } ],
        members := [ { type := 5, name := "x" } ],
        exprs :=
          [ {},
            { op := ExprOp.EXPR_SYMBOL, loc := 1, symbol := 3, next_symbol_in_chain := 2 },
            { op := ExprOp.EXPR_SYMBOL, loc := 2, symbol := 10, next_symbol_in_chain := 3 },
            { op := ExprOp.EXPR_SYMBOL, loc := 3, symbol := 1 },
            { op := ExprOp.EXPR_SYMBOL, loc := 4, symbol := 5, next_symbol_in_chain := 5 },
            { op := ExprOp.EXPR_ENUM, loc := 5, next_symbol_in_chain := 7 },
            { op := ExprOp.EXPR_SYMBOL, loc := 6, symbol := 8 },
            { op := ExprOp.EXPR_SYMBOL, loc := 7, symbol := 3 } ],
        stmts :=
          [ {},
            { op := StmtOp.STMT_FUNC_DECL, loc := 101,
              decl := { type := 11, name := "main", initial := 2, attrs := { is_root := true } } },
            { op := StmtOp.STMT_COMPOUND, loc := 102, compound := { first_symbol := 1 } },
            { op := StmtOp.STMT_FUNC_DECL, loc := 103,
              decl := { type := 12, name := "helper", initial := 4, attrs := { is_static := true } } },
            { op := StmtOp.STMT_COMPOUND, loc := 104, compound := { first_symbol := 4 } },
            { op := StmtOp.STMT_GLOBAL_DECL, loc := 105, decl := { type := 5, name := "g" } },
            { op := StmtOp.STMT_FUNC_DECL, loc := 106,
              decl := { type := 12, name := "dead", initial := 7, attrs := { is_static := true } } },
            { op := StmtOp.STMT_COMPOUND, loc := 107, compound := { first_symbol := 6 } },
            { op := StmtOp.STMT_GLOBAL_DECL, loc := 108, decl := { type := 5, name := "h" } },
            { op := StmtOp.STMT_GLOBAL_DECL, loc := 109,
              decl := { type := 12, name := "_mm_pause",
                        attrs := { is_extern := true, is_root := true } } },
            { op := StmtOp.STMT_FUNC_DECL, loc := 110,
              decl := { type := 12, name := "sq", initial := 11, attrs := { is_inline := true } } },
            { op := StmtOp.STMT_COMPOUND, loc := 111 },
            { op := StmtOp.STMT_GLOBAL_DECL, loc := 112,
              decl := { type := 5, name := "counter", attrs := { is_root := true } } },
            { op := StmtOp.STMT_GLOBAL_DECL, loc := 113,
              decl := { type := 5, name := "ext",
                        attrs := { is_extern := true, is_root := true } } },
            { op := StmtOp.STMT_FUNC_DECL, loc := 114,
              decl := { type := 14, name := "mk", initial := 11, attrs := { is_root := true } } } ],
        top_level_stmts := [1, 3, 5, 6, 8, 9, 10, 12, 13, 14] } }

/-! ## The IR module and the top-level checker `sema_check` -/

/-- Linkage of an IR symbol (`TB_Linkage`, declared outside `src/`). -/
inductive TB_Linkage where
  | TB_LINKAGE_PUBLIC | TB_LINKAGE_PRIVATE
  deriving DecidableEq, Inhabited

/-- IR data type (`TB_DataType`, declared outside `src/`); `sema.c` reads only
its `width`. -/
structure TB_DataType where
  type : Nat := 0
  width : Nat := 0
  deriving DecidableEq, Inhabited

/-- Modelled from the spec: a prototype is the return data type and the
parameter data types of a function as seen by the IR; `param_capacity` is the
parameter count passed to `tb_prototype_create`. -/
structure TB_FunctionPrototype where
  return_dt : TB_DataType := {}
  param_capacity : Nat := 0
  has_varargs : Bool := false
  params : List TB_DataType := []
  deriving DecidableEq, Inhabited

/-- Modelled from the spec: a function symbol carries a name, a linkage, its
prototype and a stable numeric id. -/
structure TB_Function where
  id : Nat := 0
  name : String := ""
  linkage : TB_Linkage := TB_Linkage.TB_LINKAGE_PUBLIC
  prototype : TB_FunctionPrototype := {}
  deriving DecidableEq, Inhabited

/-- Modelled from the spec: an initializer object sized to a type, with room for
`max_objects` records.  The records written by `eval_initializer_objects`
(outside `src/`) are not modelled. -/
structure TB_Initializer where
  size : Nat := 0
  align : Nat := 0
  max_objects : Nat := 0
  deriving DecidableEq, Inhabited

/-- Modelled from the spec: a global symbol carries a name, a linkage and an
initializer object. -/
structure TB_Global where
  id : Nat := 0
  name : String := ""
  linkage : TB_Linkage := TB_Linkage.TB_LINKAGE_PUBLIC
  init : TB_Initializer := {}
  deriving DecidableEq, Inhabited

/-- Modelled from the spec: an external symbol carries a name. -/
structure TB_External where
  id : Nat := 0
  name : String := ""
  deriving DecidableEq, Inhabited

/-- Modelled from the spec: the symbol table of the IR module, one list per tag
(`first_symbol_of_tag`), each creation prepending its symbol; `symbol_count` of
a tag is the length of its list.  The prototypes created are kept as well. -/
structure TB_Module where
  prototypes : List TB_FunctionPrototype := []
  functions : List TB_Function := []
  globals : List TB_Global := []
  externals : List TB_External := []
  deriving DecidableEq, Inhabited

/-- Modelled from the spec: `tb_prototype_create` makes a prototype without
parameters. -/
def tb_prototype_create (return_dt : TB_DataType) (num_params : Nat) (has_varargs : Bool) :
    TB_FunctionPrototype :=
  { return_dt := return_dt, param_capacity := num_params, has_varargs := has_varargs, params := [] }

/-- Modelled from the spec: `tb_prototype_add_param` appends a parameter data
type. -/
def tb_prototype_add_param (p : TB_FunctionPrototype) (dt : TB_DataType) : TB_FunctionPrototype :=
  { p with params := p.params ++ [dt] }

/-- Modelled from the spec: `tb_prototype_build` followed by
`tb_function_get_id`: registers a function with the given prototype, name and
linkage in the module and yields its id, the number of functions created
before it.  The prototype is entered in the module at this point. -/
def tb_prototype_build (m : TB_Module) (p : TB_FunctionPrototype) (name : String)
    (linkage : TB_Linkage) : Nat × TB_Module :=
  (m.functions.length,
   { m with
     prototypes := p :: m.prototypes,
     functions := { id := m.functions.length, name := name, linkage := linkage, prototype := p }
       :: m.functions })

/-- Modelled from the spec: `tb_extern_create` registers an external and yields
its id, the number of externals created before it. -/
def tb_extern_create (m : TB_Module) (name : String) : Nat × TB_Module :=
  (m.externals.length,
   { m with externals := { id := m.externals.length, name := name } :: m.externals })

/-- Modelled from the spec: `tb_initializer_create` makes an initializer object
of the given size and alignment. -/
def tb_initializer_create (size align max_objects : Nat) : TB_Initializer :=
  { size := size, align := align, max_objects := max_objects }

/-- Modelled from the spec: `tb_global_create` registers a global and yields its
id, the number of globals created before it. -/
def tb_global_create (m : TB_Module) (init : TB_Initializer) (name : String)
    (linkage : TB_Linkage) : Nat × TB_Module :=
  (m.globals.length,
   { m with globals := { id := m.globals.length, name := name, linkage := linkage, init := init }
       :: m.globals })

/-- Parts of the IR generator and of the target description that `sema_check`
uses and that are defined outside `src/`: the conversion of a C type to an IR
data type, the IR pointer type, membership in `target_desc.builtin_func_map`
(`shgeti(...) >= 0`), and the count of initializer objects of an initializer
list. -/
structure IrGen where
  ctype_to_tbtype : CType → TB_DataType
  TB_TYPE_PTR : TB_DataType
  builtin_func_map : Atom → Bool
  count_max_tb_init_objects : Nat → List InitNode → Nat

namespace Sema

/-- The write `sp->backing.f = id`. -/
def setBackingF (st : Sema) (s : StmtIndex) (id : Nat) : Sema :=
  st.setStmt s { st.stmtAt s with backing := { (st.stmtAt s).backing with f := id } }

/-- The write `sp->backing.g = id`. -/
def setBackingG (st : Sema) (s : StmtIndex) (id : Nat) : Sema :=
  st.setStmt s { st.stmtAt s with backing := { (st.stmtAt s).backing with g := id } }

/-- The write `sp->backing.e = id`. -/
def setBackingE (st : Sema) (s : StmtIndex) (id : Nat) : Sema :=
  st.setStmt s { st.stmtAt s with backing := { (st.stmtAt s).backing with e := id } }

/-- The write `function_stmt = s`. -/
def setFunctionStmt (st : Sema) (s : StmtIndex) : Sema := { st with function_stmt := s }

end Sema

/-- The parameter loop of the `STMT_FUNC_DECL` case: for `i, i+1, ...` (`count`
iterations) convert the type of `params[param_list + i]` and add it to the
prototype; the failed `assert(dt.width < 8)` terminates the process (`none`). -/
def add_prototype_params (gen : IrGen) (tu : TranslationUnit) (param_list : ParamIndex) :
    Nat → Nat → TB_FunctionPrototype → Option TB_FunctionPrototype
  | 0, _, proto => some proto
  | count + 1, i, proto =>
    let dt := gen.ctype_to_tbtype (tu.typeAt (tu.paramAt (param_list + i)).type)
    if dt.width < 8 then
      add_prototype_params gen tu param_list count (i + 1) (tb_prototype_add_param proto dt)
    else none

/-- The name under which the `STMT_FUNC_DECL` case builds the function, and its
linkage: `sprintf_s(temp, 1024, "%s@%d", name, s)` for an inline function, the
declared name otherwise.  A formatted name that does not fit the 1024 bytes of
`temp` with its terminator is a runtime-constraint violation of `sprintf_s`,
which terminates the process (`none`). -/
def function_name_and_linkage (attrs : Attribs) (name : Atom) (s : StmtIndex) :
    Option (String × TB_Linkage) :=
  let linkage :=
    if attrs.is_static then TB_Linkage.TB_LINKAGE_PRIVATE else TB_Linkage.TB_LINKAGE_PUBLIC
  if attrs.is_inline then
    let temp := name ++ "@" ++ toString s
    if temp.utf8ByteSize < 1024 then some (temp, TB_Linkage.TB_LINKAGE_PRIVATE) else none
  else some (name, linkage)

/-- The `STMT_FUNC_DECL` case of `sema_check` from the point where the function
is known to be registered: build the prototype, register the function, store
its id and check the body with `function_stmt = s`. -/
def sema_check_function (env : Env) (gen : IrGen) (fuel : Nat) (m : TB_Module) (st : Sema)
    (s : StmtIndex) : Res TB_Module :=
  let type := st.typeAt (st.stmtAt s).decl.type
  let return_type := st.typeAt type.func.return_type
  let is_aggregate_return :=
    decide (return_type.kind = KIND_STRUCT) || decide (return_type.kind = KIND_UNION)
  -- parameters
  let param_list := type.func.param_list
  let param_count := type.func.param_count
  -- aggregate return values take up the first parameter slot.
  let real_param_count := param_count + (if is_aggregate_return then 1 else 0)
  let proto := tb_prototype_create (gen.ctype_to_tbtype return_type) real_param_count
    type.func.has_varargs
  let proto := if is_aggregate_return then tb_prototype_add_param proto gen.TB_TYPE_PTR else proto
  match add_prototype_params gen st.tu param_list param_count 0 proto with
  | none => Res.abort
  | some proto =>
    match function_name_and_linkage (st.stmtAt s).decl.attrs (st.stmtAt s).decl.name s with
    | none => Res.abort
    | some (name, linkage) =>
      let r := tb_prototype_build m proto name linkage
      let st := st.setBackingF s r.1
      -- type check function body
      let st := st.setFunctionStmt s
      (sema_stmt env fuel st (st.stmtAt s).decl.initial).bind fun _ st =>
        Res.ok r.2 (st.setFunctionStmt 0)

/-- The `STMT_DECL` / `STMT_GLOBAL_DECL` case of `sema_check` for a declaration
that is used and has no linkage conflict. -/
def sema_check_global (env : Env) (gen : IrGen) (fuel : Nat) (m : TB_Module) (st : Sema)
    (s : StmtIndex) : Res TB_Module :=
  let type_index := (st.stmtAt s).decl.type
  let name := (st.stmtAt s).decl.name
  if (st.stmtAt s).decl.attrs.is_extern = true ∨ (st.typeAt (st.stmtAt s).decl.type).kind = KIND_FUNC then
    -- forward decls
    if name.data.head? = some '_' ∧ gen.builtin_func_map name = true then
      Res.ok m (st.setBackingE s 0)
    else
      let r := tb_extern_create m name
      Res.ok r.2 (st.setBackingE s r.1)
  else
    let st := if (st.typeAt type_index).align = 0 then sema_error st (st.stmtAt s).loc "Woah!!!" else st
    let initial := (st.stmtAt s).decl.initial
    (if initial ≠ 0 ∧ (st.exprAt initial).op = ExprOp.EXPR_INITIALIZER then
        -- Walk initializer for max constant expression initializers.
        let max_tb_objects := gen.count_max_tb_init_objects (st.exprAt initial).init.count
          (st.exprAt initial).init.nodes
        let init := tb_initializer_create (st.typeAt type_index).size (st.typeAt type_index).align
          max_tb_objects
        (walk_initializer_for_sema (sema_expr env fuel) (st.exprAt initial).init.nodes fuel st
            (st.exprAt initial).init.count 0).bind fun _ st => Res.ok init st
      else
        Res.ok (tb_initializer_create (st.typeAt type_index).size (st.typeAt type_index).align 0)
          st).bind fun init st =>
      let linkage :=
        if (st.stmtAt s).decl.attrs.is_static then TB_Linkage.TB_LINKAGE_PRIVATE
        else TB_Linkage.TB_LINKAGE_PUBLIC
      let r := tb_global_create m init name linkage
      Res.ok r.2 (st.setBackingG s r.1)

/-- Translation of `sema_check(tu, s)`.  The IR module `mod` of the source is
the argument `m`, and the module after the call is the value returned.  The
failed `assert`s terminate the process. -/
def sema_check (env : Env) (gen : IrGen) (fuel : Nat) (m : TB_Module) (st : Sema) (s : StmtIndex) :
    Res TB_Module :=
  match (st.stmtAt s).op with
  | StmtOp.STMT_FUNC_DECL =>
    if (st.typeAt (st.stmtAt s).decl.type).kind ≠ KIND_FUNC then Res.abort
    else if (st.stmtAt s).decl.attrs.is_static = true ∧ (st.stmtAt s).decl.attrs.is_extern = true then
      Res.ok m
        ((sema_error st (st.stmtAt s).loc "Function '%s' cannot be both static and extern.").setBackingF
          s 0)
    else if ((st.stmtAt s).decl.attrs.is_static = true ∨ (st.stmtAt s).decl.attrs.is_inline = true)
        ∧ (st.stmtAt s).decl.attrs.is_used = false then
      Res.ok m st
    else sema_check_function env gen fuel m st s
  | StmtOp.STMT_DECL | StmtOp.STMT_GLOBAL_DECL =>
    if (st.stmtAt s).decl.attrs.is_used = false then Res.ok m st
    else if (st.stmtAt s).decl.attrs.is_static = true ∧ (st.stmtAt s).decl.attrs.is_extern = true then
      Res.ok m
        ((sema_error st (st.stmtAt s).loc
            "Global declaration '%s' cannot be both static and extern.").setBackingG s 0)
    else sema_check_global env gen fuel m st s
  | _ => Res.abort

/-- Modelled from the spec: the driver, outside `src/`, calls `sema_check` for
each top-level statement in order (`count` statements from position `i`). -/
def sema_check_top_level (env : Env) (gen : IrGen) (fuel : Nat) :
    Nat → TB_Module → Sema → Nat → Res TB_Module
  | 0, m, st, _ => Res.ok m st
  | count + 1, m, st, i =>
    (sema_check env gen fuel m st (st.tu.top_level_stmts.getD i 0)).bind fun m st =>
      sema_check_top_level env gen fuel count m st (i + 1)

/-- The top-level pipeline on one translation unit: the reachability pass, then
`sema_check` on each top-level statement. -/
def sema_check_unit (env : Env) (gen : IrGen) (fuel : Nat) (m : TB_Module) (st : Sema) :
    Res TB_Module :=
  (sema_remove_unused fuel st).bind fun _ st =>
    sema_check_top_level env gen fuel st.tu.top_level_stmts.length m st 0

/-- An IR generator for the examples: every type converts to a data type of
width 0, and `_mm_pause` is the one builtin function. -/
def exampleGen : IrGen :=
  { ctype_to_tbtype := fun t => { type := t.kind.toNat, width := 0 },
    TB_TYPE_PTR := { type := 100, width := 0 },
    builtin_func_map := fun name => decide (name = "_mm_pause"),
    count_max_tb_init_objects := fun n _ => n }

/-- A relation between a state and a later state that every write of the
expression and statement checkers respects: it is a preorder, and it relates a
state to the state after a write to an expression, to a type entry, to the
diagnostics, to the type arena as a whole, to a label's `backing.l` (with the
label counter) and to a declaration's `decl.type`. -/
structure IsFrame (R : Sema → Sema → Prop) : Prop where
  refl : ∀ st, R st st
  trans : ∀ a b c, R a b → R b c → R a c
  setExpr : ∀ (st : Sema) (e : ExprIndex) (x : Expr), R st (st.setExpr e x)
  setType : ∀ (st : Sema) (t : TypeIndex) (ty : CType), R st (st.setType t ty)
  error : ∀ (st : Sema) (loc : SourceLocIndex) (fmt : String), R st (sema_error st loc fmt)
  withTypes : ∀ (st : Sema) (types : List CType),
    R st (st.withTu { st.tu with types := types })
  label : ∀ (st : Sema) (s : StmtIndex) (n k : Nat),
    R st { st.setStmt s { st.stmtAt s with backing := { (st.stmtAt s).backing with l := n } }
           with label_count := k }
  setDeclType : ∀ (st : Sema) (s : StmtIndex) (t : TypeIndex), R st (st.setDeclType s t)

/-- What the expression and statement checkers keep: the list of top-level
statements and, of every statement, its op, its attributes, its name, its
`decl.initial` and the ids of its IR function, global and external (they write
a declaration's `decl.type` and a label's `backing.l` only). -/
def DeclsKept (st st' : Sema) : Prop :=
  st'.tu.top_level_stmts = st.tu.top_level_stmts
  ∧ ∀ s, (st'.stmtAt s).op = (st.stmtAt s).op
    ∧ (st'.stmtAt s).decl.attrs = (st.stmtAt s).decl.attrs
    ∧ (st'.stmtAt s).decl.name = (st.stmtAt s).decl.name
    ∧ (st'.stmtAt s).decl.initial = (st.stmtAt s).decl.initial
    ∧ (st'.stmtAt s).backing.f = (st.stmtAt s).backing.f
    ∧ (st'.stmtAt s).backing.g = (st.stmtAt s).backing.g
    ∧ (st'.stmtAt s).backing.e = (st.stmtAt s).backing.e

/-- The module a call of the top-level checker returned (the empty module if it
did not return). -/
def Res.module (r : Res TB_Module) : TB_Module :=
  match r with
  | Res.ok m _ => m
  | Res.abort => {}
  | Res.out_of_fuel => {}

/-- A second translation unit: `stUnit` with the global of statement 12 renamed
to `total`.  It declares the same inline function `sq` at the same statement
index 10. -/
def stUnit2 : Sema :=
  stUnit.setStmt 12
    { stUnit.stmtAt 12 with decl := { (stUnit.stmtAt 12).decl with name := "total" } }

/-- The unit `stUnit` with two conflicting declarations: the function `helper`
(statement 3) and the used global `g` (statement 5) are both `static` and
`extern`. -/
def stConflict : Sema :=
  (stUnit.setStmt 3
    { stUnit.stmtAt 3 with
      decl := { (stUnit.stmtAt 3).decl with attrs := { is_static := true, is_extern := true } } }).setStmt 5
    { stUnit.stmtAt 5 with
      decl := { (stUnit.stmtAt 5).decl with
                attrs := { is_static := true, is_extern := true, is_used := true } } }

/-- The call that took module `m` to `m'` created exactly one IR symbol, a
function, a global or an external, its id is the number of symbols of that tag
created before, and statement `s` of `st` holds the id in the backing field of
that tag. -/
def CreatedOne (m m' : TB_Module) (st : Sema) (s : StmtIndex) : Prop :=
  (∃ f : TB_Function, m'.functions = f :: m.functions ∧ m'.globals = m.globals
      ∧ m'.externals = m.externals ∧ f.id = m.functions.length
      ∧ (st.stmtAt s).backing.f = f.id)
  ∨ (∃ g : TB_Global, m'.globals = g :: m.globals ∧ m'.functions = m.functions
      ∧ m'.externals = m.externals ∧ g.id = m.globals.length
      ∧ (st.stmtAt s).backing.g = g.id)
  ∨ (∃ x : TB_External, m'.externals = x :: m.externals ∧ m'.functions = m.functions
      ∧ m'.globals = m.globals ∧ x.id = m.externals.length
      ∧ (st.stmtAt s).backing.e = x.id)

/-- The test of `sema_check` that suppresses the registration of an external:
the declaration is `extern` or function-typed, its name begins with `_` and is
in the target's builtin-function map. -/
def is_builtin_forward_decl (gen : IrGen) (st : Sema) (s : StmtIndex) : Prop :=
  ((st.stmtAt s).op = StmtOp.STMT_DECL ∨ (st.stmtAt s).op = StmtOp.STMT_GLOBAL_DECL)
  ∧ ((st.stmtAt s).decl.attrs.is_extern = true
      ∨ (st.typeAt (st.stmtAt s).decl.type).kind = KIND_FUNC)
  ∧ (st.stmtAt s).decl.name.data.head? = some '_'
  ∧ gen.builtin_func_map (st.stmtAt s).decl.name = true

/-- What the calls of `sema_check` keep: as `DeclsKept`, but the ids of the IR
function, global and external may change on the statements in `written`. -/
def DeclsKeptExcept (written : StmtIndex → Prop) (st st' : Sema) : Prop :=
  st'.tu.top_level_stmts = st.tu.top_level_stmts
  ∧ ∀ s, (st'.stmtAt s).op = (st.stmtAt s).op
    ∧ (st'.stmtAt s).decl.attrs = (st.stmtAt s).decl.attrs
    ∧ (st'.stmtAt s).decl.name = (st.stmtAt s).decl.name
    ∧ (st'.stmtAt s).decl.initial = (st.stmtAt s).decl.initial
    ∧ (¬ written s →
        (st'.stmtAt s).backing.f = (st.stmtAt s).backing.f
        ∧ (st'.stmtAt s).backing.g = (st.stmtAt s).backing.g
        ∧ (st'.stmtAt s).backing.e = (st.stmtAt s).backing.e)

/-- The module `m'` holds every symbol of `m`, in the same order, behind the
symbols created since. -/
def ModuleGrows (m m' : TB_Module) : Prop :=
  m.functions <:+ m'.functions ∧ m.globals <:+ m'.globals ∧ m.externals <:+ m'.externals

/-! ## Path pieces (`lib/preproc/cpp_fs.h`) -/

/-- Kind of the first piece of a path (`PathPieceType`): `baz.c`, `foo/`,
`bar.zip/`. -/
inductive PathPieceType where
  | PATH_NORMAL | PATH_DIR | PATH_ZIP
  deriving DecidableEq, Inhabited

/-- The test `strncmp(a, b, n) == 0` on C strings given as the characters before
the terminating NUL: the first `n` characters agree, the end of a string
counting as a character that differs from every other. -/
def strncmp_eq : List Char → List Char → Nat → Bool
  | _, _, 0 => true
  | [], [], _ + 1 => true
  | x :: a, y :: b, n + 1 => decide (x = y) && strncmp_eq a b n
  | _, _, _ + 1 => false

/-- The loop of `read_path`: `whole` is the string passed in, `rest` the
characters from `str` on, `pos` the offset of `str` in `whole` and `ext` the
offset of the last `.` seen (`none` for the null pointer, for which the test
`ext+4 == str` is taken to fail).  Yields the piece type and the offset of the
pointer returned. -/
def read_path_from (whole : List Char) : List Char → Nat → Option Nat → PathPieceType × Nat
  | [], pos, _ => (PathPieceType.PATH_NORMAL, pos)
  | c :: rest, pos, ext =>
    if c = '/' ∨ c = Char.ofNat 92 then
      ((match ext with
        | some x =>
          if x + 4 = pos ∧ strncmp_eq (whole.drop x) ['.', 'z', 'i', 'p'] 3 = true then
            PathPieceType.PATH_ZIP
          else PathPieceType.PATH_DIR
        | none => PathPieceType.PATH_DIR),
       pos + 1)
    else if c = '.' then read_path_from whole rest (pos + 1) (some pos)
    else read_path_from whole rest (pos + 1) ext

/-- Translation of `read_path(out_t, str)`: the value stored in `*out_t` and the
offset in `str` of the pointer returned. -/
def read_path (str : List Char) : PathPieceType × Nat :=
  read_path_from str str 0 none

/-! ## Toolchain discovery and linking (`lib/toolchains/msvc.c`) -/

/-- The record `Version_Data`: `best_version[4]` and the buffer `best_name`. -/
structure Version_Data where
  best_version : Int × Int × Int × Int := (0, 0, 0, 0)
  best_name : String := ""
  deriving DecidableEq, Inhabited

/-- Translation of `win10_best(short_name, data)`.  `scan` stands for
`swscanf_s(short_name, L"%d.%d.%d.%d", ..)` of the C runtime: the four numbers
when all four conversions succeed, `none` when fewer do.  Yields the value
returned and the record afterwards. -/
def win10_best (scan : String → Option (Int × Int × Int × Int)) (short_name : String)
    (data : Version_Data) : Bool × Version_Data :=
  match scan short_name with
  | none => (false, data)
  | some (i0, i1, i2, i3) =>
    let accept : Bool × Version_Data :=
      (true,
       if data.best_name.data.head? = none then { data with best_version := (i0, i1, i2, i3) }
       else data)
    if i0 < data.best_version.1 then (false, data)
    else if i0 = data.best_version.1 then
      if i1 < data.best_version.2.1 then (false, data)
      else if i1 = data.best_version.2.1 then
        if i2 < data.best_version.2.2.1 then (false, data)
        else if i2 = data.best_version.2.2.1 then
          if i3 < data.best_version.2.2.2 then (false, data) else accept
        else accept
      else accept
    else accept

/-- One entry delivered by `FindFirstFileW` / `FindNextFileW`: the name and the
directory attribute bit. -/
structure FindData where
  cFileName : String := ""
  is_directory : Bool := false
  deriving DecidableEq, Inhabited

/-- The loop of `visit_files_w` over the entries of the folder, in the order the
system delivers them.  `swprintf(data->best_name, FILENAME_MAX, L"%s\\%s", ..)`
is modelled for paths that fit the buffer. -/
def visit_files_loop (dir_name : String) (proc : String → Version_Data → Bool × Version_Data) :
    List FindData → Version_Data → Version_Data
  | [], data => data
  | f :: rest, data =>
    if f.is_directory = true ∧ f.cFileName.data.head? ≠ some '.' then
      let r := proc f.cFileName data
      visit_files_loop dir_name proc rest
        (if r.1 then { r.2 with best_name := dir_name ++ "\\" ++ f.cFileName } else r.2)
    else visit_files_loop dir_name proc rest data

/-- Translation of `visit_files_w(dir_name, data, proc)`; `entries` is `none`
when `FindFirstFileW` fails and the list of entries of the folder otherwise. -/
def visit_files_w (dir_name : String) (entries : Option (List FindData)) (data : Version_Data)
    (proc : String → Version_Data → Bool × Version_Data) : Bool × Version_Data :=
  let data := { data with best_name := "" }
  match entries with
  | none => (false, data)
  | some fs => (true, visit_files_loop dir_name proc fs data)

/-- The four-part version `a.b.c.d` is below `a'.b'.c'.d'` in the lexicographic
order of the four numbers. -/
def version_lt (v w : Int × Int × Int × Int) : Prop :=
  v.1 < w.1 ∨ (v.1 = w.1 ∧ (v.2.1 < w.2.1 ∨ (v.2.1 = w.2.1
    ∧ (v.2.2.1 < w.2.2.1 ∨ (v.2.2.1 = w.2.2.1 ∧ v.2.2.2 < w.2.2.2)))))

instance (v w : Int × Int × Int × Int) : Decidable (version_lt v w) := by
  unfold version_lt; infer_instance

/-- A scanner for the examples: the names of three kit directories. -/
def exampleScan (name : String) : Option (Int × Int × Int × Int) :=
  if name = "10.0.1.0" then some (10, 0, 1, 0)
  else if name = "10.0.2.0" then some (10, 0, 2, 0)
  else if name = "10.0.3.0" then some (10, 0, 3, 0)
  else none

/-- What the environment does with the linker process: whether
`CreateProcessW` succeeds, whether `GetExitCodeProcess` succeeds, and the exit
code it reports. -/
structure LinkOutcome where
  created : Bool := false
  got_exit_code : Bool := false
  exit_code : Nat := 0
  deriving DecidableEq, Inhabited

/-- Translation of `invoke_link`: the value returned and the lines written to
the standard streams, in order.  `cmd_line` is the command line the `swprintf`
calls format; the waits on the process are taken to return. -/
def invoke_link (cmd_line : String) (o : LinkOutcome) : Bool × List String :=
  if o.created = false then
    (false, ["Linker command:\n" ++ cmd_line ++ "\n", "Linker command could not be executed.\n"])
  else
    -- Wait until child process exits.
    let log : List String :=
      if o.got_exit_code = false then ["Failed to retrieve linker exit code.\n"]
      else if o.exit_code ≠ 0 then ["Linker exited with code " ++ toString o.exit_code ++ "\n"]
      else []
    -- error:
    (false, log ++ ["Linker command:\n" ++ cmd_line ++ "\n"])

/-- Example for declarations of `typeof` type and for the conditions of
selection and iteration statements.  Types: the builtin types, 11 and 12 = two
entries for `typeof(x)`.  Expressions: 1 = `x`, 2 = `1`, 3, 4, 5, 6 = the
conditions `1`.  Statements: 1 = `int x;`, 2 = `typeof(x) y;`,
3 = `typeof(x) z = 1;`, 4 = the empty block, 5 = `if (1) {}`, 6 = `while (1) {}`,
7 = `do {} while (1);`, 8 = `for (; 1; ) {}`. -/
def stExample4 : Sema :=
  { tu :=
      { types := builtinTypes ++
          [ { kind := KIND_TYPEOF, typeof_ := { src := 1 } },
            { kind := KIND_TYPEOF, typeof_ := { src := 1 } } ],
        exprs :=
          [ {},
            { op := ExprOp.EXPR_SYMBOL, loc := 1, symbol := 1 },
            { op := ExprOp.EXPR_INT, loc := 2, int_num := { num := 1 } },
            { op := ExprOp.EXPR_INT, loc := 3, int_num := { num := 1 } },
            { op := ExprOp.EXPR_INT, loc := 4, int_num := { num := 1 } },
            { op := ExprOp.EXPR_INT, loc := 5, int_num := { num := 1 } },
            { op := ExprOp.EXPR_INT, loc := 6, int_num := { num := 1 } } ],
        stmts :=
          [ {},
            { op := StmtOp.STMT_DECL, loc := 101, decl := { type := 5, name := "x" } },
            { op := StmtOp.STMT_DECL, loc := 102, decl := { type := 11, name := "y" } },
            { op := StmtOp.STMT_DECL, loc := 103, decl := { type := 12, name := "z", initial := 2 } },
            { op := StmtOp.STMT_COMPOUND, loc := 104 },
            { op := StmtOp.STMT_IF, loc := 105, if_ := { cond := 3, body := 4 } },
            { op := StmtOp.STMT_WHILE, loc := 106, while_ := { cond := 4, body := 4 } },
            { op := StmtOp.STMT_DO_WHILE, loc := 107, do_while := { cond := 5, body := 4 } },
            { op := StmtOp.STMT_FOR, loc := 108, for_ := { cond := 6, body := 4 } } ] } }

/-- The chain of `next_symbol_in_chain` links that starts at `e` reaches the null
handle within `n` links. -/
def chain_ends (tu : TranslationUnit) : Nat → ExprIndex → Bool
  | 0, e => decide (e = 0)
  | n + 1, e => decide (e = 0) || chain_ends tu n (tu.exprAt e).next_symbol_in_chain

/-- The number of function declarations of the statement arena that are not
marked `is_used`. -/
def unmarked_functions (st : Sema) : Nat :=
  (List.range st.tu.stmts.length).countP fun s =>
    decide ((st.stmtAt s).op = StmtOp.STMT_FUNC_DECL) && !(st.stmtAt s).decl.attrs.is_used

/-- The run `r`, started in state `s`, left expression node `a` as it was. -/
def LeavesNode (a : ExprIndex) (s : Sema) {α : Type} (r : Res α) : Prop :=
  r.state.exprAt a = s.exprAt a

instance (a : ExprIndex) (s : Sema) {α : Type} (r : Res α) : Decidable (LeavesNode a s r) := by
  unfold LeavesNode; infer_instance

/-- The expression arena has kept its length and the parameter arena its
contents. -/
def ShapeKept (st st' : Sema) : Prop :=
  st'.tu.exprs.length = st.tu.exprs.length ∧ st'.tu.params = st.tu.params

/-- The handles of the sub-expressions of a Call node: the target and the
arguments `param_start[0 .. param_count)`. -/
def call_kids (x : Expr) : List ExprIndex :=
  x.call.target :: (List.range x.call.param_count).map fun i => x.call.param_start.getD i 0

/-- The example `stExample2` with the variadic function `int h(int *b, ...)`
(type 21, statement 11) and two more expressions, 35 = `h` and 36 = the call
`h(0, p, 9)`. -/
def stExample5 : Sema :=
  { stExample2 with
    tu := { stExample2.tu with
      types := stExample2.tu.types ++
        [ { kind := KIND_FUNC, size := 1, align := 1,
            func := { name := "h", return_type := 5, param_list := 1, param_count := 1,
                      has_varargs := true } } ],
      stmts := stExample2.tu.stmts ++
        [ { op := StmtOp.STMT_GLOBAL_DECL, loc := 111, decl := { type := 21, name := "h" } } ],
      exprs := stExample2.tu.exprs ++
        [ { op := ExprOp.EXPR_SYMBOL, loc := 35, symbol := 11 },
          { op := ExprOp.EXPR_CALL, loc := 36,
            call := { target := 35, param_start := [1, 2, 15], param_count := 3 } } ] } }

/-- Every expression handle stored in a node, whatever its operator, and the
null handle (the C `Expr` keeps them in a union; the model has one field per
member, the unused ones being null). -/
def all_kids (x : Expr) : List ExprIndex :=
  [0, x.x_of_expr.expr, x.unary_op.src, x.cast.src, x.subscript.base, x.subscript.index,
    x.call.target, x.ternary_op.left, x.ternary_op.middle, x.ternary_op.right,
    x.bin_op.left, x.bin_op.right, x.dot.base, x.arrow.base]
  ++ x.call.param_start ++ x.init.nodes.map fun n => n.expr

/-- The set `D` of expression handles holds the sub-expressions of node `e`: it
contains the null handle, every handle stored in node `e` or in a node of `D`,
and the source expression of every `typeof` type.  With `e` outside `D` this
says that the sub-expressions of `e` form a structure that does not contain
`e` itself. -/
def SubExprsIn (D : ExprIndex → Prop) (e : ExprIndex) (st : Sema) : Prop :=
  D 0
  ∧ (∀ x, D x ∨ x = e → ∀ c, c ∈ all_kids (st.exprAt x) → D c)
  ∧ ∀ ty, ty ∈ st.tu.types → D ty.typeof_.src

/-- Relation between a state and a later one: `D` holds the sub-expressions of
`e` in the later state, and every node outside `D` (node `e` among them when it
is not in `D`) has the `cast_type` it had in the first. -/
def CastKept (D : ExprIndex → Prop) (e : ExprIndex) (st st' : Sema) : Prop :=
  SubExprsIn D e st'
  ∧ ∀ y, ¬ D y → (st'.exprAt y).cast_type = (st.exprAt y).cast_type

/-! ## Concurrent symbol registration

The registration routine `tb_symbol_append` is declared in `tb_internal.h` and
defined outside `src/`; its three steps are modelled from the spec.  The
iteration macros are in `tb_internal.h`. -/

/-- Modelled from the spec: a symbol node, named by the worker whose pool it was
allocated from and its position in that pool. -/
abbrev SymbolRef := Nat × Nat

/-- Modelled from the spec: where a worker stands in the creation of its next
symbol: between two creations, after the allocation from its pool, after the
atomic increment of `symbol_count[tag]`, holding the head value `old` it read
(or was handed by a failed compare-and-swap), and after the write of `old` to
the `next` field of the new node. -/
inductive AppendPc
  | idle
  | allocated
  | counted
  | loaded (old : Option SymbolRef)
  | linked (old : Option SymbolRef)
  deriving DecidableEq

/-- Modelled from the spec: a worker, with the number of symbols it has
registered (its next node is the one at this position of its pool). -/
structure SymbolWorker where
  registered : Nat := 0
  pc : AppendPc := AppendPc.idle

/-- Modelled from the spec: the symbol table of one tag of a shared `TB_Module`,
`symbol_count[tag]` and `first_symbol_of_tag[tag]`, with the `next` field of
every node and the workers that register symbols. -/
structure Registration where
  symbol_count : Nat := 0
  first_symbol_of_tag : Option SymbolRef := none
  next : SymbolRef → Option SymbolRef := fun _ => none
  workers : Nat → SymbolWorker := fun _ => {}

/-- Modelled from the spec: one atomic step of worker `w`, one of `N` workers
that register `M` symbols each.  In order: allocate the node from the worker's
pool; increment `symbol_count[tag]`; read the head; store the value read in the
`next` field of the new node; compare-and-swap the head from the value read to
the new node.  A compare-and-swap that finds another head, or fails spuriously
(`spurious`), hands the worker the current head and the worker goes back to the
write of `next`.  A worker that has registered `M` symbols takes no step. -/
def symbol_append_step (N M : Nat) (cfg : Registration) (w : Nat) (spurious : Bool) :
    Registration :=
  if w < N then
    match (cfg.workers w).pc with
    | AppendPc.idle =>
      if (cfg.workers w).registered < M then
        { cfg with
          workers := Function.update cfg.workers w { cfg.workers w with pc := AppendPc.allocated } }
      else cfg
    | AppendPc.allocated =>
      { cfg with
        symbol_count := cfg.symbol_count + 1,
        workers := Function.update cfg.workers w { cfg.workers w with pc := AppendPc.counted } }
    | AppendPc.counted =>
      { cfg with
        workers := Function.update cfg.workers w
          { cfg.workers w with pc := AppendPc.loaded cfg.first_symbol_of_tag } }
    | AppendPc.loaded old =>
      { cfg with
        next := Function.update cfg.next (w, (cfg.workers w).registered) old,
        workers := Function.update cfg.workers w { cfg.workers w with pc := AppendPc.linked old } }
    | AppendPc.linked old =>
      if cfg.first_symbol_of_tag = old ∧ spurious = false then
        { cfg with
          first_symbol_of_tag := some (w, (cfg.workers w).registered),
          workers := Function.update cfg.workers w
            { registered := (cfg.workers w).registered + 1, pc := AppendPc.idle } }
      else
        { cfg with
          workers := Function.update cfg.workers w
            { cfg.workers w with pc := AppendPc.loaded cfg.first_symbol_of_tag } }
  else cfg

/-- Modelled from the spec: an execution of `N` concurrent workers from the empty
table.  The schedule names, step by step, the worker that takes the next atomic
step and whether a compare-and-swap taken at that step fails spuriously. -/
def symbol_append_run (N M : Nat) (schedule : List (Nat × Bool)) : Registration :=
  schedule.foldl (fun cfg a => symbol_append_step N M cfg a.1 a.2) {}

/-- Translation of the macros `TB_FOR_FUNCTIONS`, `TB_FOR_GLOBALS` and
`TB_FOR_EXTERNALS`, which differ in the tag only:
`for (it = m->first_symbol_of_tag[tag]; it != NULL; it = it->super.next)`.
Returns the nodes visited, in order; one unit of fuel per iteration. -/
def TB_FOR_FUNCTIONS (next : SymbolRef → Option SymbolRef) :
    Nat → Option SymbolRef → Option (List SymbolRef)
  | _, none => some []
  | 0, some _ => none
  | fuel + 1, some s => (TB_FOR_FUNCTIONS next fuel (next s)).map fun l => s :: l

/-- The nodes `l` are the list that starts at `head`: each is the `next` of the
one before, and the `next` of the last is null. -/
def IsChain (next : SymbolRef → Option SymbolRef) : Option SymbolRef → List SymbolRef → Prop
  | head, [] => head = none
  | head, s :: l => head = some s ∧ IsChain next (next s) l

/-- What a worker has added to `symbol_count[tag]`: its registered symbols, and
the one in creation once the increment is done. -/
def counted_by (wk : SymbolWorker) : Nat :=
  wk.registered +
    match wk.pc with
    | AppendPc.idle => 0
    | AppendPc.allocated => 0
    | AppendPc.counted => 1
    | AppendPc.loaded _ => 1
    | AppendPc.linked _ => 1

/-- Sum of `counted_by` over the workers `0, ..., n-1`. -/
def counted_total (workers : Nat → SymbolWorker) : Nat → Nat
  | 0 => 0
  | n + 1 => counted_total workers n + counted_by (workers n)

/-- Invariant of the executions: the list from the head has no repetition and
holds exactly the nodes the workers have registered; `symbol_count[tag]` is
what the workers have added; and a worker about to compare-and-swap has stored
the head value it holds in the `next` field of its node. -/
def AppendInv (N : Nat) (cfg : Registration) : Prop :=
  (∃ l, IsChain cfg.next cfg.first_symbol_of_tag l ∧ l.Nodup
    ∧ ∀ s : SymbolRef, s ∈ l ↔ s.1 < N ∧ s.2 < (cfg.workers s.1).registered)
  ∧ cfg.symbol_count = counted_total cfg.workers N
  ∧ ∀ w old, w < N → (cfg.workers w).pc = AppendPc.linked old →
      cfg.next (w, (cfg.workers w).registered) = old

/-- A schedule of two workers that register two symbols each, in which the
compare-and-swap of worker 1 fails once because worker 0 has moved the head, and
the one of worker 0 fails once spuriously. -/
def exampleSchedule : List (Nat × Bool) :=
  [(0, false), (1, false), (0, false), (1, false), (0, false), (1, false), (1, false),
   (0, false), (0, false), (1, false), (1, false), (1, false),
   (0, false), (0, false), (0, false), (0, false), (0, true), (0, false), (0, false),
   (1, false), (1, false), (1, false), (1, false), (1, false), (2, false)]

/-- The example `stExample` with one more expression, 14 = `sizeof(arr + 1)`. -/
def stExampleSizeof : Sema :=
  { stExample with
    tu := { stExample.tu with
      exprs := stExample.tu.exprs ++
        [{ op := ExprOp.EXPR_SIZEOF, loc := 14, x_of_expr := { expr := 8 } }] } }

/-- The example `stExample3` with the array of unknown length `struct S[]`
(type 20), expression 15 = the initializer list of two lists, of `1` and of
`2`, and statement 4 = `struct S sa[]` initialised with expression 15. -/
def stStructArray : Sema :=
  { stExample3 with
    tu := { stExample3.tu with
      types := stExample3.tu.types ++
        [{ kind := KIND_ARRAY, size := 0, align := 4, array_of := 13, array_count := 0 }],
      exprs := stExample3.tu.exprs ++
        [{ op := ExprOp.EXPR_INITIALIZER, loc := 15,
           init := { count := 2,
                     nodes := [{ kids_count := 1 }, { expr := 7 }, { kids_count := 1 },
                               { expr := 8 }] } }],
      stmts := stExample3.tu.stmts ++
        [{ op := StmtOp.STMT_DECL, loc := 104,
           decl := { type := 20, name := "sa", initial := 15 } }] } }

/-- A translation unit with a local variable of struct type.  Types: the
builtin types, 11 = `void f(void)`, 12 = `struct S` (member 0, an `int`).
Expressions: 1 = `1`, 2 = the initializer list of `1`.  Statements: 1 = the root
`void f(void)` (body 2), 2 = the block of statement 3, 3 = `struct S s`
initialised with expression 2, 4 = the root `int g;`. -/
def stUnitStructLocal : Sema :=
  { tu :=
      { types := builtinTypes ++
          [ { kind := KIND_FUNC, size := 1, align := 1,
              func := { name := "f", return_type := 1, param_list := 0, param_count := 0 } },
            { kind := KIND_STRUCT, size := 4, align := 4,
              record := { name := "S", kids_start := 0, kids_end := 1 } } ],
        members := [ { type := 5, name := "x" } ],
        exprs :=
          [ {},
            { op := ExprOp.EXPR_INT, loc := 1, int_num := { num := 1 } },
            { op := ExprOp.EXPR_INITIALIZER, loc := 2,
              init := { count := 1, nodes := [{ expr := 1 }] } } ],
        stmts :=
          [ {},
            { op := StmtOp.STMT_FUNC_DECL, loc := 101,
              decl := { type := 11, name := "f", initial := 2, attrs := { is_root := true } } },
            { op := StmtOp.STMT_COMPOUND, loc := 102,
              compound := { kids := [3], kids_count := 1 } },
            { op := StmtOp.STMT_DECL, loc := 103,
              decl := { type := 12, name := "s", initial := 2 } },
            { op := StmtOp.STMT_GLOBAL_DECL, loc := 104,
              decl := { type := 5, name := "g", attrs := { is_root := true } } } ],
        top_level_stmts := [1, 4] } }

/-! ## Theorems -/

/-! ### `with_type_string` -/

theorem with_type_string_some {α : Type} (env : Env) (st : Sema) (t : TypeIndex) (k : Res α)
    (n : Nat) (h : type_as_string env st.tu 256 t = some n) : with_type_string env st t k = k := by
  unfold with_type_string; rw [h]

theorem with_type_string_none {α : Type} (env : Env) (st : Sema) (t : TypeIndex) (k : Res α)
    (h : type_as_string env st.tu 256 t = none) : with_type_string env st t k = Res.abort := by
  unfold with_type_string; rw [h]

theorem with_type_string_cases {α : Type} (env : Env) (st : Sema) (t : TypeIndex) (k : Res α) :
    with_type_string env st t k = k ∨ with_type_string env st t k = Res.abort := by
  cases h : type_as_string env st.tu 256 t with
  | none => exact Or.inr (with_type_string_none env st t k h)
  | some n => exact Or.inl (with_type_string_some env st t k n h)

theorem with_type_string_eq_ok {α : Type} (env : Env) (st : Sema) (t : TypeIndex) (k : Res α)
    (v : α) (st' : Sema) (h : with_type_string env st t k = Res.ok v st') :
    (∃ n, type_as_string env st.tu 256 t = some n) ∧ k = Res.ok v st' := by
  cases h1 : type_as_string env st.tu 256 t with
  | none => rw [with_type_string_none env st t k h1] at h; cases h
  | some n => rw [with_type_string_some env st t k n h1] at h; exact ⟨⟨n, rfl⟩, h⟩

theorem getD_set_eq {α : Type} (l : List α) (i j : Nat) (x d : α) :
    (l.set i x).getD j d = if j = i ∧ i < l.length then x else l.getD j d := by
  simp only [List.getD_eq_getElem?_getD, List.getElem?_set]
  by_cases hji : j = i
  · subst hji
    by_cases hlt : j < l.length
    · simp [hlt]
    · simp [hlt, List.getElem?_eq_none (Nat.le_of_not_lt hlt)]
  · have hij : ¬ i = j := fun h => hji h.symm
    simp [hji, hij]

theorem new_pointer_fst (tu : TranslationUnit) (base : TypeIndex) :
    (new_pointer tu base).1 = tu.types.length := rfl

theorem typeAt_new_pointer_self (tu : TranslationUnit) (base : TypeIndex) :
    (new_pointer tu base).2.typeAt tu.types.length
      = { kind := KIND_PTR, size := 8, align := 8, ptr_to := base } := by
  simp [new_pointer, TranslationUnit.typeAt, List.getD_eq_getElem?_getD]

theorem typeAt_new_pointer_of_lt (tu : TranslationUnit) (base : TypeIndex) (i : TypeIndex)
    (h : i < tu.types.length) : (new_pointer tu base).2.typeAt i = tu.typeAt i := by
  simp [new_pointer, TranslationUnit.typeAt, List.getD_eq_getElem?_getD,
    List.getElem?_append_left h]

theorem exprAt_new_pointer (tu : TranslationUnit) (base : TypeIndex) (i : ExprIndex) :
    (new_pointer tu base).2.exprAt i = tu.exprAt i := rfl

theorem types_length_new_pointer (tu : TranslationUnit) (base : TypeIndex) :
    (new_pointer tu base).2.types.length = tu.types.length + 1 := by
  simp [new_pointer]

theorem typeAt_new_pointer2_of_lt (tu : TranslationUnit) (b1 b2 : TypeIndex) (i : TypeIndex)
    (h : i < tu.types.length) :
    (new_pointer (new_pointer tu b1).2 b2).2.typeAt i = tu.typeAt i := by
  have h1 : i < (new_pointer tu b1).2.types.length := by
    rw [types_length_new_pointer]; exact Nat.lt_succ_of_lt h
  rw [typeAt_new_pointer_of_lt _ _ _ h1, typeAt_new_pointer_of_lt _ _ _ h]

theorem typeAt_new_pointer2_fst (tu : TranslationUnit) (b1 b2 : TypeIndex) :
    (new_pointer (new_pointer tu b1).2 b2).2.typeAt tu.types.length
      = { kind := KIND_PTR, size := 8, align := 8, ptr_to := b1 } := by
  have h1 : tu.types.length < (new_pointer tu b1).2.types.length := by
    rw [types_length_new_pointer]; exact Nat.lt_succ_self _
  rw [typeAt_new_pointer_of_lt _ _ _ h1, typeAt_new_pointer_self]

theorem typeAt_new_pointer2_snd (tu : TranslationUnit) (b1 b2 : TypeIndex) :
    (new_pointer (new_pointer tu b1).2 b2).2.typeAt (tu.types.length + 1)
      = { kind := KIND_PTR, size := 8, align := 8, ptr_to := b2 } := by
  have h := typeAt_new_pointer_self (new_pointer tu b1).2 b2
  rwa [types_length_new_pointer] at h

theorem inRange_BOOL_LONG_iff (k : TypeKind) :
    k.inRange KIND_BOOL KIND_LONG = true ↔
      k = KIND_BOOL ∨ k = KIND_CHAR ∨ k = KIND_SHORT ∨ k = KIND_INT ∨ k = KIND_LONG := by
  cases k <;> simp [TypeKind.inRange, TypeKind.toNat]

theorem is_ptr_or_array_iff (tu : TranslationUnit) (t : TypeIndex) :
    is_ptr_or_array tu t = true ↔ ((tu.typeAt t).kind = KIND_PTR ∨ (tu.typeAt t).kind = KIND_ARRAY) := by
  simp [is_ptr_or_array]

theorem exprAt_sema_error (st : Sema) (loc : SourceLocIndex) (fmt : String) (e : ExprIndex) :
    (sema_error st loc fmt).exprAt e = st.exprAt e := rfl

namespace Sema

theorem exprAt_setExpr (st : Sema) (e e' : ExprIndex) (x : Expr) :
    (st.setExpr e x).exprAt e' = if e' = e ∧ e < st.tu.exprs.length then x else st.exprAt e' := by
  unfold Sema.setExpr Sema.exprAt TranslationUnit.setExpr TranslationUnit.exprAt
  exact getD_set_eq _ _ _ _ _

theorem exprs_length_setExpr (st : Sema) (e : ExprIndex) (x : Expr) :
    (st.setExpr e x).tu.exprs.length = st.tu.exprs.length := by
  simp [Sema.setExpr, TranslationUnit.setExpr]

theorem exprAt_setCastType (st : Sema) (e e' : ExprIndex) (t : TypeIndex) :
    (st.setCastType e t).exprAt e'
      = if e' = e ∧ e < st.tu.exprs.length then { st.exprAt e with cast_type := t }
        else st.exprAt e' := exprAt_setExpr _ _ _ _

theorem exprAt_setExprType (st : Sema) (e e' : ExprIndex) (t : TypeIndex) :
    (st.setExprType e t).exprAt e'
      = if e' = e ∧ e < st.tu.exprs.length then { st.exprAt e with type := t }
        else st.exprAt e' := exprAt_setExpr _ _ _ _

theorem exprAt_setOp (st : Sema) (e e' : ExprIndex) (op : ExprOp) :
    (st.setOp e op).exprAt e'
      = if e' = e ∧ e < st.tu.exprs.length then { st.exprAt e with op := op }
        else st.exprAt e' := exprAt_setExpr _ _ _ _

theorem exprAt_swapBinOp (st : Sema) (e e' : ExprIndex) :
    (st.swapBinOp e).exprAt e'
      = if e' = e ∧ e < st.tu.exprs.length then
          { st.exprAt e with
            bin_op := { left := (st.exprAt e).bin_op.right, right := (st.exprAt e).bin_op.left } }
        else st.exprAt e' := exprAt_setExpr _ _ _ _

theorem exprs_length_setCastType (st : Sema) (e : ExprIndex) (t : TypeIndex) :
    (st.setCastType e t).tu.exprs.length = st.tu.exprs.length := exprs_length_setExpr _ _ _

theorem exprs_length_setExprType (st : Sema) (e : ExprIndex) (t : TypeIndex) :
    (st.setExprType e t).tu.exprs.length = st.tu.exprs.length := exprs_length_setExpr _ _ _

theorem exprs_length_setOp (st : Sema) (e : ExprIndex) (op : ExprOp) :
    (st.setOp e op).tu.exprs.length = st.tu.exprs.length := exprs_length_setExpr _ _ _

theorem exprs_length_swapBinOp (st : Sema) (e : ExprIndex) :
    (st.swapBinOp e).tu.exprs.length = st.tu.exprs.length := exprs_length_setExpr _ _ _

theorem types_setCastType (st : Sema) (e : ExprIndex) (t : TypeIndex) :
    (st.setCastType e t).tu.types = st.tu.types := rfl

theorem types_setExprType (st : Sema) (e : ExprIndex) (t : TypeIndex) :
    (st.setExprType e t).tu.types = st.tu.types := rfl

theorem types_setOp (st : Sema) (e : ExprIndex) (op : ExprOp) :
    (st.setOp e op).tu.types = st.tu.types := rfl

theorem types_swapBinOp (st : Sema) (e : ExprIndex) :
    (st.swapBinOp e).tu.types = st.tu.types := rfl

/-! Fields that an update leaves alone, at every node. -/

theorem op_setCastType (st : Sema) (e e' : ExprIndex) (t : TypeIndex) :
    ((st.setCastType e t).exprAt e').op = (st.exprAt e').op := by
  rw [exprAt_setCastType]; split_ifs with h
  · rw [h.1]
  · rfl

theorem bin_op_setCastType (st : Sema) (e e' : ExprIndex) (t : TypeIndex) :
    ((st.setCastType e t).exprAt e').bin_op = (st.exprAt e').bin_op := by
  rw [exprAt_setCastType]; split_ifs with h
  · rw [h.1]
  · rfl

theorem op_swapBinOp (st : Sema) (e e' : ExprIndex) :
    ((st.swapBinOp e).exprAt e').op = (st.exprAt e').op := by
  rw [exprAt_swapBinOp]; split_ifs with h
  · rw [h.1]
  · rfl

theorem bin_op_setOp (st : Sema) (e e' : ExprIndex) (op : ExprOp) :
    ((st.setOp e op).exprAt e').bin_op = (st.exprAt e').bin_op := by
  rw [exprAt_setOp]; split_ifs with h
  · rw [h.1]
  · rfl

theorem cast_type_setOp (st : Sema) (e e' : ExprIndex) (op : ExprOp) :
    ((st.setOp e op).exprAt e').cast_type = (st.exprAt e').cast_type := by
  rw [exprAt_setOp]; split_ifs with h
  · rw [h.1]
  · rfl

theorem op_setExprType (st : Sema) (e e' : ExprIndex) (t : TypeIndex) :
    ((st.setExprType e t).exprAt e').op = (st.exprAt e').op := by
  rw [exprAt_setExprType]; split_ifs with h
  · rw [h.1]
  · rfl

theorem bin_op_setExprType (st : Sema) (e e' : ExprIndex) (t : TypeIndex) :
    ((st.setExprType e t).exprAt e').bin_op = (st.exprAt e').bin_op := by
  rw [exprAt_setExprType]; split_ifs with h
  · rw [h.1]
  · rfl

theorem cast_type_setExprType (st : Sema) (e e' : ExprIndex) (t : TypeIndex) :
    ((st.setExprType e t).exprAt e').cast_type = (st.exprAt e').cast_type := by
  rw [exprAt_setExprType]; split_ifs with h
  · rw [h.1]
  · rfl

/-! Fields that an update writes. -/

theorem cast_type_setCastType_self (st : Sema) (e : ExprIndex) (t : TypeIndex)
    (h : e < st.tu.exprs.length) : ((st.setCastType e t).exprAt e).cast_type = t := by
  simp [exprAt_setCastType, h]

theorem op_setOp_self (st : Sema) (e : ExprIndex) (op : ExprOp)
    (h : e < st.tu.exprs.length) : ((st.setOp e op).exprAt e).op = op := by
  simp [exprAt_setOp, h]

theorem type_setExprType_self (st : Sema) (e : ExprIndex) (t : TypeIndex)
    (h : e < st.tu.exprs.length) : ((st.setExprType e t).exprAt e).type = t := by
  simp [exprAt_setExprType, h]

theorem bin_op_swapBinOp_self (st : Sema) (e : ExprIndex) (h : e < st.tu.exprs.length) :
    ((st.swapBinOp e).exprAt e).bin_op
      = { left := (st.exprAt e).bin_op.right, right := (st.exprAt e).bin_op.left } := by
  simp [exprAt_swapBinOp, h]

end Sema


/-! ### Assignability (`type_compatible`) -/

/-- C1: for a source type of integer kind (Bool..Long) and a destination type
of kind Pointer, `type_compatible` answers true exactly when the expression is
an Int literal whose value is 0. -/
theorem type_compatible_int_to_ptr_iff (env : Env) (tu : TranslationUnit) (a b : TypeIndex)
    (e : ExprIndex)
    (hsrc : (tu.typeAt a).kind.inRange KIND_BOOL KIND_LONG = true)
    (hdst : (tu.typeAt b).kind = KIND_PTR) :
    (type_compatible env tu a b e).1 = true ↔
      ((tu.exprAt e).op = ExprOp.EXPR_INT ∧ (tu.exprAt e).int_num.num = 0) := by
  have hab : a ≠ b := by
    rintro rfl
    rw [hdst] at hsrc
    simp [TypeKind.inRange, TypeKind.toNat] at hsrc
  rw [inRange_BOOL_LONG_iff] at hsrc
  unfold type_compatible
  rcases hsrc with h | h | h | h | h <;>
    simp [hab, decay_array, h, hdst, TypeKind.inRange, TypeKind.toNat]

/-- C1 (witness): with `int` as source and `int*` as destination, the literal
`0` is accepted, the literal `7` and a symbol `x` are rejected. -/
theorem type_compatible_int_to_ptr_iff_witness :
    ((type_compatible exampleEnv tuAssign 5 11 0).1 = true ↔
      ((tuAssign.exprAt 0).op = ExprOp.EXPR_INT ∧ (tuAssign.exprAt 0).int_num.num = 0))
    ∧ (type_compatible exampleEnv tuAssign 5 11 0).1 = true
    ∧ (type_compatible exampleEnv tuAssign 5 11 1).1 = false
    ∧ (type_compatible exampleEnv tuAssign 5 11 2).1 = false :=
  ⟨type_compatible_int_to_ptr_iff exampleEnv tuAssign 5 11 0 (by decide) (by decide),
   by decide, by decide, by decide⟩

/-- C2: for two distinct handles, each a pointer or an array (an array counting
as a pointer to its element type) with valid pointee handles, `type_compatible`
answers true exactly when the first pointee is Void, or the second pointee is
Void, or `type_equal` holds of the two pointee types (in the type arena as it is
when `type_equal` is called, that is after the decay of the array operands). -/
theorem type_compatible_ptr_ptr_iff (env : Env) (tu : TranslationUnit) (a b : TypeIndex)
    (e : ExprIndex) (hab : a ≠ b)
    (ha : (tu.typeAt a).kind = KIND_PTR ∨ (tu.typeAt a).kind = KIND_ARRAY)
    (hb : (tu.typeAt b).kind = KIND_PTR ∨ (tu.typeAt b).kind = KIND_ARRAY)
    (hpa : pointee (tu.typeAt a) < tu.types.length)
    (hpb : pointee (tu.typeAt b) < tu.types.length) :
    (type_compatible env tu a b e).1 = true ↔
      ((tu.typeAt (pointee (tu.typeAt a))).kind = KIND_VOID
        ∨ (tu.typeAt (pointee (tu.typeAt b))).kind = KIND_VOID
        ∨ env.type_equal (type_compatible env tu a b e).2.types
            (type_compatible env tu a b e).2.params
            (pointee (tu.typeAt a)) (pointee (tu.typeAt b)) = true) := by
  unfold type_compatible
  rcases ha with ha | ha <;> rcases hb with hb | hb <;>
    simp [pointee, ha, hb] at hpa hpb <;>
    simp [pointee, hab, decay_array, ha, hb, new_pointer_fst, typeAt_new_pointer_self,
      typeAt_new_pointer2_fst,
      typeAt_new_pointer2_snd,
      typeAt_new_pointer_of_lt _ _ _ hpa, typeAt_new_pointer_of_lt _ _ _ hpb,
      typeAt_new_pointer2_of_lt _ _ _ _ hpa, typeAt_new_pointer2_of_lt _ _ _ _ hpb,
      types_length_new_pointer]

/-- C2 (witness): `char[5]` against `void*`; besides, `void*` to `int*`,
`int*` to `void*` and `char[5]` to `char*` are accepted and `char[5]` to `int*`
is rejected. -/
theorem type_compatible_ptr_ptr_iff_witness :
    ((type_compatible exampleEnv tuAssign 15 12 0).1 = true ↔
      ((tuAssign.typeAt (pointee (tuAssign.typeAt 15))).kind = KIND_VOID
        ∨ (tuAssign.typeAt (pointee (tuAssign.typeAt 12))).kind = KIND_VOID
        ∨ exampleEnv.type_equal (type_compatible exampleEnv tuAssign 15 12 0).2.types
            (type_compatible exampleEnv tuAssign 15 12 0).2.params
            (pointee (tuAssign.typeAt 15)) (pointee (tuAssign.typeAt 12)) = true))
    ∧ (type_compatible exampleEnv tuAssign 12 11 0).1 = true
    ∧ (type_compatible exampleEnv tuAssign 11 12 0).1 = true
    ∧ (type_compatible exampleEnv tuAssign 15 16 0).1 = true
    ∧ (type_compatible exampleEnv tuAssign 15 11 0).1 = false :=
  ⟨type_compatible_ptr_ptr_iff exampleEnv tuAssign 15 12 0 (by decide) (by decide) (by decide)
      (by decide) (by decide),
   by decide, by decide, by decide, by decide⟩

/-- C3 (the code at the failing inputs): `type_compatible` accepts a Float
source with a Pointer destination and with a Struct destination, and a Struct
source and a Pointer source with a Double destination. -/
theorem type_compatible_float_nonarith_accepted :
    (tuAssign.typeAt 9).kind = KIND_FLOAT ∧ (tuAssign.typeAt 10).kind = KIND_DOUBLE
    ∧ (tuAssign.typeAt 11).kind = KIND_PTR ∧ (tuAssign.typeAt 13).kind = KIND_STRUCT
    ∧ (type_compatible exampleEnv tuAssign 9 11 2).1 = true
    ∧ (type_compatible exampleEnv tuAssign 9 13 2).1 = true
    ∧ (type_compatible exampleEnv tuAssign 13 10 2).1 = true
    ∧ (type_compatible exampleEnv tuAssign 11 10 2).1 = true := by decide

/-- C4 (counterexample): two Struct types at different handles, with different
names and different member ranges, for which `type_compatible` does not answer
false. -/
theorem type_compatible_distinct_structs_accepted :
    (13 : TypeIndex) ≠ 14
    ∧ (tuAssign.typeAt 13).kind = KIND_STRUCT ∧ (tuAssign.typeAt 14).kind = KIND_STRUCT
    ∧ (tuAssign.typeAt 13).record.name ≠ (tuAssign.typeAt 14).record.name
    ∧ (tuAssign.typeAt 13).record.kids_start ≠ (tuAssign.typeAt 14).record.kids_start
    ∧ (tuAssign.typeAt 13).record.kids_end ≠ (tuAssign.typeAt 14).record.kids_end
    ∧ ¬ ((type_compatible exampleEnv tuAssign 13 14 0).1 = false) := by decide

/-- C4 (amended): for two Struct types, or two Union types, whatever their
handles, names and member ranges, `type_compatible` answers true and leaves the
translation unit unchanged. -/
theorem type_compatible_same_record_kind (env : Env) (tu : TranslationUnit) (a b : TypeIndex)
    (e : ExprIndex)
    (h : ((tu.typeAt a).kind = KIND_STRUCT ∧ (tu.typeAt b).kind = KIND_STRUCT)
      ∨ ((tu.typeAt a).kind = KIND_UNION ∧ (tu.typeAt b).kind = KIND_UNION)) :
    type_compatible env tu a b e = (true, tu) := by
  unfold type_compatible
  by_cases hab : a = b
  · simp [hab]
  · rcases h with ⟨h1, h2⟩ | ⟨h1, h2⟩ <;> simp [hab, decay_array, h1, h2]

/-- C4 (witness): `struct S` against `struct T`. -/
theorem type_compatible_same_record_kind_witness :
    type_compatible exampleEnv tuAssign 13 14 0 = (true, tuAssign) :=
  type_compatible_same_record_kind exampleEnv tuAssign 13 14 0 (Or.inl ⟨by decide, by decide⟩)

/-- C5: `type_compatible` is reflexive, and on equal handles it returns the
translation unit (so the type arena) unchanged. -/
theorem type_compatible_refl (env : Env) (tu : TranslationUnit) (a : TypeIndex) (e : ExprIndex) :
    type_compatible env tu a a e = (true, tu) := by
  simp [type_compatible]

/-- C6: `type_compatible` is not symmetric: whatever the environment, there are
a translation unit, types `a`, `b` and an expression `e` (here `int`, `int*` and
the literal `0`) with `type_compatible(a, b, e)` true and `type_compatible(b, a, e)`
false. -/
theorem type_compatible_not_symm (env : Env) :
    ∃ (tu : TranslationUnit) (a b : TypeIndex) (e : ExprIndex),
      (type_compatible env tu a b e).1 = true ∧ (type_compatible env tu b a e).1 = false :=
  ⟨tuAssign, 5, 11, 0, rfl, rfl⟩

/-! ### Pointer arithmetic (`sema_expr`, arithmetic case) -/

/-- Once both operands of a Plus or Minus node have been checked, `sema_expr`
continues with `sema_expr_arith`. -/
theorem sema_expr_arith_of_children (env : Env) (fuel : Nat) (st st1 st2 : Sema) (e : ExprIndex)
    (tl tr : TypeIndex)
    (hop : (st.exprAt e).op = ExprOp.EXPR_PLUS ∨ (st.exprAt e).op = ExprOp.EXPR_MINUS)
    (hl : sema_expr env fuel st (st.exprAt e).bin_op.left = Res.ok tl st1)
    (hnode1 : st1.exprAt e = st.exprAt e)
    (hr : sema_expr env fuel st1 (st.exprAt e).bin_op.right = Res.ok tr st2) :
    sema_expr env (fuel + 1) st e = sema_expr_arith env st2 e tl tr := by
  rcases hop with hop | hop <;>
    simp only [sema_expr, sema_expr_body, hop, hl, Res.bind, hnode1, hr]

/-- The state `sema_expr` leaves when it rewrites node `e` to `op`, with operand
types `lhs` (left, pointer) and an integer right operand. -/
theorem ptr_arith_state_facts (env : Env) (st : Sema) (e : ExprIndex) (lhs : TypeIndex)
    (op : ExprOp) (he : e < st.tu.exprs.length)
    (hrb : (st.exprAt e).bin_op.right < st.tu.exprs.length) :
    let st' := ((((st.setCastType (st.exprAt e).bin_op.left lhs).setCastType
        ((st.setCastType (st.exprAt e).bin_op.left lhs).exprAt e).bin_op.right env.TYPE_ULONG).setOp e
          op).setExprType e lhs)
    (st'.exprAt e).op = op ∧ (st'.exprAt e).bin_op = (st.exprAt e).bin_op
      ∧ (st'.exprAt e).type = lhs
      ∧ (st'.exprAt (st.exprAt e).bin_op.right).cast_type = env.TYPE_ULONG
      ∧ st'.tu.types = st.tu.types := by
  intro st'
  refine ⟨?_, ?_, ?_, ?_, rfl⟩
  · simp only [st', Sema.op_setExprType]
    rw [Sema.op_setOp_self]
    simpa [Sema.exprs_length_setCastType] using he
  · simp only [st', Sema.bin_op_setExprType, Sema.bin_op_setOp, Sema.bin_op_setCastType]
  · simp only [st']
    rw [Sema.type_setExprType_self]
    simpa [Sema.exprs_length_setOp, Sema.exprs_length_setCastType] using he
  · simp only [st', Sema.cast_type_setExprType, Sema.cast_type_setOp, Sema.bin_op_setCastType]
    rw [Sema.cast_type_setCastType_self]
    simpa [Sema.exprs_length_setCastType] using hrb

/-- C8: for a Plus node `e` whose operands have been checked (types `tl`, `tr`)
without touching `e`, exactly one of the two types being a pointer or an array:
`sema_expr` returns, the node's op is PtrAdd, its left child is the pointer
operand and its right child the other operand, whichever way round they were
written, and the right child's `cast_type` is ULong. -/
theorem sema_expr_plus_ptr_canonical (env : Env) (fuel : Nat) (st st1 st2 : Sema) (e : ExprIndex) (tl tr : TypeIndex)
    (hop : (st.exprAt e).op = ExprOp.EXPR_PLUS)
    (hl : sema_expr env fuel st (st.exprAt e).bin_op.left = Res.ok tl st1)
    (hnode1 : st1.exprAt e = st.exprAt e)
    (hr : sema_expr env fuel st1 (st.exprAt e).bin_op.right = Res.ok tr st2)
    (hnode2 : st2.exprAt e = st.exprAt e)
    (he : e < st2.tu.exprs.length)
    (hlb : (st.exprAt e).bin_op.left < st2.tu.exprs.length)
    (hrb : (st.exprAt e).bin_op.right < st2.tu.exprs.length)
    (hone : is_ptr_or_array st2.tu tl ≠ is_ptr_or_array st2.tu tr) :
    ∃ st', sema_expr env (fuel + 1) st e
          = Res.ok (if is_ptr_or_array st2.tu tl then tl else tr) st'
      ∧ (st'.exprAt e).op = ExprOp.EXPR_PTRADD
      ∧ (st'.exprAt e).bin_op.left
          = (if is_ptr_or_array st2.tu tl then (st.exprAt e).bin_op.left
             else (st.exprAt e).bin_op.right)
      ∧ (st'.exprAt e).bin_op.right
          = (if is_ptr_or_array st2.tu tl then (st.exprAt e).bin_op.right
             else (st.exprAt e).bin_op.left)
      ∧ (st'.exprAt (st'.exprAt e).bin_op.right).cast_type = env.TYPE_ULONG := by
  rw [sema_expr_arith_of_children env fuel st st1 st2 e tl tr (Or.inl hop) hl hnode1 hr]
  have hop2 : (st2.exprAt e).op = ExprOp.EXPR_PLUS := by rw [hnode2, hop]
  by_cases hp : is_ptr_or_array st2.tu tl = true
  · have hq : is_ptr_or_array st2.tu tr = false := by
      cases h : is_ptr_or_array st2.tu tr
      · rfl
      · exact absurd (hp.trans h.symm) hone
    obtain ⟨h1, h2, -, h4, -⟩ := ptr_arith_state_facts env st2 e tl ExprOp.EXPR_PTRADD he
      (by rw [hnode2]; exact hrb)
    refine ⟨_, ?_, h1, ?_, ?_, ?_⟩
    · simp [sema_expr_arith, sema_expr_ptr_arith, hop2, hp, hq, ret_type, Sema.op_setCastType]
    · rw [h2, hnode2]; simp [hp]
    · rw [h2, hnode2]; simp [hp]
    · rw [h2]; exact h4
  · have hp' : is_ptr_or_array st2.tu tl = false := by simpa using hp
    have hq : is_ptr_or_array st2.tu tr = true := by
      cases h : is_ptr_or_array st2.tu tr
      · exact absurd (hp'.trans h.symm) hone
      · rfl
    have he' : e < (st2.swapBinOp e).tu.exprs.length := by
      rw [Sema.exprs_length_swapBinOp]; exact he
    have hsw : ((st2.swapBinOp e).exprAt e).bin_op
        = { left := (st.exprAt e).bin_op.right, right := (st.exprAt e).bin_op.left } := by
      rw [Sema.bin_op_swapBinOp_self _ _ he, hnode2]
    obtain ⟨h1, h2, -, h4, -⟩ := ptr_arith_state_facts env (st2.swapBinOp e) e tr
      ExprOp.EXPR_PTRADD he' (by rw [hsw, Sema.exprs_length_swapBinOp]; exact hlb)
    refine ⟨_, ?_, h1, ?_, ?_, ?_⟩
    · have hq' : is_ptr_or_array (st2.swapBinOp e).tu tl = false := hp'
      simp [sema_expr_arith, sema_expr_ptr_arith, hop2, hp', hq, hq', ret_type,
        Sema.op_setCastType, Sema.op_swapBinOp]
    · rw [h2, hsw]; simp [hp']
    · rw [h2, hsw]; simp [hp']
    · rw [h2]; exact h4

/-- C8 (witness): `1 + p` with `int *p` is rewritten to PtrAdd with `p` on the
left and `1`, cast to ULong, on the right. -/
theorem sema_expr_plus_ptr_canonical_witness :
    ∃ st', sema_expr exampleEnv 2 stExample 5 = Res.ok 11 st'
      ∧ (st'.exprAt 5).op = ExprOp.EXPR_PTRADD
      ∧ (st'.exprAt 5).bin_op.left = 2
      ∧ (st'.exprAt 5).bin_op.right = 3
      ∧ (st'.exprAt (st'.exprAt 5).bin_op.right).cast_type = exampleEnv.TYPE_ULONG :=
  sema_expr_plus_ptr_canonical exampleEnv 1 stExample (stExample.setExprType 3 5)
    ((stExample.setExprType 3 5).setExprType 2 11) 5 5 11
    (by decide) (by rfl) (by decide) (by rfl) (by decide) (by decide) (by decide) (by decide)
    (by decide)

/-- C9 (the code at the failing input): the Minus node `1 - p`, whose left
operand has type `int` and whose right operand has type `int*`, is rewritten
to PtrDiff with result type Long. -/
theorem sema_expr_int_minus_ptr_is_ptrdiff :
    ∃ st', sema_expr exampleEnv 2 stExample 6 = Res.ok exampleEnv.TYPE_LONG st'
      ∧ (stExample.exprAt 6).op = ExprOp.EXPR_MINUS
      ∧ (st'.exprAt 6).op = ExprOp.EXPR_PTRDIFF
      ∧ (st'.exprAt 6).type = exampleEnv.TYPE_LONG
      ∧ (st'.typeAt (st'.exprAt (st'.exprAt 6).bin_op.left).type).kind = KIND_INT
      ∧ (st'.typeAt (st'.exprAt (st'.exprAt 6).bin_op.right).type).kind = KIND_PTR :=
  ⟨_, rfl, by decide, by decide, by decide, by decide, by decide⟩

/-- C10 (evaluation of the code): the Plus node `arr + 1` with `char arr[5]` is
rewritten to PtrAdd and its result type is the array type itself (handle 15),
of kind Array and not of kind Pointer.  The check of `arr` alone stores the
decayed type, a pointer to `char` (handle 18), in the `cast_type` of the
operand; the pointer-arithmetic branch overwrites it with the array type.  The
sibling Subscript case decays the array: `arr[1]` gets the type `char` through
a pointer type appended to the arena.  As a consequence `sizeof(arr + 1)` folds
to 5, the size of the array, where the size of `char*` is 8. -/
theorem sema_expr_ptradd_array_result_kind :
    (∃ st' t, sema_expr exampleEnv 2 stExample 8 = Res.ok t st'
      ∧ (stExample.exprAt 8).op = ExprOp.EXPR_PLUS
      ∧ (st'.exprAt 8).op = ExprOp.EXPR_PTRADD
      ∧ (st'.exprAt 8).type = t
      ∧ t = 15
      ∧ (st'.typeAt (st'.exprAt (st'.exprAt 8).bin_op.left).type).kind = KIND_ARRAY
      ∧ (st'.typeAt t).kind = KIND_ARRAY
      ∧ (st'.typeAt t).kind ≠ KIND_PTR
      ∧ (st'.exprAt 7).cast_type = 15)
    ∧ (∃ s7, sema_expr exampleEnv 1 stExample 7 = Res.ok 15 s7
      ∧ (s7.exprAt 7).cast_type = 18
      ∧ (s7.typeAt 18).kind = KIND_PTR
      ∧ (s7.typeAt 18).ptr_to = (stExample.typeAt 15).array_of)
    ∧ (∃ s20, sema_expr exampleEnv 2 stExample2 20 = Res.ok 3 s20
      ∧ (stExample2.exprAt 20).op = ExprOp.EXPR_SUBSCRIPT
      ∧ (stExample2.typeAt (stExample2.stmtAt (stExample2.exprAt 7).symbol).decl.type).kind
          = KIND_ARRAY
      ∧ (s20.typeAt 3).kind = KIND_CHAR
      ∧ (s20.typeAt 22).kind = KIND_PTR
      ∧ (s20.typeAt 22).ptr_to = 3)
    ∧ (∃ s14, sema_expr exampleEnv 3 stExampleSizeof 14 = Res.ok exampleEnv.TYPE_ULONG s14
      ∧ (stExampleSizeof.exprAt 14).op = ExprOp.EXPR_SIZEOF
      ∧ (stExampleSizeof.exprAt 14).x_of_expr.expr = 8
      ∧ (stExampleSizeof.exprAt 8) = (stExample.exprAt 8)
      ∧ (s14.exprAt 14).op = ExprOp.EXPR_INT
      ∧ (s14.exprAt 14).int_num.num = 5
      ∧ (stExample.typeAt 15).size = 5
      ∧ (stExample.typeAt 16).kind = KIND_PTR
      ∧ (stExample.typeAt 16).ptr_to = 3
      ∧ (stExample.typeAt 16).size = 8) :=
  ⟨⟨_, _, rfl, by decide, by decide, by decide, by decide, by decide, by decide, by decide,
      by decide⟩,
   ⟨_, rfl, by decide, by decide, by decide⟩,
   ⟨_, rfl, by decide, by decide, by decide, by decide, by decide⟩,
   ⟨_, rfl, by decide, by decide, by decide, by decide, by decide, by decide, by decide,
      by decide, by decide⟩⟩

/-! ### Declarations with an initializer (`sema_stmt`, Decl case) -/

theorem type_compatible_self_eq (env : Env) (tu : TranslationUnit) (a : TypeIndex) (e : ExprIndex) :
    type_compatible env tu a a e = (true, tu) := by
  simp [type_compatible]

theorem decay_array_exprs (tu : TranslationUnit) (t : CType) :
    (decay_array tu t).2.exprs = tu.exprs := by
  unfold decay_array; split_ifs <;> rfl

theorem type_compatible_exprs (env : Env) (tu : TranslationUnit) (a b : TypeIndex)
    (e : ExprIndex) : (type_compatible env tu a b e).2.exprs = tu.exprs := by
  unfold type_compatible
  split_ifs
  · rfl
  · simp only [decay_array_exprs]

theorem typeAt_congr (tu tu' : TranslationUnit) (h : tu'.types = tu.types) (i : TypeIndex) :
    tu'.typeAt i = tu.typeAt i := by
  unfold TranslationUnit.typeAt; rw [h]

theorem exprAt_congr (tu tu' : TranslationUnit) (h : tu'.exprs = tu.exprs) (i : ExprIndex) :
    tu'.exprAt i = tu.exprAt i := by
  unfold TranslationUnit.exprAt; rw [h]

namespace Sema

theorem exprAt_setInitType (st : Sema) (e e' : ExprIndex) (t : TypeIndex) :
    (st.setInitType e t).exprAt e'
      = if e' = e ∧ e < st.tu.exprs.length then
          { st.exprAt e with init := { (st.exprAt e).init with type := t } }
        else st.exprAt e' := exprAt_setExpr _ _ _ _

end Sema

/-- Once the declared type has been resolved and the initializer checked, the
Decl case continues with `sema_stmt_decl_finish`. -/
theorem sema_stmt_decl_of_children (env : Env) (fuel : Nat) (st st0 st1 : Sema) (s : StmtIndex)
    (t : TypeIndex)
    (hop : (st.stmtAt s).op = StmtOp.STMT_DECL)
    (hinit : (st.stmtAt s).decl.initial ≠ 0)
    (h0 : try_resolve_typeof (sema_expr env fuel) fuel st (st.stmtAt s).decl.type = Res.ok () st0)
    (h1 : sema_expr env fuel st0 (st0.stmtAt s).decl.initial = Res.ok t st1) :
    sema_stmt env (fuel + 1) st s = sema_stmt_decl_finish env st1 s t := by
  simp only [sema_stmt, hop, if_pos hinit, sema_stmt_decl, h0, Res.bind, h1]

namespace Sema

theorem type_setCastType (st : Sema) (e e' : ExprIndex) (t : TypeIndex) :
    ((st.setCastType e t).exprAt e').type = (st.exprAt e').type := by
  rw [exprAt_setCastType]; split_ifs with h
  · rw [h.1]
  · rfl

end Sema

/-- C12: for a Symbol node `e` that refers to a declaration (not a label) of
type handle `type`, `sema_expr` returns `type` and stores it in the node.  If
that type is an array of `E`, no existing entry of the type arena is modified
(in particular the array entry itself) and the node's `cast_type` is the handle
of an entry of kind Pointer whose pointee is `E`.  If the type is not an array,
the node's `cast_type` and the type arena are left as they were. -/
theorem sema_expr_symbol_array_decay (env : Env) (fuel : Nat) (st : Sema) (e : ExprIndex)
    (hop : (st.exprAt e).op = ExprOp.EXPR_SYMBOL)
    (hnl : (st.stmtAt (st.exprAt e).symbol).op ≠ StmtOp.STMT_LABEL)
    (he : e < st.tu.exprs.length) :
    ∃ st', sema_expr env (fuel + 1) st e
        = Res.ok (st.stmtAt (st.exprAt e).symbol).decl.type st'
      ∧ (st'.exprAt e).type = (st.stmtAt (st.exprAt e).symbol).decl.type
      ∧ ((st.typeAt (st.stmtAt (st.exprAt e).symbol).decl.type).kind = KIND_ARRAY →
          (∀ i, i < st.tu.types.length → st'.typeAt i = st.typeAt i)
          ∧ st'.typeAt (st.stmtAt (st.exprAt e).symbol).decl.type
              = st.typeAt (st.stmtAt (st.exprAt e).symbol).decl.type
          ∧ (st'.typeAt (st'.exprAt e).cast_type).kind = KIND_PTR
          ∧ (st'.typeAt (st'.exprAt e).cast_type).ptr_to
              = (st.typeAt (st.stmtAt (st.exprAt e).symbol).decl.type).array_of)
      ∧ ((st.typeAt (st.stmtAt (st.exprAt e).symbol).decl.type).kind ≠ KIND_ARRAY →
          (st'.exprAt e).cast_type = (st.exprAt e).cast_type
          ∧ st'.tu.types = st.tu.types) := by
  have hrun : sema_expr env (fuel + 1) st e
      = ret_type
          (if (st.typeAt (st.stmtAt (st.exprAt e).symbol).decl.type).kind = KIND_ARRAY then
            (st.withTu (new_pointer st.tu
                (st.typeAt (st.stmtAt (st.exprAt e).symbol).decl.type).array_of).2).setCastType e
              (new_pointer st.tu
                (st.typeAt (st.stmtAt (st.exprAt e).symbol).decl.type).array_of).1
          else st) e (st.stmtAt (st.exprAt e).symbol).decl.type := by
    simp only [sema_expr, sema_expr_body, hop, if_neg hnl]
  rw [hrun]
  by_cases hk : (st.typeAt (st.stmtAt (st.exprAt e).symbol).decl.type).kind = KIND_ARRAY
  · rw [if_pos hk]
    have hlen : e < ((st.withTu (new_pointer st.tu
                (st.typeAt (st.stmtAt (st.exprAt e).symbol).decl.type).array_of).2).setCastType e
              (new_pointer st.tu
                (st.typeAt (st.stmtAt (st.exprAt e).symbol).decl.type).array_of).1).tu.exprs.length := by
      rw [Sema.exprs_length_setCastType]; exact he
    have hlt : ∀ i, i < st.tu.types.length →
        (Sema.setExprType ((st.withTu (new_pointer st.tu
                (st.typeAt (st.stmtAt (st.exprAt e).symbol).decl.type).array_of).2).setCastType e
              (new_pointer st.tu
                (st.typeAt (st.stmtAt (st.exprAt e).symbol).decl.type).array_of).1) e
            (st.stmtAt (st.exprAt e).symbol).decl.type).typeAt i = st.typeAt i := by
      intro i hi
      show TranslationUnit.typeAt _ i = _
      rw [typeAt_congr _ _ (Sema.types_setExprType _ _ _) i,
        typeAt_congr _ _ (Sema.types_setCastType _ _ _) i]
      exact typeAt_new_pointer_of_lt st.tu _ i hi
    have hself : (Sema.setExprType ((st.withTu (new_pointer st.tu
                (st.typeAt (st.stmtAt (st.exprAt e).symbol).decl.type).array_of).2).setCastType e
              (new_pointer st.tu
                (st.typeAt (st.stmtAt (st.exprAt e).symbol).decl.type).array_of).1) e
            (st.stmtAt (st.exprAt e).symbol).decl.type).typeAt st.tu.types.length
          = { kind := KIND_PTR, size := 8, align := 8,
              ptr_to := (st.typeAt (st.stmtAt (st.exprAt e).symbol).decl.type).array_of } := by
      show TranslationUnit.typeAt _ _ = _
      rw [typeAt_congr _ _ (Sema.types_setExprType _ _ _) _,
        typeAt_congr _ _ (Sema.types_setCastType _ _ _) _]
      exact typeAt_new_pointer_self st.tu _
    have hcast : ((Sema.setExprType ((st.withTu (new_pointer st.tu
                (st.typeAt (st.stmtAt (st.exprAt e).symbol).decl.type).array_of).2).setCastType e
              (new_pointer st.tu
                (st.typeAt (st.stmtAt (st.exprAt e).symbol).decl.type).array_of).1) e
            (st.stmtAt (st.exprAt e).symbol).decl.type).exprAt e).cast_type
          = st.tu.types.length := by
      rw [Sema.cast_type_setExprType]
      exact Sema.cast_type_setCastType_self _ _ _ he
    have hin : (st.stmtAt (st.exprAt e).symbol).decl.type < st.tu.types.length := by
      by_contra hge
      have hd : st.typeAt (st.stmtAt (st.exprAt e).symbol).decl.type = {} := by
        show st.tu.types.getD _ _ = _
        rw [List.getD_eq_default _ _ (Nat.le_of_not_lt hge)]
      rw [hd] at hk
      exact absurd hk (by decide)
    refine ⟨_, rfl, Sema.type_setExprType_self _ _ _ hlen, ?_, fun h => absurd hk h⟩
    intro _
    refine ⟨hlt, hlt _ hin, ?_, ?_⟩
    · rw [hcast, hself]
    · rw [hcast, hself]
  · rw [if_neg hk]
    refine ⟨_, rfl, Sema.type_setExprType_self _ _ _ he, fun h => absurd h hk, ?_⟩
    intro _
    exact ⟨Sema.cast_type_setExprType _ _ _ _, Sema.types_setExprType _ _ _⟩

/-- C12 (witness): the reference to `char arr[5]` keeps type handle 15 (still an
array of 5 `char`) and gets a fresh pointer-to-`char` handle as `cast_type`; the
reference to `int x` keeps `cast_type` 0. -/
theorem sema_expr_symbol_array_decay_witness :
    (∃ st', sema_expr exampleEnv 1 stExample2 7
        = Res.ok (stExample2.stmtAt (stExample2.exprAt 7).symbol).decl.type st'
      ∧ (st'.exprAt 7).type = (stExample2.stmtAt (stExample2.exprAt 7).symbol).decl.type
      ∧ ((stExample2.typeAt (stExample2.stmtAt (stExample2.exprAt 7).symbol).decl.type).kind = KIND_ARRAY →
          (∀ i, i < stExample2.tu.types.length → st'.typeAt i = stExample2.typeAt i)
          ∧ st'.typeAt (stExample2.stmtAt (stExample2.exprAt 7).symbol).decl.type
              = stExample2.typeAt (stExample2.stmtAt (stExample2.exprAt 7).symbol).decl.type
          ∧ (st'.typeAt (st'.exprAt 7).cast_type).kind = KIND_PTR
          ∧ (st'.typeAt (st'.exprAt 7).cast_type).ptr_to
              = (stExample2.typeAt (stExample2.stmtAt (stExample2.exprAt 7).symbol).decl.type).array_of)
      ∧ ((stExample2.typeAt (stExample2.stmtAt (stExample2.exprAt 7).symbol).decl.type).kind ≠ KIND_ARRAY →
          (st'.exprAt 7).cast_type = (stExample2.exprAt 7).cast_type
          ∧ st'.tu.types = stExample2.tu.types))
    ∧ (stExample2.typeAt 15).kind = KIND_ARRAY
    ∧ (stExample2.typeAt 15).array_of = 3
    ∧ ((sema_expr exampleEnv 1 stExample2 7).state.exprAt 7).type = 15
    ∧ ((sema_expr exampleEnv 1 stExample2 7).state.exprAt 7).cast_type = 21
    ∧ ((sema_expr exampleEnv 1 stExample2 7).state.typeAt 21).kind = KIND_PTR
    ∧ ((sema_expr exampleEnv 1 stExample2 7).state.typeAt 21).ptr_to = 3
    ∧ ((sema_expr exampleEnv 1 stExample2 4).state.exprAt 4).cast_type = 0 :=
  ⟨sema_expr_symbol_array_decay exampleEnv 0 stExample2 7 (by decide) (by decide) (by decide),
   by decide, by decide, by decide, by decide, by decide, by decide, by decide⟩

/-! ### `sizeof` and `_Alignof` of an expression (`sema_expr`, `EXPR_SIZEOF`, `EXPR_ALIGNOF`) -/

namespace Sema

theorem exprAt_setExpr_self (st : Sema) (e : ExprIndex) (x : Expr) (h : e < st.tu.exprs.length) :
    (st.setExpr e x).exprAt e = x := by
  rw [exprAt_setExpr, if_pos ⟨rfl, h⟩]

theorem int_num_setExprType (st : Sema) (e e' : ExprIndex) (t : TypeIndex) :
    ((st.setExprType e t).exprAt e').int_num = (st.exprAt e').int_num := by
  rw [exprAt_setExprType]; split_ifs with h
  · rw [h.1]
  · rfl

end Sema

/-- C13: for a Sizeof (resp. Alignof) node `e` whose operand `sema_expr` types
as `t` (leaving state `st1`), `sema_expr` returns ULong, and afterwards the
node's op is Int, its value is the size (resp. alignment) of type `t`, its
suffix is ULL and its stored type is ULong; the type arena and the diagnostics
are those left by the operand's check. -/
theorem sema_expr_sizeof_rewrite (env : Env) (fuel : Nat) (st st1 : Sema) (e : ExprIndex)
    (t : TypeIndex)
    (hop : (st.exprAt e).op = ExprOp.EXPR_SIZEOF ∨ (st.exprAt e).op = ExprOp.EXPR_ALIGNOF)
    (hsrc : sema_expr env fuel st (st.exprAt e).x_of_expr.expr = Res.ok t st1)
    (he : e < st1.tu.exprs.length) :
    ∃ st', sema_expr env (fuel + 1) st e = Res.ok env.TYPE_ULONG st'
      ∧ (st'.exprAt e).op = ExprOp.EXPR_INT
      ∧ (st'.exprAt e).int_num.num
          = (if (st.exprAt e).op = ExprOp.EXPR_SIZEOF then (st1.typeAt t).size
             else (st1.typeAt t).align)
      ∧ (st'.exprAt e).int_num.suffix = IntSuffix.INT_SUFFIX_ULL
      ∧ (st'.exprAt e).type = env.TYPE_ULONG
      ∧ st'.tu.types = st1.tu.types
      ∧ st'.reports = st1.reports := by
  rcases hop with h | h
  · have hrun : sema_expr env (fuel + 1) st e
        = ret_type (st1.setExpr e
            (int_literal_node env (st1.typeAt t).size IntSuffix.INT_SUFFIX_ULL)) e env.TYPE_ULONG := by
      simp only [sema_expr, sema_expr_body, h, hsrc, Res.bind]
    rw [hrun, if_pos h]
    have hlen : e < (st1.setExpr e
        (int_literal_node env (st1.typeAt t).size IntSuffix.INT_SUFFIX_ULL)).tu.exprs.length := by
      rw [Sema.exprs_length_setExpr]; exact he
    refine ⟨_, rfl, ?_, ?_, ?_, Sema.type_setExprType_self _ _ _ hlen, rfl, rfl⟩
    · rw [Sema.op_setExprType, Sema.exprAt_setExpr_self _ _ _ he]; rfl
    · rw [Sema.int_num_setExprType, Sema.exprAt_setExpr_self _ _ _ he]; rfl
    · rw [Sema.int_num_setExprType, Sema.exprAt_setExpr_self _ _ _ he]; rfl
  · have hrun : sema_expr env (fuel + 1) st e
        = ret_type (st1.setExpr e
            (int_literal_node env (st1.typeAt t).align IntSuffix.INT_SUFFIX_ULL)) e env.TYPE_ULONG := by
      simp only [sema_expr, sema_expr_body, h, hsrc, Res.bind]
    have hne : ¬ (st.exprAt e).op = ExprOp.EXPR_SIZEOF := by rw [h]; decide
    rw [hrun, if_neg hne]
    have hlen : e < (st1.setExpr e
        (int_literal_node env (st1.typeAt t).align IntSuffix.INT_SUFFIX_ULL)).tu.exprs.length := by
      rw [Sema.exprs_length_setExpr]; exact he
    refine ⟨_, rfl, ?_, ?_, ?_, Sema.type_setExprType_self _ _ _ hlen, rfl, rfl⟩
    · rw [Sema.op_setExprType, Sema.exprAt_setExpr_self _ _ _ he]; rfl
    · rw [Sema.int_num_setExprType, Sema.exprAt_setExpr_self _ _ _ he]; rfl
    · rw [Sema.int_num_setExprType, Sema.exprAt_setExpr_self _ _ _ he]; rfl

/-- C13 (witness): `sizeof arr` with `char arr[5]` becomes the literal 5 of type
ULong; `_Alignof x` with `int x` becomes the literal 4. -/
theorem sema_expr_sizeof_rewrite_witness :
    (∃ st', sema_expr exampleEnv 2 stExample2 32 = Res.ok exampleEnv.TYPE_ULONG st'
      ∧ (st'.exprAt 32).op = ExprOp.EXPR_INT
      ∧ (st'.exprAt 32).int_num.num
          = (if (stExample2.exprAt 32).op = ExprOp.EXPR_SIZEOF then
               ((sema_expr exampleEnv 1 stExample2 7).state.typeAt 15).size
             else ((sema_expr exampleEnv 1 stExample2 7).state.typeAt 15).align)
      ∧ (st'.exprAt 32).int_num.suffix = IntSuffix.INT_SUFFIX_ULL
      ∧ (st'.exprAt 32).type = exampleEnv.TYPE_ULONG
      ∧ st'.tu.types = (sema_expr exampleEnv 1 stExample2 7).state.tu.types
      ∧ st'.reports = (sema_expr exampleEnv 1 stExample2 7).state.reports)
    ∧ ((sema_expr exampleEnv 2 stExample2 32).state.exprAt 32).int_num.num = 5
    ∧ ((sema_expr exampleEnv 2 stExample2 33).state.exprAt 33).op = ExprOp.EXPR_INT
    ∧ ((sema_expr exampleEnv 2 stExample2 33).state.exprAt 33).int_num.num = 4
    ∧ ((sema_expr exampleEnv 2 stExample2 33).state.exprAt 33).type = 8 :=
  ⟨sema_expr_sizeof_rewrite exampleEnv 1 stExample2 (sema_expr exampleEnv 1 stExample2 7).state 32 15
      (by decide) (by rfl) (by decide),
   by decide, by decide, by decide, by decide⟩

/-! ### Running the sizeof / alignof rewrite twice -/

/-- C14 (evaluation of the code): `sizeof(int)` (a SizeofT node) is rewritten to the
literal 4 with suffix NONE and typed ULong; a second `sema_expr` on the
rewritten node returns Int and overwrites the stored type with Int.  The same
holds for `_Alignof(int)` (an AlignofT node).  The sibling `sizeof x` (a Sizeof
node) is rewritten with suffix ULL, and its second run returns ULong and leaves
the state as it was. -/
theorem sema_expr_sizeof_t_rerun_retypes :
    ∃ st1 st2 st3 st4 st5,
      (stExample2.exprAt 9).op = ExprOp.EXPR_SIZEOF_T
      ∧ sema_expr exampleEnv 2 stExample2 9 = Res.ok exampleEnv.TYPE_ULONG st1
      ∧ (st1.exprAt 9).op = ExprOp.EXPR_INT
      ∧ (st1.exprAt 9).int_num = { num := 4, suffix := IntSuffix.INT_SUFFIX_NONE }
      ∧ (st1.exprAt 9).type = exampleEnv.TYPE_ULONG
      ∧ sema_expr exampleEnv 2 st1 9 = Res.ok exampleEnv.TYPE_INT st2
      ∧ (st2.exprAt 9).type = exampleEnv.TYPE_INT
      ∧ exampleEnv.TYPE_INT ≠ exampleEnv.TYPE_ULONG
      ∧ (stExample2.exprAt 31).op = ExprOp.EXPR_ALIGNOF_T
      ∧ sema_expr exampleEnv 2 stExample2 31 = Res.ok exampleEnv.TYPE_ULONG st3
      ∧ (st3.exprAt 31).type = exampleEnv.TYPE_ULONG
      ∧ sema_expr exampleEnv 2 st3 31 = Res.ok exampleEnv.TYPE_INT st4
      ∧ (st4.exprAt 31).type = exampleEnv.TYPE_INT
      ∧ (stExample2.exprAt 8).op = ExprOp.EXPR_SIZEOF
      ∧ sema_expr exampleEnv 2 stExample2 8 = Res.ok exampleEnv.TYPE_ULONG st5
      ∧ (st5.exprAt 8).int_num = { num := 4, suffix := IntSuffix.INT_SUFFIX_ULL }
      ∧ sema_expr exampleEnv 2 st5 8 = Res.ok exampleEnv.TYPE_ULONG st5 :=
  ⟨_, _, _, _, _, by decide, rfl, by decide, by decide, by decide, rfl, by decide, by decide,
    by decide, rfl, by decide, rfl, by decide, by decide, rfl, by decide, by decide⟩

/-! ### Subscript (`sema_expr`, `EXPR_SUBSCRIPT`) -/

namespace Sema

theorem exprAt_swapSubscript (st : Sema) (e e' : ExprIndex) :
    (st.swapSubscript e).exprAt e'
      = if e' = e ∧ e < st.tu.exprs.length then
          { st.exprAt e with
            subscript := { base := (st.exprAt e).subscript.index,
                           index := (st.exprAt e).subscript.base } }
        else st.exprAt e' := exprAt_setExpr _ _ _ _

theorem exprs_length_swapSubscript (st : Sema) (e : ExprIndex) :
    (st.swapSubscript e).tu.exprs.length = st.tu.exprs.length := exprs_length_setExpr _ _ _

theorem types_swapSubscript (st : Sema) (e : ExprIndex) :
    (st.swapSubscript e).tu.types = st.tu.types := rfl

theorem subscript_swapSubscript_self (st : Sema) (e : ExprIndex) (h : e < st.tu.exprs.length) :
    ((st.swapSubscript e).exprAt e).subscript
      = { base := (st.exprAt e).subscript.index, index := (st.exprAt e).subscript.base } := by
  simp [exprAt_swapSubscript, h]

theorem subscript_setExprType (st : Sema) (e e' : ExprIndex) (t : TypeIndex) :
    ((st.setExprType e t).exprAt e').subscript = (st.exprAt e').subscript := by
  rw [exprAt_setExprType]; split_ifs with h
  · rw [h.1]
  · rfl

theorem exprs_length_withTu_new_pointer (st : Sema) (base : TypeIndex) :
    (st.withTu (new_pointer st.tu base).2).tu.exprs.length = st.tu.exprs.length := rfl

theorem exprAt_withTu_new_pointer (st : Sema) (base : TypeIndex) (e : ExprIndex) :
    (st.withTu (new_pointer st.tu base).2).exprAt e = st.exprAt e := rfl

theorem reports_setExprType (st : Sema) (e : ExprIndex) (t : TypeIndex) :
    (st.setExprType e t).reports = st.reports := rfl

end Sema

/-- The tail of the Subscript case once the operand that plays the base is
known: an array base decays through `new_pointer`, and the node's type is the
pointee. -/
theorem subscript_tail_facts (st : Sema) (e : ExprIndex) (tp : TypeIndex)
    (he : e < st.tu.exprs.length) :
    ∃ st', (if (st.typeAt tp).kind = KIND_ARRAY then
              ret_type (st.withTu (new_pointer st.tu (st.typeAt tp).array_of).2) e
                ((st.withTu (new_pointer st.tu (st.typeAt tp).array_of).2).typeAt
                  (new_pointer st.tu (st.typeAt tp).array_of).1).ptr_to
            else ret_type st e (st.typeAt tp).ptr_to)
          = Res.ok (if (st.typeAt tp).kind = KIND_ARRAY then (st.typeAt tp).array_of
                    else (st.typeAt tp).ptr_to) st'
      ∧ (st'.exprAt e).subscript = (st.exprAt e).subscript
      ∧ (st'.exprAt e).type = (if (st.typeAt tp).kind = KIND_ARRAY then (st.typeAt tp).array_of
                    else (st.typeAt tp).ptr_to)
      ∧ st'.reports = st.reports := by
  by_cases hk : (st.typeAt tp).kind = KIND_ARRAY
  · rw [if_pos hk, if_pos hk]
    have hp : ((st.withTu (new_pointer st.tu (st.typeAt tp).array_of).2).typeAt
        (new_pointer st.tu (st.typeAt tp).array_of).1).ptr_to = (st.typeAt tp).array_of := by
      show ((new_pointer st.tu (st.typeAt tp).array_of).2.typeAt st.tu.types.length).ptr_to = _
      rw [typeAt_new_pointer_self]
    rw [hp]
    exact ⟨_, rfl, Sema.subscript_setExprType _ _ _ _, Sema.type_setExprType_self _ _ _ he, rfl⟩
  · rw [if_neg hk, if_neg hk]
    exact ⟨_, rfl, Sema.subscript_setExprType _ _ _ _, Sema.type_setExprType_self _ _ _ he, rfl⟩

/-- C18: let `e` be a Subscript node whose two operands are `p` and `i`, written
in either order (`p[i]` or `i[p]`), whose checks return type `tp` for `p` and
`ti` for `i` without touching `e`, where `tp` is a pointer or array type and
`ti` is not.  Then `sema_expr` returns, the node's base field is `p` and its
index field is `i` whichever order they were written in, and the node's type,
returned and stored, is the pointee of `tp` (the element type when `tp` is an
array); no diagnostic is added. -/
theorem sema_expr_subscript_canonical (env : Env) (fuel : Nat) (st st1 st2 : Sema) (e : ExprIndex)
    (p i : ExprIndex) (tp ti tb tx : TypeIndex)
    (hop : (st.exprAt e).op = ExprOp.EXPR_SUBSCRIPT)
    (hb : sema_expr env fuel st (st.exprAt e).subscript.base = Res.ok tb st1)
    (hnode1 : st1.exprAt e = st.exprAt e)
    (hx : sema_expr env fuel st1 (st.exprAt e).subscript.index = Res.ok tx st2)
    (hnode2 : st2.exprAt e = st.exprAt e)
    (he : e < st2.tu.exprs.length)
    (hord : ((st.exprAt e).subscript = { base := p, index := i } ∧ tb = tp ∧ tx = ti)
      ∨ ((st.exprAt e).subscript = { base := i, index := p } ∧ tb = ti ∧ tx = tp))
    (hptr : is_ptr_or_array st2.tu tp = true)
    (hnot : is_ptr_or_array st2.tu ti = false) :
    ∃ st', sema_expr env (fuel + 1) st e
        = Res.ok (if (st2.typeAt tp).kind = KIND_ARRAY then (st2.typeAt tp).array_of
                  else (st2.typeAt tp).ptr_to) st'
      ∧ (st'.exprAt e).subscript = { base := p, index := i }
      ∧ (st'.exprAt e).type = (if (st2.typeAt tp).kind = KIND_ARRAY then (st2.typeAt tp).array_of
                  else (st2.typeAt tp).ptr_to)
      ∧ st'.reports = st2.reports := by
  rcases hord with ⟨hs, h1, h2⟩ | ⟨hs, h1, h2⟩
  · subst h1; subst h2
    have hrun : sema_expr env (fuel + 1) st e
        = (if (st2.typeAt tb).kind = KIND_ARRAY then
              ret_type (st2.withTu (new_pointer st2.tu (st2.typeAt tb).array_of).2) e
                ((st2.withTu (new_pointer st2.tu (st2.typeAt tb).array_of).2).typeAt
                  (new_pointer st2.tu (st2.typeAt tb).array_of).1).ptr_to
            else ret_type st2 e (st2.typeAt tb).ptr_to) := by
      simp only [sema_expr, sema_expr_body, hop, hb, Res.bind, hnode1, hx, hnot]
      rfl
    rw [hrun]
    obtain ⟨st', h, hsub, hty, hrep⟩ := subscript_tail_facts st2 e tb he
    refine ⟨st', h, ?_, hty, hrep⟩
    rw [hsub, hnode2, hs]
  · subst h1; subst h2
    have hrun : sema_expr env (fuel + 1) st e
        = (if ((st2.swapSubscript e).typeAt tx).kind = KIND_ARRAY then
              ret_type ((st2.swapSubscript e).withTu
                  (new_pointer (st2.swapSubscript e).tu ((st2.swapSubscript e).typeAt tx).array_of).2) e
                (((st2.swapSubscript e).withTu
                    (new_pointer (st2.swapSubscript e).tu ((st2.swapSubscript e).typeAt tx).array_of).2).typeAt
                  (new_pointer (st2.swapSubscript e).tu ((st2.swapSubscript e).typeAt tx).array_of).1).ptr_to
            else ret_type (st2.swapSubscript e) e ((st2.swapSubscript e).typeAt tx).ptr_to) := by
      simp only [sema_expr, sema_expr_body, hop, hb, Res.bind, hnode1, hx, hptr]
      rfl
    rw [hrun]
    have he' : e < (st2.swapSubscript e).tu.exprs.length := by
      rw [Sema.exprs_length_swapSubscript]; exact he
    obtain ⟨st', h, hsub, hty, hrep⟩ := subscript_tail_facts (st2.swapSubscript e) e tx he'
    refine ⟨st', h, ?_, hty, hrep⟩
    rw [hsub, Sema.subscript_swapSubscript_self _ _ he, hnode2, hs]

/-- C18 (witness): `1[p]` with `int *p` is checked to base `p`, index `1` and
type `int`, exactly as `p[1]` is. -/
theorem sema_expr_subscript_canonical_witness :
    (∃ st', sema_expr exampleEnv 2 stExample2 19
        = Res.ok (if ((sema_expr exampleEnv 1 (sema_expr exampleEnv 1 stExample2 3).state 2).state.typeAt 11).kind
                      = KIND_ARRAY then
                    ((sema_expr exampleEnv 1 (sema_expr exampleEnv 1 stExample2 3).state 2).state.typeAt 11).array_of
                  else
                    ((sema_expr exampleEnv 1 (sema_expr exampleEnv 1 stExample2 3).state 2).state.typeAt 11).ptr_to)
            st'
      ∧ (st'.exprAt 19).subscript = { base := 2, index := 3 }
      ∧ (st'.exprAt 19).type
          = (if ((sema_expr exampleEnv 1 (sema_expr exampleEnv 1 stExample2 3).state 2).state.typeAt 11).kind
                      = KIND_ARRAY then
                    ((sema_expr exampleEnv 1 (sema_expr exampleEnv 1 stExample2 3).state 2).state.typeAt 11).array_of
                  else
                    ((sema_expr exampleEnv 1 (sema_expr exampleEnv 1 stExample2 3).state 2).state.typeAt 11).ptr_to)
      ∧ st'.reports = (sema_expr exampleEnv 1 (sema_expr exampleEnv 1 stExample2 3).state 2).state.reports)
    ∧ (stExample2.exprAt 19).subscript = { base := 3, index := 2 }
    ∧ (stExample2.exprAt 18).subscript = { base := 2, index := 3 }
    ∧ ((sema_expr exampleEnv 2 stExample2 19).state.exprAt 19).subscript
        = ((sema_expr exampleEnv 2 stExample2 18).state.exprAt 18).subscript
    ∧ ((sema_expr exampleEnv 2 stExample2 19).state.exprAt 19).type = exampleEnv.TYPE_INT
    ∧ ((sema_expr exampleEnv 2 stExample2 18).state.exprAt 18).type = exampleEnv.TYPE_INT
    ∧ ((sema_expr exampleEnv 3 stExample2 20).state.exprAt 20).type = exampleEnv.TYPE_CHAR :=
  ⟨sema_expr_subscript_canonical exampleEnv 1 stExample2
      (sema_expr exampleEnv 1 stExample2 3).state
      (sema_expr exampleEnv 1 (sema_expr exampleEnv 1 stExample2 3).state 2).state 19
      2 3 11 5 5 11
      (by decide) (by rfl) (by decide) (by rfl) (by decide) (by decide)
      (Or.inr ⟨by decide, rfl, rfl⟩) (by decide) (by decide),
   by decide, by decide, by decide, by decide, by decide, by decide⟩

/-! ### Member access (`sema_expr`, `EXPR_DOT`, `EXPR_ARROW`) -/

/-- The member search returns the lowest index in the range whose member has the
requested name. -/
theorem find_member_eq_some (tu : TranslationUnit) (name : Atom) :
    ∀ (count : Nat) (start m : MemberIndex), start ≤ m → m < start + count →
      name = (tu.memberAt m).name →
      (∀ k, start ≤ k → k < m → name ≠ (tu.memberAt k).name) →
      find_member tu name count start = some m := by
  intro count
  induction count with
  | zero => intro start m h1 h2; exact absurd h2 (by simpa using h1)
  | succ n ih =>
    intro start m h1 h2 hname hlow
    unfold find_member
    by_cases hs : name = (tu.memberAt start).name
    · rw [if_pos hs]
      by_cases hm : start = m
      · rw [hm]
      · exact absurd hs (hlow start (Nat.le_refl _) (Nat.lt_of_le_of_ne h1 hm))
    · rw [if_neg hs]
      have hne : start ≠ m := fun h => hs (h ▸ hname)
      have h1' : start + 1 ≤ m := Nat.lt_of_le_of_ne h1 hne
      exact ih (start + 1) m h1' (by rw [Nat.add_assoc, Nat.add_comm 1 n]; exact h2) hname
        (fun k hk1 hk2 => hlow k (Nat.le_of_lt hk1) hk2)

/-- The member search fails when no member in the range has the requested name. -/
theorem find_member_eq_none (tu : TranslationUnit) (name : Atom) :
    ∀ (count : Nat) (start : MemberIndex),
      (∀ k, start ≤ k → k < start + count → name ≠ (tu.memberAt k).name) →
      find_member tu name count start = none := by
  intro count
  induction count with
  | zero => intro start _; rfl
  | succ n ih =>
    intro start h
    unfold find_member
    rw [if_neg (h start (Nat.le_refl _) (Nat.lt_add_of_pos_right (Nat.succ_pos n)))]
    exact ih (start + 1) (fun k hk1 hk2 => h k (Nat.le_of_lt hk1)
      (by rw [Nat.add_assoc, Nat.add_comm 1 n] at hk2; exact hk2))

/-- A range `[start, end)` written with the loop's trip count. -/
theorem lt_start_add_count (start stop m : Nat) (h1 : start ≤ m) (h2 : m < stop) :
    m < start + (stop - start) := by
  rw [Nat.add_sub_cancel' (Nat.le_trans h1 (Nat.le_of_lt h2))]; exact h2

theorem lt_stop_of_lt_start_add_count (start stop m : Nat) (h1 : start ≤ m)
    (h2 : m < start + (stop - start)) : m < stop := by
  by_cases h : start ≤ stop
  · rw [Nat.add_sub_cancel' h] at h2; exact h2
  · rw [Nat.sub_eq_zero_of_le (Nat.le_of_lt (Nat.lt_of_not_le h))] at h2
    exact absurd h2 (Nat.not_lt_of_le h1)

namespace Sema

theorem exprAt_setDotMember (st : Sema) (e e' : ExprIndex) (m : MemberIndex) :
    (st.setDotMember e m).exprAt e'
      = if e' = e ∧ e < st.tu.exprs.length then
          { st.exprAt e with dot := { (st.exprAt e).dot with member := m } }
        else st.exprAt e' := exprAt_setExpr _ _ _ _

theorem exprs_length_setDotMember (st : Sema) (e : ExprIndex) (m : MemberIndex) :
    (st.setDotMember e m).tu.exprs.length = st.tu.exprs.length := exprs_length_setExpr _ _ _

theorem dot_setDotMember_self (st : Sema) (e : ExprIndex) (m : MemberIndex)
    (h : e < st.tu.exprs.length) :
    ((st.setDotMember e m).exprAt e).dot = { (st.exprAt e).dot with member := m } := by
  simp [exprAt_setDotMember, h]

theorem dot_setExprType (st : Sema) (e e' : ExprIndex) (t : TypeIndex) :
    ((st.setExprType e t).exprAt e').dot = (st.exprAt e').dot := by
  rw [exprAt_setExprType]; split_ifs with h
  · rw [h.1]
  · rfl

end Sema

/-- C19: let `e` be a Dot node whose base is checked to a type of kind Struct or
Union with member range `[kids_start, kids_end)`, the check leaving `e`
untouched.  If `m` is the lowest index in the range whose member has the
requested name, `sema_expr` returns `members[m].type`, stores it as the node's
type, sets the node's member field to `m` and adds no diagnostic.  If no member
in the range has that name, `sema_expr` reports "Could not find member under
that name." and the node's type is Void. -/
theorem sema_expr_dot_member_lookup (env : Env) (fuel : Nat) (st st1 : Sema) (e : ExprIndex)
    (t : TypeIndex)
    (hop : (st.exprAt e).op = ExprOp.EXPR_DOT)
    (hb : sema_expr env fuel st (st.exprAt e).dot.base = Res.ok t st1)
    (hnode1 : st1.exprAt e = st.exprAt e)
    (he : e < st1.tu.exprs.length)
    (hk : (st1.typeAt t).kind = KIND_STRUCT ∨ (st1.typeAt t).kind = KIND_UNION) :
    (∀ m, (st1.typeAt t).record.kids_start ≤ m → m < (st1.typeAt t).record.kids_end →
        (st.exprAt e).dot.name = (st1.tu.memberAt m).name →
        (∀ k, (st1.typeAt t).record.kids_start ≤ k → k < m →
          (st.exprAt e).dot.name ≠ (st1.tu.memberAt k).name) →
        ∃ st', sema_expr env (fuel + 1) st e = Res.ok (st1.tu.memberAt m).type st'
          ∧ (st'.exprAt e).dot.member = m
          ∧ (st'.exprAt e).type = (st1.tu.memberAt m).type
          ∧ st'.reports = st1.reports)
    ∧ ((∀ k, (st1.typeAt t).record.kids_start ≤ k → k < (st1.typeAt t).record.kids_end →
          (st.exprAt e).dot.name ≠ (st1.tu.memberAt k).name) →
        ∃ st', sema_expr env (fuel + 1) st e = Res.ok env.TYPE_VOID st'
          ∧ (st'.exprAt e).type = env.TYPE_VOID
          ∧ st'.reports = st1.reports ++
              [{ level := ReportLevel.REPORT_ERROR, loc := (st.exprAt e).loc,
                 fmt := "Could not find member under that name." }]) := by
  have hnp : ¬ (st1.typeAt t).kind = KIND_PTR := by
    rcases hk with h | h <;> rw [h] <;> decide
  have hrec : ¬ ((st1.typeAt t).kind ≠ KIND_STRUCT ∧ (st1.typeAt t).kind ≠ KIND_UNION) := by
    rcases hk with h | h <;> simp [h]
  constructor
  · intro m h1 h2 hname hlow
    have hfind := find_member_eq_some st1.tu (st.exprAt e).dot.name
      ((st1.typeAt t).record.kids_end - (st1.typeAt t).record.kids_start)
      (st1.typeAt t).record.kids_start m h1 (lt_start_add_count _ _ _ h1 h2) hname hlow
    have hrun : sema_expr env (fuel + 1) st e
        = ret_type (st1.setDotMember e m) e (st1.tu.memberAt m).type := by
      simp only [sema_expr, sema_expr_body, hop, hb, Res.bind, hnode1, hnp, hrec, decide_False,
        Bool.false_and, if_false, Bool.false_eq_true, hfind]
    rw [hrun]
    have hlen : e < (st1.setDotMember e m).tu.exprs.length := by
      rw [Sema.exprs_length_setDotMember]; exact he
    refine ⟨_, rfl, ?_, Sema.type_setExprType_self _ _ _ hlen, rfl⟩
    rw [Sema.dot_setExprType, Sema.dot_setDotMember_self _ _ _ he]
  · intro hnone
    have hfind := find_member_eq_none st1.tu (st.exprAt e).dot.name
      ((st1.typeAt t).record.kids_end - (st1.typeAt t).record.kids_start)
      (st1.typeAt t).record.kids_start
      (fun k hk1 hk2 => hnone k hk1 (lt_stop_of_lt_start_add_count _ _ _ hk1 hk2))
    have hrun : sema_expr env (fuel + 1) st e
        = ret_type (sema_error st1 (st.exprAt e).loc "Could not find member under that name.")
            e env.TYPE_VOID := by
      simp only [sema_expr, sema_expr_body, hop, hb, Res.bind, hnode1, hnp, hrec, decide_False,
        Bool.false_and, if_false, Bool.false_eq_true, hfind]
    rw [hrun]
    exact ⟨_, rfl, Sema.type_setExprType_self _ _ _ he, rfl⟩

/-- C19 (witness): `t.b` with `struct T { int a; float b; } t` (members 1..2)
finds member 2 of type `float`; `s.zz` with `struct S { int x; } s` reports the
miss and is typed Void. -/
theorem sema_expr_dot_member_lookup_witness :
    ((∀ m, ((sema_expr exampleEnv 1 stExample2 27).state.typeAt 14).record.kids_start ≤ m →
        m < ((sema_expr exampleEnv 1 stExample2 27).state.typeAt 14).record.kids_end →
        (stExample2.exprAt 28).dot.name = ((sema_expr exampleEnv 1 stExample2 27).state.tu.memberAt m).name →
        (∀ k, ((sema_expr exampleEnv 1 stExample2 27).state.typeAt 14).record.kids_start ≤ k → k < m →
          (stExample2.exprAt 28).dot.name ≠ ((sema_expr exampleEnv 1 stExample2 27).state.tu.memberAt k).name) →
        ∃ st', sema_expr exampleEnv 2 stExample2 28
            = Res.ok ((sema_expr exampleEnv 1 stExample2 27).state.tu.memberAt m).type st'
          ∧ (st'.exprAt 28).dot.member = m
          ∧ (st'.exprAt 28).type = ((sema_expr exampleEnv 1 stExample2 27).state.tu.memberAt m).type
          ∧ st'.reports = (sema_expr exampleEnv 1 stExample2 27).state.reports)
      ∧ ((∀ k, ((sema_expr exampleEnv 1 stExample2 27).state.typeAt 14).record.kids_start ≤ k →
          k < ((sema_expr exampleEnv 1 stExample2 27).state.typeAt 14).record.kids_end →
          (stExample2.exprAt 28).dot.name ≠ ((sema_expr exampleEnv 1 stExample2 27).state.tu.memberAt k).name) →
        ∃ st', sema_expr exampleEnv 2 stExample2 28 = Res.ok exampleEnv.TYPE_VOID st'
          ∧ (st'.exprAt 28).type = exampleEnv.TYPE_VOID
          ∧ st'.reports = (sema_expr exampleEnv 1 stExample2 27).state.reports ++
              [{ level := ReportLevel.REPORT_ERROR, loc := (stExample2.exprAt 28).loc,
                 fmt := "Could not find member under that name." }]))
    ∧ ((sema_expr exampleEnv 2 stExample2 28).state.exprAt 28).dot.member = 2
    ∧ ((sema_expr exampleEnv 2 stExample2 28).state.exprAt 28).type = exampleEnv.TYPE_FLOAT
    ∧ (sema_expr exampleEnv 2 stExample2 28).state.reports = []
    ∧ ((sema_expr exampleEnv 2 stExample2 23).state.exprAt 23).type = exampleEnv.TYPE_VOID
    ∧ (sema_expr exampleEnv 2 stExample2 23).state.reports
        = [{ level := ReportLevel.REPORT_ERROR, loc := 23,
             fmt := "Could not find member under that name." }] :=
  ⟨sema_expr_dot_member_lookup exampleEnv 1 stExample2 (sema_expr exampleEnv 1 stExample2 27).state 28 14
      (by decide) (by rfl) (by decide) (by decide) (by decide),
   by decide, by decide, by decide, by decide, by decide⟩

/-- C20: let `e1` be a Dot node and `e2` an Arrow node with the same base
expression and the same member name, checked from the same state, whose base is
checked to a pointer to a Struct or Union.  With `settings.pedantic` on, the Dot
node reports "Implicit dereference is a non-standard extension" and is typed
Void, whether or not the member exists.  With it off, both nodes return the
same type and store it: if `m` is the lowest index in the record's member range
with the requested name, both get member handle `m` and type `members[m].type`
and add no diagnostic; if there is no such member, both report "Could not find
member under that name." and are typed Void. -/
theorem sema_expr_dot_ptr_as_arrow (env : Env) (fuel : Nat) (st st1 : Sema) (e1 e2 : ExprIndex)
    (t : TypeIndex)
    (hop1 : (st.exprAt e1).op = ExprOp.EXPR_DOT)
    (hop2 : (st.exprAt e2).op = ExprOp.EXPR_ARROW)
    (hbase : (st.exprAt e2).arrow.base = (st.exprAt e1).dot.base)
    (hname : (st.exprAt e2).arrow.name = (st.exprAt e1).dot.name)
    (hb : sema_expr env fuel st (st.exprAt e1).dot.base = Res.ok t st1)
    (hnode1 : st1.exprAt e1 = st.exprAt e1)
    (hnode2 : st1.exprAt e2 = st.exprAt e2)
    (he1 : e1 < st1.tu.exprs.length)
    (he2 : e2 < st1.tu.exprs.length)
    (hptr : (st1.typeAt t).kind = KIND_PTR)
    (hk : (st1.typeAt (st1.typeAt t).ptr_to).kind = KIND_STRUCT
      ∨ (st1.typeAt (st1.typeAt t).ptr_to).kind = KIND_UNION) :
    (env.pedantic = true →
        ∃ st', sema_expr env (fuel + 1) st e1 = Res.ok env.TYPE_VOID st'
          ∧ (st'.exprAt e1).type = env.TYPE_VOID
          ∧ st'.reports = st1.reports ++
              [{ level := ReportLevel.REPORT_ERROR, loc := (st.exprAt e1).loc,
                 fmt := "Implicit dereference is a non-standard extension (disable -P to allow it)." }])
    ∧ (env.pedantic = false →
        (∀ m, (st1.typeAt (st1.typeAt t).ptr_to).record.kids_start ≤ m →
          m < (st1.typeAt (st1.typeAt t).ptr_to).record.kids_end →
          (st.exprAt e1).dot.name = (st1.tu.memberAt m).name →
          (∀ k, (st1.typeAt (st1.typeAt t).ptr_to).record.kids_start ≤ k → k < m →
            (st.exprAt e1).dot.name ≠ (st1.tu.memberAt k).name) →
          ∃ st' st'', sema_expr env (fuel + 1) st e1 = Res.ok (st1.tu.memberAt m).type st'
            ∧ sema_expr env (fuel + 1) st e2 = Res.ok (st1.tu.memberAt m).type st''
            ∧ (st'.exprAt e1).dot.member = m ∧ (st''.exprAt e2).dot.member = m
            ∧ (st'.exprAt e1).type = (st1.tu.memberAt m).type
            ∧ (st''.exprAt e2).type = (st1.tu.memberAt m).type
            ∧ st'.reports = st1.reports ∧ st''.reports = st1.reports)
        ∧ ((∀ k, (st1.typeAt (st1.typeAt t).ptr_to).record.kids_start ≤ k →
            k < (st1.typeAt (st1.typeAt t).ptr_to).record.kids_end →
            (st.exprAt e1).dot.name ≠ (st1.tu.memberAt k).name) →
          ∃ st' st'', sema_expr env (fuel + 1) st e1 = Res.ok env.TYPE_VOID st'
            ∧ sema_expr env (fuel + 1) st e2 = Res.ok env.TYPE_VOID st''
            ∧ (st'.exprAt e1).type = env.TYPE_VOID ∧ (st''.exprAt e2).type = env.TYPE_VOID
            ∧ st'.reports = st1.reports ++
                [{ level := ReportLevel.REPORT_ERROR, loc := (st.exprAt e1).loc,
                   fmt := "Could not find member under that name." }]
            ∧ st''.reports = st1.reports ++
                [{ level := ReportLevel.REPORT_ERROR, loc := (st.exprAt e2).loc,
                   fmt := "Could not find member under that name." }])) := by
  have hb2 : sema_expr env fuel st (st.exprAt e2).arrow.base = Res.ok t st1 := by
    rw [hbase]; exact hb
  have hrec : ¬ ((st1.typeAt (st1.typeAt t).ptr_to).kind ≠ KIND_STRUCT
      ∧ (st1.typeAt (st1.typeAt t).ptr_to).kind ≠ KIND_UNION) := by
    rcases hk with h | h <;> simp [h]
  have hpa : ¬ ((st1.typeAt t).kind ≠ KIND_PTR ∧ (st1.typeAt t).kind ≠ KIND_ARRAY) := by
    simp [hptr]
  refine ⟨?_, ?_⟩
  · intro hped
    have hrun : sema_expr env (fuel + 1) st e1
        = ret_type (sema_error st1 (st.exprAt e1).loc
            "Implicit dereference is a non-standard extension (disable -P to allow it).")
            e1 env.TYPE_VOID := by
      simp only [sema_expr, sema_expr_body, hop1, hb, Res.bind, hnode1, hptr, hped, decide_True,
        Bool.and_self, if_true]
    rw [hrun]
    exact ⟨_, rfl, Sema.type_setExprType_self _ _ _ he1, rfl⟩
  · intro hped
    constructor
    · intro m h1 h2 hnm hlow
      have hfind := find_member_eq_some st1.tu (st.exprAt e1).dot.name
        ((st1.typeAt (st1.typeAt t).ptr_to).record.kids_end
          - (st1.typeAt (st1.typeAt t).ptr_to).record.kids_start)
        (st1.typeAt (st1.typeAt t).ptr_to).record.kids_start m h1
        (lt_start_add_count _ _ _ h1 h2) hnm hlow
      have hrun1 : sema_expr env (fuel + 1) st e1
          = ret_type (st1.setDotMember e1 m) e1 (st1.tu.memberAt m).type := by
        simp only [sema_expr, sema_expr_body, hop1, hb, Res.bind, hnode1, hptr, hped, hrec,
          decide_True, Bool.and_false, if_true, if_false, Bool.false_eq_true, hfind]
      have hrun2 : sema_expr env (fuel + 1) st e2
          = ret_type (st1.setDotMember e2 m) e2 (st1.tu.memberAt m).type := by
        simp only [sema_expr, sema_expr_body, hop2, hb2, Res.bind, hnode2, hpa, hrec, hname,
          if_false, hfind]
      rw [hrun1, hrun2]
      have hlen1 : e1 < (st1.setDotMember e1 m).tu.exprs.length := by
        rw [Sema.exprs_length_setDotMember]; exact he1
      have hlen2 : e2 < (st1.setDotMember e2 m).tu.exprs.length := by
        rw [Sema.exprs_length_setDotMember]; exact he2
      refine ⟨_, _, rfl, rfl, ?_, ?_, Sema.type_setExprType_self _ _ _ hlen1,
        Sema.type_setExprType_self _ _ _ hlen2, rfl, rfl⟩
      · rw [Sema.dot_setExprType, Sema.dot_setDotMember_self _ _ _ he1]
      · rw [Sema.dot_setExprType, Sema.dot_setDotMember_self _ _ _ he2]
    · intro hnone
      have hfind := find_member_eq_none st1.tu (st.exprAt e1).dot.name
        ((st1.typeAt (st1.typeAt t).ptr_to).record.kids_end
          - (st1.typeAt (st1.typeAt t).ptr_to).record.kids_start)
        (st1.typeAt (st1.typeAt t).ptr_to).record.kids_start
        (fun k hk1 hk2 => hnone k hk1 (lt_stop_of_lt_start_add_count _ _ _ hk1 hk2))
      have hrun1 : sema_expr env (fuel + 1) st e1
          = ret_type (sema_error st1 (st.exprAt e1).loc "Could not find member under that name.")
              e1 env.TYPE_VOID := by
        simp only [sema_expr, sema_expr_body, hop1, hb, Res.bind, hnode1, hptr, hped, hrec,
          decide_True, Bool.and_false, if_true, if_false, Bool.false_eq_true, hfind]
      have hrun2 : sema_expr env (fuel + 1) st e2
          = ret_type (sema_error st1 (st.exprAt e2).loc "Could not find member under that name.")
              e2 env.TYPE_VOID := by
        simp only [sema_expr, sema_expr_body, hop2, hb2, Res.bind, hnode2, hpa, hrec, hname,
          if_false, hfind]
      rw [hrun1, hrun2]
      exact ⟨_, _, rfl, rfl, Sema.type_setExprType_self _ _ _ he1,
        Sema.type_setExprType_self _ _ _ he2, rfl, rfl⟩

/-- C20 (witness): with `struct S *ps`, `ps.x` and `ps->x` both get member 0 and
type `int` when `pedantic` is off; with it on, `ps.x` is reported and typed
Void. -/
theorem sema_expr_dot_ptr_as_arrow_witness :
    ((exampleEnv.pedantic = true →
        ∃ st', sema_expr exampleEnv 2 stExample2 25 = Res.ok exampleEnv.TYPE_VOID st'
          ∧ (st'.exprAt 25).type = exampleEnv.TYPE_VOID
          ∧ st'.reports = (sema_expr exampleEnv 1 stExample2 24).state.reports ++
              [{ level := ReportLevel.REPORT_ERROR, loc := (stExample2.exprAt 25).loc,
                 fmt := "Implicit dereference is a non-standard extension (disable -P to allow it)." }])
    ∧ (exampleEnv.pedantic = false →
        (∀ m, ((sema_expr exampleEnv 1 stExample2 24).state.typeAt
              ((sema_expr exampleEnv 1 stExample2 24).state.typeAt 17).ptr_to).record.kids_start ≤ m →
          m < ((sema_expr exampleEnv 1 stExample2 24).state.typeAt
              ((sema_expr exampleEnv 1 stExample2 24).state.typeAt 17).ptr_to).record.kids_end →
          (stExample2.exprAt 25).dot.name = ((sema_expr exampleEnv 1 stExample2 24).state.tu.memberAt m).name →
          (∀ k, ((sema_expr exampleEnv 1 stExample2 24).state.typeAt
              ((sema_expr exampleEnv 1 stExample2 24).state.typeAt 17).ptr_to).record.kids_start ≤ k → k < m →
            (stExample2.exprAt 25).dot.name ≠ ((sema_expr exampleEnv 1 stExample2 24).state.tu.memberAt k).name) →
          ∃ st' st'', sema_expr exampleEnv 2 stExample2 25
              = Res.ok ((sema_expr exampleEnv 1 stExample2 24).state.tu.memberAt m).type st'
            ∧ sema_expr exampleEnv 2 stExample2 26
              = Res.ok ((sema_expr exampleEnv 1 stExample2 24).state.tu.memberAt m).type st''
            ∧ (st'.exprAt 25).dot.member = m ∧ (st''.exprAt 26).dot.member = m
            ∧ (st'.exprAt 25).type = ((sema_expr exampleEnv 1 stExample2 24).state.tu.memberAt m).type
            ∧ (st''.exprAt 26).type = ((sema_expr exampleEnv 1 stExample2 24).state.tu.memberAt m).type
            ∧ st'.reports = (sema_expr exampleEnv 1 stExample2 24).state.reports
            ∧ st''.reports = (sema_expr exampleEnv 1 stExample2 24).state.reports)
        ∧ ((∀ k, ((sema_expr exampleEnv 1 stExample2 24).state.typeAt
              ((sema_expr exampleEnv 1 stExample2 24).state.typeAt 17).ptr_to).record.kids_start ≤ k →
            k < ((sema_expr exampleEnv 1 stExample2 24).state.typeAt
              ((sema_expr exampleEnv 1 stExample2 24).state.typeAt 17).ptr_to).record.kids_end →
            (stExample2.exprAt 25).dot.name ≠ ((sema_expr exampleEnv 1 stExample2 24).state.tu.memberAt k).name) →
          ∃ st' st'', sema_expr exampleEnv 2 stExample2 25 = Res.ok exampleEnv.TYPE_VOID st'
            ∧ sema_expr exampleEnv 2 stExample2 26 = Res.ok exampleEnv.TYPE_VOID st''
            ∧ (st'.exprAt 25).type = exampleEnv.TYPE_VOID ∧ (st''.exprAt 26).type = exampleEnv.TYPE_VOID
            ∧ st'.reports = (sema_expr exampleEnv 1 stExample2 24).state.reports ++
                [{ level := ReportLevel.REPORT_ERROR, loc := (stExample2.exprAt 25).loc,
                   fmt := "Could not find member under that name." }]
            ∧ st''.reports = (sema_expr exampleEnv 1 stExample2 24).state.reports ++
                [{ level := ReportLevel.REPORT_ERROR, loc := (stExample2.exprAt 26).loc,
                   fmt := "Could not find member under that name." }])))
    ∧ ((sema_expr exampleEnv 2 stExample2 25).state.exprAt 25).dot.member = 0
    ∧ ((sema_expr exampleEnv 2 stExample2 26).state.exprAt 26).dot.member = 0
    ∧ ((sema_expr exampleEnv 2 stExample2 25).state.exprAt 25).type = exampleEnv.TYPE_INT
    ∧ ((sema_expr exampleEnv 2 stExample2 26).state.exprAt 26).type = exampleEnv.TYPE_INT
    ∧ ((sema_expr pedanticEnv 2 stExample2 25).state.exprAt 25).type = pedanticEnv.TYPE_VOID
    ∧ (sema_expr pedanticEnv 2 stExample2 25).state.reports
        = [{ level := ReportLevel.REPORT_ERROR, loc := 25,
             fmt := "Implicit dereference is a non-standard extension (disable -P to allow it)." }] :=
  ⟨sema_expr_dot_ptr_as_arrow exampleEnv 1 stExample2 (sema_expr exampleEnv 1 stExample2 24).state
      25 26 17 (by decide) (by decide) (by decide) (by decide) (by rfl) (by decide) (by decide)
      (by decide) (by decide) (by decide) (by decide),
   by decide, by decide, by decide, by decide, by decide, by decide⟩

/-! ### Calls (`sema_expr`, `EXPR_CALL`) -/

namespace Sema

theorem loc_setCastType (st : Sema) (e e' : ExprIndex) (t : TypeIndex) :
    ((st.setCastType e t).exprAt e').loc = (st.exprAt e').loc := by
  rw [exprAt_setCastType]; split_ifs with h
  · rw [h.1]
  · rfl

theorem call_setCastType (st : Sema) (e e' : ExprIndex) (t : TypeIndex) :
    ((st.setCastType e t).exprAt e').call = (st.exprAt e').call := by
  rw [exprAt_setCastType]; split_ifs with h
  · rw [h.1]
  · rfl

theorem typeAt_setCastType (st : Sema) (e : ExprIndex) (t : TypeIndex) (i : TypeIndex) :
    (st.setCastType e t).typeAt i = st.typeAt i := rfl

theorem reports_setCastType (st : Sema) (e : ExprIndex) (t : TypeIndex) :
    (st.setCastType e t).reports = st.reports := rfl

end Sema

/-- One iteration of the argument loop whose argument is checked and converts:
the loop continues with the next argument. -/
theorem check_call_args_step (env : Env) (sema : Sema → ExprIndex → Res TypeIndex)
    (args : List ExprIndex) (param_list : ParamIndex) (to_param : Bool)
    (count : Nat) (st : Sema) (i : Nat) (t : TypeIndex) (s1 : Sema)
    (h : sema st (args.getD i 0) = Res.ok t s1)
    (hc : ¬ (type_compatible env s1.tu t (s1.tu.paramAt (param_list + i)).type
        (args.getD i 0)).1 = false) :
    check_call_args env sema args param_list to_param (count + 1) st i
      = check_call_args env sema args param_list to_param count
          ((s1.withTu (type_compatible env s1.tu t (s1.tu.paramAt (param_list + i)).type
              (args.getD i 0)).2).setCastType (args.getD i 0)
            (if to_param then
              ((s1.withTu (type_compatible env s1.tu t (s1.tu.paramAt (param_list + i)).type
                (args.getD i 0)).2).tu.paramAt (param_list + i)).type
             else ((s1.withTu (type_compatible env s1.tu t (s1.tu.paramAt (param_list + i)).type
                (args.getD i 0)).2).exprAt (args.getD i 0)).type)) (i + 1) := by
  rw [check_call_args]
  simp only [h, Res.bind, if_neg hc]

/-- One iteration of the argument loop whose argument is checked and does not
convert: if the loop returns (the two `type_as_string` calls do), it stops with
a report. -/
theorem check_call_args_stop (env : Env) (sema : Sema → ExprIndex → Res TypeIndex)
    (args : List ExprIndex) (param_list : ParamIndex) (to_param : Bool)
    (count : Nat) (st : Sema) (i : Nat) (t : TypeIndex) (s1 : Sema)
    (h : sema st (args.getD i 0) = Res.ok t s1)
    (hc : (type_compatible env s1.tu t (s1.tu.paramAt (param_list + i)).type
        (args.getD i 0)).1 = false)
    (v : Bool) (st' : Sema)
    (hrun : check_call_args env sema args param_list to_param (count + 1) st i = Res.ok v st') :
    v = false
      ∧ st' = sema_error (s1.withTu (type_compatible env s1.tu t (s1.tu.paramAt (param_list + i)).type
              (args.getD i 0)).2)
            ((s1.withTu (type_compatible env s1.tu t (s1.tu.paramAt (param_list + i)).type
              (args.getD i 0)).2).exprAt (args.getD i 0)).loc
            "Could not implicitly convert type %s into %s." := by
  rw [check_call_args] at hrun
  simp only [h, Res.bind, if_pos hc] at hrun
  obtain ⟨-, hk⟩ := with_type_string_eq_ok _ _ _ _ _ _ hrun
  obtain ⟨-, hk2⟩ := with_type_string_eq_ok _ _ _ _ _ _ hk
  simp only [Res.ok.injEq] at hk2
  exact ⟨hk2.1.symm, hk2.2.symm⟩

/-- When the argument loop completes, every argument in its range was checked,
in order, each from the state left by the iterations before it. -/
theorem check_call_args_all_checked (env : Env) (sema : Sema → ExprIndex → Res TypeIndex)
    (args : List ExprIndex) (param_list : ParamIndex) (to_param : Bool) :
    ∀ (count : Nat) (st : Sema) (i : Nat) (st' : Sema),
      check_call_args env sema args param_list to_param count st i = Res.ok true st' →
      ∀ k, k < count → ∃ s t s',
        check_call_args env sema args param_list to_param k st i = Res.ok true s
        ∧ sema s (args.getD (i + k) 0) = Res.ok t s' := by
  intro count
  induction count with
  | zero => intro st i st' _ k hk; exact absurd hk (Nat.not_lt_zero k)
  | succ n ih =>
    intro st i st' hrun k hk
    cases hs : sema st (args.getD i 0) with
    | abort => rw [check_call_args] at hrun; simp only [hs, Res.bind] at hrun; cases hrun
    | out_of_fuel => rw [check_call_args] at hrun; simp only [hs, Res.bind] at hrun; cases hrun
    | ok t s1 =>
      by_cases hc : (type_compatible env s1.tu t (s1.tu.paramAt (param_list + i)).type
          (args.getD i 0)).1 = false
      · have hv := (check_call_args_stop env sema args param_list to_param n st i t s1 hs hc
          true st' hrun).1
        cases hv
      · rw [check_call_args_step env sema args param_list to_param n st i t s1 hs hc] at hrun
        cases k with
        | zero => exact ⟨st, t, s1, rfl, hs⟩
        | succ k' =>
          obtain ⟨s, t', s', h1, h2⟩ := ih _ (i + 1) st' hrun k' (Nat.lt_of_succ_lt_succ hk)
          refine ⟨s, t', s', ?_, ?_⟩
          · rw [check_call_args_step env sema args param_list to_param k' st i t s1 hs hc]
            exact h1
          · rw [Nat.add_assoc, Nat.add_comm 1 k'] at h2; exact h2

/-- When the argument loop stops on a conversion error, it stops at some
argument `k`: the arguments before it were checked and converted, argument `k`
was checked and does not convert, and the loop's final state is the state
right after the check of argument `k` plus the report.  Nothing after
argument `k` is executed. -/
theorem check_call_args_stops_at (env : Env) (sema : Sema → ExprIndex → Res TypeIndex)
    (args : List ExprIndex) (param_list : ParamIndex) (to_param : Bool) :
    ∀ (count : Nat) (st : Sema) (i : Nat) (st' : Sema),
      check_call_args env sema args param_list to_param count st i = Res.ok false st' →
      ∃ k, k < count ∧ ∃ s t s',
        check_call_args env sema args param_list to_param k st i = Res.ok true s
        ∧ sema s (args.getD (i + k) 0) = Res.ok t s'
        ∧ (type_compatible env s'.tu t (s'.tu.paramAt (param_list + (i + k))).type
            (args.getD (i + k) 0)).1 = false
        ∧ st' = sema_error
            (s'.withTu (type_compatible env s'.tu t (s'.tu.paramAt (param_list + (i + k))).type
              (args.getD (i + k) 0)).2)
            ((s'.withTu (type_compatible env s'.tu t (s'.tu.paramAt (param_list + (i + k))).type
              (args.getD (i + k) 0)).2).exprAt (args.getD (i + k) 0)).loc
            "Could not implicitly convert type %s into %s." := by
  intro count
  induction count with
  | zero => intro st i st' hrun; rw [check_call_args] at hrun; simp at hrun
  | succ n ih =>
    intro st i st' hrun
    cases hs : sema st (args.getD i 0) with
    | abort => rw [check_call_args] at hrun; simp only [hs, Res.bind] at hrun; cases hrun
    | out_of_fuel => rw [check_call_args] at hrun; simp only [hs, Res.bind] at hrun; cases hrun
    | ok t s1 =>
      by_cases hc : (type_compatible env s1.tu t (s1.tu.paramAt (param_list + i)).type
          (args.getD i 0)).1 = false
      · exact ⟨0, Nat.succ_pos n, st, t, s1, rfl, hs, hc,
          (check_call_args_stop env sema args param_list to_param n st i t s1 hs hc
            false st' hrun).2⟩
      · rw [check_call_args_step env sema args param_list to_param n st i t s1 hs hc] at hrun
        obtain ⟨k, hk, s, t', s', h1, h2, h3, h4⟩ := ih _ (i + 1) st' hrun
        refine ⟨k + 1, Nat.succ_lt_succ hk, s, t', s', ?_, ?_, ?_, ?_⟩
        · rw [check_call_args_step env sema args param_list to_param k st i t s1 hs hc]
          exact h1
        · rw [Nat.add_assoc, Nat.add_comm 1 k] at h2; exact h2
        · rw [Nat.add_assoc, Nat.add_comm 1 k] at h3; exact h3
        · rw [Nat.add_assoc, Nat.add_comm 1 k] at h4; exact h4

/-- One iteration of the loop over the untyped arguments of a variadic call. -/
theorem check_untyped_args_step (sema : Sema → ExprIndex → Res TypeIndex)
    (args : List ExprIndex) (count : Nat) (st : Sema) (i : Nat) (t : TypeIndex) (s1 : Sema)
    (h : sema st (args.getD i 0) = Res.ok t s1) :
    check_untyped_args sema args (count + 1) st i
      = check_untyped_args sema args count (s1.setCastType (args.getD i 0) t) (i + 1) := by
  rw [check_untyped_args]
  simp only [h, Res.bind]

/-- When the loop over the untyped arguments returns, every argument in its
range was checked, in order, each from the state left by the iterations before
it. -/
theorem check_untyped_args_all_checked (sema : Sema → ExprIndex → Res TypeIndex)
    (args : List ExprIndex) :
    ∀ (count : Nat) (st : Sema) (i : Nat) (u : Unit) (st' : Sema),
      check_untyped_args sema args count st i = Res.ok u st' →
      ∀ k, k < count → ∃ s t s',
        check_untyped_args sema args k st i = Res.ok () s
        ∧ sema s (args.getD (i + k) 0) = Res.ok t s' := by
  intro count
  induction count with
  | zero => intro st i u st' _ k hk; exact absurd hk (Nat.not_lt_zero k)
  | succ n ih =>
    intro st i u st' hrun k hk
    cases hs : sema st (args.getD i 0) with
    | abort => rw [check_untyped_args] at hrun; simp only [hs, Res.bind] at hrun; cases hrun
    | out_of_fuel => rw [check_untyped_args] at hrun; simp only [hs, Res.bind] at hrun; cases hrun
    | ok t s1 =>
      rw [check_untyped_args_step sema args n st i t s1 hs] at hrun
      cases k with
      | zero => exact ⟨st, t, s1, rfl, hs⟩
      | succ k' =>
        obtain ⟨s, t', s', h1, h2⟩ := ih _ (i + 1) u st' hrun k' (Nat.lt_of_succ_lt_succ hk)
        refine ⟨s, t', s', ?_, ?_⟩
        · rw [check_untyped_args_step sema args k' st i t s1 hs]
          exact h1
        · rw [Nat.add_assoc, Nat.add_comm 1 k'] at h2; exact h2

/-- A node other than the call keeps what the failing argument's check left in
it when the loop stops with a report and the call's type is stored. -/
theorem exprAt_after_conversion_error (env : Env) (s' : Sema) (e a x : ExprIndex)
    (t p r : TypeIndex) (loc : SourceLocIndex) (fmt : String) (ha : a ≠ e) :
    ((sema_error (s'.withTu (type_compatible env s'.tu t p x).2) loc fmt).setExprType e r).exprAt a
      = s'.exprAt a := by
  rw [Sema.exprAt_setExprType, if_neg (fun h => ha h.1)]
  exact exprAt_congr _ _ (type_compatible_exprs env s'.tu t p x) a

/-- The report of a conversion error carries the location of the argument. -/
theorem reports_after_conversion_error (env : Env) (s' : Sema) (e x : ExprIndex)
    (t p r : TypeIndex) (fmt : String) :
    ((sema_error (s'.withTu (type_compatible env s'.tu t p x).2)
        ((s'.withTu (type_compatible env s'.tu t p x).2).exprAt x).loc fmt).setExprType e r).reports
      = s'.reports ++ [{ level := ReportLevel.REPORT_ERROR, loc := (s'.exprAt x).loc, fmt := fmt }] := by
  have hloc : (s'.withTu (type_compatible env s'.tu t p x).2).exprAt x = s'.exprAt x :=
    exprAt_congr _ _ (type_compatible_exprs env s'.tu t p x) x
  rw [hloc]
  rfl

/-- C16 (counterexample): with `int f(int a, int *b)`, the call `f(1)` reports
the argument-count mismatch and leaves its argument `1` unchecked: the
argument's node is unchanged and its type is still the null handle 0 (a check
would assign `int`).  The call `f(p, 9)` with `int *p` reports the conversion
error for `p` and leaves its second argument `9` unchecked in the same way. -/
theorem sema_expr_call_error_skips_args :
    ∃ st' st'',
      sema_expr exampleEnv 2 stExample2 13 = Res.ok exampleEnv.TYPE_INT st'
      ∧ (stExample2.exprAt 13).op = ExprOp.EXPR_CALL
      ∧ (stExample2.exprAt 13).call.param_start = [3]
      ∧ st'.reports = [{ level := ReportLevel.REPORT_ERROR, loc := 13,
                         fmt := "Argument count mismatch (expected %d, got %d)" }]
      ∧ st'.exprAt 3 = stExample2.exprAt 3
      ∧ (st'.exprAt 3).type = 0
      ∧ ((sema_expr exampleEnv 1 stExample2 3).state.exprAt 3).type = exampleEnv.TYPE_INT
      ∧ sema_expr exampleEnv 2 stExample2 14 = Res.ok exampleEnv.TYPE_INT st''
      ∧ (stExample2.exprAt 14).op = ExprOp.EXPR_CALL
      ∧ (stExample2.exprAt 14).call.param_start = [2, 15]
      ∧ st''.reports = [{ level := ReportLevel.REPORT_ERROR, loc := 2,
                          fmt := "Could not implicitly convert type %s into %s." }]
      ∧ (st''.exprAt 2).type = 11
      ∧ st''.exprAt 15 = stExample2.exprAt 15
      ∧ (st''.exprAt 15).type = 0
      ∧ ((sema_expr exampleEnv 1 stExample2 15).state.exprAt 15).type = exampleEnv.TYPE_INT :=
  ⟨_, _, rfl, by decide, by decide, by decide, by decide, by decide, by decide,
    rfl, by decide, by decide, by decide, by decide, by decide, by decide, by decide⟩

/-- C16 (amended): let `e` be a Call node whose target is checked to type `tf`
(leaving `e` untouched), `fp` the function type after the implicit
dereference.  When an argument-count error is reported, `sema_expr` returns
and no argument is checked: every node other than the call and its target is
as the target's check left it.  When the counts are accepted and the argument
loops return: if they complete, every argument was checked, in order, each
from the state left by the arguments before it; if the typed loop stops on a
conversion error at argument `k`, the arguments up to `k` were checked, the
report is added to the state left by the check of argument `k`, and every
node other than the call is as that check left it, so no later argument is
checked. -/
theorem sema_expr_call_args_checked (env : Env) (fuel : Nat) (st st1 : Sema) (e : ExprIndex)
    (tf fp : TypeIndex)
    (hop : (st.exprAt e).op = ExprOp.EXPR_CALL)
    (ht : sema_expr env fuel st (st.exprAt e).call.target = Res.ok tf st1)
    (hnode1 : st1.exprAt e = st.exprAt e)
    (hfp : fp = if (st1.typeAt tf).kind = KIND_PTR then (st1.typeAt tf).ptr_to else tf)
    (hfunc : (st1.typeAt fp).kind = KIND_FUNC) :
    ((st1.typeAt fp).func.has_varargs = false →
        (st.exprAt e).call.param_count ≠ (st1.typeAt fp).func.param_count →
        ∃ st', sema_expr env (fuel + 1) st e = Res.ok (st1.typeAt fp).func.return_type st'
          ∧ st'.reports = st1.reports ++
              [{ level := ReportLevel.REPORT_ERROR, loc := (st.exprAt e).loc,
                 fmt := "Argument count mismatch (expected %d, got %d)" }]
          ∧ ∀ a, a ≠ e → a ≠ (st.exprAt e).call.target → st'.exprAt a = st1.exprAt a)
    ∧ ((st1.typeAt fp).func.has_varargs = true →
        (st.exprAt e).call.param_count < (st1.typeAt fp).func.param_count →
        ∃ st', sema_expr env (fuel + 1) st e = Res.ok (st1.typeAt fp).func.return_type st'
          ∧ st'.reports = st1.reports ++
              [{ level := ReportLevel.REPORT_ERROR, loc := (st.exprAt e).loc,
                 fmt := "Not enough arguments (expected at least %d, got %d)" }]
          ∧ ∀ a, a ≠ e → a ≠ (st.exprAt e).call.target → st'.exprAt a = st1.exprAt a)
    ∧ ((st1.typeAt fp).func.has_varargs = false →
        (st.exprAt e).call.param_count = (st1.typeAt fp).func.param_count →
        ∀ done st2,
          check_call_args env (sema_expr env fuel) (st.exprAt e).call.param_start
            (st1.typeAt fp).func.param_list false (st.exprAt e).call.param_count
            (st1.setCastType (st.exprAt e).call.target fp) 0 = Res.ok done st2 →
          ∃ st', sema_expr env (fuel + 1) st e = Res.ok (st2.typeAt fp).func.return_type st'
            ∧ (done = true → ∀ k, k < (st.exprAt e).call.param_count → ∃ s t s',
                check_call_args env (sema_expr env fuel) (st.exprAt e).call.param_start
                  (st1.typeAt fp).func.param_list false k
                  (st1.setCastType (st.exprAt e).call.target fp) 0 = Res.ok true s
                ∧ sema_expr env fuel s ((st.exprAt e).call.param_start.getD k 0) = Res.ok t s')
            ∧ (done = false → ∃ k, k < (st.exprAt e).call.param_count ∧ ∃ s t s',
                check_call_args env (sema_expr env fuel) (st.exprAt e).call.param_start
                  (st1.typeAt fp).func.param_list false k
                  (st1.setCastType (st.exprAt e).call.target fp) 0 = Res.ok true s
                ∧ sema_expr env fuel s ((st.exprAt e).call.param_start.getD k 0) = Res.ok t s'
                ∧ st'.reports = s'.reports ++
                    [{ level := ReportLevel.REPORT_ERROR,
                       loc := (s'.exprAt ((st.exprAt e).call.param_start.getD k 0)).loc,
                       fmt := "Could not implicitly convert type %s into %s." }]
                ∧ ∀ a, a ≠ e → st'.exprAt a = s'.exprAt a))
    ∧ ((st1.typeAt fp).func.has_varargs = true →
        ¬ (st.exprAt e).call.param_count < (st1.typeAt fp).func.param_count →
        ∀ st2,
          check_call_args env (sema_expr env fuel) (st.exprAt e).call.param_start
            (st1.typeAt fp).func.param_list true (st1.typeAt fp).func.param_count
            (st1.setCastType (st.exprAt e).call.target fp) 0 = Res.ok false st2 →
          ∃ st', sema_expr env (fuel + 1) st e = Res.ok (st2.typeAt fp).func.return_type st'
            ∧ ∃ k, k < (st1.typeAt fp).func.param_count ∧ ∃ s t s',
                check_call_args env (sema_expr env fuel) (st.exprAt e).call.param_start
                  (st1.typeAt fp).func.param_list true k
                  (st1.setCastType (st.exprAt e).call.target fp) 0 = Res.ok true s
                ∧ sema_expr env fuel s ((st.exprAt e).call.param_start.getD k 0) = Res.ok t s'
                ∧ st'.reports = s'.reports ++
                    [{ level := ReportLevel.REPORT_ERROR,
                       loc := (s'.exprAt ((st.exprAt e).call.param_start.getD k 0)).loc,
                       fmt := "Could not implicitly convert type %s into %s." }]
                ∧ ∀ a, a ≠ e → st'.exprAt a = s'.exprAt a)
    ∧ ((st1.typeAt fp).func.has_varargs = true →
        ¬ (st.exprAt e).call.param_count < (st1.typeAt fp).func.param_count →
        ∀ st2 u st3,
          check_call_args env (sema_expr env fuel) (st.exprAt e).call.param_start
            (st1.typeAt fp).func.param_list true (st1.typeAt fp).func.param_count
            (st1.setCastType (st.exprAt e).call.target fp) 0 = Res.ok true st2 →
          check_untyped_args (sema_expr env fuel) (st.exprAt e).call.param_start
            ((st.exprAt e).call.param_count - (st1.typeAt fp).func.param_count) st2
            (st1.typeAt fp).func.param_count = Res.ok u st3 →
          ∃ st', sema_expr env (fuel + 1) st e = Res.ok (st3.typeAt fp).func.return_type st'
            ∧ (∀ k, k < (st1.typeAt fp).func.param_count → ∃ s t s',
                check_call_args env (sema_expr env fuel) (st.exprAt e).call.param_start
                  (st1.typeAt fp).func.param_list true k
                  (st1.setCastType (st.exprAt e).call.target fp) 0 = Res.ok true s
                ∧ sema_expr env fuel s ((st.exprAt e).call.param_start.getD k 0) = Res.ok t s')
            ∧ (∀ k, k < (st.exprAt e).call.param_count - (st1.typeAt fp).func.param_count →
                ∃ s t s',
                check_untyped_args (sema_expr env fuel) (st.exprAt e).call.param_start k st2
                  (st1.typeAt fp).func.param_count = Res.ok () s
                ∧ sema_expr env fuel s
                    ((st.exprAt e).call.param_start.getD ((st1.typeAt fp).func.param_count + k) 0)
                    = Res.ok t s')) := by
  have hfunc' : ¬ (st1.typeAt fp).kind ≠ KIND_FUNC := by simp [hfunc]
  have hframe : ∀ (loc : SourceLocIndex) (fmt : String) (r : TypeIndex) (a : ExprIndex),
      a ≠ e → a ≠ (st.exprAt e).call.target →
      ((sema_error (st1.setCastType (st.exprAt e).call.target fp) loc fmt).setExprType e r).exprAt a
        = st1.exprAt a := by
    intro loc fmt r a ha1 ha2
    rw [Sema.exprAt_setExprType, if_neg (fun h => ha1 h.1), exprAt_sema_error,
      Sema.exprAt_setCastType, if_neg (fun h => ha2 h.1)]
  refine ⟨?_, ?_, ?_, ?_, ?_⟩
  · intro hv hcount
    have hrun : sema_expr env (fuel + 1) st e
        = ret_type (sema_error (st1.setCastType (st.exprAt e).call.target fp) (st.exprAt e).loc
            "Argument count mismatch (expected %d, got %d)") e (st1.typeAt fp).func.return_type := by
      simp only [sema_expr, sema_expr_body, hop, ht, Res.bind, hnode1, ← hfp, hfunc',
        Sema.typeAt_setCastType, Sema.loc_setCastType, Sema.call_setCastType, hv, hcount,
        if_false, if_true, Bool.false_eq_true, ne_eq, not_false_eq_true]
      rfl
    rw [hrun]
    exact ⟨_, rfl, rfl, hframe _ _ _⟩
  · intro hv hcount
    have hrun : sema_expr env (fuel + 1) st e
        = ret_type (sema_error (st1.setCastType (st.exprAt e).call.target fp) (st.exprAt e).loc
            "Not enough arguments (expected at least %d, got %d)") e
            (st1.typeAt fp).func.return_type := by
      simp only [sema_expr, sema_expr_body, hop, ht, Res.bind, hnode1, ← hfp, hfunc',
        Sema.typeAt_setCastType, Sema.loc_setCastType, Sema.call_setCastType, hv, hcount,
        if_false, if_true]
      rfl
    rw [hrun]
    exact ⟨_, rfl, rfl, hframe _ _ _⟩
  · intro hv hcount done st2 hargs
    have hrun : sema_expr env (fuel + 1) st e
        = ret_type st2 e (st2.typeAt fp).func.return_type := by
      simp only [sema_expr, sema_expr_body, hop, ht, Res.bind, hnode1, ← hfp, hfunc',
        Sema.typeAt_setCastType, Sema.loc_setCastType, Sema.call_setCastType, hv, hcount,
        if_false, if_true, Bool.false_eq_true, ne_eq, not_true_eq_false]
      rw [← hcount, hargs]
    rw [hrun]
    refine ⟨_, rfl, ?_, ?_⟩
    · intro hd k hk
      rw [hd] at hargs
      obtain ⟨s, t, s', h1, h2⟩ := check_call_args_all_checked env (sema_expr env fuel) _
        _ false _ _ 0 st2 hargs k hk
      rw [Nat.zero_add] at h2
      exact ⟨s, t, s', h1, h2⟩
    · intro hd
      rw [hd] at hargs
      obtain ⟨k, hk, s, t, s', h1, h2, _, h4⟩ := check_call_args_stops_at env
        (sema_expr env fuel) _ _ false _ _ 0 st2 hargs
      rw [Nat.zero_add] at h2 h4
      refine ⟨k, hk, s, t, s', h1, h2, ?_, ?_⟩
      · rw [h4]
        exact reports_after_conversion_error env s' e _ _ _ _ _
      · intro a ha
        rw [h4]
        exact exprAt_after_conversion_error env s' e a _ _ _ _ _ _ ha
  · intro hv hcount st2 hargs
    have hrun : sema_expr env (fuel + 1) st e
        = ret_type st2 e (st2.typeAt fp).func.return_type := by
      simp only [sema_expr, sema_expr_body, hop, ht, Res.bind, hnode1, ← hfp, hfunc',
        Sema.typeAt_setCastType, Sema.loc_setCastType, Sema.call_setCastType, hv, hcount,
        if_false, if_true, hargs, Bool.false_eq_true]
    rw [hrun]
    refine ⟨_, rfl, ?_⟩
    obtain ⟨k, hk, s, t, s', h1, h2, _, h4⟩ := check_call_args_stops_at env
      (sema_expr env fuel) _ _ true _ _ 0 st2 hargs
    rw [Nat.zero_add] at h2 h4
    refine ⟨k, hk, s, t, s', h1, h2, ?_, ?_⟩
    · rw [h4]
      exact reports_after_conversion_error env s' e _ _ _ _ _
    · intro a ha
      rw [h4]
      exact exprAt_after_conversion_error env s' e a _ _ _ _ _ _ ha
  · intro hv hcount st2 u st3 hargs hrest
    have hrun : sema_expr env (fuel + 1) st e
        = ret_type st3 e (st3.typeAt fp).func.return_type := by
      simp only [sema_expr, sema_expr_body, hop, ht, Res.bind, hnode1, ← hfp, hfunc',
        Sema.typeAt_setCastType, Sema.loc_setCastType, Sema.call_setCastType, hv, hcount,
        if_false, if_true, hargs, hrest]
    rw [hrun]
    refine ⟨_, rfl, ?_, ?_⟩
    · intro k hk
      obtain ⟨s, t, s', h1, h2⟩ := check_call_args_all_checked env (sema_expr env fuel) _
        _ true _ _ 0 st2 hargs k hk
      rw [Nat.zero_add] at h2
      exact ⟨s, t, s', h1, h2⟩
    · intro k hk
      exact check_untyped_args_all_checked (sema_expr env fuel) _ _ _ _ u st3 hrest k hk

/-- C16 (witness): `f(1)` reports the count mismatch and every node other than
the call and its target `f` is as the target's check left it; `f(1, 0)` passes
the count test, its loop completes, and both arguments are checked. -/
theorem sema_expr_call_args_checked_witness :
    (∃ st', sema_expr exampleEnv 2 stExample2 13
        = Res.ok ((sema_expr exampleEnv 1 stExample2 11).state.typeAt 18).func.return_type st'
      ∧ st'.reports = (sema_expr exampleEnv 1 stExample2 11).state.reports ++
          [{ level := ReportLevel.REPORT_ERROR, loc := (stExample2.exprAt 13).loc,
             fmt := "Argument count mismatch (expected %d, got %d)" }]
      ∧ ∀ a, a ≠ 13 → a ≠ (stExample2.exprAt 13).call.target →
          st'.exprAt a = (sema_expr exampleEnv 1 stExample2 11).state.exprAt a)
    ∧ (∃ st', sema_expr exampleEnv 2 stExample2 12
        = Res.ok ((check_call_args exampleEnv (sema_expr exampleEnv 1)
              (stExample2.exprAt 12).call.param_start
              ((sema_expr exampleEnv 1 stExample2 11).state.typeAt 18).func.param_list false
              (stExample2.exprAt 12).call.param_count
              ((sema_expr exampleEnv 1 stExample2 11).state.setCastType
                (stExample2.exprAt 12).call.target 18) 0).state.typeAt 18).func.return_type st'
      ∧ (true = true → ∀ k, k < (stExample2.exprAt 12).call.param_count → ∃ s t s',
          check_call_args exampleEnv (sema_expr exampleEnv 1)
              (stExample2.exprAt 12).call.param_start
              ((sema_expr exampleEnv 1 stExample2 11).state.typeAt 18).func.param_list false k
              ((sema_expr exampleEnv 1 stExample2 11).state.setCastType
                (stExample2.exprAt 12).call.target 18) 0 = Res.ok true s
          ∧ sema_expr exampleEnv 1 s ((stExample2.exprAt 12).call.param_start.getD k 0)
              = Res.ok t s')
      ∧ (true = false → ∃ k, k < (stExample2.exprAt 12).call.param_count ∧ ∃ s t s',
          check_call_args exampleEnv (sema_expr exampleEnv 1)
              (stExample2.exprAt 12).call.param_start
              ((sema_expr exampleEnv 1 stExample2 11).state.typeAt 18).func.param_list false k
              ((sema_expr exampleEnv 1 stExample2 11).state.setCastType
                (stExample2.exprAt 12).call.target 18) 0 = Res.ok true s
          ∧ sema_expr exampleEnv 1 s ((stExample2.exprAt 12).call.param_start.getD k 0)
              = Res.ok t s'
          ∧ st'.reports = s'.reports ++
              [{ level := ReportLevel.REPORT_ERROR,
                 loc := (s'.exprAt ((stExample2.exprAt 12).call.param_start.getD k 0)).loc,
                 fmt := "Could not implicitly convert type %s into %s." }]
          ∧ ∀ a, a ≠ 12 → st'.exprAt a = s'.exprAt a))
    ∧ (stExample2.exprAt 12).call.param_start = [3, 1]
    ∧ ((sema_expr exampleEnv 2 stExample2 12).state.exprAt 3).type = exampleEnv.TYPE_INT
    ∧ ((sema_expr exampleEnv 2 stExample2 12).state.exprAt 1).type = exampleEnv.TYPE_INT
    ∧ (sema_expr exampleEnv 2 stExample2 12).state.reports = [] :=
  ⟨(sema_expr_call_args_checked exampleEnv 1 stExample2 (sema_expr exampleEnv 1 stExample2 11).state
      13 18 18 (by decide) (by rfl) (by decide) (by decide) (by decide)).1
      (by decide) (by decide),
   (sema_expr_call_args_checked exampleEnv 1 stExample2 (sema_expr exampleEnv 1 stExample2 11).state
      12 18 18 (by decide) (by rfl) (by decide) (by decide) (by decide)).2.2.1
      (by decide) (by decide) true _ (by rfl),
   by decide, by decide, by decide, by decide⟩

/-! ### The type stored in a checked node -/

theorem stores_type_ret (st : Sema) (e : ExprIndex) (t : TypeIndex) :
    StoresType e (ret_type st e t) := by
  intro t' st' h
  simp only [ret_type, Res.ok.injEq] at h
  exact ⟨st, by rw [← h.1, ← h.2]⟩

theorem stores_type_abort (e : ExprIndex) : StoresType e Res.abort := by
  intro t st' h; cases h

theorem stores_type_out_of_fuel (e : ExprIndex) : StoresType e Res.out_of_fuel := by
  intro t st' h; cases h

theorem stores_type_bind {α : Type} (e : ExprIndex) (r : Res α) (k : α → Sema → Res TypeIndex)
    (h : ∀ v s, StoresType e (k v s)) : StoresType e (r.bind k) := by
  cases r with
  | ok v s => exact h v s
  | abort => exact stores_type_abort e
  | out_of_fuel => exact stores_type_out_of_fuel e

theorem stores_type_ite (e : ExprIndex) (c : Prop) [Decidable c] (a b : Res TypeIndex)
    (ha : StoresType e a) (hb : StoresType e b) : StoresType e (if c then a else b) := by
  split_ifs
  · exact ha
  · exact hb

theorem stores_type_with_type_string (env : Env) (e : ExprIndex) (st : Sema) (t : TypeIndex)
    (k : Res TypeIndex) (h : StoresType e k) : StoresType e (with_type_string env st t k) := by
  rcases with_type_string_cases env st t k with h1 | h1 <;> rw [h1]
  · exact h
  · exact stores_type_abort e

theorem sema_expr_ptr_arith_stores (env : Env) (st : Sema) (e : ExprIndex) (lhs rhs : TypeIndex) :
    StoresType e (sema_expr_ptr_arith env st e lhs rhs) := by
  unfold sema_expr_ptr_arith
  repeat' first
    | exact stores_type_ret _ _ _
    | apply stores_type_ite

theorem sema_expr_arith_stores (env : Env) (st : Sema) (e : ExprIndex) (lhs rhs : TypeIndex) :
    StoresType e (sema_expr_arith env st e lhs rhs) := by
  unfold sema_expr_arith
  repeat' first
    | exact stores_type_ret _ _ _
    | exact sema_expr_ptr_arith_stores _ _ _ _ _
    | apply stores_type_with_type_string
    | apply stores_type_ite

theorem sema_expr_body_stores (env : Env) (self : Sema → ExprIndex → Res TypeIndex) (fuel : Nat)
    (st : Sema) (e : ExprIndex) : StoresType e (sema_expr_body env self fuel st e) := by
  unfold sema_expr_body
  split <;>
  repeat' first
    | exact stores_type_ret _ _ _
    | exact stores_type_abort _
    | exact sema_expr_arith_stores _ _ _ _ _
    | (apply stores_type_bind; intro _ _)
    | apply stores_type_ite
    | split
    | dsimp only

/-- C15 (counterexample): the Symbol node `L` refers to a label; `sema_expr`
returns on it, and the handle it returns and stores is the null handle 0. -/
theorem sema_expr_label_symbol_null_type :
    ∃ st', sema_expr exampleEnv 1 stExample2 10 = Res.ok 0 st'
      ∧ (stExample2.exprAt 10).op = ExprOp.EXPR_SYMBOL
      ∧ (stExample2.stmtAt (stExample2.exprAt 10).symbol).op = StmtOp.STMT_LABEL
      ∧ 10 < st'.tu.exprs.length
      ∧ (st'.exprAt 10).type = 0 :=
  ⟨_, rfl, by decide, by decide, by decide, by decide⟩

/-- C15 (amended): whenever `sema_expr` returns handle `t` on a node `e` of the
expression arena, the node's `type` field equals `t`.  The handle need not be
non-null: on a Symbol node that refers to a label `sema_expr` returns, and the
handle returned and stored is the null handle 0. -/
theorem sema_expr_stores_returned_type (env : Env) (fuel : Nat) (st st' : Sema) (e : ExprIndex)
    (t : TypeIndex)
    (hrun : sema_expr env fuel st e = Res.ok t st')
    (he : e < st'.tu.exprs.length) :
    (st'.exprAt e).type = t
    ∧ ((st.exprAt e).op = ExprOp.EXPR_SYMBOL →
        (st.stmtAt (st.exprAt e).symbol).op = StmtOp.STMT_LABEL → t = 0) := by
  cases fuel with
  | zero => cases hrun
  | succ n =>
    constructor
    · obtain ⟨s, hs⟩ := sema_expr_body_stores env (sema_expr env n) n st e t st' hrun
      rw [hs] at he ⊢
      rw [Sema.exprs_length_setExprType] at he
      exact Sema.type_setExprType_self s e t he
    · intro hop hl
      have h0 : sema_expr env (n + 1) st e = ret_type st e 0 := by
        simp only [sema_expr, sema_expr_body, hop, if_pos hl]
      rw [h0] at hrun
      simp only [ret_type, Res.ok.injEq] at hrun
      exact hrun.1.symm

/-- C15 (witness): `x * 1` returns `int` and stores it in the node; the label
reference `L` returns the null handle and stores it. -/
theorem sema_expr_stores_returned_type_witness :
    (((sema_expr exampleEnv 2 stExample2 5).state.exprAt 5).type = exampleEnv.TYPE_INT
      ∧ ((stExample2.exprAt 5).op = ExprOp.EXPR_SYMBOL →
          (stExample2.stmtAt (stExample2.exprAt 5).symbol).op = StmtOp.STMT_LABEL →
          exampleEnv.TYPE_INT = 0))
    ∧ (((sema_expr exampleEnv 1 stExample2 10).state.exprAt 10).type = 0
      ∧ ((stExample2.exprAt 10).op = ExprOp.EXPR_SYMBOL →
          (stExample2.stmtAt (stExample2.exprAt 10).symbol).op = StmtOp.STMT_LABEL →
          (0 : TypeIndex) = 0)) :=
  ⟨sema_expr_stores_returned_type exampleEnv 2 stExample2
      (sema_expr exampleEnv 2 stExample2 5).state 5 exampleEnv.TYPE_INT (by rfl) (by decide),
   sema_expr_stores_returned_type exampleEnv 1 stExample2
      (sema_expr exampleEnv 1 stExample2 10).state 10 0 (by rfl) (by decide)⟩

/-! ### Integer and string literals (`sema_expr`, `EXPR_INT`, `EXPR_STR`) -/

/-- C21 (evaluation of the code): the unsuffixed literal `2147483648` (2^31, one more
than the largest `int`) is typed Int and nothing is reported; the test compares
the value with its truncation to `unsigned int`, so the first unsuffixed value
that is reported is `4294967296` (2^32), under the message "... as int".  The
literal `9223372036854775808L` (2^63, one more than the largest `long`) is
typed Long and not reported either. -/
theorem sema_expr_int_literal_unreported_overflow :
    ∃ st1 st2 st4,
      (stExample3.exprAt 1).op = ExprOp.EXPR_INT
      ∧ (stExample3.exprAt 1).int_num = { num := 2147483648, suffix := IntSuffix.INT_SUFFIX_NONE }
      ∧ ¬ (2147483648 ≤ 2 ^ 31 - 1)
      ∧ sema_expr exampleEnv 1 stExample3 1 = Res.ok exampleEnv.TYPE_INT st1
      ∧ st1.reports = []
      ∧ (stExample3.exprAt 2).int_num = { num := 4294967296, suffix := IntSuffix.INT_SUFFIX_NONE }
      ∧ sema_expr exampleEnv 1 stExample3 2 = Res.ok exampleEnv.TYPE_INT st2
      ∧ st2.reports = [{ level := ReportLevel.REPORT_ERROR, loc := 2,
                         fmt := "Could not represent integer literal as int. (%ulld or %ullx)" }]
      ∧ (stExample3.exprAt 4).int_num
          = { num := 9223372036854775808, suffix := IntSuffix.INT_SUFFIX_L }
      ∧ ¬ (9223372036854775808 ≤ 2 ^ 63 - 1)
      ∧ sema_expr exampleEnv 1 stExample3 4 = Res.ok exampleEnv.TYPE_LONG st4
      ∧ st4.reports = [] :=
  ⟨_, _, _, by decide, by decide, by decide, rfl, by decide, by decide, rfl, by decide,
    by decide, by decide, rfl, by decide⟩

/-- C22 (evaluation of the code): the narrow string literal with payload `abc`
(raw text of 5 bytes) gets the type array of 4 Char.  The wide string literal
with the same payload (raw text `L`, quote, `abc`, quote: 6 bytes) gets the
type array of 5 Short: the count is the raw length minus one whether or not
the text starts with `L`, so the prefix is counted as a payload byte and the
count is N+2 for N = 3 payload bytes. -/
theorem sema_expr_wide_string_count :
    ∃ t5 st5 t6 st6,
      (stExample3.exprAt 5).op = ExprOp.EXPR_STR
      ∧ (stExample3.exprAt 5).str.length = 3 + 2
      ∧ (stExample3.exprAt 5).str.head? ≠ some 'L'
      ∧ sema_expr exampleEnv 1 stExample3 5 = Res.ok t5 st5
      ∧ (st5.typeAt t5).kind = KIND_ARRAY
      ∧ (st5.typeAt t5).array_of = exampleEnv.TYPE_CHAR
      ∧ (st5.typeAt t5).array_count = 3 + 1
      ∧ (stExample3.exprAt 6).op = ExprOp.EXPR_STR
      ∧ (stExample3.exprAt 6).str.length = 1 + 3 + 2
      ∧ (stExample3.exprAt 6).str.head? = some 'L'
      ∧ (stExample3.exprAt 6).str.tail = (stExample3.exprAt 5).str
      ∧ sema_expr exampleEnv 1 stExample3 6 = Res.ok t6 st6
      ∧ (st6.typeAt t6).kind = KIND_ARRAY
      ∧ (st6.typeAt t6).array_of = exampleEnv.TYPE_SHORT
      ∧ (st6.typeAt t6).array_count = 3 + 2
      ∧ (st6.typeAt t6).array_count ≠ 3 + 1 :=
  ⟨_, _, _, _, by decide, by decide, by decide, rfl, by decide, by decide, by decide,
    by decide, by decide, by decide, by decide, rfl, by decide, by decide, by decide, by decide⟩

/-! ### Reachability pass (`sema_mark_children`, `sema_remove_unused`) -/

namespace Sema

theorem stmtAt_setStmt (st : Sema) (s s' : StmtIndex) (x : Stmt) :
    (st.setStmt s x).stmtAt s' = if s' = s ∧ s < st.tu.stmts.length then x else st.stmtAt s' := by
  unfold Sema.setStmt Sema.stmtAt TranslationUnit.setStmt TranslationUnit.stmtAt
  exact getD_set_eq _ _ _ _ _

theorem stmts_length_setStmt (st : Sema) (s : StmtIndex) (x : Stmt) :
    (st.setStmt s x).tu.stmts.length = st.tu.stmts.length := by
  simp [Sema.setStmt, TranslationUnit.setStmt]

theorem stmtAt_setUsed (st : Sema) (s s' : StmtIndex) :
    (st.setUsed s).stmtAt s'
      = if s' = s ∧ s < st.tu.stmts.length then (st.stmtAt s).markUsed else st.stmtAt s' :=
  stmtAt_setStmt _ _ _ _

theorem stmts_length_setUsed (st : Sema) (s : StmtIndex) :
    (st.setUsed s).tu.stmts.length = st.tu.stmts.length := stmts_length_setStmt _ _ _

theorem exprAt_setUsed (st : Sema) (s : StmtIndex) (e : ExprIndex) :
    (st.setUsed s).exprAt e = st.exprAt e := rfl

end Sema

theorem markUsed_of_used (x : Stmt) (h : x.decl.attrs.is_used = true) : x.markUsed = x := by
  cases x with
  | mk op loc decl backing compound expr return_ goto_ if_ while_ do_while for_ switch_ case_ default_ =>
    cases decl with
    | mk type name initial attrs =>
      cases attrs with
      | mk is_static is_ex is_inline is_used is_root =>
        simp only at h
        subst h
        rfl

theorem stmtAt_default_of_ge (st : Sema) (s : StmtIndex) (h : st.tu.stmts.length ≤ s) :
    st.stmtAt s = {} := by
  show st.tu.stmts.getD s _ = _
  exact List.getD_eq_default _ _ h

/-- Setting the flag of a statement whose flag is set, or of a handle outside
the arena, changes nothing. -/
theorem setUsed_eq_self (st : Sema) (s : StmtIndex)
    (h : (st.stmtAt s).decl.attrs.is_used = true) : st.setUsed s = st := by
  have hlt : s < st.tu.stmts.length := by
    by_contra hge
    rw [stmtAt_default_of_ge st s (Nat.le_of_not_lt hge)] at h
    exact absurd h (by decide)
  have hx : (st.stmtAt s).markUsed = st.stmtAt s := markUsed_of_used _ h
  have hl : st.tu.stmts.set s (st.stmtAt s).markUsed = st.tu.stmts := by
    rw [hx]
    apply List.ext_getElem
    · simp
    · intro n h1 h2
      rw [List.getElem_set]
      split_ifs with hn
      · subst hn
        show st.tu.stmts.getD s _ = _
        rw [List.getD_eq_getElem _ _ h2]
      · rfl
  show ({ st with tu := { st.tu with stmts := st.tu.stmts.set s (st.stmtAt s).markUsed } } : Sema) = st
  rw [hl]

namespace MarksOnly

theorem refl (st : Sema) : MarksOnly st st := ⟨rfl, rfl, fun _ => Or.inl rfl⟩

theorem trans {a b c : Sema} (h1 : MarksOnly a b) (h2 : MarksOnly b c) : MarksOnly a c := by
  obtain ⟨e1, l1, p1⟩ := h1
  obtain ⟨e2, l2, p2⟩ := h2
  refine ⟨?_, l2.trans l1, ?_⟩
  · rw [e2]; rw [e1]
  · intro s
    rcases p2 s with h | h <;> rcases p1 s with h' | h'
    · exact Or.inl (h.trans h')
    · exact Or.inr (h.trans h')
    · exact Or.inr (by rw [h, h'])
    · exact Or.inr (by rw [h, h']; rfl)

theorem setUsed (st : Sema) (s : StmtIndex) : MarksOnly st (st.setUsed s) := by
  refine ⟨rfl, Sema.stmts_length_setUsed st s, ?_⟩
  intro s'
  rw [Sema.stmtAt_setUsed]
  split_ifs with h
  · exact Or.inr (by rw [h.1])
  · exact Or.inl rfl

theorem exprs_eq {a b : Sema} (h : MarksOnly a b) : b.tu.exprs = a.tu.exprs := by
  rw [h.1]

theorem top_level_eq {a b : Sema} (h : MarksOnly a b) :
    b.tu.top_level_stmts = a.tu.top_level_stmts := by
  rw [h.1]

theorem exprAt_eq {a b : Sema} (h : MarksOnly a b) (e : ExprIndex) : b.exprAt e = a.exprAt e :=
  exprAt_congr _ _ h.exprs_eq e

theorem op_eq {a b : Sema} (h : MarksOnly a b) (s : StmtIndex) :
    (b.stmtAt s).op = (a.stmtAt s).op := by
  rcases h.2.2 s with h' | h' <;> (rw [h']; try rfl)

theorem initial_eq {a b : Sema} (h : MarksOnly a b) (s : StmtIndex) :
    (b.stmtAt s).decl.initial = (a.stmtAt s).decl.initial := by
  rcases h.2.2 s with h' | h' <;> (rw [h']; try rfl)

theorem compound_eq {a b : Sema} (h : MarksOnly a b) (s : StmtIndex) :
    (b.stmtAt s).compound = (a.stmtAt s).compound := by
  rcases h.2.2 s with h' | h' <;> (rw [h']; try rfl)

theorem is_root_eq {a b : Sema} (h : MarksOnly a b) (s : StmtIndex) :
    (b.stmtAt s).decl.attrs.is_root = (a.stmtAt s).decl.attrs.is_root := by
  rcases h.2.2 s with h' | h' <;> (rw [h']; try rfl)

theorem used_mono {a b : Sema} (h : MarksOnly a b) (s : StmtIndex)
    (hu : (a.stmtAt s).decl.attrs.is_used = true) : (b.stmtAt s).decl.attrs.is_used = true := by
  rcases h.2.2 s with h' | h'
  · rw [h']; exact hu
  · rw [h']; rfl

theorem first_symbol_eq {a b : Sema} (h : MarksOnly a b) (s : StmtIndex) :
    (b.stmtAt (b.stmtAt s).decl.initial).compound.first_symbol
      = (a.stmtAt (a.stmtAt s).decl.initial).compound.first_symbol := by
  rw [h.initial_eq, h.compound_eq]

end MarksOnly

theorem used_setUsed (st : Sema) (s : StmtIndex) (h : s < st.tu.stmts.length) :
    ((st.setUsed s).stmtAt s).decl.attrs.is_used = true := by
  rw [Sema.stmtAt_setUsed, if_pos ⟨rfl, h⟩]; rfl

/-! Results that keep a relation. -/

theorem keeps_ok {R : Sema → Sema → Prop} {α : Type} (st s : Sema) (v : α) (h : R st s) :
    Keeps R st (Res.ok v s) := by
  intro v' st' heq
  simp only [Res.ok.injEq] at heq
  rw [← heq.2]; exact h

theorem keeps_abort {R : Sema → Sema → Prop} {α : Type} (st : Sema) :
    Keeps R st (Res.abort : Res α) := by
  intro v st' h; cases h

theorem keeps_out_of_fuel {R : Sema → Sema → Prop} {α : Type} (st : Sema) :
    Keeps R st (Res.out_of_fuel : Res α) := by
  intro v st' h; cases h

theorem keeps_bind {R : Sema → Sema → Prop} {α β : Type} (st : Sema) (r : Res α)
    (k : α → Sema → Res β) (hr : Keeps R st r) (hk : ∀ v s, R st s → Keeps R st (k v s)) :
    Keeps R st (r.bind k) := by
  cases r with
  | ok v s => exact hk v s (hr v s rfl)
  | abort => exact keeps_abort st
  | out_of_fuel => exact keeps_out_of_fuel st

theorem keeps_ite {R : Sema → Sema → Prop} {α : Type} (st : Sema) (c : Prop) [Decidable c]
    (a b : Res α) (ha : Keeps R st a) (hb : Keeps R st b) : Keeps R st (if c then a else b) := by
  split_ifs
  · exact ha
  · exact hb

theorem keeps_with_type_string {R : Sema → Sema → Prop} {α : Type} (b : Sema) (env : Env)
    (st : Sema) (t : TypeIndex) (k : Res α) (h : Keeps R b k) :
    Keeps R b (with_type_string env st t k) := by
  rcases with_type_string_cases env st t k with h1 | h1 <;> rw [h1]
  · exact h
  · exact keeps_abort b

theorem keeps_of_rel {R : Sema → Sema → Prop} {α : Type}
    (htrans : ∀ a b c, R a b → R b c → R a c) (st s : Sema) (r : Res α)
    (h : R st s) (hr : Keeps R s r) : Keeps R st r :=
  fun v st' heq => htrans _ _ _ h (hr v st' heq)

theorem keeps_marks_of {α : Type} (st s : Sema) (r : Res α)
    (h : MarksOnly st s) (hr : Keeps MarksOnly s r) : Keeps MarksOnly st r :=
  fun v st' heq => MarksOnly.trans h (hr v st' heq)

/-- The chain loop only sets flags when the call it makes only sets flags. -/
theorem mark_symbol_chain_marks_only (mark : Sema → ExprIndex → Res Unit)
    (hmark : ∀ s e, Keeps MarksOnly s (mark s e)) :
    ∀ (n : Nat) (st : Sema) (sym : ExprIndex),
      Keeps MarksOnly st (mark_symbol_chain mark n st sym) := by
  intro n
  induction n with
  | zero => intro st sym; exact keeps_out_of_fuel st
  | succ n ih =>
    intro st sym
    rw [mark_symbol_chain]
    apply keeps_ite
    · exact keeps_ok _ _ _ (MarksOnly.refl st)
    · apply keeps_bind _ _ _ (hmark st sym)
      intro _ s hs
      exact keeps_marks_of _ _ _ hs (ih s _)

/-- `sema_mark_children` only sets `is_used` flags. -/
theorem sema_mark_children_marks_only :
    ∀ (fuel : Nat) (st : Sema) (e : ExprIndex),
      Keeps MarksOnly st (sema_mark_children fuel st e) := by
  intro fuel
  induction fuel with
  | zero => intro st e; exact keeps_out_of_fuel st
  | succ n ih =>
    intro st e
    rw [sema_mark_children]
    apply keeps_ite
    · exact keeps_ok _ _ _ (MarksOnly.refl st)
    · apply keeps_ite
      · exact keeps_abort st
      · apply keeps_ite
        · apply keeps_ite
          · exact keeps_marks_of _ _ _ (MarksOnly.setUsed st _)
              (mark_symbol_chain_marks_only _ ih n _ _)
          · apply keeps_ite
            · exact keeps_ok _ _ _ (MarksOnly.setUsed st _)
            · exact keeps_ok _ _ _ (MarksOnly.refl st)
        · exact keeps_ok _ _ _ (MarksOnly.refl st)

/-- The loop of `sema_remove_unused` only sets `is_used` flags. -/
theorem sema_remove_unused_loop_marks_only (fuel : Nat) :
    ∀ (count : Nat) (st : Sema) (i : Nat),
      Keeps MarksOnly st (sema_remove_unused_loop fuel count st i) := by
  intro count
  induction count with
  | zero => intro st i; exact keeps_ok _ _ _ (MarksOnly.refl st)
  | succ n ih =>
    intro st i
    rw [sema_remove_unused_loop]
    apply keeps_ite
    · apply keeps_bind
      · apply keeps_ite
        · exact keeps_marks_of _ _ _ (MarksOnly.setUsed st _)
            (mark_symbol_chain_marks_only _ (sema_mark_children_marks_only fuel) fuel _ _)
        · exact keeps_ok _ _ _ (MarksOnly.setUsed st _)
      · intro _ s hs
        exact keeps_marks_of _ _ _ hs (ih s _)
    · exact ih st _

/-- A statement whose flag is clear where a run of `sema_mark_children` on a
symbol referring to it has returned is not a declaration. -/
theorem sema_mark_children_marks_referent (fuel : Nat) (st st' : Sema) (e : ExprIndex) (u : Unit)
    (hrun : sema_mark_children fuel st e = Res.ok u st')
    (hop : (st.exprAt e).op = ExprOp.EXPR_SYMBOL)
    (hd : (st.stmtAt (st.exprAt e).symbol).op = StmtOp.STMT_FUNC_DECL
      ∨ (st.stmtAt (st.exprAt e).symbol).op = StmtOp.STMT_DECL
      ∨ (st.stmtAt (st.exprAt e).symbol).op = StmtOp.STMT_GLOBAL_DECL) :
    (st'.stmtAt (st.exprAt e).symbol).decl.attrs.is_used = true := by
  have hmono := sema_mark_children_marks_only fuel st e u st' hrun
  cases fuel with
  | zero => cases hrun
  | succ n =>
    by_cases hu : (st.stmtAt (st.exprAt e).symbol).decl.attrs.is_used = true
    · exact hmono.used_mono _ hu
    · have hlt : (st.exprAt e).symbol < st.tu.stmts.length := by
        by_contra hge
        rw [stmtAt_default_of_ge st _ (Nat.le_of_not_lt hge)] at hd
        rcases hd with h | h | h <;> exact absurd h (by decide)
      have hne : ¬ (st.exprAt e).op = ExprOp.EXPR_ENUM := by rw [hop]; decide
      have hsym : ¬ (st.exprAt e).op ≠ ExprOp.EXPR_SYMBOL := fun h => h hop
      have hu' : (st.stmtAt (st.exprAt e).symbol).decl.attrs.is_used = false := by
        cases h : (st.stmtAt (st.exprAt e).symbol).decl.attrs.is_used
        · rfl
        · exact absurd h hu
      rw [sema_mark_children] at hrun
      simp only [if_neg hne, if_neg hsym, if_pos hu'] at hrun
      by_cases hf : (st.stmtAt (st.exprAt e).symbol).op = StmtOp.STMT_FUNC_DECL
      · rw [if_pos hf] at hrun
        have h2 := mark_symbol_chain_marks_only _ (sema_mark_children_marks_only n) n _ _ u st' hrun
        exact h2.used_mono _ (used_setUsed st _ hlt)
      · rw [if_neg hf] at hrun
        have hdg : (st.stmtAt (st.exprAt e).symbol).op = StmtOp.STMT_DECL
            ∨ (st.stmtAt (st.exprAt e).symbol).op = StmtOp.STMT_GLOBAL_DECL := by
          rcases hd with h | h | h
          · exact absurd h hf
          · exact Or.inl h
          · exact Or.inr h
        rw [if_pos hdg] at hrun
        simp only [Res.ok.injEq, true_and] at hrun
        rw [← hrun]
        exact used_setUsed st _ hlt

/-- Where a run of `sema_mark_children` has returned, a second run from any
state that is at least as marked returns at once and changes nothing. -/
theorem sema_mark_children_again (fuel : Nat) (st st_a st' : Sema) (e : ExprIndex) (u : Unit)
    (hrun : sema_mark_children fuel st e = Res.ok u st_a)
    (hle : MarksOnly st_a st') :
    sema_mark_children fuel st' e = Res.ok () st' := by
  have hmono := sema_mark_children_marks_only fuel st e u st_a hrun
  have hall := MarksOnly.trans hmono hle
  cases fuel with
  | zero => cases hrun
  | succ n =>
    rw [sema_mark_children]
    rw [hall.exprAt_eq e]
    by_cases hen : (st.exprAt e).op = ExprOp.EXPR_ENUM
    · rw [if_pos hen]
    · rw [if_neg hen]
      by_cases hsym : (st.exprAt e).op = ExprOp.EXPR_SYMBOL
      · rw [if_neg (fun h => h hsym)]
        by_cases hu : (st'.stmtAt (st.exprAt e).symbol).decl.attrs.is_used = false
        · have hnd : ¬ ((st.stmtAt (st.exprAt e).symbol).op = StmtOp.STMT_FUNC_DECL
              ∨ (st.stmtAt (st.exprAt e).symbol).op = StmtOp.STMT_DECL
              ∨ (st.stmtAt (st.exprAt e).symbol).op = StmtOp.STMT_GLOBAL_DECL) := by
            intro hd
            have h1 := sema_mark_children_marks_referent (n + 1) st st_a e u hrun hsym hd
            have h2 := hle.used_mono _ h1
            rw [hu] at h2
            exact absurd h2 (by decide)
          simp only [if_pos hu, hall.op_eq]
          rw [if_neg (fun h => hnd (Or.inl h)),
            if_neg (fun h => hnd (Or.inr h))]
        · rw [if_neg hu]
      · rw [sema_mark_children] at hrun
        rw [if_neg hen, if_pos hsym] at hrun
        cases hrun

/-- Where a run of the chain loop has returned, a second run from any state that
is at least as marked returns and changes nothing. -/
theorem mark_symbol_chain_again (fuel : Nat) :
    ∀ (n : Nat) (st st_b st' : Sema) (sym : ExprIndex) (u : Unit),
      mark_symbol_chain (sema_mark_children fuel) n st sym = Res.ok u st_b →
      MarksOnly st_b st' →
      mark_symbol_chain (sema_mark_children fuel) n st' sym = Res.ok () st' := by
  intro n
  induction n with
  | zero => intro st st_b st' sym u hrun; cases hrun
  | succ n ih =>
    intro st st_b st' sym u hrun hle
    rw [mark_symbol_chain] at hrun ⊢
    by_cases h0 : sym = 0
    · rw [if_pos h0]
    · rw [if_neg h0] at hrun ⊢
      cases hm : sema_mark_children fuel st sym with
      | abort => rw [hm] at hrun; cases hrun
      | out_of_fuel => rw [hm] at hrun; cases hrun
      | ok v st_a =>
        rw [hm] at hrun
        simp only [Res.bind] at hrun
        have hab := mark_symbol_chain_marks_only _ (sema_mark_children_marks_only fuel) n _ _ u st_b hrun
        have ha' : MarksOnly st_a st' := MarksOnly.trans hab hle
        rw [sema_mark_children_again fuel st st_a st' sym v hm ha']
        simp only [Res.bind]
        rw [ha'.exprAt_eq sym]
        exact ih st_a st_b st' _ u hrun hle

/-- Where a run of the loop of `sema_remove_unused` has returned, a second run
from any state that is at least as marked returns and changes nothing. -/
theorem sema_remove_unused_loop_again (fuel : Nat) :
    ∀ (count : Nat) (st st1 st' : Sema) (i : Nat) (u : Unit),
      sema_remove_unused_loop fuel count st i = Res.ok u st1 →
      MarksOnly st st1 → MarksOnly st1 st' →
      sema_remove_unused_loop fuel count st' i = Res.ok () st' := by
  intro count
  induction count with
  | zero => intro st st1 st' i u _ _ _; rfl
  | succ n ih =>
    intro st st1 st' i u hrun h01 hle
    have hall := MarksOnly.trans h01 hle
    rw [sema_remove_unused_loop] at hrun ⊢
    simp only [hall.top_level_eq, hall.is_root_eq]
    simp only at hrun
    by_cases hr : (st.stmtAt (st.tu.top_level_stmts.getD i 0)).decl.attrs.is_root = true
    · rw [if_pos hr] at hrun ⊢
      by_cases hf : ((st.setUsed (st.tu.top_level_stmts.getD i 0)).stmtAt
          (st.tu.top_level_stmts.getD i 0)).op = StmtOp.STMT_FUNC_DECL
      · rw [if_pos hf] at hrun
        cases hc : mark_symbol_chain (sema_mark_children fuel) fuel
            (st.setUsed (st.tu.top_level_stmts.getD i 0))
            ((st.setUsed (st.tu.top_level_stmts.getD i 0)).stmtAt
              ((st.setUsed (st.tu.top_level_stmts.getD i 0)).stmtAt
                (st.tu.top_level_stmts.getD i 0)).decl.initial).compound.first_symbol with
        | abort => rw [hc] at hrun; cases hrun
        | out_of_fuel => rw [hc] at hrun; cases hrun
        | ok v st3 =>
          rw [hc] at hrun
          simp only [Res.bind] at hrun
          have h23 := mark_symbol_chain_marks_only _ (sema_mark_children_marks_only fuel) fuel _ _ v st3 hc
          have h31 := sema_remove_unused_loop_marks_only fuel n st3 (i + 1) u st1 hrun
          have h2' : MarksOnly (st.setUsed (st.tu.top_level_stmts.getD i 0)) st' :=
            MarksOnly.trans h23 (MarksOnly.trans h31 hle)
          have hused : (st'.stmtAt (st.tu.top_level_stmts.getD i 0)).decl.attrs.is_used = true := by
            have hlt : st.tu.top_level_stmts.getD i 0 < st.tu.stmts.length := by
              by_contra hge
              rw [stmtAt_default_of_ge st _ (Nat.le_of_not_lt hge)] at hr
              exact absurd hr (by decide)
            exact h2'.used_mono _ (used_setUsed st _ hlt)
          rw [setUsed_eq_self st' _ hused]
          have hf' : (st'.stmtAt (st.tu.top_level_stmts.getD i 0)).op = StmtOp.STMT_FUNC_DECL := by
            rw [h2'.op_eq]; exact hf
          rw [if_pos hf', h2'.first_symbol_eq,
            mark_symbol_chain_again fuel fuel _ st3 st' _ v hc (MarksOnly.trans h31 hle)]
          simp only [Res.bind]
          exact ih st3 st1 st' (i + 1) u hrun h31 hle
      · rw [if_neg hf] at hrun
        simp only [Res.bind] at hrun
        have h21 := sema_remove_unused_loop_marks_only fuel n _ (i + 1) u st1 hrun
        have h2' : MarksOnly (st.setUsed (st.tu.top_level_stmts.getD i 0)) st' :=
          MarksOnly.trans h21 hle
        have hused : (st'.stmtAt (st.tu.top_level_stmts.getD i 0)).decl.attrs.is_used = true := by
          have hlt : st.tu.top_level_stmts.getD i 0 < st.tu.stmts.length := by
            by_contra hge
            rw [stmtAt_default_of_ge st _ (Nat.le_of_not_lt hge)] at hr
            exact absurd hr (by decide)
          exact h2'.used_mono _ (used_setUsed st _ hlt)
        rw [setUsed_eq_self st' _ hused]
        have hf' : ¬ (st'.stmtAt (st.tu.top_level_stmts.getD i 0)).op = StmtOp.STMT_FUNC_DECL := by
          rw [h2'.op_eq]; exact hf
        rw [if_neg hf']
        simp only [Res.bind]
        exact ih _ st1 st' (i + 1) u hrun h21 hle
    · rw [if_neg hr] at hrun ⊢
      exact ih st st1 st' (i + 1) u hrun
        (sema_remove_unused_loop_marks_only fuel n st (i + 1) u st1 hrun) hle

/-- C26: when `sema_remove_unused` has returned, whatever `is_used` flags were
set beforehand, a second run on the resulting state returns and leaves that
state as it is: it marks no additional declaration, and the flags after two
runs are those after one run. -/
theorem sema_remove_unused_idempotent (fuel : Nat) (st st1 : Sema)
    (hrun : sema_remove_unused fuel st = Res.ok () st1) :
    sema_remove_unused fuel st1 = Res.ok () st1 := by
  unfold sema_remove_unused at hrun ⊢
  have h01 := sema_remove_unused_loop_marks_only fuel _ st 0 () st1 hrun
  rw [h01.top_level_eq]
  exact sema_remove_unused_loop_again fuel _ st st1 st1 0 () hrun h01 (MarksOnly.refl st1)

/-- C26 (witness): on the example unit the first run marks `main`, `helper`,
`g`, `_mm_pause`, `sq`, `counter`, `ext` and `mk`; a second run returns the
same state. -/
theorem sema_remove_unused_idempotent_witness :
    sema_remove_unused 5 (sema_remove_unused 5 stUnit).state
        = Res.ok () (sema_remove_unused 5 stUnit).state
    ∧ (List.range 15).map (fun s =>
          ((sema_remove_unused 5 stUnit).state.stmtAt s).decl.attrs.is_used)
        = [false, true, false, true, false, true, false, false, false, true, true, false,
           true, true, true] :=
  ⟨sema_remove_unused_idempotent 5 stUnit (sema_remove_unused 5 stUnit).state (by rfl),
   by decide⟩

/-! Which statements the pass marks. -/

theorem used_setUsed_cases (st : Sema) (s d : StmtIndex)
    (h : ((st.setUsed s).stmtAt d).decl.attrs.is_used = true) :
    d = s ∨ (st.stmtAt d).decl.attrs.is_used = true := by
  rw [Sema.stmtAt_setUsed] at h
  split_ifs at h with hc
  · exact Or.inl hc.1
  · exact Or.inr h

theorem onChain_cases (tu : TranslationUnit) (start e : ExprIndex) (h : OnChain tu start e) :
    e = start ∨ ((tu.exprAt start).next_symbol_in_chain ≠ 0
      ∧ OnChain tu (tu.exprAt start).next_symbol_in_chain e) := by
  induction h with
  | here _ => exact Or.inl rfl
  | next e' _ hne ih =>
    rcases ih with h | ⟨h1, h2⟩
    · rw [h] at hne ⊢
      exact Or.inr ⟨hne, OnChain.here hne⟩
    · exact Or.inr ⟨h1, OnChain.next e' h2 hne⟩

theorem onChain_ne_zero (tu : TranslationUnit) (start e : ExprIndex) (h : OnChain tu start e) :
    start ≠ 0 := by
  induction h with
  | here h0 => exact h0
  | next _ _ _ ih => exact ih

/-- Soundness of the chain loop: if every marked statement is reachable before
the loop, the loop runs over the chain of a reachable function, and the call
it makes keeps marked statements reachable, then every marked statement is
reachable after the loop. -/
theorem mark_symbol_chain_sound (st0 : Sema) (mark : Sema → ExprIndex → Res Unit)
    (hmono : ∀ s e, Keeps MarksOnly s (mark s e))
    (hmark : ∀ (st : Sema) (e : ExprIndex) (u : Unit) (st' : Sema), mark st e = Res.ok u st' →
      MarksOnly st0 st →
      (∀ d, (st.stmtAt d).decl.attrs.is_used = true → Reachable st0.tu d) →
      (∃ f, Reachable st0.tu f ∧ (st0.stmtAt f).op = StmtOp.STMT_FUNC_DECL
        ∧ OnChain st0.tu (st0.stmtAt (st0.stmtAt f).decl.initial).compound.first_symbol e) →
      ∀ d, (st'.stmtAt d).decl.attrs.is_used = true → Reachable st0.tu d) :
    ∀ (n : Nat) (st : Sema) (sym : ExprIndex) (u : Unit) (st' : Sema),
      mark_symbol_chain mark n st sym = Res.ok u st' →
      MarksOnly st0 st →
      (∀ d, (st.stmtAt d).decl.attrs.is_used = true → Reachable st0.tu d) →
      (f : StmtIndex) → Reachable st0.tu f → (st0.stmtAt f).op = StmtOp.STMT_FUNC_DECL →
      (sym = 0 ∨ OnChain st0.tu (st0.stmtAt (st0.stmtAt f).decl.initial).compound.first_symbol sym) →
      ∀ d, (st'.stmtAt d).decl.attrs.is_used = true → Reachable st0.tu d := by
  intro n
  induction n with
  | zero => intro st sym u st' hrun; cases hrun
  | succ n ih =>
    intro st sym u st' hrun h0 hinv f hf hfop hsym
    rw [mark_symbol_chain] at hrun
    by_cases hz : sym = 0
    · rw [if_pos hz] at hrun
      simp only [Res.ok.injEq, true_and] at hrun
      rw [← hrun]; exact hinv
    · rw [if_neg hz] at hrun
      have hon : OnChain st0.tu (st0.stmtAt (st0.stmtAt f).decl.initial).compound.first_symbol sym :=
        hsym.resolve_left hz
      cases hm : mark st sym with
      | abort => rw [hm] at hrun; cases hrun
      | out_of_fuel => rw [hm] at hrun; cases hrun
      | ok v st_a =>
        rw [hm] at hrun
        simp only [Res.bind] at hrun
        have ha : MarksOnly st0 st_a := MarksOnly.trans h0 (hmono st sym v st_a hm)
        have hinv_a := hmark st sym v st_a hm h0 hinv ⟨f, hf, hfop, hon⟩
        refine ih st_a _ u st' hrun ha hinv_a f hf hfop ?_
        rw [ha.exprAt_eq sym]
        by_cases hnz : (st0.exprAt sym).next_symbol_in_chain = 0
        · exact Or.inl hnz
        · exact Or.inr (OnChain.next sym hon hnz)

/-- Soundness of `sema_mark_children`: called on an expression of the chain of a
reachable function, it marks only reachable statements. -/
theorem sema_mark_children_sound (st0 : Sema) :
    ∀ (fuel : Nat) (st : Sema) (e : ExprIndex) (u : Unit) (st' : Sema),
      sema_mark_children fuel st e = Res.ok u st' →
      MarksOnly st0 st →
      (∀ d, (st.stmtAt d).decl.attrs.is_used = true → Reachable st0.tu d) →
      (∃ f, Reachable st0.tu f ∧ (st0.stmtAt f).op = StmtOp.STMT_FUNC_DECL
        ∧ OnChain st0.tu (st0.stmtAt (st0.stmtAt f).decl.initial).compound.first_symbol e) →
      ∀ d, (st'.stmtAt d).decl.attrs.is_used = true → Reachable st0.tu d := by
  intro fuel
  induction fuel with
  | zero => intro st e u st' hrun; cases hrun
  | succ n ih =>
    intro st e u st' hrun h0 hinv hctx
    rw [sema_mark_children] at hrun
    by_cases hen : (st.exprAt e).op = ExprOp.EXPR_ENUM
    · rw [if_pos hen] at hrun
      simp only [Res.ok.injEq, true_and] at hrun
      rw [← hrun]; exact hinv
    · rw [if_neg hen] at hrun
      by_cases hsym : (st.exprAt e).op = ExprOp.EXPR_SYMBOL
      · rw [if_neg (fun h => h hsym)] at hrun
        simp only at hrun
        by_cases hu : (st.stmtAt (st.exprAt e).symbol).decl.attrs.is_used = false
        · rw [if_pos hu] at hrun
          obtain ⟨f, hf, hfop, hon⟩ := hctx
          have hreach : ((st.stmtAt (st.exprAt e).symbol).op = StmtOp.STMT_FUNC_DECL
              ∨ (st.stmtAt (st.exprAt e).symbol).op = StmtOp.STMT_DECL
              ∨ (st.stmtAt (st.exprAt e).symbol).op = StmtOp.STMT_GLOBAL_DECL) →
              Reachable st0.tu (st.exprAt e).symbol := by
            intro hd
            have hex : st0.tu.exprAt e = st.exprAt e := (h0.exprAt_eq e).symm
            refine Reachable.ref f _ hf ⟨hfop, e, hon, ?_, ?_, ?_⟩
            · rw [hex]; exact hsym
            · rw [hex]
            · show (st0.stmtAt _).op = _ ∨ (st0.stmtAt _).op = _ ∨ (st0.stmtAt _).op = _
              rw [← h0.op_eq]; exact hd
          have hinv2 : ∀ d, ((st.setUsed (st.exprAt e).symbol).stmtAt d).decl.attrs.is_used = true →
              ((st.stmtAt (st.exprAt e).symbol).op = StmtOp.STMT_FUNC_DECL
                ∨ (st.stmtAt (st.exprAt e).symbol).op = StmtOp.STMT_DECL
                ∨ (st.stmtAt (st.exprAt e).symbol).op = StmtOp.STMT_GLOBAL_DECL) →
              Reachable st0.tu d := by
            intro d hd hdecl
            rcases used_setUsed_cases st _ d hd with h | h
            · rw [h]; exact hreach hdecl
            · exact hinv d h
          by_cases hfd : (st.stmtAt (st.exprAt e).symbol).op = StmtOp.STMT_FUNC_DECL
          · rw [if_pos hfd] at hrun
            have h2 : MarksOnly st0 (st.setUsed (st.exprAt e).symbol) :=
              MarksOnly.trans h0 (MarksOnly.setUsed st _)
            refine mark_symbol_chain_sound st0 (sema_mark_children n)
              (sema_mark_children_marks_only n) ih n _ _ u st' hrun h2
              (fun d hd => hinv2 d hd (Or.inl hfd)) (st.exprAt e).symbol (hreach (Or.inl hfd)) ?_ ?_
            · rw [← h0.op_eq]; exact hfd
            · rw [h2.first_symbol_eq]
              by_cases hz : (st0.stmtAt (st0.stmtAt (st.exprAt e).symbol).decl.initial).compound.first_symbol = 0
              · exact Or.inl hz
              · exact Or.inr (OnChain.here hz)
          · rw [if_neg hfd] at hrun
            by_cases hdg : (st.stmtAt (st.exprAt e).symbol).op = StmtOp.STMT_DECL
                ∨ (st.stmtAt (st.exprAt e).symbol).op = StmtOp.STMT_GLOBAL_DECL
            · rw [if_pos hdg] at hrun
              simp only [Res.ok.injEq, true_and] at hrun
              rw [← hrun]
              exact fun d hd => hinv2 d hd (Or.inr hdg)
            · rw [if_neg hdg] at hrun
              simp only [Res.ok.injEq, true_and] at hrun
              rw [← hrun]; exact hinv
        · rw [if_neg hu] at hrun
          simp only [Res.ok.injEq, true_and] at hrun
          rw [← hrun]; exact hinv
      · rw [if_pos hsym] at hrun
        cases hrun

/-- Soundness of the loop of `sema_remove_unused`. -/
theorem sema_remove_unused_loop_sound (st0 : Sema) (fuel : Nat) :
    ∀ (count : Nat) (st : Sema) (i : Nat) (u : Unit) (st' : Sema),
      sema_remove_unused_loop fuel count st i = Res.ok u st' →
      MarksOnly st0 st → i + count ≤ st0.tu.top_level_stmts.length →
      (∀ d, (st.stmtAt d).decl.attrs.is_used = true → Reachable st0.tu d) →
      ∀ d, (st'.stmtAt d).decl.attrs.is_used = true → Reachable st0.tu d := by
  intro count
  induction count with
  | zero =>
    intro st i u st' hrun _ _ hinv
    rw [sema_remove_unused_loop] at hrun
    simp only [Res.ok.injEq, true_and] at hrun
    rw [← hrun]; exact hinv
  | succ n ih =>
    intro st i u st' hrun h0 hlen hinv
    have hi : i < st0.tu.top_level_stmts.length :=
      Nat.lt_of_lt_of_le (Nat.lt_add_of_pos_right (Nat.succ_pos n)) hlen
    have hlen' : i + 1 + n ≤ st0.tu.top_level_stmts.length := by
      rw [Nat.add_assoc, Nat.add_comm 1 n]; exact hlen
    rw [sema_remove_unused_loop] at hrun
    simp only [h0.top_level_eq] at hrun
    by_cases hr : (st.stmtAt (st0.tu.top_level_stmts.getD i 0)).decl.attrs.is_root = true
    · rw [if_pos hr] at hrun
      have hmem : st0.tu.top_level_stmts.getD i 0 ∈ st0.tu.top_level_stmts := by
        rw [List.getD_eq_getElem _ _ hi]; exact List.getElem_mem _
      have hroot : Reachable st0.tu (st0.tu.top_level_stmts.getD i 0) :=
        Reachable.root _ hmem (by
          have h := h0.is_root_eq (st0.tu.top_level_stmts.getD i 0)
          rw [hr] at h
          exact h.symm)
      have h2 : MarksOnly st0 (st.setUsed (st0.tu.top_level_stmts.getD i 0)) :=
        MarksOnly.trans h0 (MarksOnly.setUsed st _)
      have hinv2 : ∀ d, ((st.setUsed (st0.tu.top_level_stmts.getD i 0)).stmtAt d).decl.attrs.is_used
          = true → Reachable st0.tu d := by
        intro d hd
        rcases used_setUsed_cases st _ d hd with h | h
        · rw [h]; exact hroot
        · exact hinv d h
      by_cases hf : ((st.setUsed (st0.tu.top_level_stmts.getD i 0)).stmtAt
          (st0.tu.top_level_stmts.getD i 0)).op = StmtOp.STMT_FUNC_DECL
      · rw [if_pos hf] at hrun
        cases hc : mark_symbol_chain (sema_mark_children fuel) fuel
            (st.setUsed (st0.tu.top_level_stmts.getD i 0))
            ((st.setUsed (st0.tu.top_level_stmts.getD i 0)).stmtAt
              ((st.setUsed (st0.tu.top_level_stmts.getD i 0)).stmtAt
                (st0.tu.top_level_stmts.getD i 0)).decl.initial).compound.first_symbol with
        | abort => rw [hc] at hrun; cases hrun
        | out_of_fuel => rw [hc] at hrun; cases hrun
        | ok v st3 =>
          rw [hc] at hrun
          simp only [Res.bind] at hrun
          have h23 := mark_symbol_chain_marks_only _ (sema_mark_children_marks_only fuel) fuel _ _ v st3 hc
          have hinv3 := mark_symbol_chain_sound st0 (sema_mark_children fuel)
            (sema_mark_children_marks_only fuel) (sema_mark_children_sound st0 fuel) fuel _ _ v st3 hc h2
            hinv2 (st0.tu.top_level_stmts.getD i 0) hroot (by rw [← h2.op_eq]; exact hf)
            (by
              rw [h2.first_symbol_eq]
              by_cases hz : (st0.stmtAt (st0.stmtAt (st0.tu.top_level_stmts.getD i 0)).decl.initial).compound.first_symbol = 0
              · exact Or.inl hz
              · exact Or.inr (OnChain.here hz))
          exact ih st3 (i + 1) u st' hrun (MarksOnly.trans h2 h23) hlen' hinv3
      · rw [if_neg hf] at hrun
        simp only [Res.bind] at hrun
        exact ih _ (i + 1) u st' hrun h2 hlen' hinv2
    · rw [if_neg hr] at hrun
      exact ih st (i + 1) u st' hrun h0 hlen' hinv

/-- Completeness of the chain loop: after it returns, every declaration that a
Symbol on the chain from `sym` refers to is marked, and every function that
the loop has marked has all the declarations its body refers to marked, given
the latter of the call it makes. -/
theorem mark_symbol_chain_complete (st0 : Sema) (mark : Sema → ExprIndex → Res Unit)
    (hmono : ∀ s e, Keeps MarksOnly s (mark s e))
    (hmark : ∀ (st : Sema) (e : ExprIndex) (u : Unit) (st' : Sema), mark st e = Res.ok u st' →
      MarksOnly st0 st →
      ((st0.exprAt e).op = ExprOp.EXPR_SYMBOL →
        ((st0.stmtAt (st0.exprAt e).symbol).op = StmtOp.STMT_FUNC_DECL
          ∨ (st0.stmtAt (st0.exprAt e).symbol).op = StmtOp.STMT_DECL
          ∨ (st0.stmtAt (st0.exprAt e).symbol).op = StmtOp.STMT_GLOBAL_DECL) →
        (st'.stmtAt (st0.exprAt e).symbol).decl.attrs.is_used = true)
      ∧ ∀ f, (st'.stmtAt f).decl.attrs.is_used = true → ¬ (st.stmtAt f).decl.attrs.is_used = true →
          ∀ d, ReferencedBy st0.tu f d → (st'.stmtAt d).decl.attrs.is_used = true) :
    ∀ (n : Nat) (st : Sema) (sym : ExprIndex) (u : Unit) (st' : Sema),
      mark_symbol_chain mark n st sym = Res.ok u st' →
      MarksOnly st0 st →
      (∀ e, OnChain st0.tu sym e → (st0.exprAt e).op = ExprOp.EXPR_SYMBOL →
        ((st0.stmtAt (st0.exprAt e).symbol).op = StmtOp.STMT_FUNC_DECL
          ∨ (st0.stmtAt (st0.exprAt e).symbol).op = StmtOp.STMT_DECL
          ∨ (st0.stmtAt (st0.exprAt e).symbol).op = StmtOp.STMT_GLOBAL_DECL) →
        (st'.stmtAt (st0.exprAt e).symbol).decl.attrs.is_used = true)
      ∧ ∀ f, (st'.stmtAt f).decl.attrs.is_used = true → ¬ (st.stmtAt f).decl.attrs.is_used = true →
          ∀ d, ReferencedBy st0.tu f d → (st'.stmtAt d).decl.attrs.is_used = true := by
  intro n
  induction n with
  | zero => intro st sym u st' hrun; cases hrun
  | succ n ih =>
    intro st sym u st' hrun h0
    rw [mark_symbol_chain] at hrun
    by_cases hz : sym = 0
    · rw [if_pos hz] at hrun
      simp only [Res.ok.injEq, true_and] at hrun
      rw [← hrun]
      exact ⟨fun e he => absurd hz (onChain_ne_zero _ _ _ he), fun f h1 h2 => absurd h1 h2⟩
    · rw [if_neg hz] at hrun
      cases hm : mark st sym with
      | abort => rw [hm] at hrun; cases hrun
      | out_of_fuel => rw [hm] at hrun; cases hrun
      | ok v st_a =>
        rw [hm] at hrun
        simp only [Res.bind] at hrun
        have hsa := hmono st sym v st_a hm
        have ha : MarksOnly st0 st_a := MarksOnly.trans h0 hsa
        obtain ⟨hm1, hm2⟩ := hmark st sym v st_a hm h0
        rw [ha.exprAt_eq sym] at hrun
        obtain ⟨hr1, hr2⟩ := ih st_a _ u st' hrun ha
        have hrest : MarksOnly st_a st' := by
          have hk : ∀ (k : Nat) (s : Sema) (x : ExprIndex), Keeps MarksOnly s
              (mark_symbol_chain mark k s x) := mark_symbol_chain_marks_only mark hmono
          exact hk n st_a _ u st' hrun
        constructor
        · intro e he hop hd
          rcases onChain_cases _ _ _ he with h | ⟨_, h⟩
          · rw [h]
            rw [h] at hop hd
            exact hrest.used_mono _ (hm1 hop hd)
          · exact hr1 e h hop hd
        · intro f hf hnf d hd
          by_cases hfa : (st_a.stmtAt f).decl.attrs.is_used = true
          · exact hrest.used_mono _ (hm2 f hfa hnf d hd)
          · exact hr2 f hf hfa d hd

/-- Completeness of `sema_mark_children`: after it returns, the declaration its
Symbol refers to is marked, and every function it has marked has all the
declarations its body refers to marked. -/
theorem sema_mark_children_complete (st0 : Sema) :
    ∀ (fuel : Nat) (st : Sema) (e : ExprIndex) (u : Unit) (st' : Sema),
      sema_mark_children fuel st e = Res.ok u st' →
      MarksOnly st0 st →
      ((st0.exprAt e).op = ExprOp.EXPR_SYMBOL →
        ((st0.stmtAt (st0.exprAt e).symbol).op = StmtOp.STMT_FUNC_DECL
          ∨ (st0.stmtAt (st0.exprAt e).symbol).op = StmtOp.STMT_DECL
          ∨ (st0.stmtAt (st0.exprAt e).symbol).op = StmtOp.STMT_GLOBAL_DECL) →
        (st'.stmtAt (st0.exprAt e).symbol).decl.attrs.is_used = true)
      ∧ ∀ f, (st'.stmtAt f).decl.attrs.is_used = true → ¬ (st.stmtAt f).decl.attrs.is_used = true →
          ∀ d, ReferencedBy st0.tu f d → (st'.stmtAt d).decl.attrs.is_used = true := by
  intro fuel
  induction fuel with
  | zero => intro st e u st' hrun; cases hrun
  | succ n ih =>
    intro st e u st' hrun h0
    constructor
    · intro hop hd
      rw [← h0.exprAt_eq e] at hop hd ⊢
      have hd' : (st.stmtAt (st.exprAt e).symbol).op = StmtOp.STMT_FUNC_DECL
          ∨ (st.stmtAt (st.exprAt e).symbol).op = StmtOp.STMT_DECL
          ∨ (st.stmtAt (st.exprAt e).symbol).op = StmtOp.STMT_GLOBAL_DECL := by
        rw [h0.op_eq]; exact hd
      exact sema_mark_children_marks_referent (n + 1) st st' e u hrun hop hd'
    · intro f hf hnf d hd
      rw [sema_mark_children] at hrun
      by_cases hen : (st.exprAt e).op = ExprOp.EXPR_ENUM
      · rw [if_pos hen] at hrun
        simp only [Res.ok.injEq, true_and] at hrun
        rw [← hrun] at hf; exact absurd hf hnf
      · rw [if_neg hen] at hrun
        by_cases hsym : (st.exprAt e).op = ExprOp.EXPR_SYMBOL
        · rw [if_neg (fun h => h hsym)] at hrun
          simp only at hrun
          by_cases hu : (st.stmtAt (st.exprAt e).symbol).decl.attrs.is_used = false
          · rw [if_pos hu] at hrun
            by_cases hfd : (st.stmtAt (st.exprAt e).symbol).op = StmtOp.STMT_FUNC_DECL
            · rw [if_pos hfd] at hrun
              have h2 : MarksOnly st0 (st.setUsed (st.exprAt e).symbol) :=
                MarksOnly.trans h0 (MarksOnly.setUsed st _)
              obtain ⟨hc1, hc2⟩ := mark_symbol_chain_complete st0 (sema_mark_children n)
                (sema_mark_children_marks_only n) ih n _ _ u st' hrun h2
              by_cases hf2 : ((st.setUsed (st.exprAt e).symbol).stmtAt f).decl.attrs.is_used = true
              · rcases used_setUsed_cases st _ f hf2 with h | h
                · obtain ⟨_, e', he', hop', hsy', hd'⟩ := hd
                  rw [← hsy']
                  refine hc1 e' ?_ hop' (by rw [← hsy'] at hd'; exact hd')
                  rw [h2.first_symbol_eq]
                  rw [h] at he'
                  exact he'
                · exact absurd h hnf
              · exact hc2 f hf hf2 d hd
            · rw [if_neg hfd] at hrun
              by_cases hdg : (st.stmtAt (st.exprAt e).symbol).op = StmtOp.STMT_DECL
                  ∨ (st.stmtAt (st.exprAt e).symbol).op = StmtOp.STMT_GLOBAL_DECL
              · rw [if_pos hdg] at hrun
                simp only [Res.ok.injEq, true_and] at hrun
                rw [← hrun] at hf
                rcases used_setUsed_cases st _ f hf with h | h
                · have hfop : (st0.stmtAt f).op = StmtOp.STMT_FUNC_DECL := hd.1
                  rw [← h0.op_eq, h] at hfop
                  exact absurd hfop hfd
                · exact absurd h hnf
              · rw [if_neg hdg] at hrun
                simp only [Res.ok.injEq, true_and] at hrun
                rw [← hrun] at hf; exact absurd hf hnf
          · rw [if_neg hu] at hrun
            simp only [Res.ok.injEq, true_and] at hrun
            rw [← hrun] at hf; exact absurd hf hnf
        · rw [if_pos hsym] at hrun
          cases hrun

/-- Completeness of the loop of `sema_remove_unused`: after it returns, every
root among the entries it ran over is marked, and every function it has marked
has all the declarations its body refers to marked. -/
theorem sema_remove_unused_loop_complete (st0 : Sema) (fuel : Nat) :
    ∀ (count : Nat) (st : Sema) (i : Nat) (u : Unit) (st' : Sema),
      sema_remove_unused_loop fuel count st i = Res.ok u st' →
      MarksOnly st0 st →
      (∀ j, i ≤ j → j < i + count →
        (st0.stmtAt (st0.tu.top_level_stmts.getD j 0)).decl.attrs.is_root = true →
        (st'.stmtAt (st0.tu.top_level_stmts.getD j 0)).decl.attrs.is_used = true)
      ∧ ∀ f, (st'.stmtAt f).decl.attrs.is_used = true → ¬ (st.stmtAt f).decl.attrs.is_used = true →
          ∀ d, ReferencedBy st0.tu f d → (st'.stmtAt d).decl.attrs.is_used = true := by
  intro count
  induction count with
  | zero =>
    intro st i u st' hrun _
    rw [sema_remove_unused_loop] at hrun
    simp only [Res.ok.injEq, true_and] at hrun
    rw [← hrun]
    exact ⟨fun j h1 h2 => absurd h2 (Nat.not_lt_of_le h1), fun f h1 h2 => absurd h1 h2⟩
  | succ n ih =>
    intro st i u st' hrun h0
    rw [sema_remove_unused_loop] at hrun
    simp only [h0.top_level_eq] at hrun
    have hsplit : ∀ j, i ≤ j → j < i + (n + 1) → j = i ∨ (i + 1 ≤ j ∧ j < i + 1 + n) := by
      intro j h1 h2
      by_cases h : j = i
      · exact Or.inl h
      · refine Or.inr ⟨Nat.lt_of_le_of_ne h1 (fun h' => h h'.symm), ?_⟩
        rw [Nat.add_assoc, Nat.add_comm 1 n]; exact h2
    by_cases hr : (st.stmtAt (st0.tu.top_level_stmts.getD i 0)).decl.attrs.is_root = true
    · rw [if_pos hr] at hrun
      have hlt : st0.tu.top_level_stmts.getD i 0 < st.tu.stmts.length := by
        by_contra hge
        rw [stmtAt_default_of_ge st _ (Nat.le_of_not_lt hge)] at hr
        exact absurd hr (by decide)
      have h2 : MarksOnly st0 (st.setUsed (st0.tu.top_level_stmts.getD i 0)) :=
        MarksOnly.trans h0 (MarksOnly.setUsed st _)
      have hu2 := used_setUsed st _ hlt
      by_cases hf : ((st.setUsed (st0.tu.top_level_stmts.getD i 0)).stmtAt
          (st0.tu.top_level_stmts.getD i 0)).op = StmtOp.STMT_FUNC_DECL
      · rw [if_pos hf] at hrun
        cases hc : mark_symbol_chain (sema_mark_children fuel) fuel
            (st.setUsed (st0.tu.top_level_stmts.getD i 0))
            ((st.setUsed (st0.tu.top_level_stmts.getD i 0)).stmtAt
              ((st.setUsed (st0.tu.top_level_stmts.getD i 0)).stmtAt
                (st0.tu.top_level_stmts.getD i 0)).decl.initial).compound.first_symbol with
        | abort => rw [hc] at hrun; cases hrun
        | out_of_fuel => rw [hc] at hrun; cases hrun
        | ok v st3 =>
          rw [hc] at hrun
          simp only [Res.bind] at hrun
          have h23 := mark_symbol_chain_marks_only _ (sema_mark_children_marks_only fuel) fuel _ _ v st3 hc
          have h3 : MarksOnly st0 st3 := MarksOnly.trans h2 h23
          have h3' := sema_remove_unused_loop_marks_only fuel n st3 (i + 1) u st' hrun
          obtain ⟨hc1, hc2⟩ := mark_symbol_chain_complete st0 (sema_mark_children fuel)
            (sema_mark_children_marks_only fuel) (sema_mark_children_complete st0 fuel) fuel _ _ v st3
            hc h2
          obtain ⟨hi1, hi2⟩ := ih st3 (i + 1) u st' hrun h3
          constructor
          · intro j h1 hj hroot
            rcases hsplit j h1 hj with h | ⟨ha, hb⟩
            · rw [h]
              exact h3'.used_mono _ (h23.used_mono _ hu2)
            · exact hi1 j ha hb hroot
          · intro f hf' hnf d hd
            by_cases hf3 : (st3.stmtAt f).decl.attrs.is_used = true
            · refine h3'.used_mono _ ?_
              by_cases hf2 : ((st.setUsed (st0.tu.top_level_stmts.getD i 0)).stmtAt f).decl.attrs.is_used = true
              · rcases used_setUsed_cases st _ f hf2 with h | h
                · obtain ⟨_, e', he', hop', hsy', hd'⟩ := hd
                  rw [← hsy']
                  refine hc1 e' ?_ hop' (by rw [← hsy'] at hd'; exact hd')
                  rw [h2.first_symbol_eq]
                  rw [h] at he'
                  exact he'
                · exact absurd h hnf
              · exact hc2 f hf3 hf2 d hd
            · exact hi2 f hf' hf3 d hd
      · rw [if_neg hf] at hrun
        simp only [Res.bind] at hrun
        have h2' := sema_remove_unused_loop_marks_only fuel n _ (i + 1) u st' hrun
        obtain ⟨hi1, hi2⟩ := ih _ (i + 1) u st' hrun h2
        constructor
        · intro j h1 hj hroot
          rcases hsplit j h1 hj with h | ⟨ha, hb⟩
          · rw [h]
            exact h2'.used_mono _ hu2
          · exact hi1 j ha hb hroot
        · intro f hf' hnf d hd
          by_cases hf2 : ((st.setUsed (st0.tu.top_level_stmts.getD i 0)).stmtAt f).decl.attrs.is_used = true
          · rcases used_setUsed_cases st _ f hf2 with h | h
            · have hfop : (st0.stmtAt f).op = StmtOp.STMT_FUNC_DECL := hd.1
              rw [← h2.op_eq, h] at hfop
              exact absurd hfop hf
            · exact absurd h hnf
          · exact hi2 f hf' hf2 d hd
    · rw [if_neg hr] at hrun
      obtain ⟨hi1, hi2⟩ := ih st (i + 1) u st' hrun h0
      constructor
      · intro j h1 hj hroot
        rcases hsplit j h1 hj with h | ⟨ha, hb⟩
        · rw [h, ← h0.is_root_eq] at hroot
          exact absurd hroot hr
        · exact hi1 j ha hb hroot
      · exact hi2

/-- C25: if no statement is marked `is_used` beforehand and `sema_remove_unused`
returns, then the pass has changed nothing but `is_used` flags, it has cleared
none, and a statement is marked afterwards if and only if it is reachable from
a root through function bodies: it is a top-level statement with `is_root` set, or a
declaration referenced by a Symbol on the symbol chain of the body of a marked
function. -/
theorem sema_remove_unused_marks_reachable (fuel : Nat) (st st' : Sema)
    (hclean : ∀ s, (st.stmtAt s).decl.attrs.is_used = false)
    (hrun : sema_remove_unused fuel st = Res.ok () st') :
    MarksOnly st st'
    ∧ (∀ d, (st'.stmtAt d).decl.attrs.is_used = true ↔ Reachable st.tu d)
    ∧ (∀ d, (st'.stmtAt d).decl.attrs.is_used = true ↔
        ((d ∈ st.tu.top_level_stmts ∧ (st.stmtAt d).decl.attrs.is_root = true)
          ∨ ∃ f, (st'.stmtAt f).decl.attrs.is_used = true ∧ ReferencedBy st.tu f d)) := by
  unfold sema_remove_unused at hrun
  have hmono := sema_remove_unused_loop_marks_only fuel _ st 0 () st' hrun
  have hsound := sema_remove_unused_loop_sound st fuel _ st 0 () st' hrun (MarksOnly.refl st)
    (by rw [Nat.zero_add]) (fun d hd => by rw [hclean d] at hd; exact absurd hd (by decide))
  obtain ⟨hc1, hc2⟩ := sema_remove_unused_loop_complete st fuel _ st 0 () st' hrun
    (MarksOnly.refl st)
  have hcomplete : ∀ d, Reachable st.tu d → (st'.stmtAt d).decl.attrs.is_used = true := by
    intro d hd
    induction hd with
    | root s hs hroot =>
      obtain ⟨j, hj, hjs⟩ := List.getElem_of_mem hs
      have hg : st.tu.top_level_stmts.getD j 0 = s := by
        rw [List.getD_eq_getElem _ _ hj]; exact hjs
      have h := hc1 j (Nat.zero_le j) (by rw [Nat.zero_add]; exact hj)
      rw [hg] at h
      exact h hroot
    | ref f d _ href ih =>
      exact hc2 f ih (by rw [hclean f]; decide) d href
  refine ⟨hmono, fun d => ⟨hsound d, hcomplete d⟩, fun d => ⟨?_, ?_⟩⟩
  · intro hd
    cases hsound d hd with
    | root _ hs hroot => exact Or.inl ⟨hs, hroot⟩
    | ref f _ hf href => exact Or.inr ⟨f, hcomplete f hf, href⟩
  · intro h
    rcases h with ⟨hs, hroot⟩ | ⟨f, hf, href⟩
    · exact hcomplete d (Reachable.root d hs hroot)
    · exact hcomplete d (Reachable.ref f d (hsound f hf) href)

/-- C25 (witness): in the example unit no statement is marked beforehand; after
the pass exactly the roots `main`, `_mm_pause`, `counter`, `ext`, `mk` and the
declarations reached from `main` (`helper`, `sq`, `g`) are marked, and `dead`
and `h` are not. -/
theorem sema_remove_unused_marks_reachable_witness :
    (MarksOnly stUnit (sema_remove_unused 5 stUnit).state
      ∧ (∀ d, ((sema_remove_unused 5 stUnit).state.stmtAt d).decl.attrs.is_used = true
            ↔ Reachable stUnit.tu d)
      ∧ (∀ d, ((sema_remove_unused 5 stUnit).state.stmtAt d).decl.attrs.is_used = true ↔
          ((d ∈ stUnit.tu.top_level_stmts ∧ (stUnit.stmtAt d).decl.attrs.is_root = true)
            ∨ ∃ f, ((sema_remove_unused 5 stUnit).state.stmtAt f).decl.attrs.is_used = true
                ∧ ReferencedBy stUnit.tu f d)))
    ∧ (List.range 15).filter (fun s =>
          ((sema_remove_unused 5 stUnit).state.stmtAt s).decl.attrs.is_used)
        = [1, 3, 5, 9, 10, 12, 13, 14] :=
  ⟨sema_remove_unused_marks_reachable 5 stUnit (sema_remove_unused 5 stUnit).state
      (fun s => by
        by_cases h : s < 15
        · interval_cases s <;> rfl
        · rw [stmtAt_default_of_ge stUnit s (Nat.le_of_not_lt h)])
      (by rfl),
   by decide⟩

/-! ### Array count inferred from an initializer (`sema_stmt`, `STMT_DECL`) -/

namespace Sema

theorem typeAt_setType (st : Sema) (t t' : TypeIndex) (ty : CType) :
    (st.setType t ty).typeAt t' = if t' = t ∧ t < st.tu.types.length then ty else st.typeAt t' := by
  unfold Sema.setType Sema.typeAt TranslationUnit.setType TranslationUnit.typeAt
  exact getD_set_eq _ _ _ _ _

theorem types_length_setType (st : Sema) (t : TypeIndex) (ty : CType) :
    (st.setType t ty).tu.types.length = st.tu.types.length := by
  simp [Sema.setType, TranslationUnit.setType]

end Sema

theorem typeAt_lt_of_kind_array (st : Sema) (t : TypeIndex) (h : (st.typeAt t).kind = KIND_ARRAY) :
    t < st.tu.types.length := by
  by_contra hge
  have hd : st.typeAt t = {} := by
    show st.tu.types.getD _ _ = _
    rw [List.getD_eq_default _ _ (Nat.le_of_not_lt hge)]
  rw [hd] at h
  exact absurd h (by decide)

/-- The two writes `tp->array_count = n; tp->size = n * tu->types[tp->array_of].size`
on an array entry. -/
theorem infer_array_facts (st : Sema) (tp : TypeIndex) (n : Nat)
    (harr : (st.typeAt tp).kind = KIND_ARRAY) :
    (((st.setArrayCount tp n).setTypeSize tp
          (n * ((st.setArrayCount tp n).typeAt ((st.setArrayCount tp n).typeAt tp).array_of).size)).typeAt tp
        = { st.typeAt tp with array_count := n, size := n * (st.typeAt (st.typeAt tp).array_of).size })
    ∧ ∀ i, i ≠ tp →
        ((st.setArrayCount tp n).setTypeSize tp
          (n * ((st.setArrayCount tp n).typeAt ((st.setArrayCount tp n).typeAt tp).array_of).size)).typeAt i
        = st.typeAt i := by
  have hlt := typeAt_lt_of_kind_array st tp harr
  have hlt2 : tp < (st.setArrayCount tp n).tu.types.length := by
    unfold Sema.setArrayCount; rw [Sema.types_length_setType]; exact hlt
  have h1 : (st.setArrayCount tp n).typeAt tp = { st.typeAt tp with array_count := n } := by
    unfold Sema.setArrayCount; rw [Sema.typeAt_setType, if_pos ⟨rfl, hlt⟩]
  have hsz : ((st.setArrayCount tp n).typeAt ((st.setArrayCount tp n).typeAt tp).array_of).size
      = (st.typeAt (st.typeAt tp).array_of).size := by
    rw [h1]
    show ((st.setArrayCount tp n).typeAt (st.typeAt tp).array_of).size = _
    by_cases he : (st.typeAt tp).array_of = tp
    · rw [he, h1]
    · unfold Sema.setArrayCount; rw [Sema.typeAt_setType, if_neg (fun h => he h.1)]
  constructor
  · unfold Sema.setTypeSize
    rw [Sema.typeAt_setType, if_pos ⟨rfl, hlt2⟩, hsz, h1]
  · intro i hi
    unfold Sema.setTypeSize
    rw [Sema.typeAt_setType, if_neg (fun h => hi h.1)]
    unfold Sema.setArrayCount
    rw [Sema.typeAt_setType, if_neg (fun h => hi h.1)]

/-- The inference block of the Decl case for a compound Initializer and an
array type: what it returns and what it does to the type arena. -/
theorem sema_stmt_decl_infer_array (st : Sema) (s : StmtIndex) (t : TypeIndex)
    (hini : (st.exprAt (st.stmtAt s).decl.initial).op = ExprOp.EXPR_INITIALIZER)
    (harr : (st.typeAt (st.stmtAt s).decl.type).kind = KIND_ARRAY) :
    (sema_stmt_decl_infer st s t).1 = ((sema_stmt_decl_infer st s t).2.stmtAt s).decl.type
    ∧ (sema_stmt_decl_infer st s t).2.stmtAt s = st.stmtAt s
    ∧ (sema_stmt_decl_infer st s t).2.reports = st.reports
    ∧ (∀ i, i ≠ (st.stmtAt s).decl.type → (sema_stmt_decl_infer st s t).2.typeAt i = st.typeAt i)
    ∧ ((st.typeAt (st.stmtAt s).decl.type).array_count = 0 →
        (sema_stmt_decl_infer st s t).2.typeAt (st.stmtAt s).decl.type
          = { st.typeAt (st.stmtAt s).decl.type with
              array_count := (st.exprAt (st.stmtAt s).decl.initial).init.count,
              size := (st.exprAt (st.stmtAt s).decl.initial).init.count
                * (st.typeAt (st.typeAt (st.stmtAt s).decl.type).array_of).size })
    ∧ ((st.typeAt (st.stmtAt s).decl.type).array_count ≠ 0 →
        (sema_stmt_decl_infer st s t).2.typeAt (st.stmtAt s).decl.type
          = st.typeAt (st.stmtAt s).decl.type) := by
  unfold sema_stmt_decl_infer
  rw [if_pos hini]
  by_cases hz : (st.typeAt (st.stmtAt s).decl.type).array_count = 0
  · have hc : (st.typeAt (st.stmtAt s).decl.type).kind = KIND_ARRAY
        ∧ (st.typeAt (st.stmtAt s).decl.type).array_count = 0 := ⟨harr, hz⟩
    obtain ⟨hf1, hf2⟩ := infer_array_facts st (st.stmtAt s).decl.type
      (st.exprAt (st.stmtAt s).decl.initial).init.count harr
    simp only [if_pos hc]
    exact ⟨rfl, rfl, rfl, hf2, fun _ => hf1, fun h => absurd hz h⟩
  · have hc : ¬ ((st.typeAt (st.stmtAt s).decl.type).kind = KIND_ARRAY
        ∧ (st.typeAt (st.stmtAt s).decl.type).array_count = 0) := fun h => hz h.2
    simp only [if_neg hc]
    exact ⟨rfl, rfl, rfl, fun _ _ => rfl, fun h => absurd h hz, fun _ => rfl⟩

/-- The end of the Decl case when the type to convert is the declared type
itself: only the initializer's `cast_type` is written. -/
theorem sema_stmt_decl_convert_self (env : Env) (st : Sema) (s : StmtIndex) :
    sema_stmt_decl_convert env st s (st.stmtAt s).decl.type
      = Res.ok () (st.setCastType (st.stmtAt s).decl.initial (st.stmtAt s).decl.type) := by
  unfold sema_stmt_decl_convert
  have hs : (st.setCastType (st.stmtAt s).decl.initial (st.stmtAt s).decl.type).stmtAt s
      = st.stmtAt s := rfl
  simp only [hs, type_compatible_self_eq]
  rfl

/-- Runs of the Decl case that return: let `s` be a Decl statement with an
initializer whose declared type has
been resolved and whose initializer has been checked, leaving state `st1`, in
which the initializer is a compound Initializer with `init.count` top-level
nodes and the declared type is an array.  Then `sema_stmt` returns, no diagnostic
is added and no other type entry is changed.  If the array's count is 0, its
count becomes `init.count` and its size `init.count` times the size of the
element type; if the count is not 0, the array entry is left as it was. -/
theorem sema_stmt_decl_infers_array_count (env : Env) (fuel : Nat) (st st0 st1 : Sema)
    (s : StmtIndex) (t : TypeIndex)
    (hop : (st.stmtAt s).op = StmtOp.STMT_DECL)
    (hinit : (st.stmtAt s).decl.initial ≠ 0)
    (h0 : try_resolve_typeof (sema_expr env fuel) fuel st (st.stmtAt s).decl.type = Res.ok () st0)
    (h1 : sema_expr env fuel st0 (st0.stmtAt s).decl.initial = Res.ok t st1)
    (hini : (st1.exprAt (st1.stmtAt s).decl.initial).op = ExprOp.EXPR_INITIALIZER)
    (harr : (st1.typeAt (st1.stmtAt s).decl.type).kind = KIND_ARRAY) :
    ∃ st', sema_stmt env (fuel + 1) st s = Res.ok () st'
      ∧ st'.reports = st1.reports
      ∧ (∀ i, i ≠ (st1.stmtAt s).decl.type → st'.typeAt i = st1.typeAt i)
      ∧ ((st1.typeAt (st1.stmtAt s).decl.type).array_count = 0 →
          st'.typeAt (st1.stmtAt s).decl.type
            = { st1.typeAt (st1.stmtAt s).decl.type with
                array_count := (st1.exprAt (st1.stmtAt s).decl.initial).init.count,
                size := (st1.exprAt (st1.stmtAt s).decl.initial).init.count
                  * (st1.typeAt (st1.typeAt (st1.stmtAt s).decl.type).array_of).size })
      ∧ ((st1.typeAt (st1.stmtAt s).decl.type).array_count ≠ 0 →
          st'.typeAt (st1.stmtAt s).decl.type = st1.typeAt (st1.stmtAt s).decl.type) := by
  rw [sema_stmt_decl_of_children env fuel st st0 st1 s t hop hinit h0 h1]
  obtain ⟨hi1, hi2, hi3, hi4, hi5, hi6⟩ := sema_stmt_decl_infer_array st1 s t hini harr
  unfold sema_stmt_decl_finish
  rw [hi1, sema_stmt_decl_convert_self]
  exact ⟨_, rfl, hi3, hi4, hi5, hi6⟩

/-- On the examples: `int a[]` initialised with the list of `1`, `2`, `3` gets
count 3 and size 12 = 3 * 4; `int b[3]` initialised with the list of `1`, `2`
keeps count 3 and size 12. -/
theorem sema_stmt_decl_infers_array_count_witness :
    (∃ st', sema_stmt exampleEnv 8 stExample3 1 = Res.ok () st'
      ∧ st'.reports = (sema_expr exampleEnv 7
            (try_resolve_typeof (sema_expr exampleEnv 7) 7 stExample3 18).state 10).state.reports
      ∧ (∀ i, i ≠ ((sema_expr exampleEnv 7
            (try_resolve_typeof (sema_expr exampleEnv 7) 7 stExample3 18).state 10).state.stmtAt 1).decl.type →
          st'.typeAt i = (sema_expr exampleEnv 7
            (try_resolve_typeof (sema_expr exampleEnv 7) 7 stExample3 18).state 10).state.typeAt i)
      ∧ (((sema_expr exampleEnv 7
            (try_resolve_typeof (sema_expr exampleEnv 7) 7 stExample3 18).state 10).state.typeAt
              ((sema_expr exampleEnv 7
                (try_resolve_typeof (sema_expr exampleEnv 7) 7 stExample3 18).state 10).state.stmtAt 1).decl.type).array_count = 0 →
          st'.typeAt ((sema_expr exampleEnv 7
            (try_resolve_typeof (sema_expr exampleEnv 7) 7 stExample3 18).state 10).state.stmtAt 1).decl.type
            = { kind := KIND_ARRAY, size := 12, align := 4, array_of := 5, array_count := 3 })
      ∧ (((sema_expr exampleEnv 7
            (try_resolve_typeof (sema_expr exampleEnv 7) 7 stExample3 18).state 10).state.typeAt
              ((sema_expr exampleEnv 7
                (try_resolve_typeof (sema_expr exampleEnv 7) 7 stExample3 18).state 10).state.stmtAt 1).decl.type).array_count ≠ 0 →
          st'.typeAt ((sema_expr exampleEnv 7
            (try_resolve_typeof (sema_expr exampleEnv 7) 7 stExample3 18).state 10).state.stmtAt 1).decl.type
            = { kind := KIND_ARRAY, size := 0, align := 4, array_of := 5, array_count := 0 }))
    ∧ (stExample3.typeAt 18).array_count = 0
    ∧ ((sema_stmt exampleEnv 8 stExample3 1).state.typeAt 18).array_count = 3
    ∧ ((sema_stmt exampleEnv 8 stExample3 1).state.typeAt 18).size = 3 * 4
    ∧ (stExample3.typeAt 19).array_count = 3
    ∧ (stExample3.exprAt 11).init.count = 2
    ∧ ((sema_stmt exampleEnv 8 stExample3 2).state.typeAt 19).array_count = 3
    ∧ ((sema_stmt exampleEnv 8 stExample3 2).state.typeAt 19).size = 12 :=
  ⟨sema_stmt_decl_infers_array_count exampleEnv 7 stExample3
      (try_resolve_typeof (sema_expr exampleEnv 7) 7 stExample3 18).state
      (sema_expr exampleEnv 7
        (try_resolve_typeof (sema_expr exampleEnv 7) 7 stExample3 18).state 10).state
      1 0 (by decide) (by decide) (by rfl) (by rfl) (by decide) (by decide),
   by decide, by decide, by decide, by decide, by decide, by decide, by decide⟩

/-! ### Termination of `try_resolve_typeof` on records -/

/-- On a type that is neither a pointer, an array, a record nor a typeof,
`try_resolve_typeof` returns at once and changes nothing (when it has fuel). -/
theorem try_resolve_typeof_plain (sema : Sema → ExprIndex → Res TypeIndex) (fuel : Nat)
    (st : Sema) (t : TypeIndex)
    (h1 : (st.typeAt t).kind ≠ KIND_PTR) (h2 : (st.typeAt t).kind ≠ KIND_ARRAY)
    (h3 : (st.typeAt t).kind ≠ KIND_UNION) (h4 : (st.typeAt t).kind ≠ KIND_STRUCT)
    (h5 : (st.typeAt t).kind ≠ KIND_TYPEOF) :
    try_resolve_typeof sema fuel st t = Res.ok () st
      ∨ try_resolve_typeof sema fuel st t = Res.out_of_fuel := by
  cases fuel with
  | zero => exact Or.inr rfl
  | succ n =>
    left
    rw [try_resolve_typeof]
    simp only [if_neg h1, if_neg h2, if_neg h5]
    rw [if_neg (fun h => h.elim h3 h4)]

/-- The member loop over members of plain types returns in the state it started
in, or runs out of fuel. -/
theorem resolve_members_plain (sema : Sema → ExprIndex → Res TypeIndex) (fuel : Nat) (st : Sema) :
    ∀ (count : Nat) (m : MemberIndex),
      (∀ k, m ≤ k → k < m + count →
        (st.typeAt (st.tu.memberAt k).type).kind ≠ KIND_PTR
        ∧ (st.typeAt (st.tu.memberAt k).type).kind ≠ KIND_ARRAY
        ∧ (st.typeAt (st.tu.memberAt k).type).kind ≠ KIND_UNION
        ∧ (st.typeAt (st.tu.memberAt k).type).kind ≠ KIND_STRUCT
        ∧ (st.typeAt (st.tu.memberAt k).type).kind ≠ KIND_TYPEOF) →
      resolve_members (try_resolve_typeof sema fuel) count st m = Res.ok () st
        ∨ resolve_members (try_resolve_typeof sema fuel) count st m = Res.out_of_fuel := by
  intro count
  induction count with
  | zero => intro m _; exact Or.inl rfl
  | succ n ih =>
    intro m hp
    rw [resolve_members]
    obtain ⟨a1, a2, a3, a4, a5⟩ := hp m (Nat.le_refl m) (Nat.lt_add_of_pos_right (Nat.succ_pos n))
    rcases try_resolve_typeof_plain sema fuel st _ a1 a2 a3 a4 a5 with h | h
    · rw [h]
      simp only [Res.bind]
      exact ih (m + 1) (fun k hk1 hk2 => hp k (Nat.le_of_lt hk1)
        (by rw [Nat.add_assoc, Nat.add_comm 1 n] at hk2; exact hk2))
    · rw [h]
      exact Or.inr rfl

/-- On a Struct or Union whose members all have plain types (no pointer, array,
record or typeof), `try_resolve_typeof` does not return, whatever fuel it is
given: after the member loop the `while` condition is tested again on the same
entry, which is still a record. -/
theorem try_resolve_typeof_record_never_returns (sema : Sema → ExprIndex → Res TypeIndex)
    (st : Sema) (t : TypeIndex)
    (hrec : (st.typeAt t).kind = KIND_STRUCT ∨ (st.typeAt t).kind = KIND_UNION)
    (hp : ∀ k, (st.typeAt t).record.kids_start ≤ k →
        k < (st.typeAt t).record.kids_start
              + ((st.typeAt t).record.kids_end - (st.typeAt t).record.kids_start) →
        (st.typeAt (st.tu.memberAt k).type).kind ≠ KIND_PTR
        ∧ (st.typeAt (st.tu.memberAt k).type).kind ≠ KIND_ARRAY
        ∧ (st.typeAt (st.tu.memberAt k).type).kind ≠ KIND_UNION
        ∧ (st.typeAt (st.tu.memberAt k).type).kind ≠ KIND_STRUCT
        ∧ (st.typeAt (st.tu.memberAt k).type).kind ≠ KIND_TYPEOF) :
    ∀ fuel, try_resolve_typeof sema fuel st t = Res.out_of_fuel := by
  intro fuel
  induction fuel with
  | zero => rfl
  | succ n ih =>
    rw [try_resolve_typeof]
    have h1 : ¬ (st.typeAt t).kind = KIND_PTR := by rcases hrec with h | h <;> rw [h] <;> decide
    have h2 : ¬ (st.typeAt t).kind = KIND_ARRAY := by rcases hrec with h | h <;> rw [h] <;> decide
    have h3 : (st.typeAt t).kind = KIND_UNION ∨ (st.typeAt t).kind = KIND_STRUCT := hrec.symm
    simp only [if_neg h1, if_neg h2, if_pos h3]
    rcases resolve_members_plain sema n st _ _ hp with h | h
    · rw [h]
      simp only [Res.bind]
      exact ih
    · rw [h]
      rfl

/-- C24 (evaluation of the code): on `struct S`, whose only member is an `int`,
`try_resolve_typeof` does not return for any fuel and any expression checker:
the `while` loop leaves `ty` on the record and its condition holds again after
every pass.  Hence the statement `struct S s`, initialised with a list, and the
expression `sizeof(struct S)` are never checked to the end either. -/
theorem try_resolve_typeof_struct_loops :
    (stExample3.typeAt 13).kind = KIND_STRUCT
    ∧ (stExample3.typeAt 13).record = { name := "S", kids_start := 0, kids_end := 1 }
    ∧ (stExample3.typeAt (stExample3.tu.memberAt 0).type).kind = KIND_INT
    ∧ (∀ (sema : Sema → ExprIndex → Res TypeIndex) (fuel : Nat),
        try_resolve_typeof sema fuel stExample3 13 = Res.out_of_fuel)
    ∧ (∀ fuel, sema_stmt exampleEnv fuel stExample3 3 = Res.out_of_fuel)
    ∧ (∀ fuel, sema_expr exampleEnv fuel stExample3 12 = Res.out_of_fuel) := by
  have hloop : ∀ (sema : Sema → ExprIndex → Res TypeIndex) (fuel : Nat),
      try_resolve_typeof sema fuel stExample3 13 = Res.out_of_fuel := by
    intro sema
    apply try_resolve_typeof_record_never_returns sema stExample3 13 (Or.inl (by decide))
    intro k hk1 hk2
    have hk : k = 0 := by
      have h : k < 1 := hk2
      exact Nat.lt_one_iff.mp h
    rw [hk]
    decide
  refine ⟨by decide, by decide, by decide, hloop, ?_, ?_⟩
  · intro fuel
    cases fuel with
    | zero => rfl
    | succ n =>
      have hop : (stExample3.stmtAt 3).op = StmtOp.STMT_DECL := by decide
      have hinit : (stExample3.stmtAt 3).decl.initial ≠ 0 := by decide
      have ht : (stExample3.stmtAt 3).decl.type = 13 := by decide
      simp only [sema_stmt, hop, if_pos hinit, sema_stmt_decl, ht, hloop, Res.bind]
  · intro fuel
    cases fuel with
    | zero => rfl
    | succ n =>
      have hop : (stExample3.exprAt 12).op = ExprOp.EXPR_SIZEOF_T := by decide
      have ht : (stExample3.exprAt 12).x_of_type.type = 13 := by decide
      simp only [sema_expr, sema_expr_body, hop, ht, hloop, Res.bind]

/-! ### What the expression and statement checkers leave alone -/

theorem tu_eq_with_types (x tu : TranslationUnit) (h1 : x.exprs = tu.exprs)
    (h2 : x.stmts = tu.stmts) (h3 : x.params = tu.params) (h4 : x.members = tu.members)
    (h5 : x.top_level_stmts = tu.top_level_stmts) : x = { tu with types := x.types } := by
  cases x; cases tu
  simp only at h1 h2 h3 h4 h5
  simp only [h1, h2, h3, h4, h5]

theorem decay_array_frame (tu : TranslationUnit) (t : CType) :
    (decay_array tu t).2 = { tu with types := (decay_array tu t).2.types } := by
  unfold decay_array; split_ifs <;> rfl

theorem type_compatible_frame (env : Env) (tu : TranslationUnit) (a b : TypeIndex)
    (e : ExprIndex) :
    (type_compatible env tu a b e).2 = { tu with types := (type_compatible env tu a b e).2.types } := by
  unfold type_compatible
  split_ifs
  · rfl
  · show (decay_array (decay_array tu (tu.typeAt a)).2 (tu.typeAt b)).2 = _
    have h1 := decay_array_frame tu (tu.typeAt a)
    have h2 := decay_array_frame (decay_array tu (tu.typeAt a)).2 (tu.typeAt b)
    apply tu_eq_with_types
    · rw [h2, h1]
    · rw [h2, h1]
    · rw [h2, h1]
    · rw [h2, h1]
    · rw [h2, h1]

theorem new_array_frame (tu tu' : TranslationUnit) (base : TypeIndex) (n : Nat) (t : TypeIndex)
    (h : new_array tu base n = some (t, tu')) : tu' = { tu with types := tu'.types } := by
  unfold new_array at h
  split_ifs at h
  simp only [Option.some.injEq, Prod.mk.injEq] at h
  rw [← h.2]

namespace IsFrame

variable {R : Sema → Sema → Prop}

theorem step_setExpr (F : IsFrame R) (b s : Sema) (e : ExprIndex) (x : Expr) (h : R b s) :
    R b (s.setExpr e x) := F.trans _ _ _ h (F.setExpr s e x)

theorem step_setType (F : IsFrame R) (b s : Sema) (t : TypeIndex) (ty : CType) (h : R b s) :
    R b (s.setType t ty) := F.trans _ _ _ h (F.setType s t ty)

theorem step_error (F : IsFrame R) (b s : Sema) (loc : SourceLocIndex) (fmt : String)
    (h : R b s) : R b (sema_error s loc fmt) := F.trans _ _ _ h (F.error s loc fmt)

theorem step_appendTypes (F : IsFrame R) (b s : Sema) (ts : List CType) (h : R b s) :
    R b (s.appendTypes ts) := F.trans _ _ _ h (F.withTypes s _)

theorem step_newPointer (F : IsFrame R) (b s : Sema) (base : TypeIndex) (h : R b s) :
    R b (s.withTu (new_pointer s.tu base).2) := F.trans _ _ _ h (F.withTypes s _)

theorem step_newArray (F : IsFrame R) (b s : Sema) (base : TypeIndex) (n : Nat) (t : TypeIndex)
    (tu : TranslationUnit) (h : R b s) (heq : new_array s.tu base n = some (t, tu)) :
    R b (s.withTu tu) := by
  rw [new_array_frame s.tu tu base n t heq]
  exact F.trans _ _ _ h (F.withTypes s _)

theorem step_typeCompatible (F : IsFrame R) (env : Env) (b s : Sema) (a c : TypeIndex)
    (e : ExprIndex) (h : R b s) : R b (s.withTu (type_compatible env s.tu a c e).2) := by
  rw [type_compatible_frame]
  exact F.trans _ _ _ h (F.withTypes s _)

theorem step_ite (b : Sema) (c : Prop) [Decidable c] (x y : Sema) (hx : R b x) (hy : R b y) :
    R b (if c then x else y) := by
  split_ifs
  · exact hx
  · exact hy

theorem keeps_ret (F : IsFrame R) (b s : Sema) (e : ExprIndex) (t : TypeIndex) (h : R b s) :
    Keeps R b (ret_type s e t) :=
  keeps_ok _ _ _ (F.step_setExpr b s e _ h)

theorem keeps_call (F : IsFrame R) {α : Type} (b s : Sema) (r : Res α) (h : R b s)
    (hr : Keeps R s r) : Keeps R b r :=
  fun v st' heq => F.trans _ _ _ h (hr v st' heq)

end IsFrame

/-- The member loop of `try_resolve_typeof` keeps a frame relation when the
call it makes does. -/
theorem resolve_members_keeps {R : Sema → Sema → Prop} (F : IsFrame R)
    (resolve : Sema → TypeIndex → Res Unit) (hres : ∀ s t, Keeps R s (resolve s t)) :
    ∀ (count : Nat) (st : Sema) (m : MemberIndex), Keeps R st (resolve_members resolve count st m) := by
  intro count
  induction count with
  | zero => intro st m; exact keeps_ok _ _ _ (F.refl st)
  | succ n ih =>
    intro st m
    rw [resolve_members]
    apply keeps_bind _ _ _ (hres st _)
    intro _ s hs
    exact F.keeps_call _ _ _ hs (ih s _)

/-- `try_resolve_typeof` keeps a frame relation when the expression checker it
calls does. -/
theorem try_resolve_typeof_keeps {R : Sema → Sema → Prop} (F : IsFrame R)
    (sema : Sema → ExprIndex → Res TypeIndex) (hsema : ∀ s e, Keeps R s (sema s e)) :
    ∀ (fuel : Nat) (st : Sema) (t : TypeIndex), Keeps R st (try_resolve_typeof sema fuel st t) := by
  intro fuel
  induction fuel with
  | zero => intro st t; exact keeps_out_of_fuel st
  | succ n ih =>
    intro st t
    rw [try_resolve_typeof]
    apply keeps_ite
    · exact ih st _
    · apply keeps_ite
      · exact ih st _
      · apply keeps_ite
        · apply keeps_bind _ _ _ (resolve_members_keeps F _ ih _ st _)
          intro _ s hs
          exact F.keeps_call _ _ _ hs (ih s _)
        · apply keeps_ite
          · apply keeps_bind _ _ _ (hsema st _)
            intro _ s hs
            exact keeps_ok _ _ _ (F.step_setType _ _ _ _ hs)
          · exact keeps_ok _ _ _ (F.refl st)

/-- `walk_initializer_for_sema` keeps a frame relation when the expression
checker it calls does. -/
theorem walk_initializer_for_sema_keeps {R : Sema → Sema → Prop} (F : IsFrame R)
    (sema : Sema → ExprIndex → Res TypeIndex) (hsema : ∀ s e, Keeps R s (sema s e))
    (nodes : List InitNode) :
    ∀ (fuel : Nat) (st : Sema) (count pos : Nat),
      Keeps R st (walk_initializer_for_sema sema nodes fuel st count pos) := by
  intro fuel
  induction fuel with
  | zero => intro st count pos; rw [walk_initializer_for_sema]; exact keeps_out_of_fuel st
  | succ n ih =>
    intro st count pos
    cases count with
    | zero => rw [walk_initializer_for_sema]; exact keeps_ok _ _ _ (F.refl st)
    | succ c =>
      rw [walk_initializer_for_sema]
      apply keeps_ite
      · apply keeps_bind _ _ _ (hsema st _)
        intro _ s hs
        exact F.keeps_call _ _ _ hs (ih s _ _)
      · apply keeps_bind _ _ _ (ih st _ _)
        intro _ s hs
        exact F.keeps_call _ _ _ hs (ih s _ _)

/-- The typed argument loop of a call keeps a frame relation when the expression
checker it calls does. -/
theorem check_call_args_keeps {R : Sema → Sema → Prop} (F : IsFrame R) (env : Env)
    (sema : Sema → ExprIndex → Res TypeIndex) (hsema : ∀ s e, Keeps R s (sema s e))
    (args : List ExprIndex) (param_list : ParamIndex) (to_param : Bool) :
    ∀ (count : Nat) (st : Sema) (i : Nat),
      Keeps R st (check_call_args env sema args param_list to_param count st i) := by
  intro count
  induction count with
  | zero => intro st i; exact keeps_ok _ _ _ (F.refl st)
  | succ n ih =>
    intro st i
    rw [check_call_args]
    apply keeps_bind _ _ _ (hsema st _)
    intro _ s hs
    dsimp only
    apply keeps_ite
    · exact keeps_with_type_string _ _ _ _ _ (keeps_with_type_string _ _ _ _ _
        (keeps_ok _ _ _ (F.step_error _ _ _ _ (F.step_typeCompatible env _ _ _ _ _ hs))))
    · exact F.keeps_call _ _ _
        (F.step_setExpr _ _ _ _ (F.step_typeCompatible env _ _ _ _ _ hs)) (ih _ _)

/-- The loop over the untyped arguments of a call keeps a frame relation when
the expression checker it calls does. -/
theorem check_untyped_args_keeps {R : Sema → Sema → Prop} (F : IsFrame R)
    (sema : Sema → ExprIndex → Res TypeIndex) (hsema : ∀ s e, Keeps R s (sema s e))
    (args : List ExprIndex) :
    ∀ (count : Nat) (st : Sema) (i : Nat),
      Keeps R st (check_untyped_args sema args count st i) := by
  intro count
  induction count with
  | zero => intro st i; exact keeps_ok _ _ _ (F.refl st)
  | succ n ih =>
    intro st i
    rw [check_untyped_args]
    apply keeps_bind _ _ _ (hsema st _)
    intro _ s hs
    exact F.keeps_call _ _ _ (F.step_setExpr _ _ _ _ hs) (ih _ _)

namespace IsFrame

variable {R : Sema → Sema → Prop}

theorem step_setCastType (F : IsFrame R) (b s : Sema) (e : ExprIndex) (t : TypeIndex)
    (h : R b s) : R b (s.setCastType e t) := F.step_setExpr b s e _ h

theorem step_setExprType (F : IsFrame R) (b s : Sema) (e : ExprIndex) (t : TypeIndex)
    (h : R b s) : R b (s.setExprType e t) := F.step_setExpr b s e _ h

theorem step_setOp (F : IsFrame R) (b s : Sema) (e : ExprIndex) (op : ExprOp)
    (h : R b s) : R b (s.setOp e op) := F.step_setExpr b s e _ h

theorem step_swapBinOp (F : IsFrame R) (b s : Sema) (e : ExprIndex)
    (h : R b s) : R b (s.swapBinOp e) := F.step_setExpr b s e _ h

theorem step_swapSubscript (F : IsFrame R) (b s : Sema) (e : ExprIndex)
    (h : R b s) : R b (s.swapSubscript e) := F.step_setExpr b s e _ h

theorem step_setDotMember (F : IsFrame R) (b s : Sema) (e : ExprIndex) (m : MemberIndex)
    (h : R b s) : R b (s.setDotMember e m) := F.step_setExpr b s e _ h

theorem step_setInitType (F : IsFrame R) (b s : Sema) (e : ExprIndex) (t : TypeIndex)
    (h : R b s) : R b (s.setInitType e t) := F.step_setExpr b s e _ h

theorem step_setArrayCount (F : IsFrame R) (b s : Sema) (t : TypeIndex) (n : Nat)
    (h : R b s) : R b (s.setArrayCount t n) := F.step_setType b s t _ h

theorem step_setTypeSize (F : IsFrame R) (b s : Sema) (t : TypeIndex) (n : Nat)
    (h : R b s) : R b (s.setTypeSize t n) := F.step_setType b s t _ h

theorem step_setDeclType (F : IsFrame R) (b s : Sema) (i : StmtIndex) (t : TypeIndex)
    (h : R b s) : R b (s.setDeclType i t) := F.trans _ _ _ h (F.setDeclType s i t)

end IsFrame

/-- The pointer-arithmetic branch keeps a frame relation. -/
theorem sema_expr_ptr_arith_keeps {R : Sema → Sema → Prop} (F : IsFrame R) (env : Env)
    (b st : Sema) (e : ExprIndex) (lhs rhs : TypeIndex) (hb : R b st) :
    Keeps R b (sema_expr_ptr_arith env st e lhs rhs) := by
  unfold sema_expr_ptr_arith
  dsimp only
  repeat' first
    | assumption
    | with_reducible refine F.keeps_ret _ _ _ _ ?_
    | with_reducible refine F.step_setCastType _ _ _ _ ?_
    | with_reducible refine F.step_setOp _ _ _ _ ?_
    | with_reducible refine F.step_swapBinOp _ _ _ ?_
    | with_reducible refine F.step_error _ _ _ _ ?_
    | with_reducible refine IsFrame.step_ite _ _ _ _ ?_ ?_
    | with_reducible refine keeps_with_type_string _ _ _ _ _ ?_
    | with_reducible refine keeps_ok _ _ _ ?_
    | with_reducible refine keeps_ite _ _ _ _ ?_ ?_

/-- The arithmetic case keeps a frame relation. -/
theorem sema_expr_arith_keeps {R : Sema → Sema → Prop} (F : IsFrame R) (env : Env)
    (b st : Sema) (e : ExprIndex) (lhs rhs : TypeIndex) (hb : R b st) :
    Keeps R b (sema_expr_arith env st e lhs rhs) := by
  unfold sema_expr_arith
  dsimp only
  repeat' first
    | assumption
    | exact sema_expr_ptr_arith_keeps F env _ _ _ _ _ hb
    | with_reducible refine F.keeps_ret _ _ _ _ ?_
    | with_reducible refine F.step_setCastType _ _ _ _ ?_
    | with_reducible refine F.step_appendTypes _ _ _ ?_
    | with_reducible refine F.step_error _ _ _ _ ?_
    | with_reducible refine keeps_with_type_string _ _ _ _ _ ?_
    | with_reducible refine keeps_ok _ _ _ ?_
    | with_reducible refine keeps_ite _ _ _ _ ?_ ?_

/-- The body of `sema_expr` keeps a frame relation when the recursive call
does. -/
theorem sema_expr_body_keeps {R : Sema → Sema → Prop} (F : IsFrame R) (env : Env)
    (self : Sema → ExprIndex → Res TypeIndex) (hself : ∀ s e, Keeps R s (self s e))
    (fuel : Nat) (b st : Sema) (e : ExprIndex) (hb : R b st) :
    Keeps R b (sema_expr_body env self fuel st e) := by
  unfold sema_expr_body
  split <;> repeat' first
    | assumption
    | exact keeps_abort _
    | with_reducible refine F.keeps_ret _ _ _ _ ?_
    | with_reducible refine F.keeps_call _ _ _ ?_ (hself _ _)
    | with_reducible refine F.keeps_call _ _ _ ?_ (try_resolve_typeof_keeps F self hself _ _ _)
    | with_reducible refine F.keeps_call _ _ _ ?_ (walk_initializer_for_sema_keeps F self hself _ _ _ _ _)
    | with_reducible refine F.keeps_call _ _ _ ?_ (check_call_args_keeps F env self hself _ _ _ _ _ _)
    | with_reducible refine F.keeps_call _ _ _ ?_ (check_untyped_args_keeps F self hself _ _ _ _)
    | with_reducible refine sema_expr_arith_keeps F env _ _ _ _ _ ?_
    | with_reducible refine F.step_setCastType _ _ _ _ ?_
    | with_reducible refine F.step_setExpr _ _ _ _ ?_
    | with_reducible refine F.step_swapSubscript _ _ _ ?_
    | with_reducible refine F.step_setDotMember _ _ _ _ ?_
    | with_reducible refine F.step_appendTypes _ _ _ ?_
    | with_reducible refine F.step_error _ _ _ _ ?_
    | with_reducible refine F.step_newPointer _ _ _ ?_
    | with_reducible refine F.step_newArray _ _ _ _ _ _ ?_ (by assumption)
    | with_reducible refine IsFrame.step_ite _ _ _ _ ?_ ?_
    | with_reducible refine keeps_bind _ _ _ ?_ (fun _ _ _ => ?_)
    | with_reducible refine keeps_with_type_string _ _ _ _ _ ?_
    | with_reducible refine keeps_ok _ _ _ ?_
    | with_reducible refine keeps_ite _ _ _ _ ?_ ?_
    | split
    | dsimp only

/-- Frame of `sema_expr`: a returning call keeps every relation that is
reflexive, transitive and kept by the writes to expressions, to types and to the
report list. -/
theorem sema_expr_keeps {R : Sema → Sema → Prop} (F : IsFrame R) (env : Env) :
    ∀ (fuel : Nat) (st : Sema) (e : ExprIndex), Keeps R st (sema_expr env fuel st e) := by
  intro fuel
  induction fuel with
  | zero => intro st e; exact keeps_out_of_fuel st
  | succ n ih =>
    intro st e
    rw [sema_expr]
    exact sema_expr_body_keeps F env _ ih n st st e (F.refl st)

/-! ### `sema_check`: linkage conflicts, names and linkage -/

theorem stmt_in_range_of_static (st : Sema) (s : StmtIndex)
    (h : (st.stmtAt s).decl.attrs.is_static = true) : s < st.tu.stmts.length := by
  by_contra hge
  rw [stmtAt_default_of_ge st s (Nat.le_of_not_lt hge)] at h
  cases h

theorem stmtAt_setBackingF_self (st : Sema) (s : StmtIndex) (id : Nat)
    (h : s < st.tu.stmts.length) :
    ((st.setBackingF s id).stmtAt s).backing.f = id := by
  unfold Sema.setBackingF
  rw [Sema.stmtAt_setStmt, if_pos ⟨rfl, h⟩]

theorem stmtAt_setBackingG_self (st : Sema) (s : StmtIndex) (id : Nat)
    (h : s < st.tu.stmts.length) :
    ((st.setBackingG s id).stmtAt s).backing.g = id := by
  unfold Sema.setBackingG
  rw [Sema.stmtAt_setStmt, if_pos ⟨rfl, h⟩]

theorem stmtAt_setBackingE_self (st : Sema) (s : StmtIndex) (id : Nat)
    (h : s < st.tu.stmts.length) :
    ((st.setBackingE s id).stmtAt s).backing.e = id := by
  unfold Sema.setBackingE
  rw [Sema.stmtAt_setStmt, if_pos ⟨rfl, h⟩]

/-- C28: a function declaration (of function type), or a global declaration
marked used, that is both `static` and `extern`: `sema_check` returns with the IR
module unchanged (no prototype, function, global or external is created), the
linkage-conflict error appended to the diagnostics at the declaration's
location, and the backing id of the declaration set to 0.  Nothing else is
written: the expressions and the types are those before the call and
`function_stmt` is untouched, so the body of the function is not checked. -/
theorem sema_check_linkage_conflict (env : Env) (gen : IrGen) (fuel : Nat) (m : TB_Module)
    (st : Sema) (s : StmtIndex)
    (hstatic : (st.stmtAt s).decl.attrs.is_static = true)
    (hext : (st.stmtAt s).decl.attrs.is_extern = true)
    (hdecl : ((st.stmtAt s).op = StmtOp.STMT_FUNC_DECL
          ∧ (st.typeAt (st.stmtAt s).decl.type).kind = KIND_FUNC)
        ∨ (((st.stmtAt s).op = StmtOp.STMT_DECL ∨ (st.stmtAt s).op = StmtOp.STMT_GLOBAL_DECL)
          ∧ (st.stmtAt s).decl.attrs.is_used = true)) :
    ∃ st', sema_check env gen fuel m st s = Res.ok m st'
      ∧ st'.reports = st.reports ++
          [{ level := ReportLevel.REPORT_ERROR, loc := (st.stmtAt s).loc,
             fmt := if (st.stmtAt s).op = StmtOp.STMT_FUNC_DECL then
                 "Function '%s' cannot be both static and extern."
               else "Global declaration '%s' cannot be both static and extern." }]
      ∧ (if (st.stmtAt s).op = StmtOp.STMT_FUNC_DECL then (st'.stmtAt s).backing.f = 0
          else (st'.stmtAt s).backing.g = 0)
      ∧ st'.tu.exprs = st.tu.exprs ∧ st'.tu.types = st.tu.types
      ∧ st'.function_stmt = st.function_stmt
      ∧ (∀ i, i ≠ s → st'.stmtAt i = st.stmtAt i) := by
  have hlt := stmt_in_range_of_static st s hstatic
  rcases hdecl with ⟨hop, hkind⟩ | ⟨hop, hused⟩
  · refine ⟨(sema_error st (st.stmtAt s).loc
        "Function '%s' cannot be both static and extern.").setBackingF s 0, ?_, ?_, ?_, rfl, rfl,
        rfl, ?_⟩
    · unfold sema_check
      rw [hop]
      simp only [hkind, hstatic, hext, ne_eq, not_true_eq_false, and_self, if_true, if_false]
    · rw [if_pos hop]; rfl
    · rw [if_pos hop]
      exact stmtAt_setBackingF_self _ s 0 hlt
    · intro i hi
      unfold Sema.setBackingF
      rw [Sema.stmtAt_setStmt, if_neg (fun h => hi h.1)]
      rfl
  · have hne : (st.stmtAt s).op ≠ StmtOp.STMT_FUNC_DECL := by
      rcases hop with h | h <;> rw [h] <;> decide
    refine ⟨(sema_error st (st.stmtAt s).loc
        "Global declaration '%s' cannot be both static and extern.").setBackingG s 0, ?_, ?_, ?_,
        rfl, rfl, rfl, ?_⟩
    · unfold sema_check
      rcases hop with h | h <;> rw [h] <;>
        simp only [hused, hstatic, hext, and_self, if_true, if_false, Bool.true_eq_false]
    · rw [if_neg hne]; rfl
    · rw [if_neg hne]
      exact stmtAt_setBackingG_self _ s 0 hlt
    · intro i hi
      unfold Sema.setBackingG
      rw [Sema.stmtAt_setStmt, if_neg (fun h => hi h.1)]
      rfl

/-- C28 at the conflicting function `helper` of `stConflict` (statement 3): the
call returns the module it was given. -/
theorem sema_check_linkage_conflict_witness :
    ∃ st', sema_check exampleEnv exampleGen 5 {} stConflict 3 = Res.ok {} st'
      ∧ st'.reports = stConflict.reports ++
          [{ level := ReportLevel.REPORT_ERROR, loc := 103,
             fmt := "Function '%s' cannot be both static and extern." }]
      ∧ (st'.stmtAt 3).backing.f = 0
      ∧ st'.tu.exprs = stConflict.tu.exprs :=
  let ⟨st', h1, h2, h3, h4, _⟩ :=
    sema_check_linkage_conflict exampleEnv exampleGen 5 {} stConflict 3 (by decide) (by decide)
      (Or.inl ⟨by decide, by decide⟩)
  ⟨st', h1, h2, h3, h4⟩

/-- A returning call of the function case of `sema_check`: the name and linkage
are those of `function_name_and_linkage`, the module is the one
`tb_prototype_build` made, the body was checked with `function_stmt = s` in the
state holding the new id, and `function_stmt` is reset to 0. -/
theorem sema_check_function_ok (env : Env) (gen : IrGen) (fuel : Nat) (m m' : TB_Module)
    (st st' : Sema) (s : StmtIndex)
    (hrun : sema_check_function env gen fuel m st s = Res.ok m' st') :
    ∃ proto name linkage st1,
      function_name_and_linkage (st.stmtAt s).decl.attrs (st.stmtAt s).decl.name s
        = some (name, linkage)
      ∧ m' = (tb_prototype_build m proto name linkage).2
      ∧ sema_stmt env fuel ((st.setBackingF s m.functions.length).setFunctionStmt s)
          (((st.setBackingF s m.functions.length).setFunctionStmt s).stmtAt s).decl.initial
          = Res.ok () st1
      ∧ st' = st1.setFunctionStmt 0 := by
  unfold sema_check_function at hrun
  dsimp only at hrun
  split at hrun
  · cases hrun
  · rename_i proto hproto
    split at hrun
    · cases hrun
    · rename_i name linkage hname
      cases hbody : sema_stmt env fuel ((st.setBackingF s m.functions.length).setFunctionStmt s)
          (((st.setBackingF s m.functions.length).setFunctionStmt s).stmtAt s).decl.initial with
      | ok v st1 =>
        have hrun' : Res.ok (tb_prototype_build m proto name linkage).2 (st1.setFunctionStmt 0)
            = Res.ok m' st' := by
          have := hrun
          simp only [tb_prototype_build] at this hbody ⊢
          rw [hbody] at this
          exact this
        simp only [Res.ok.injEq] at hrun'
        exact ⟨proto, name, linkage, st1, hname, hrun'.1.symm, rfl, hrun'.2.symm⟩
      | abort =>
        simp only [tb_prototype_build] at hrun hbody
        rw [hbody] at hrun
        cases hrun
      | out_of_fuel =>
        simp only [tb_prototype_build] at hrun hbody
        rw [hbody] at hrun
        cases hrun

/-- The two outcomes of `function_name_and_linkage`. -/
theorem function_name_and_linkage_some (attrs : Attribs) (name : Atom) (s : StmtIndex)
    (name' : String) (linkage : TB_Linkage)
    (h : function_name_and_linkage attrs name s = some (name', linkage)) :
    name' = (if attrs.is_inline = true then name ++ "@" ++ String.mk (Nat.toDigits 10 s) else name)
    ∧ linkage = (if attrs.is_static = true ∨ attrs.is_inline = true then
        TB_Linkage.TB_LINKAGE_PRIVATE else TB_Linkage.TB_LINKAGE_PUBLIC) := by
  unfold function_name_and_linkage at h
  dsimp only at h
  by_cases hin : attrs.is_inline = true
  · rw [if_pos hin] at h
    split_ifs at h
    simp only [Option.some.injEq, Prod.mk.injEq] at h
    rw [if_pos hin, if_pos (Or.inr hin)]
    exact ⟨h.1.symm, h.2.symm⟩
  · rw [if_neg hin] at h
    simp only [Option.some.injEq, Prod.mk.injEq] at h
    rw [if_neg hin]
    refine ⟨h.1.symm, ?_⟩
    rw [← h.2]
    by_cases hs : attrs.is_static = true
    · rw [if_pos hs, if_pos (Or.inl hs)]
    · rw [if_neg hs, if_neg (fun h => h.elim hs hin)]

/-- A call of `sema_check` on a function declaration that changes the function
list of the module went through the function case. -/
theorem sema_check_registers_function (env : Env) (gen : IrGen) (fuel : Nat)
    (m m' : TB_Module) (st st' : Sema) (s : StmtIndex)
    (hop : (st.stmtAt s).op = StmtOp.STMT_FUNC_DECL)
    (hrun : sema_check env gen fuel m st s = Res.ok m' st')
    (hreg : m'.functions ≠ m.functions) :
    sema_check_function env gen fuel m st s = Res.ok m' st' := by
  unfold sema_check at hrun
  rw [hop] at hrun
  dsimp only at hrun
  by_cases h1 : (st.typeAt (st.stmtAt s).decl.type).kind ≠ KIND_FUNC
  · rw [if_pos h1] at hrun; cases hrun
  · rw [if_neg h1] at hrun
    by_cases h2 : (st.stmtAt s).decl.attrs.is_static = true
        ∧ (st.stmtAt s).decl.attrs.is_extern = true
    · rw [if_pos h2] at hrun
      simp only [Res.ok.injEq] at hrun
      exact absurd (by rw [hrun.1]) hreg
    · rw [if_neg h2] at hrun
      by_cases h3 : ((st.stmtAt s).decl.attrs.is_static = true
          ∨ (st.stmtAt s).decl.attrs.is_inline = true)
          ∧ (st.stmtAt s).decl.attrs.is_used = false
      · rw [if_pos h3] at hrun
        simp only [Res.ok.injEq] at hrun
        exact absurd (by rw [hrun.1]) hreg
      · rw [if_neg h3] at hrun
        exact hrun

/-- C29: a call of `sema_check` on a function declaration that registers a
function in the IR module (the function list of the module changes) puts
exactly one function in front of the list.  Its linkage is private if the
declaration is static or inline and public otherwise; its name is the declared
name, or for an inline declaration the declared name followed by `@` and the
decimal digits of the statement index. -/
theorem sema_check_function_name_and_linkage (env : Env) (gen : IrGen) (fuel : Nat)
    (m m' : TB_Module) (st st' : Sema) (s : StmtIndex)
    (hop : (st.stmtAt s).op = StmtOp.STMT_FUNC_DECL)
    (hrun : sema_check env gen fuel m st s = Res.ok m' st')
    (hreg : m'.functions ≠ m.functions) :
    ∃ f : TB_Function, m'.functions = f :: m.functions
      ∧ f.linkage = (if (st.stmtAt s).decl.attrs.is_static = true
            ∨ (st.stmtAt s).decl.attrs.is_inline = true then
          TB_Linkage.TB_LINKAGE_PRIVATE else TB_Linkage.TB_LINKAGE_PUBLIC)
      ∧ f.name = (if (st.stmtAt s).decl.attrs.is_inline = true then
          (st.stmtAt s).decl.name ++ "@" ++ String.mk (Nat.toDigits 10 s)
        else (st.stmtAt s).decl.name) := by
  obtain ⟨proto, name, linkage, st1, hname, hm, _, _⟩ :=
    sema_check_function_ok env gen fuel m m' st st' s
      (sema_check_registers_function env gen fuel m m' st st' s hop hrun hreg)
  obtain ⟨h1, h2⟩ := function_name_and_linkage_some _ _ _ _ _ hname
  refine ⟨{ id := m.functions.length, name := name, linkage := linkage, prototype := proto },
    ?_, h2, h1⟩
  rw [hm]; rfl

/-- C29 at the inline function `sq` of `stUnit` (statement 10), checked after the
reachability pass in the empty module: one function, private, named `sq@10`. -/
theorem sema_check_function_name_and_linkage_witness :
    ∃ f : TB_Function,
      (sema_check exampleEnv exampleGen 5 {} (sema_remove_unused 5 stUnit).state 10).module.functions
        = [f]
      ∧ f.linkage = TB_Linkage.TB_LINKAGE_PRIVATE ∧ f.name = "sq@10" :=
  let ⟨f, h1, h2, h3⟩ :=
    sema_check_function_name_and_linkage exampleEnv exampleGen 5 {}
      (sema_check exampleEnv exampleGen 5 {} (sema_remove_unused 5 stUnit).state 10).module
      (sema_remove_unused 5 stUnit).state
      (sema_check exampleEnv exampleGen 5 {} (sema_remove_unused 5 stUnit).state 10).state
      10 (by decide) (by rfl) (by decide)
  ⟨f, h1, h2.trans (by decide), h3.trans (by decide)⟩

/-! ### The decimal statement index in the name of an inline function -/

theorem digitChar_value (d : Nat) (h : d < 10) : (Nat.digitChar d).toNat - 48 = d := by
  interval_cases d <;> rfl

/-- Reading the digits that `Nat.toDigitsCore 10` puts in front of `ds` gives
back the number. -/
theorem toDigitsCore_value :
    ∀ (fuel n : Nat) (ds : List Char), n < fuel →
      (Nat.toDigitsCore 10 fuel n ds).foldl (fun a c => a * 10 + (c.toNat - 48)) 0
        = ds.foldl (fun a c => a * 10 + (c.toNat - 48)) n := by
  intro fuel
  induction fuel with
  | zero => intro n ds h; omega
  | succ k ih =>
    intro n ds h
    rw [Nat.toDigitsCore]
    split_ifs with h0
    · rw [List.foldl_cons, digitChar_value _ (Nat.mod_lt _ (by decide))]
      have : 0 * 10 + n % 10 = n := by omega
      rw [this]
    · rw [ih (n / 10) _ (by omega), List.foldl_cons,
        digitChar_value _ (Nat.mod_lt _ (by decide))]
      have : n / 10 * 10 + n % 10 = n := by omega
      rw [this]

theorem toDigits_injective (a b : Nat) (h : Nat.toDigits 10 a = Nat.toDigits 10 b) : a = b := by
  have ha := toDigitsCore_value (a + 1) a [] (Nat.lt_succ_self a)
  have hb := toDigitsCore_value (b + 1) b [] (Nat.lt_succ_self b)
  unfold Nat.toDigits at h
  rw [h, hb] at ha
  exact ha.symm

/-- Two mangled names with the same declared name are equal exactly when the
statement indices are. -/
theorem mangled_name_eq_iff (name : String) (a b : Nat) :
    name ++ "@" ++ String.mk (Nat.toDigits 10 a) = name ++ "@" ++ String.mk (Nat.toDigits 10 b)
      ↔ a = b := by
  constructor
  · intro h
    have h' := congrArg String.data h
    simp only [String.data_append, List.append_cancel_left_eq] at h'
    exact toDigits_injective a b h'
  · intro h; rw [h]

/-- C30, counterexample: `stUnit` and `stUnit2` are two different translation
units, each declares the inline function `sq` as statement 10, and checking
both into one IR module registers two functions (ids 2 and 6) under the same
name `sq@10`. -/
theorem inline_mangling_collides_across_units :
    stUnit.tu ≠ stUnit2.tu
    ∧ (stUnit.stmtAt 10).op = StmtOp.STMT_FUNC_DECL
    ∧ (stUnit2.stmtAt 10).op = StmtOp.STMT_FUNC_DECL
    ∧ (stUnit.stmtAt 10).decl.attrs.is_inline = true
    ∧ (stUnit2.stmtAt 10).decl.attrs.is_inline = true
    ∧ (stUnit.stmtAt 10).decl.name = "sq" ∧ (stUnit2.stmtAt 10).decl.name = "sq"
    ∧ (((sema_check_unit exampleEnv exampleGen 5
          (sema_check_unit exampleEnv exampleGen 5 {} stUnit).module stUnit2).module.functions.filter
          (fun f => f.name = "sq@10")).map (fun f => f.id)) = [6, 2] := by
  refine ⟨by decide, by decide, by decide, by decide, by decide, by decide, by decide, ?_⟩
  rfl

/-- C30, amended: two inline function declarations with the same declared name
that `sema_check` registers, in whichever translation units, states and modules,
get different registered names if and only if their statement indices differ. -/
theorem sema_check_inline_names_differ_iff (env1 env2 : Env) (gen1 gen2 : IrGen)
    (fuel1 fuel2 : Nat) (m1 m1' m2 m2' : TB_Module) (st1 st1' st2 st2' : Sema)
    (s1 s2 : StmtIndex)
    (hop1 : (st1.stmtAt s1).op = StmtOp.STMT_FUNC_DECL)
    (hop2 : (st2.stmtAt s2).op = StmtOp.STMT_FUNC_DECL)
    (hin1 : (st1.stmtAt s1).decl.attrs.is_inline = true)
    (hin2 : (st2.stmtAt s2).decl.attrs.is_inline = true)
    (hname : (st1.stmtAt s1).decl.name = (st2.stmtAt s2).decl.name)
    (hrun1 : sema_check env1 gen1 fuel1 m1 st1 s1 = Res.ok m1' st1')
    (hrun2 : sema_check env2 gen2 fuel2 m2 st2 s2 = Res.ok m2' st2')
    (hreg1 : m1'.functions ≠ m1.functions) (hreg2 : m2'.functions ≠ m2.functions) :
    ∃ f1 f2 : TB_Function, m1'.functions = f1 :: m1.functions
      ∧ m2'.functions = f2 :: m2.functions
      ∧ (f1.name ≠ f2.name ↔ s1 ≠ s2) := by
  obtain ⟨p1, n1, l1, _, hn1, hm1, _, _⟩ :=
    sema_check_function_ok env1 gen1 fuel1 m1 m1' st1 st1' s1
      (sema_check_registers_function env1 gen1 fuel1 m1 m1' st1 st1' s1 hop1 hrun1 hreg1)
  obtain ⟨p2, n2, l2, _, hn2, hm2, _, _⟩ :=
    sema_check_function_ok env2 gen2 fuel2 m2 m2' st2 st2' s2
      (sema_check_registers_function env2 gen2 fuel2 m2 m2' st2 st2' s2 hop2 hrun2 hreg2)
  have h1 := (function_name_and_linkage_some _ _ _ _ _ hn1).1
  have h2 := (function_name_and_linkage_some _ _ _ _ _ hn2).1
  rw [if_pos hin1] at h1
  rw [if_pos hin2, ← hname] at h2
  refine ⟨{ id := m1.functions.length, name := n1, linkage := l1, prototype := p1 },
    { id := m2.functions.length, name := n2, linkage := l2, prototype := p2 }, ?_, ?_, ?_⟩
  · rw [hm1]; rfl
  · rw [hm2]; rfl
  · show n1 ≠ n2 ↔ s1 ≠ s2
    rw [h1, h2]
    exact not_congr (mangled_name_eq_iff _ s1 s2)

/-- C30 amended, at the inline function `sq` (statement 10) of `stUnit` and of
`stUnit2`, each checked after its reachability pass: the two registered names
do not differ, the statement indices being equal. -/
theorem sema_check_inline_names_differ_iff_witness :
    ∃ f1 f2 : TB_Function,
      (sema_check exampleEnv exampleGen 5 {} (sema_remove_unused 5 stUnit).state 10).module.functions
        = [f1]
      ∧ (sema_check exampleEnv exampleGen 5 {} (sema_remove_unused 5 stUnit2).state 10).module.functions
        = [f2]
      ∧ ¬ f1.name ≠ f2.name :=
  let ⟨f1, f2, h1, h2, h3⟩ :=
    sema_check_inline_names_differ_iff exampleEnv exampleEnv exampleGen exampleGen 5 5
      {} (sema_check exampleEnv exampleGen 5 {} (sema_remove_unused 5 stUnit).state 10).module
      {} (sema_check exampleEnv exampleGen 5 {} (sema_remove_unused 5 stUnit2).state 10).module
      (sema_remove_unused 5 stUnit).state
      (sema_check exampleEnv exampleGen 5 {} (sema_remove_unused 5 stUnit).state 10).state
      (sema_remove_unused 5 stUnit2).state
      (sema_check exampleEnv exampleGen 5 {} (sema_remove_unused 5 stUnit2).state 10).state
      10 10 (by decide) (by decide) (by decide) (by decide) (by decide) (by rfl) (by rfl)
      (by decide) (by decide)
  ⟨f1, f2, h1, h2, fun h => (h3.mp h) rfl⟩

/-! ### What the statement checker and `sema_check` leave alone -/

/-- `DeclsKept` is respected by every write of the expression and statement
checkers. -/
theorem declsKept_isFrame : IsFrame DeclsKept where
  refl := fun st => ⟨rfl, fun s => ⟨rfl, rfl, rfl, rfl, rfl, rfl, rfl⟩⟩
  trans := fun a b c h1 h2 =>
    ⟨h2.1.trans h1.1, fun s =>
      ⟨(h2.2 s).1.trans (h1.2 s).1, (h2.2 s).2.1.trans (h1.2 s).2.1,
       (h2.2 s).2.2.1.trans (h1.2 s).2.2.1, (h2.2 s).2.2.2.1.trans (h1.2 s).2.2.2.1,
       (h2.2 s).2.2.2.2.1.trans (h1.2 s).2.2.2.2.1,
       (h2.2 s).2.2.2.2.2.1.trans (h1.2 s).2.2.2.2.2.1,
       (h2.2 s).2.2.2.2.2.2.trans (h1.2 s).2.2.2.2.2.2⟩⟩
  setExpr := fun st e x => ⟨rfl, fun s => ⟨rfl, rfl, rfl, rfl, rfl, rfl, rfl⟩⟩
  setType := fun st t ty => ⟨rfl, fun s => ⟨rfl, rfl, rfl, rfl, rfl, rfl, rfl⟩⟩
  error := fun st loc fmt => ⟨rfl, fun s => ⟨rfl, rfl, rfl, rfl, rfl, rfl, rfl⟩⟩
  withTypes := fun st types => ⟨rfl, fun s => ⟨rfl, rfl, rfl, rfl, rfl, rfl, rfl⟩⟩
  label := by
    intro st s n k
    refine ⟨rfl, fun i => ?_⟩
    show ((st.setStmt s _).stmtAt i).op = _ ∧ ((st.setStmt s _).stmtAt i).decl.attrs = _
      ∧ ((st.setStmt s _).stmtAt i).decl.name = _ ∧ ((st.setStmt s _).stmtAt i).decl.initial = _
      ∧ ((st.setStmt s _).stmtAt i).backing.f = _ ∧ ((st.setStmt s _).stmtAt i).backing.g = _
      ∧ ((st.setStmt s _).stmtAt i).backing.e = _
    rw [Sema.stmtAt_setStmt]
    by_cases h : i = s ∧ s < st.tu.stmts.length
    · rw [if_pos h, h.1]
      exact ⟨rfl, rfl, rfl, rfl, rfl, rfl, rfl⟩
    · rw [if_neg h]
      exact ⟨rfl, rfl, rfl, rfl, rfl, rfl, rfl⟩
  setDeclType := by
    intro st s t
    refine ⟨rfl, fun i => ?_⟩
    unfold Sema.setDeclType
    rw [Sema.stmtAt_setStmt]
    by_cases h : i = s ∧ s < st.tu.stmts.length
    · rw [if_pos h, h.1]
      exact ⟨rfl, rfl, rfl, rfl, rfl, rfl, rfl⟩
    · rw [if_neg h]
      exact ⟨rfl, rfl, rfl, rfl, rfl, rfl, rfl⟩

/-- The loop of the `STMT_COMPOUND` case keeps a frame relation when the
statement checker it calls does. -/
theorem sema_stmt_kids_keeps {R : Sema → Sema → Prop} (F : IsFrame R)
    (stmt : Sema → StmtIndex → Res Unit) (hstmt : ∀ s i, Keeps R s (stmt s i))
    (kids : List StmtIndex) :
    ∀ (count : Nat) (st : Sema) (i : Nat), Keeps R st (sema_stmt_kids stmt kids count st i) := by
  intro count
  induction count with
  | zero => intro st i; exact keeps_ok _ _ _ (F.refl st)
  | succ n ih =>
    intro st i
    rw [sema_stmt_kids]
    apply keeps_bind _ _ _ (hstmt st _)
    intro _ s hs
    exact F.keeps_call _ _ _ hs (ih s _)

/-- The array-count inference of the `STMT_DECL` case keeps a frame relation. -/
theorem sema_stmt_decl_infer_keeps {R : Sema → Sema → Prop} (F : IsFrame R)
    (b st : Sema) (s : StmtIndex) (t : TypeIndex) (hb : R b st) :
    R b (sema_stmt_decl_infer st s t).2 := by
  unfold sema_stmt_decl_infer
  dsimp only
  split_ifs
  · exact F.step_setInitType _ _ _ _ (F.step_setTypeSize _ _ _ _ (F.step_setArrayCount _ _ _ _ hb))
  · exact F.step_setInitType _ _ _ _ hb
  · exact F.step_setDeclType _ _ _ _ hb
  · exact hb
  · exact hb

/-- The `STMT_DECL` case keeps a frame relation. -/
theorem sema_stmt_decl_keeps {R : Sema → Sema → Prop} (F : IsFrame R) (env : Env) (fuel : Nat)
    (st : Sema) (s : StmtIndex) : Keeps R st (sema_stmt_decl env fuel st s) := by
  unfold sema_stmt_decl
  apply keeps_bind _ _ _
    (try_resolve_typeof_keeps F _ (sema_expr_keeps F env fuel) fuel st _)
  intro _ s1 h1
  apply keeps_bind _ _ _ (F.keeps_call _ _ _ h1 (sema_expr_keeps F env fuel s1 _))
  intro t s2 h2
  unfold sema_stmt_decl_finish sema_stmt_decl_convert
  dsimp only
  have h3 := sema_stmt_decl_infer_keeps F st s2 s t h2
  apply keeps_ite
  · exact keeps_with_type_string _ _ _ _ _ (keeps_with_type_string _ _ _ _ _ (keeps_ok _ _ _
      (F.step_error _ _ _ _ (F.step_typeCompatible env _ _ _ _ _ (F.step_setCastType _ _ _ _ h3)))))
  · exact keeps_ok _ _ _ (F.step_typeCompatible env _ _ _ _ _ (F.step_setCastType _ _ _ _ h3))

/-- Frame of `sema_stmt`: a returning call keeps every relation that is
reflexive, transitive and kept by the writes of the checkers. -/
theorem sema_stmt_keeps {R : Sema → Sema → Prop} (F : IsFrame R) (env : Env) :
    ∀ (fuel : Nat) (b st : Sema) (s : StmtIndex), R b st → Keeps R b (sema_stmt env fuel st s) := by
  intro fuel
  induction fuel with
  | zero => intro b st s _; exact keeps_out_of_fuel b
  | succ n ih =>
    intro b st s hb
    have hself : ∀ (x : Sema) (i : StmtIndex), Keeps R x (sema_stmt env n x i) :=
      fun x i => ih x x i (F.refl x)
    rw [sema_stmt]
    split <;> repeat' first
      | assumption
      | exact keeps_abort _
      | with_reducible exact keeps_ok _ _ _ (F.trans _ _ _ (by assumption) (F.label _ _ _ _))
      | with_reducible refine keeps_ok _ _ _ ?_
      | with_reducible refine ih _ _ _ ?_
      | with_reducible refine F.keeps_call _ _ _ ?_ (sema_expr_keeps F env _ _ _)
      | with_reducible refine F.keeps_call _ _ _ ?_ (sema_stmt_decl_keeps F env _ _ _)
      | with_reducible refine F.keeps_call _ _ _ ?_ (sema_stmt_kids_keeps F _ hself _ _ _ _)
      | with_reducible refine F.step_setCastType _ _ _ _ ?_
      | with_reducible refine F.step_error _ _ _ _ ?_
      | with_reducible refine F.step_typeCompatible env _ _ _ _ _ ?_
      | with_reducible refine IsFrame.step_ite _ _ _ _ ?_ ?_
      | with_reducible refine keeps_bind _ _ _ ?_ (fun _ _ _ => ?_)
      | with_reducible refine keeps_with_type_string _ _ _ _ _ ?_
      | with_reducible refine keeps_ok _ _ _ ?_
      | with_reducible refine keeps_ite _ _ _ _ ?_ ?_

/-! ### One call of `sema_check` -/

theorem res_bind_eq_ok {α β : Type} (r : Res α) (k : α → Sema → Res β) (v : β) (st' : Sema)
    (h : r.bind k = Res.ok v st') : ∃ a s, r = Res.ok a s ∧ k a s = Res.ok v st' := by
  cases r with
  | ok a s => exact ⟨a, s, rfl, h⟩
  | abort => cases h
  | out_of_fuel => cases h

theorem declsKeptExcept_of_declsKept (written : StmtIndex → Prop) (a b : Sema)
    (h : DeclsKept a b) : DeclsKeptExcept written a b :=
  ⟨h.1, fun s => ⟨(h.2 s).1, (h.2 s).2.1, (h.2 s).2.2.1, (h.2 s).2.2.2.1,
    fun _ => (h.2 s).2.2.2.2⟩⟩

theorem declsKeptExcept_refl (written : StmtIndex → Prop) (a : Sema) :
    DeclsKeptExcept written a a :=
  declsKeptExcept_of_declsKept written a a (declsKept_isFrame.refl a)

theorem declsKeptExcept_trans (p q r : StmtIndex → Prop) (a b c : Sema)
    (hp : ∀ s, p s → r s) (hq : ∀ s, q s → r s)
    (h1 : DeclsKeptExcept p a b) (h2 : DeclsKeptExcept q b c) : DeclsKeptExcept r a c := by
  refine ⟨h2.1.trans h1.1, fun s => ?_⟩
  obtain ⟨a1, a2, a3, a4, a5⟩ := h1.2 s
  obtain ⟨b1, b2, b3, b4, b5⟩ := h2.2 s
  refine ⟨b1.trans a1, b2.trans a2, b3.trans a3, b4.trans a4, fun hr => ?_⟩
  obtain ⟨a6, a7, a8⟩ := a5 (fun h => hr (hp s h))
  obtain ⟨b6, b7, b8⟩ := b5 (fun h => hr (hq s h))
  exact ⟨b6.trans a6, b7.trans a7, b8.trans a8⟩

/-- A write to the backing ids of statement `s` is kept outside `s`. -/
theorem declsKeptExcept_setStmt (st : Sema) (s : StmtIndex) (x : Stmt)
    (hop : x.op = (st.stmtAt s).op) (hdecl : x.decl = (st.stmtAt s).decl) :
    DeclsKeptExcept (fun i => i = s) st (st.setStmt s x) := by
  refine ⟨rfl, fun i => ?_⟩
  rw [Sema.stmtAt_setStmt]
  by_cases h : i = s ∧ s < st.tu.stmts.length
  · rw [if_pos h, h.1]
    rw [hop, hdecl]
    exact ⟨rfl, rfl, rfl, rfl, fun hne => absurd rfl hne⟩
  · rw [if_neg h]
    exact ⟨rfl, rfl, rfl, rfl, fun _ => ⟨rfl, rfl, rfl⟩⟩

theorem declsKeptExcept_setBackingF (st : Sema) (s : StmtIndex) (id : Nat) :
    DeclsKeptExcept (fun i => i = s) st (st.setBackingF s id) :=
  declsKeptExcept_setStmt st s _ rfl rfl

theorem declsKeptExcept_setBackingG (st : Sema) (s : StmtIndex) (id : Nat) :
    DeclsKeptExcept (fun i => i = s) st (st.setBackingG s id) :=
  declsKeptExcept_setStmt st s _ rfl rfl

theorem declsKeptExcept_setBackingE (st : Sema) (s : StmtIndex) (id : Nat) :
    DeclsKeptExcept (fun i => i = s) st (st.setBackingE s id) :=
  declsKeptExcept_setStmt st s _ rfl rfl

theorem declsKept_setFunctionStmt (st : Sema) (s : StmtIndex) :
    DeclsKept st (st.setFunctionStmt s) :=
  ⟨rfl, fun _ => ⟨rfl, rfl, rfl, rfl, rfl, rfl, rfl⟩⟩


theorem moduleGrows_refl (m : TB_Module) : ModuleGrows m m :=
  ⟨List.suffix_refl _, List.suffix_refl _, List.suffix_refl _⟩

theorem moduleGrows_trans (a b c : TB_Module) (h1 : ModuleGrows a b) (h2 : ModuleGrows b c) :
    ModuleGrows a c :=
  ⟨h1.1.trans h2.1, h1.2.1.trans h2.2.1, h1.2.2.trans h2.2.2⟩

theorem stmt_in_range_of_used (st : Sema) (s : StmtIndex)
    (h : (st.stmtAt s).decl.attrs.is_used = true) : s < st.tu.stmts.length := by
  by_contra hge
  rw [stmtAt_default_of_ge st s (Nat.le_of_not_lt hge)] at h
  cases h

theorem stmt_in_range_of_func_decl (st : Sema) (s : StmtIndex)
    (h : (st.stmtAt s).op = StmtOp.STMT_FUNC_DECL) : s < st.tu.stmts.length := by
  by_contra hge
  rw [stmtAt_default_of_ge st s (Nat.le_of_not_lt hge)] at h
  cases h

/-- A returning call of the function case of `sema_check` creates one function
and nothing else, leaves its id in `backing.f` of the declaration, and keeps
the declarations otherwise. -/
theorem sema_check_function_facts (env : Env) (gen : IrGen) (fuel : Nat) (m m' : TB_Module)
    (st st' : Sema) (s : StmtIndex) (hlt : s < st.tu.stmts.length)
    (hrun : sema_check_function env gen fuel m st s = Res.ok m' st') :
    DeclsKeptExcept (fun i => i = s) st st'
    ∧ (∃ f : TB_Function, m'.functions = f :: m.functions ∧ m'.globals = m.globals
        ∧ m'.externals = m.externals ∧ f.id = m.functions.length
        ∧ (st'.stmtAt s).backing.f = f.id) := by
  obtain ⟨proto, name, linkage, st1, _, hm, hbody, hst⟩ :=
    sema_check_function_ok env gen fuel m m' st st' s hrun
  have hk : DeclsKept ((st.setBackingF s m.functions.length).setFunctionStmt s) st1 :=
    sema_stmt_keeps declsKept_isFrame env fuel _ _ _ (declsKept_isFrame.refl _) () st1 hbody
  have hk' : DeclsKept (st.setBackingF s m.functions.length) st' := by
    rw [hst]
    exact declsKept_isFrame.trans _ _ _
      (declsKept_isFrame.trans _ _ _ (declsKept_setFunctionStmt _ s) hk)
      (declsKept_setFunctionStmt _ 0)
  refine ⟨declsKeptExcept_trans _ (fun _ => False) _ _ _ _ (fun _ h => h) (fun _ h => h.elim)
      (declsKeptExcept_setBackingF st s _) (declsKeptExcept_of_declsKept _ _ _ hk'),
    ⟨{ id := m.functions.length, name := name, linkage := linkage, prototype := proto },
      by rw [hm]; rfl, by rw [hm]; rfl, by rw [hm]; rfl, rfl, ?_⟩⟩
  rw [(hk'.2 s).2.2.2.2.1]
  exact stmtAt_setBackingF_self st s _ hlt

/-- A returning call of the global case of `sema_check`: for a builtin forward
declaration the module is unchanged and `backing.e` is 0; otherwise one
external or one global is created and its id left in the backing field. -/
theorem sema_check_global_facts (env : Env) (gen : IrGen) (fuel : Nat) (m m' : TB_Module)
    (st st' : Sema) (s : StmtIndex) (hused : (st.stmtAt s).decl.attrs.is_used = true)
    (hrun : sema_check_global env gen fuel m st s = Res.ok m' st') :
    DeclsKeptExcept (fun i => i = s) st st'
    ∧ ((((st.stmtAt s).decl.attrs.is_extern = true
            ∨ (st.typeAt (st.stmtAt s).decl.type).kind = KIND_FUNC)
          ∧ (st.stmtAt s).decl.name.data.head? = some '_'
          ∧ gen.builtin_func_map (st.stmtAt s).decl.name = true) →
        m' = m ∧ (st'.stmtAt s).backing.e = 0)
    ∧ (¬ (((st.stmtAt s).decl.attrs.is_extern = true
            ∨ (st.typeAt (st.stmtAt s).decl.type).kind = KIND_FUNC)
          ∧ (st.stmtAt s).decl.name.data.head? = some '_'
          ∧ gen.builtin_func_map (st.stmtAt s).decl.name = true) →
        CreatedOne m m' st' s) := by
  have hlt := stmt_in_range_of_used st s hused
  unfold sema_check_global at hrun
  dsimp only at hrun
  by_cases h1 : (st.stmtAt s).decl.attrs.is_extern = true
      ∨ (st.typeAt (st.stmtAt s).decl.type).kind = KIND_FUNC
  · rw [if_pos h1] at hrun
    by_cases h2 : (st.stmtAt s).decl.name.data.head? = some '_'
        ∧ gen.builtin_func_map (st.stmtAt s).decl.name = true
    · rw [if_pos h2] at hrun
      simp only [Res.ok.injEq] at hrun
      rw [← hrun.1, ← hrun.2]
      exact ⟨declsKeptExcept_setBackingE st s 0,
        fun _ => ⟨rfl, stmtAt_setBackingE_self st s 0 hlt⟩,
        fun hn => absurd ⟨h1, h2.1, h2.2⟩ hn⟩
    · rw [if_neg h2] at hrun
      simp only [Res.ok.injEq] at hrun
      rw [← hrun.1, ← hrun.2]
      refine ⟨declsKeptExcept_setBackingE st s _,
        fun h => absurd ⟨h.2.1, h.2.2⟩ h2,
        fun _ => Or.inr (Or.inr ⟨{ id := m.externals.length, name := (st.stmtAt s).decl.name },
          rfl, rfl, rfl, rfl, ?_⟩)⟩
      exact stmtAt_setBackingE_self st s _ hlt
  · rw [if_neg h1] at hrun
    obtain ⟨init, s1, hr, hk⟩ := res_bind_eq_ok _ _ _ _ hrun
    have hkeep : DeclsKept st s1 := by
      refine (?_ : Keeps DeclsKept st _) init s1 hr
      have F := declsKept_isFrame
      repeat' first
        | assumption
        | exact F.refl _
        | with_reducible refine keeps_ok _ _ _ ?_
        | with_reducible refine F.keeps_call _ _ _ ?_ (walk_initializer_for_sema_keeps F _ (sema_expr_keeps F env fuel) _ _ _ _ _)
        | with_reducible refine F.step_error _ _ _ _ ?_
        | with_reducible refine IsFrame.step_ite _ _ _ _ ?_ ?_
        | with_reducible refine keeps_bind _ _ _ ?_ (fun _ _ _ => ?_)
        | with_reducible refine keeps_with_type_string _ _ _ _ _ ?_
        | with_reducible refine keeps_ok _ _ _ ?_
        | with_reducible refine keeps_ite _ _ _ _ ?_ ?_
    simp only [Res.ok.injEq] at hk
    rw [← hk.1, ← hk.2]
    have hlt1 : s < s1.tu.stmts.length :=
      stmt_in_range_of_used s1 s (by rw [(hkeep.2 s).2.1]; exact hused)
    refine ⟨declsKeptExcept_trans (fun _ => False) _ _ _ _ _ (fun _ h => h.elim) (fun _ h => h)
        (declsKeptExcept_of_declsKept _ _ _ hkeep) (declsKeptExcept_setBackingG s1 s _),
      fun h => absurd h.1 h1,
      fun _ => Or.inr (Or.inl ⟨_, rfl, rfl, rfl, rfl, ?_⟩)⟩
    exact stmtAt_setBackingG_self s1 s _ hlt1

theorem moduleGrows_of_createdOne (m m' : TB_Module) (st : Sema) (s : StmtIndex)
    (h : CreatedOne m m' st s) : ModuleGrows m m' := by
  rcases h with ⟨f, h1, h2, h3, _⟩ | ⟨g, h1, h2, h3, _⟩ | ⟨x, h1, h2, h3, _⟩
  · exact ⟨by rw [h1]; exact List.suffix_cons _ _, by rw [h2], by rw [h3]⟩
  · exact ⟨by rw [h2], by rw [h1]; exact List.suffix_cons _ _, by rw [h3]⟩
  · exact ⟨by rw [h2], by rw [h3], by rw [h1]; exact List.suffix_cons _ _⟩

/-- The declaration case of `sema_check` for a used declaration without a
linkage conflict. -/
theorem sema_check_decl_facts (env : Env) (gen : IrGen) (fuel : Nat) (m m' : TB_Module)
    (st st' : Sema) (s : StmtIndex)
    (hop : (st.stmtAt s).op = StmtOp.STMT_DECL ∨ (st.stmtAt s).op = StmtOp.STMT_GLOBAL_DECL)
    (hrun : (if (st.stmtAt s).decl.attrs.is_used = false then Res.ok m st
      else if (st.stmtAt s).decl.attrs.is_static = true ∧ (st.stmtAt s).decl.attrs.is_extern = true then
        Res.ok m
          ((sema_error st (st.stmtAt s).loc
              "Global declaration '%s' cannot be both static and extern.").setBackingG s 0)
      else sema_check_global env gen fuel m st s) = Res.ok m' st') :
    DeclsKeptExcept (fun i => i = s) st st' ∧ ModuleGrows m m'
    ∧ ((st.stmtAt s).decl.attrs.is_used = true →
        ¬ ((st.stmtAt s).decl.attrs.is_static = true ∧ (st.stmtAt s).decl.attrs.is_extern = true) →
        (is_builtin_forward_decl gen st s → m' = m ∧ (st'.stmtAt s).backing.e = 0)
        ∧ (¬ is_builtin_forward_decl gen st s → CreatedOne m m' st' s)) := by
  by_cases hu : (st.stmtAt s).decl.attrs.is_used = false
  · rw [if_pos hu] at hrun
    simp only [Res.ok.injEq] at hrun
    rw [← hrun.1, ← hrun.2]
    refine ⟨declsKeptExcept_refl _ _, moduleGrows_refl _, fun h => ?_⟩
    rw [hu] at h; cases h
  · rw [if_neg hu] at hrun
    have hused : (st.stmtAt s).decl.attrs.is_used = true := by
      cases h : (st.stmtAt s).decl.attrs.is_used
      · exact absurd h hu
      · rfl
    by_cases hc : (st.stmtAt s).decl.attrs.is_static = true
        ∧ (st.stmtAt s).decl.attrs.is_extern = true
    · rw [if_pos hc] at hrun
      simp only [Res.ok.injEq] at hrun
      rw [← hrun.1, ← hrun.2]
      exact ⟨declsKeptExcept_trans (fun _ => False) _ _ _ _ _ (fun _ h => h.elim) (fun _ h => h)
          (declsKeptExcept_of_declsKept _ _ _ (declsKept_isFrame.error st _ _))
          (declsKeptExcept_setBackingG _ s 0),
        moduleGrows_refl _, fun _ hn => absurd hc hn⟩
    · rw [if_neg hc] at hrun
      obtain ⟨h1, h2, h3⟩ := sema_check_global_facts env gen fuel m m' st st' s hused hrun
      have hg : ModuleGrows m m' := by
        by_cases hb : ((st.stmtAt s).decl.attrs.is_extern = true
              ∨ (st.typeAt (st.stmtAt s).decl.type).kind = KIND_FUNC)
            ∧ (st.stmtAt s).decl.name.data.head? = some '_'
            ∧ gen.builtin_func_map (st.stmtAt s).decl.name = true
        · rw [(h2 hb).1]; exact moduleGrows_refl _
        · exact moduleGrows_of_createdOne _ _ _ _ (h3 hb)
      refine ⟨h1, hg, fun _ _ => ⟨fun hb => h2 hb.2, fun hb => h3 (fun h => hb ⟨hop, h⟩)⟩⟩

/-- One returning call of `sema_check` on statement `s`: the declarations are
kept except for the backing ids of `s`, the module only grows, and for a used
declaration without a linkage conflict either it is a builtin forward
declaration, the module is unchanged and `backing.e` is 0, or exactly one
symbol is created and its id is in the backing field of `s`. -/
theorem sema_check_facts (env : Env) (gen : IrGen) (fuel : Nat) (m m' : TB_Module)
    (st st' : Sema) (s : StmtIndex)
    (hrun : sema_check env gen fuel m st s = Res.ok m' st') :
    DeclsKeptExcept (fun i => i = s) st st' ∧ ModuleGrows m m'
    ∧ ((st.stmtAt s).decl.attrs.is_used = true →
        ¬ ((st.stmtAt s).decl.attrs.is_static = true ∧ (st.stmtAt s).decl.attrs.is_extern = true) →
        (is_builtin_forward_decl gen st s → m' = m ∧ (st'.stmtAt s).backing.e = 0)
        ∧ (¬ is_builtin_forward_decl gen st s → CreatedOne m m' st' s)) := by
  unfold sema_check at hrun
  split at hrun
  · rename_i hop
    have hnb : ¬ is_builtin_forward_decl gen st s := by
      intro hb
      rcases hb.1 with h | h <;> rw [hop] at h <;> cases h
    by_cases h1 : (st.typeAt (st.stmtAt s).decl.type).kind ≠ KIND_FUNC
    · rw [if_pos h1] at hrun; cases hrun
    · rw [if_neg h1] at hrun
      by_cases h2 : (st.stmtAt s).decl.attrs.is_static = true
          ∧ (st.stmtAt s).decl.attrs.is_extern = true
      · rw [if_pos h2] at hrun
        simp only [Res.ok.injEq] at hrun
        rw [← hrun.1, ← hrun.2]
        exact ⟨declsKeptExcept_trans (fun _ => False) _ _ _ _ _ (fun _ h => h.elim) (fun _ h => h)
            (declsKeptExcept_of_declsKept _ _ _ (declsKept_isFrame.error st _ _))
            (declsKeptExcept_setBackingF _ s 0),
          moduleGrows_refl _, fun _ hn => absurd h2 hn⟩
      · rw [if_neg h2] at hrun
        by_cases h3 : ((st.stmtAt s).decl.attrs.is_static = true
            ∨ (st.stmtAt s).decl.attrs.is_inline = true)
            ∧ (st.stmtAt s).decl.attrs.is_used = false
        · rw [if_pos h3] at hrun
          simp only [Res.ok.injEq] at hrun
          rw [← hrun.1, ← hrun.2]
          refine ⟨declsKeptExcept_refl _ _, moduleGrows_refl _, fun h => ?_⟩
          rw [h3.2] at h; cases h
        · rw [if_neg h3] at hrun
          obtain ⟨hk, hc⟩ := sema_check_function_facts env gen fuel m m' st st' s
            (stmt_in_range_of_func_decl st s hop) hrun
          have hcr : CreatedOne m m' st' s := Or.inl hc
          exact ⟨hk, moduleGrows_of_createdOne _ _ _ _ hcr,
            fun _ _ => ⟨fun hb => absurd hb hnb, fun _ => hcr⟩⟩
  · rename_i hop
    exact sema_check_decl_facts env gen fuel m m' st st' s (Or.inl hop) hrun
  · rename_i hop
    exact sema_check_decl_facts env gen fuel m m' st st' s (Or.inr hop) hrun
  · cases hrun

/-! ### The pipeline: reachability pass, then `sema_check` on every top-level statement -/

/-- The first `j` calls of the driver loop, then the remaining `k`. -/
theorem sema_check_top_level_split (env : Env) (gen : IrGen) (fuel : Nat) :
    ∀ (j k : Nat) (m : TB_Module) (st : Sema) (i : Nat),
      sema_check_top_level env gen fuel (j + k) m st i
        = (sema_check_top_level env gen fuel j m st i).bind fun m st =>
            sema_check_top_level env gen fuel k m st (i + j) := by
  intro j
  induction j with
  | zero =>
    intro k m st i
    rw [Nat.zero_add]
    rfl
  | succ n ih =>
    intro k m st i
    have h : n + 1 + k = (n + k) + 1 := by omega
    rw [h, sema_check_top_level, sema_check_top_level]
    cases sema_check env gen fuel m st (st.tu.top_level_stmts.getD i 0) with
    | ok m1 s1 =>
      show sema_check_top_level env gen fuel (n + k) m1 s1 (i + 1) = _
      rw [ih k m1 s1 (i + 1)]
      have h2 : i + 1 + n = i + (n + 1) := by omega
      rw [h2]
      rfl
    | abort => rfl
    | out_of_fuel => rfl

/-- A returning run of the driver loop over the positions `i, .., i + count - 1`
keeps the declarations except for the backing ids of the statements at those
positions, and the module only grows. -/
theorem sema_check_top_level_facts (env : Env) (gen : IrGen) (fuel : Nat) :
    ∀ (count : Nat) (m : TB_Module) (st : Sema) (i : Nat) (m' : TB_Module) (st' : Sema),
      sema_check_top_level env gen fuel count m st i = Res.ok m' st' →
      DeclsKeptExcept
          (fun x => ∃ k, i ≤ k ∧ k < i + count ∧ st.tu.top_level_stmts.getD k 0 = x) st st'
        ∧ ModuleGrows m m' := by
  intro count
  induction count with
  | zero =>
    intro m st i m' st' hrun
    rw [sema_check_top_level] at hrun
    simp only [Res.ok.injEq] at hrun
    rw [← hrun.1, ← hrun.2]
    exact ⟨declsKeptExcept_refl _ _, moduleGrows_refl _⟩
  | succ n ih =>
    intro m st i m' st' hrun
    rw [sema_check_top_level] at hrun
    obtain ⟨m1, s1, hcall, hrest⟩ := res_bind_eq_ok _ _ _ _ hrun
    obtain ⟨hk1, hg1, _⟩ := sema_check_facts env gen fuel m m1 st s1 _ hcall
    obtain ⟨hk2, hg2⟩ := ih m1 s1 (i + 1) m' st' hrest
    refine ⟨declsKeptExcept_trans _ _ _ _ _ _ ?_ ?_ hk1 hk2, moduleGrows_trans _ _ _ hg1 hg2⟩
    · intro x hx
      exact ⟨i, Nat.le_refl i, by omega, hx.symm⟩
    · intro x hx
      obtain ⟨k, h1, h2, h3⟩ := hx
      rw [hk1.1] at h3
      exact ⟨k, by omega, by omega, h3⟩

theorem marksOnly_is_static_eq {a b : Sema} (h : MarksOnly a b) (s : StmtIndex) :
    (b.stmtAt s).decl.attrs.is_static = (a.stmtAt s).decl.attrs.is_static := by
  rcases h.2.2 s with h' | h' <;> (rw [h']; try rfl)

theorem marksOnly_is_extern_eq {a b : Sema} (h : MarksOnly a b) (s : StmtIndex) :
    (b.stmtAt s).decl.attrs.is_extern = (a.stmtAt s).decl.attrs.is_extern := by
  rcases h.2.2 s with h' | h' <;> (rw [h']; try rfl)

theorem getD_ne_of_nodup (l : List Nat) (hn : l.Nodup) (j k : Nat) (hj : j < l.length)
    (hk : k < l.length) (hne : j ≠ k) : l.getD k 0 ≠ l.getD j 0 := by
  intro h
  rw [List.getD_eq_getElem l 0 hj, List.getD_eq_getElem l 0 hk] at h
  exact hne ((List.Nodup.getElem_inj_iff hn).mp h).symm

theorem createdOne_congr (m m' : TB_Module) (a b : Sema) (s : StmtIndex)
    (hf : (b.stmtAt s).backing.f = (a.stmtAt s).backing.f)
    (hg : (b.stmtAt s).backing.g = (a.stmtAt s).backing.g)
    (he : (b.stmtAt s).backing.e = (a.stmtAt s).backing.e)
    (h : CreatedOne m m' a s) : CreatedOne m m' b s := by
  rcases h with ⟨f, h1, h2, h3, h4, h5⟩ | ⟨g, h1, h2, h3, h4, h5⟩ | ⟨x, h1, h2, h3, h4, h5⟩
  · exact Or.inl ⟨f, h1, h2, h3, h4, hf.trans h5⟩
  · exact Or.inr (Or.inl ⟨g, h1, h2, h3, h4, hg.trans h5⟩)
  · exact Or.inr (Or.inr ⟨x, h1, h2, h3, h4, he.trans h5⟩)

/-- Runs of the pipeline that return: on a well-formed translation unit (no
declaration both `static` and `extern`, each top-level statement listed once),
let the pipeline
`sema_remove_unused` followed by `sema_check` on each top-level statement
return.  Then for every top-level declaration with `is_root` set, at position
`j` of the list: the run reaches its call of `sema_check` (in module `mb` and
state `sb`) and the call returns (module `ma`); if the declaration is a builtin
forward declaration (a `Decl` or `GlobalDecl` statement that is `extern` or
function-typed, its name beginning with `_` and in the builtin-function map) the
call creates nothing and the final state holds 0 in `backing.e`; otherwise the
call creates exactly one IR symbol, a function, a global or an external, and the
final state holds its id in the backing field of that tag.  The statement being
listed once, no other call is made for it, and every symbol of `ma` is still in
the final module. -/
theorem sema_check_unit_one_symbol_per_root (env : Env) (gen : IrGen) (fuel : Nat)
    (m m' : TB_Module) (st st' : Sema)
    (hnodup : st.tu.top_level_stmts.Nodup)
    (hwf : ∀ s, ¬ ((st.stmtAt s).decl.attrs.is_static = true
      ∧ (st.stmtAt s).decl.attrs.is_extern = true))
    (hrun : sema_check_unit env gen fuel m st = Res.ok m' st')
    (j : Nat) (hj : j < st.tu.top_level_stmts.length)
    (hroot : (st.stmtAt (st.tu.top_level_stmts.getD j 0)).decl.attrs.is_root = true) :
    ∃ st0 mb sb ma sa,
      sema_remove_unused fuel st = Res.ok () st0
      ∧ sema_check_top_level env gen fuel j m st0 0 = Res.ok mb sb
      ∧ sema_check env gen fuel mb sb (st.tu.top_level_stmts.getD j 0) = Res.ok ma sa
      ∧ sema_check_top_level env gen fuel (st.tu.top_level_stmts.length - (j + 1)) ma sa (j + 1)
          = Res.ok m' st'
      ∧ ModuleGrows ma m'
      ∧ (is_builtin_forward_decl gen sb (st.tu.top_level_stmts.getD j 0) →
          ma = mb ∧ (st'.stmtAt (st.tu.top_level_stmts.getD j 0)).backing.e = 0)
      ∧ (¬ is_builtin_forward_decl gen sb (st.tu.top_level_stmts.getD j 0) →
          CreatedOne mb ma st' (st.tu.top_level_stmts.getD j 0)) := by
  unfold sema_check_unit at hrun
  obtain ⟨u, st0, h0, hloop⟩ := res_bind_eq_ok _ _ _ _ hrun
  have hmarks : MarksOnly st st0 := sema_remove_unused_loop_marks_only fuel _ st 0 u st0 h0
  have htl0 : st0.tu.top_level_stmts = st.tu.top_level_stmts := hmarks.top_level_eq
  have hused0 : (st0.stmtAt (st.tu.top_level_stmts.getD j 0)).decl.attrs.is_used = true :=
    (sema_remove_unused_loop_complete st fuel _ st 0 u st0 h0 (MarksOnly.refl st)).1 j
      (Nat.zero_le j) (by omega) hroot
  rw [htl0] at hloop
  have hlen : st.tu.top_level_stmts.length = j + ((st.tu.top_level_stmts.length - (j + 1)) + 1) := by
    omega
  rw [hlen, sema_check_top_level_split] at hloop
  obtain ⟨mb, sb, hpre, hrest⟩ := res_bind_eq_ok _ _ _ _ hloop
  rw [sema_check_top_level, Nat.zero_add] at hrest
  obtain ⟨ma, sa, hcall, hsuf⟩ := res_bind_eq_ok _ _ _ _ hrest
  obtain ⟨hkpre, _⟩ := sema_check_top_level_facts env gen fuel j m st0 0 mb sb hpre
  have htlb : sb.tu.top_level_stmts = st.tu.top_level_stmts := hkpre.1.trans htl0
  rw [htlb] at hcall
  obtain ⟨hkcall, _, hcase⟩ := sema_check_facts env gen fuel mb ma sb sa _ hcall
  obtain ⟨hksuf, hgrow⟩ := sema_check_top_level_facts env gen fuel _ ma sa (j + 1) m' st' hsuf
  have htla : sa.tu.top_level_stmts = st.tu.top_level_stmts := hkcall.1.trans htlb
  have hattrs : (sb.stmtAt (st.tu.top_level_stmts.getD j 0)).decl.attrs
      = (st0.stmtAt (st.tu.top_level_stmts.getD j 0)).decl.attrs := (hkpre.2 _).2.1
  have husedb : (sb.stmtAt (st.tu.top_level_stmts.getD j 0)).decl.attrs.is_used = true := by
    rw [hattrs]; exact hused0
  have hwfb : ¬ ((sb.stmtAt (st.tu.top_level_stmts.getD j 0)).decl.attrs.is_static = true
      ∧ (sb.stmtAt (st.tu.top_level_stmts.getD j 0)).decl.attrs.is_extern = true) := by
    rw [hattrs, marksOnly_is_static_eq hmarks, marksOnly_is_extern_eq hmarks]
    exact hwf _
  have hback := (hksuf.2 (st.tu.top_level_stmts.getD j 0)).2.2.2.2 (by
    rintro ⟨k, hk1, hk2, hk3⟩
    rw [htla] at hk3
    exact getD_ne_of_nodup _ hnodup j k hj (by omega) (by omega) hk3)
  obtain ⟨hb1, hb2⟩ := hcase husedb hwfb
  refine ⟨st0, mb, sb, ma, sa, ?_, hpre, hcall, hsuf, hgrow, ?_, ?_⟩
  · cases u; exact h0
  · intro hb
    exact ⟨(hb1 hb).1, hback.2.2.trans (hb1 hb).2⟩
  · intro hb
    exact createdOne_congr _ _ _ _ _ hback.1 hback.2.1 hback.2.2 (hb2 hb)

/-- On `stUnit`, at the root global `counter` (statement 12, position 7 of the
top-level list): the pipeline returns, the global is the second one created,
and the final state holds its id 1 in `backing.g`. -/
theorem sema_check_unit_one_symbol_per_root_witness :
    (∃ st0 mb sb ma sa,
      sema_remove_unused 5 stUnit = Res.ok () st0
      ∧ sema_check_top_level exampleEnv exampleGen 5 7 {} st0 0 = Res.ok mb sb
      ∧ sema_check exampleEnv exampleGen 5 mb sb (stUnit.tu.top_level_stmts.getD 7 0) = Res.ok ma sa
      ∧ sema_check_top_level exampleEnv exampleGen 5 (stUnit.tu.top_level_stmts.length - (7 + 1))
            ma sa (7 + 1)
          = Res.ok (sema_check_unit exampleEnv exampleGen 5 {} stUnit).module
              (sema_check_unit exampleEnv exampleGen 5 {} stUnit).state
      ∧ ModuleGrows ma (sema_check_unit exampleEnv exampleGen 5 {} stUnit).module
      ∧ (is_builtin_forward_decl exampleGen sb (stUnit.tu.top_level_stmts.getD 7 0) →
          ma = mb
          ∧ ((sema_check_unit exampleEnv exampleGen 5 {} stUnit).state.stmtAt
              (stUnit.tu.top_level_stmts.getD 7 0)).backing.e = 0)
      ∧ (¬ is_builtin_forward_decl exampleGen sb (stUnit.tu.top_level_stmts.getD 7 0) →
          CreatedOne mb ma (sema_check_unit exampleEnv exampleGen 5 {} stUnit).state
            (stUnit.tu.top_level_stmts.getD 7 0)))
    ∧ stUnit.tu.top_level_stmts.getD 7 0 = 12
    ∧ (sema_check_unit exampleEnv exampleGen 5 {} stUnit).module.globals.map
        (fun g => (g.id, g.name)) = [(1, "counter"), (0, "g")]
    ∧ ((sema_check_unit exampleEnv exampleGen 5 {} stUnit).state.stmtAt 12).backing.g = 1 :=
  ⟨sema_check_unit_one_symbol_per_root exampleEnv exampleGen 5 {}
      (sema_check_unit exampleEnv exampleGen 5 {} stUnit).module stUnit
      (sema_check_unit exampleEnv exampleGen 5 {} stUnit).state
      (by decide)
      (fun s => by
        by_cases h : s < 15
        · interval_cases s <;> decide
        · rw [stmtAt_default_of_ge stUnit s (Nat.le_of_not_lt h)]; decide)
      (by rfl) 7 (by decide) (by decide),
   by decide, by rfl, by rfl⟩

/-! ### Path pieces (`read_path`) -/

/-- C38 (evaluation of the code): `read_path` compares only the first three
characters of the extension with `.zip` (`strncmp(ext, ".zip", 3)`), so the
piece `bar.zix/` is classified `PATH_ZIP`, as is every four-character extension
`.zi?` before the separator.  The pieces `bar.zip/`, `foo/` and `baz.c` are
classified `PATH_ZIP`, `PATH_DIR` and `PATH_NORMAL`. -/
theorem read_path_zix_is_zip :
    (read_path "bar.zix/inner.h".toList).1 = PathPieceType.PATH_ZIP
    ∧ (∀ c : Char, c ≠ '/' → c ≠ Char.ofNat 92 → c ≠ '.' →
        (read_path (['b', 'a', 'r', '.', 'z', 'i', c, '/'])).1 = PathPieceType.PATH_ZIP)
    ∧ (read_path "bar.zip/inner.h".toList).1 = PathPieceType.PATH_ZIP
    ∧ (read_path "foo/".toList).1 = PathPieceType.PATH_DIR
    ∧ (read_path "baz.c".toList).1 = PathPieceType.PATH_NORMAL := by
  refine ⟨by decide, ?_, by decide, by decide, by decide⟩
  intro c h1 h2 h3
  simp [read_path, read_path_from, strncmp_eq, h1, h2, h3]

/-! ### Windows kit versions (`win10_best`, `visit_files_w`) -/

/-- C37 (evaluation of the code): `win10_best` stores a version in
`best_version` only while `best_name` is empty, that is for the first name it
accepts; every later name whose version is not below that first version is
accepted too and overwrites `best_name`.  For the folder entries `10.0.1.0`,
`10.0.3.0`, `10.0.2.0` (in this order) `best_name` ends as the path of
`10.0.2.0`, which is not the greatest version, and `best_version` is
`10.0.1.0`, the version of neither.  With the entries in ascending order
`best_name` is the path of `10.0.3.0` and `best_version` is still `10.0.1.0`. -/
theorem win10_best_keeps_first_version :
    visit_files_w "C:\\Kits\\Lib"
        (some [{ cFileName := "10.0.1.0", is_directory := true },
               { cFileName := "10.0.3.0", is_directory := true },
               { cFileName := "10.0.2.0", is_directory := true }])
        {} (win10_best exampleScan)
      = (true, { best_version := (10, 0, 1, 0), best_name := "C:\\Kits\\Lib\\10.0.2.0" })
    ∧ exampleScan "10.0.2.0" = some (10, 0, 2, 0)
    ∧ exampleScan "10.0.3.0" = some (10, 0, 3, 0)
    ∧ version_lt (10, 0, 2, 0) (10, 0, 3, 0)
    ∧ version_lt (10, 0, 1, 0) (10, 0, 2, 0)
    ∧ visit_files_w "C:\\Kits\\Lib"
        (some [{ cFileName := "10.0.1.0", is_directory := true },
               { cFileName := "10.0.2.0", is_directory := true },
               { cFileName := "10.0.3.0", is_directory := true }])
        {} (win10_best exampleScan)
      = (true, { best_version := (10, 0, 1, 0), best_name := "C:\\Kits\\Lib\\10.0.3.0" }) := by
  refine ⟨by decide, by decide, by decide, by decide, by decide, by decide⟩

/-! ### Linker invocation (`invoke_link`) -/

/-- C40: `invoke_link` returns `false` whatever the command line and whatever
the environment does with the process.  When the process is created, its exit
code is retrieved and is 0, the only line written is the `Linker command:` line
of the `error:` label, which the success path falls into. -/
theorem invoke_link_returns_false (cmd_line : String) (o : LinkOutcome) :
    (invoke_link cmd_line o).1 = false
    ∧ (invoke_link cmd_line { created := true, got_exit_code := true, exit_code := 0 })
        = (false, ["Linker command:\n" ++ cmd_line ++ "\n"]) := by
  constructor
  · unfold invoke_link
    split_ifs <;> rfl
  · rfl

/-! ### Declarations of `typeof` type and statement conditions (`sema_stmt`) -/

/-- C34 (evaluation of the code): the `STMT_DECL` case calls `try_resolve_typeof`
only inside `if (sp->decl.initial)`.  For the declaration `typeof(x) y;`, which
has no initializer, `sema_stmt` returns for every positive fuel without writing
anything, and the declared type is still of kind Typeof.  For
`typeof(x) z = 1;` the declared type is resolved to `int`. -/
theorem sema_stmt_decl_without_initializer_keeps_typeof :
    (stExample4.stmtAt 2).op = StmtOp.STMT_DECL
    ∧ (stExample4.stmtAt 2).decl.initial = 0
    ∧ (stExample4.typeAt (stExample4.stmtAt 2).decl.type).kind = KIND_TYPEOF
    ∧ (∀ fuel, sema_stmt exampleEnv (fuel + 1) stExample4 2 = Res.ok () stExample4)
    ∧ (stExample4.stmtAt 3).op = StmtOp.STMT_DECL
    ∧ (stExample4.typeAt (stExample4.stmtAt 3).decl.type).kind = KIND_TYPEOF
    ∧ ((sema_stmt exampleEnv 3 stExample4 3).state.typeAt
        ((sema_stmt exampleEnv 3 stExample4 3).state.stmtAt 3).decl.type).kind = KIND_INT := by
  refine ⟨by decide, by decide, by decide, fun fuel => rfl, by decide, by decide, by decide⟩

/-- C35 (evaluation of the code): only the `STMT_IF` case writes
`tu->exprs[cond].cast_type = TYPE_BOOL`.  After `sema_stmt` on `if (1) {}` the
condition's `cast_type` is Bool; after `sema_stmt` on `while (1) {}`,
`do {} while (1);` and `for (; 1; ) {}` the statement has returned, the
condition has been checked (its type is Int) and its `cast_type` is still the
null handle, not Bool. -/
theorem sema_stmt_loop_condition_cast_not_bool :
    ∃ s5 s6 s7 s8,
      sema_stmt exampleEnv 3 stExample4 5 = Res.ok () s5
      ∧ (s5.exprAt (stExample4.stmtAt 5).if_.cond).cast_type = exampleEnv.TYPE_BOOL
      ∧ (stExample4.stmtAt 6).op = StmtOp.STMT_WHILE
      ∧ sema_stmt exampleEnv 3 stExample4 6 = Res.ok () s6
      ∧ (s6.exprAt (stExample4.stmtAt 6).while_.cond).type = exampleEnv.TYPE_INT
      ∧ (s6.exprAt (stExample4.stmtAt 6).while_.cond).cast_type = 0
      ∧ (stExample4.stmtAt 7).op = StmtOp.STMT_DO_WHILE
      ∧ sema_stmt exampleEnv 3 stExample4 7 = Res.ok () s7
      ∧ (s7.exprAt (stExample4.stmtAt 7).do_while.cond).type = exampleEnv.TYPE_INT
      ∧ (s7.exprAt (stExample4.stmtAt 7).do_while.cond).cast_type = 0
      ∧ (stExample4.stmtAt 8).op = StmtOp.STMT_FOR
      ∧ (stExample4.stmtAt 8).for_.cond ≠ 0
      ∧ sema_stmt exampleEnv 3 stExample4 8 = Res.ok () s8
      ∧ (s8.exprAt (stExample4.stmtAt 8).for_.cond).type = exampleEnv.TYPE_INT
      ∧ (s8.exprAt (stExample4.stmtAt 8).for_.cond).cast_type = 0
      ∧ (0 : TypeIndex) ≠ exampleEnv.TYPE_BOOL :=
  ⟨_, _, _, _, rfl, by decide, by decide, rfl, by decide, by decide, by decide, rfl, by decide,
    by decide, by decide, by decide, rfl, by decide, by decide, by decide⟩

/-! ### The IR prototype of a function (`sema_check`, `STMT_FUNC_DECL`) -/

/-- The parameter loop appends the converted parameter types in order and
changes nothing else of the prototype. -/
theorem add_prototype_params_some (gen : IrGen) (tu : TranslationUnit) (param_list : ParamIndex) :
    ∀ (count i : Nat) (proto proto' : TB_FunctionPrototype),
      add_prototype_params gen tu param_list count i proto = some proto' →
      proto'.params = proto.params ++ (List.range count).map
          (fun k => gen.ctype_to_tbtype (tu.typeAt (tu.paramAt (param_list + (i + k))).type))
      ∧ proto'.return_dt = proto.return_dt
      ∧ proto'.param_capacity = proto.param_capacity
      ∧ proto'.has_varargs = proto.has_varargs := by
  intro count
  induction count with
  | zero =>
    intro i proto proto' h
    rw [add_prototype_params] at h
    simp only [Option.some.injEq] at h
    rw [← h]
    simp
  | succ n ih =>
    intro i proto proto' h
    rw [add_prototype_params] at h
    split_ifs at h
    obtain ⟨h1, h2, h3, h4⟩ := ih (i + 1) _ proto' h
    refine ⟨?_, h2, h3, h4⟩
    rw [h1, List.range_succ_eq_map, List.map_cons, List.map_map]
    simp only [tb_prototype_add_param, List.append_assoc, List.singleton_append, Nat.add_zero]
    congr 2
    apply List.map_congr_left
    intro k _
    simp only [Function.comp]
    rw [Nat.add_assoc i 1 k, Nat.add_comm 1 k]

/-- A returning call of the function case of `sema_check` registers the
prototype that the parameter loop built. -/
theorem sema_check_function_proto (env : Env) (gen : IrGen) (fuel : Nat) (m m' : TB_Module)
    (st st' : Sema) (s : StmtIndex)
    (hrun : sema_check_function env gen fuel m st s = Res.ok m' st') :
    ∃ proto name linkage,
      add_prototype_params gen st.tu
          (st.typeAt (st.stmtAt s).decl.type).func.param_list
          (st.typeAt (st.stmtAt s).decl.type).func.param_count 0
          (if (decide ((st.typeAt (st.typeAt (st.stmtAt s).decl.type).func.return_type).kind
                  = KIND_STRUCT)
              || decide ((st.typeAt (st.typeAt (st.stmtAt s).decl.type).func.return_type).kind
                  = KIND_UNION)) = true then
            tb_prototype_add_param
              (tb_prototype_create
                (gen.ctype_to_tbtype (st.typeAt (st.typeAt (st.stmtAt s).decl.type).func.return_type))
                ((st.typeAt (st.stmtAt s).decl.type).func.param_count + 1)
                (st.typeAt (st.stmtAt s).decl.type).func.has_varargs)
              gen.TB_TYPE_PTR
          else
            tb_prototype_create
              (gen.ctype_to_tbtype (st.typeAt (st.typeAt (st.stmtAt s).decl.type).func.return_type))
              ((st.typeAt (st.stmtAt s).decl.type).func.param_count + 0)
              (st.typeAt (st.stmtAt s).decl.type).func.has_varargs)
        = some proto
      ∧ m' = (tb_prototype_build m proto name linkage).2 := by
  unfold sema_check_function at hrun
  dsimp only at hrun
  split at hrun
  · cases hrun
  · rename_i proto hproto
    split at hrun
    · cases hrun
    · rename_i name linkage hname
      obtain ⟨u, s1, _, hk⟩ := res_bind_eq_ok _ _ _ _ hrun
      simp only [Res.ok.injEq] at hk
      refine ⟨proto, name, linkage, ?_, hk.1.symm⟩
      rw [← hproto]
      split_ifs <;> rfl

/-- C31: a call of `sema_check` on a function declaration with `n` parameters
that registers a function registers it with a prototype created for `n + 1`
parameters, the IR pointer type followed by the `n` converted parameter types
in declaration order, when the return type is a Struct or a Union, and for `n`
parameters, exactly the `n` converted types in declaration order, otherwise. -/
theorem sema_check_function_prototype_params (env : Env) (gen : IrGen) (fuel : Nat)
    (m m' : TB_Module) (st st' : Sema) (s : StmtIndex)
    (hop : (st.stmtAt s).op = StmtOp.STMT_FUNC_DECL)
    (hrun : sema_check env gen fuel m st s = Res.ok m' st')
    (hreg : m'.functions ≠ m.functions) :
    ∃ f : TB_Function, m'.functions = f :: m.functions
      ∧ m'.prototypes = f.prototype :: m.prototypes
      ∧ (((st.typeAt (st.typeAt (st.stmtAt s).decl.type).func.return_type).kind = KIND_STRUCT
            ∨ (st.typeAt (st.typeAt (st.stmtAt s).decl.type).func.return_type).kind = KIND_UNION) →
          f.prototype.param_capacity = (st.typeAt (st.stmtAt s).decl.type).func.param_count + 1
          ∧ f.prototype.params = gen.TB_TYPE_PTR ::
              (List.range (st.typeAt (st.stmtAt s).decl.type).func.param_count).map
                (fun k => gen.ctype_to_tbtype (st.typeAt (st.tu.paramAt
                  ((st.typeAt (st.stmtAt s).decl.type).func.param_list + k)).type)))
      ∧ (¬ ((st.typeAt (st.typeAt (st.stmtAt s).decl.type).func.return_type).kind = KIND_STRUCT
            ∨ (st.typeAt (st.typeAt (st.stmtAt s).decl.type).func.return_type).kind = KIND_UNION) →
          f.prototype.param_capacity = (st.typeAt (st.stmtAt s).decl.type).func.param_count
          ∧ f.prototype.params =
              (List.range (st.typeAt (st.stmtAt s).decl.type).func.param_count).map
                (fun k => gen.ctype_to_tbtype (st.typeAt (st.tu.paramAt
                  ((st.typeAt (st.stmtAt s).decl.type).func.param_list + k)).type))) := by
  obtain ⟨proto, name, linkage, hproto, hm⟩ :=
    sema_check_function_proto env gen fuel m m' st st' s
      (sema_check_registers_function env gen fuel m m' st st' s hop hrun hreg)
  obtain ⟨h1, _, h3, _⟩ := add_prototype_params_some gen st.tu _ _ _ _ _ hproto
  simp only [Nat.zero_add] at h1
  refine ⟨{ id := m.functions.length, name := name, linkage := linkage, prototype := proto },
    by rw [hm]; rfl, by rw [hm]; rfl, ?_, ?_⟩
  · intro hagg
    have hc : (decide ((st.typeAt (st.typeAt (st.stmtAt s).decl.type).func.return_type).kind
          = KIND_STRUCT)
        || decide ((st.typeAt (st.typeAt (st.stmtAt s).decl.type).func.return_type).kind
          = KIND_UNION)) = true := by
      simpa using hagg
    rw [if_pos hc] at h1 h3
    exact ⟨h3, h1⟩
  · intro hagg
    have hc : ¬ (decide ((st.typeAt (st.typeAt (st.stmtAt s).decl.type).func.return_type).kind
          = KIND_STRUCT)
        || decide ((st.typeAt (st.typeAt (st.stmtAt s).decl.type).func.return_type).kind
          = KIND_UNION)) = true := by
      simpa using hagg
    rw [if_neg hc] at h1 h3
    exact ⟨h3, h1⟩

/-- C31 at the function `struct S mk(int)` of `stUnit` (statement 14), checked
after the reachability pass: the prototype has capacity 2 and the parameters
pointer, `int`. -/
theorem sema_check_function_prototype_params_witness :
    ∃ f : TB_Function,
      (sema_check exampleEnv exampleGen 5 {} (sema_remove_unused 5 stUnit).state 14).module.functions
        = [f]
      ∧ f.prototype.param_capacity = 2
      ∧ f.prototype.params = [{ type := 100, width := 0 }, { type := 4, width := 0 }] :=
  let ⟨f, h1, _, h3, _⟩ :=
    sema_check_function_prototype_params exampleEnv exampleGen 5 {}
      (sema_check exampleEnv exampleGen 5 {} (sema_remove_unused 5 stUnit).state 14).module
      (sema_remove_unused 5 stUnit).state
      (sema_check exampleEnv exampleGen 5 {} (sema_remove_unused 5 stUnit).state 14).state
      14 (by decide) (by rfl) (by decide)
  ⟨f, h1, (h3 (Or.inl (by decide))).1.trans (by decide),
    (h3 (Or.inl (by decide))).2.trans (by decide)⟩

/-! ### Termination of the reachability pass -/

theorem chain_ends_mono (tu : TranslationUnit) :
    ∀ (n k : Nat) (e : ExprIndex), chain_ends tu n e = true → chain_ends tu (n + k) e = true := by
  intro n
  induction n with
  | zero =>
    intro k e h
    simp only [chain_ends, decide_eq_true_eq] at h
    cases k with
    | zero => simp [chain_ends, h]
    | succ k => simp [chain_ends, h]
  | succ n ih =>
    intro k e h
    have hk : n + 1 + k = (n + k) + 1 := by omega
    rw [hk]
    simp only [chain_ends, Bool.or_eq_true, decide_eq_true_eq] at h ⊢
    rcases h with h | h
    · exact Or.inl h
    · exact Or.inr (ih k _ h)

theorem chain_ends_of_ge (tu : TranslationUnit) (e : ExprIndex) (h : tu.exprs.length ≤ e) :
    chain_ends tu 1 e = true := by
  have hx : tu.exprAt e = {} := List.getD_eq_default _ _ h
  simp [chain_ends, hx]

/-- Finite chains have a common bound: the arena is finite. -/
theorem chain_ends_bound (tu : TranslationUnit) (hfin : ∀ e, ∃ n, chain_ends tu n e = true) :
    ∃ B, ∀ e, chain_ends tu B e = true := by
  have hlt : ∀ L, ∃ B, ∀ e, e < L → chain_ends tu B e = true := by
    intro L
    induction L with
    | zero => exact ⟨0, fun e h => absurd h (Nat.not_lt_zero e)⟩
    | succ L ih =>
      obtain ⟨B, hB⟩ := ih
      obtain ⟨n, hn⟩ := hfin L
      refine ⟨B + n, fun e he => ?_⟩
      by_cases h : e < L
      · exact chain_ends_mono tu B n e (hB e h)
      · have : e = L := Nat.le_antisymm (Nat.lt_succ_iff.mp he) (Nat.le_of_not_lt h)
        rw [this, Nat.add_comm]
        exact chain_ends_mono tu n B L hn
  obtain ⟨B, hB⟩ := hlt tu.exprs.length
  refine ⟨B + 1, fun e => ?_⟩
  by_cases h : e < tu.exprs.length
  · exact chain_ends_mono tu B 1 e (hB e h)
  · rw [Nat.add_comm]
    exact chain_ends_mono tu 1 B e (chain_ends_of_ge tu e (Nat.le_of_not_lt h))

theorem chain_ends_congr (a b : TranslationUnit) (h : b.exprs = a.exprs) (n : Nat)
    (e : ExprIndex) : chain_ends b n e = chain_ends a n e := by
  induction n generalizing e with
  | zero => rfl
  | succ n ih =>
    simp only [chain_ends]
    rw [exprAt_congr a b h e, ih]

/-- Marking does not add unmarked functions. -/
theorem unmarked_functions_mono (a b : Sema) (h : MarksOnly a b) :
    unmarked_functions b ≤ unmarked_functions a := by
  unfold unmarked_functions
  rw [h.2.1]
  apply List.countP_mono_left
  intro s _ hs
  simp only [Bool.and_eq_true, decide_eq_true_eq, Bool.not_eq_true'] at hs ⊢
  refine ⟨by rw [← h.op_eq s]; exact hs.1, ?_⟩
  cases hu : (a.stmtAt s).decl.attrs.is_used
  · rfl
  · have := h.used_mono s hu
    rw [hs.2] at this
    cases this

theorem countP_lt_countP_of_mem {α : Type} (p q : α → Bool) :
    ∀ (l : List α), (∀ x, x ∈ l → p x = true → q x = true) →
      ∀ a, a ∈ l → q a = true → p a = false → List.countP p l < List.countP q l := by
  intro l
  induction l with
  | nil => intro _ a ha; cases ha
  | cons x xs ih =>
    intro himp a ha hq hp
    rw [List.countP_cons, List.countP_cons]
    rcases List.mem_cons.mp ha with h | h
    · rw [← h, hp, hq]
      have := List.countP_mono_left (p := p) (q := q) (l := xs)
        (fun y hy => himp y (List.mem_cons_of_mem _ hy))
      simp only [Bool.false_eq_true, if_false, if_true]
      omega
    · have h1 := ih (fun y hy => himp y (List.mem_cons_of_mem _ hy)) a h hq hp
      have h2 := himp x (List.mem_cons_self _ _)
      cases hpx : p x
      · simp only [Bool.false_eq_true, if_false]
        split_ifs <;> omega
      · rw [h2 hpx]
        simp only [if_true]
        omega

/-- Marking an unmarked function leaves fewer unmarked functions. -/
theorem unmarked_functions_setUsed (st : Sema) (s : StmtIndex)
    (hop : (st.stmtAt s).op = StmtOp.STMT_FUNC_DECL)
    (hu : (st.stmtAt s).decl.attrs.is_used = false) :
    unmarked_functions (st.setUsed s) < unmarked_functions st := by
  have hlt := stmt_in_range_of_func_decl st s hop
  have hm := MarksOnly.setUsed st s
  unfold unmarked_functions
  rw [Sema.stmts_length_setUsed]
  apply countP_lt_countP_of_mem _ _ _ _ s (List.mem_range.mpr hlt)
  · simp only [Bool.and_eq_true, decide_eq_true_eq, Bool.not_eq_true']
    exact ⟨hop, hu⟩
  · have := used_setUsed st s hlt
    simp only [Bool.and_eq_false_iff, decide_eq_false_iff_not, Bool.not_eq_false']
    exact Or.inr this
  · intro x _ hx
    simp only [Bool.and_eq_true, decide_eq_true_eq, Bool.not_eq_true'] at hx ⊢
    refine ⟨by rw [← hm.op_eq x]; exact hx.1, ?_⟩
    cases hux : (st.stmtAt x).decl.attrs.is_used
    · rfl
    · have := hm.used_mono x hux
      rw [hx.2] at this
      cases this

/-- The chain walk returns or aborts when the chain ends within the fuel and the
call it makes on each symbol never runs out of fuel. -/
theorem mark_symbol_chain_terminates (mark : Sema → ExprIndex → Res Unit)
    (hkeep : ∀ s e, Keeps MarksOnly s (mark s e)) :
    ∀ (n fuel : Nat) (st : Sema) (sym : ExprIndex),
      chain_ends st.tu n sym = true → n < fuel →
      (∀ st' e, MarksOnly st st' → mark st' e ≠ Res.out_of_fuel) →
      mark_symbol_chain mark fuel st sym ≠ Res.out_of_fuel := by
  intro n
  induction n with
  | zero =>
    intro fuel st sym hc hf _
    simp only [chain_ends, decide_eq_true_eq] at hc
    cases fuel with
    | zero => exact absurd hf (Nat.lt_irrefl 0)
    | succ f =>
      rw [mark_symbol_chain, if_pos hc]
      intro h; cases h
  | succ n ih =>
    intro fuel st sym hc hf hmark
    cases fuel with
    | zero => exact absurd hf (Nat.not_lt_zero _)
    | succ f =>
      rw [mark_symbol_chain]
      by_cases h0 : sym = 0
      · rw [if_pos h0]; intro h; cases h
      · rw [if_neg h0]
        simp only [chain_ends, Bool.or_eq_true, decide_eq_true_eq] at hc
        have hc' := hc.resolve_left h0
        cases hm : mark st sym with
        | ok u s1 =>
          have hk : MarksOnly st s1 := hkeep st sym u s1 hm
          show mark_symbol_chain mark f s1 (s1.exprAt sym).next_symbol_in_chain ≠ _
          apply ih f s1 _ ?_ (Nat.lt_of_succ_lt_succ hf)
            (fun st' e h => hmark st' e (MarksOnly.trans hk h))
          rw [chain_ends_congr st.tu s1.tu hk.exprs_eq, hk.exprAt_eq sym]
          exact hc'
        | abort => intro h; cases h
        | out_of_fuel => exact absurd hm (hmark st sym (MarksOnly.refl st))

/-- With `B` a bound on the chains, `sema_mark_children` returns or aborts on
`B + 2` units of fuel plus one for every unmarked function: each nested call
has marked one more function before it walks the chain. -/
theorem sema_mark_children_terminates (B : Nat) :
    ∀ (fuel : Nat) (st : Sema) (e : ExprIndex),
      (∀ x, chain_ends st.tu B x = true) → B + 2 + unmarked_functions st ≤ fuel →
      sema_mark_children fuel st e ≠ Res.out_of_fuel := by
  intro fuel
  induction fuel with
  | zero => intro st e _ hf; omega
  | succ f ih =>
    intro st e hB hf
    rw [sema_mark_children]
    by_cases h1 : (st.exprAt e).op = ExprOp.EXPR_ENUM
    · rw [if_pos h1]; intro h; cases h
    · rw [if_neg h1]
      by_cases h2 : (st.exprAt e).op ≠ ExprOp.EXPR_SYMBOL
      · rw [if_pos h2]; intro h; cases h
      · rw [if_neg h2]
        dsimp only
        by_cases h3 : (st.stmtAt (st.exprAt e).symbol).decl.attrs.is_used = false
        · rw [if_pos h3]
          by_cases h4 : (st.stmtAt (st.exprAt e).symbol).op = StmtOp.STMT_FUNC_DECL
          · rw [if_pos h4]
            have hlt := unmarked_functions_setUsed st _ h4 h3
            have hm := MarksOnly.setUsed st (st.exprAt e).symbol
            apply mark_symbol_chain_terminates _ (sema_mark_children_marks_only f) B f _ _ ?_
              (by omega)
            · intro st' e' hk
              apply ih st' e'
              · intro x
                rw [chain_ends_congr st.tu st'.tu ((MarksOnly.trans hm hk).exprs_eq)]
                exact hB x
              · have := unmarked_functions_mono _ _ hk
                omega
            · rw [chain_ends_congr st.tu _ hm.exprs_eq]
              exact hB _
          · rw [if_neg h4]
            split_ifs <;> (intro h; cases h)
        · rw [if_neg h3]; intro h; cases h

/-- The loop of `sema_remove_unused` returns or aborts on the same fuel. -/
theorem sema_remove_unused_loop_terminates (B fuel : Nat) :
    ∀ (count : Nat) (st : Sema) (i : Nat),
      (∀ x, chain_ends st.tu B x = true) → B + 2 + unmarked_functions st ≤ fuel →
      sema_remove_unused_loop fuel count st i ≠ Res.out_of_fuel := by
  intro count
  induction count with
  | zero => intro st i _ _; rw [sema_remove_unused_loop]; intro h; cases h
  | succ n ih =>
    intro st i hB hf
    rw [sema_remove_unused_loop]
    dsimp only
    by_cases hr : (st.stmtAt (st.tu.top_level_stmts.getD i 0)).decl.attrs.is_root = true
    · rw [if_pos hr]
      have hm := MarksOnly.setUsed st (st.tu.top_level_stmts.getD i 0)
      have hB' : ∀ x, chain_ends (st.setUsed (st.tu.top_level_stmts.getD i 0)).tu B x = true := by
        intro x
        rw [chain_ends_congr st.tu _ hm.exprs_eq]
        exact hB x
      have hU' := unmarked_functions_mono _ _ hm
      have hnext : ∀ (u : Unit) (s1 : Sema),
          MarksOnly (st.setUsed (st.tu.top_level_stmts.getD i 0)) s1 →
          sema_remove_unused_loop fuel n s1 (i + 1) ≠ Res.out_of_fuel := by
        intro _ s1 hk
        apply ih s1 (i + 1)
        · intro x
          rw [chain_ends_congr _ s1.tu hk.exprs_eq]
          exact hB' x
        · have := unmarked_functions_mono _ _ hk
          omega
      split_ifs with hop
      · cases hrun : mark_symbol_chain (sema_mark_children fuel) fuel
            (st.setUsed (st.tu.top_level_stmts.getD i 0))
            ((st.setUsed (st.tu.top_level_stmts.getD i 0)).stmtAt
              ((st.setUsed (st.tu.top_level_stmts.getD i 0)).stmtAt
                (st.tu.top_level_stmts.getD i 0)).decl.initial).compound.first_symbol with
        | ok u s1 =>
          exact hnext u s1
            (mark_symbol_chain_marks_only _ (sema_mark_children_marks_only fuel) _ _ _ u s1 hrun)
        | abort => intro h; cases h
        | out_of_fuel =>
          exfalso
          refine mark_symbol_chain_terminates _ (sema_mark_children_marks_only fuel) B fuel _ _
            (hB' _) (by omega) ?_ hrun
          intro st' e' hk
          apply sema_mark_children_terminates B fuel st' e'
          · intro x
            rw [chain_ends_congr _ st'.tu hk.exprs_eq]
            exact hB' x
          · have := unmarked_functions_mono _ _ hk
            omega
      · exact hnext () _ (MarksOnly.refl _)
    · rw [if_neg hr]
      exact ih st (i + 1) hB hf

/-- C39: on a translation unit whose symbol chains are finite (from every
expression the `next_symbol_in_chain` links reach the null handle),
`sema_remove_unused` terminates: with enough fuel the model returns, or stops at
the failed `assert(ep->op == EXPR_SYMBOL)`, and never runs out of fuel.
Nothing is assumed about the functions: they may refer to themselves or to each
other; a nested call of `sema_mark_children` is made only for an unmarked
function and after that function has been marked, so the nesting is bounded by
the number of unmarked functions. -/
theorem sema_remove_unused_terminates (st : Sema)
    (hfin : ∀ e, ∃ n, chain_ends st.tu n e = true) :
    ∃ fuel0, ∀ fuel, fuel0 ≤ fuel →
      sema_remove_unused fuel st = Res.abort ∨ ∃ st', sema_remove_unused fuel st = Res.ok () st' := by
  obtain ⟨B, hB⟩ := chain_ends_bound st.tu hfin
  refine ⟨B + 2 + unmarked_functions st, fun fuel hf => ?_⟩
  have h := sema_remove_unused_loop_terminates B fuel st.tu.top_level_stmts.length st 0 hB hf
  unfold sema_remove_unused
  cases hr : sema_remove_unused_loop fuel st.tu.top_level_stmts.length st 0 with
  | ok u s1 => exact Or.inr ⟨s1, rfl⟩
  | abort => exact Or.inl rfl
  | out_of_fuel => exact absurd hr h

/-- C39 on `stUnit`, in which `main` and `helper` each refer to themselves
(expressions 3 and 7 lie on the chains of their own bodies): the chains are
finite, the pass terminates for every large enough fuel, and with fuel 5 it
returns. -/
theorem sema_remove_unused_terminates_witness :
    (∃ fuel0, ∀ fuel, fuel0 ≤ fuel →
      sema_remove_unused fuel stUnit = Res.abort
        ∨ ∃ st', sema_remove_unused fuel stUnit = Res.ok () st')
    ∧ ReferencedBy stUnit.tu 1 1 ∧ ReferencedBy stUnit.tu 3 3
    ∧ sema_remove_unused 5 stUnit = Res.ok () (sema_remove_unused 5 stUnit).state :=
  ⟨sema_remove_unused_terminates stUnit (fun e => ⟨8, by
      by_cases h : e < 8
      · interval_cases e <;> rfl
      · exact chain_ends_mono stUnit.tu 1 7 e
          (chain_ends_of_ge stUnit.tu e (Nat.le_of_not_lt h))⟩),
   ⟨by decide, 3,
     OnChain.next 2 (OnChain.next 1 (OnChain.here (by decide)) (by decide)) (by decide),
     by decide, by decide, by decide⟩,
   ⟨by decide, 7,
     OnChain.next 5 (OnChain.next 4 (OnChain.here (by decide)) (by decide)) (by decide),
     by decide, by decide, by decide⟩,
   by rfl⟩

/-! ### The `cast_type` of the arguments of a call -/

theorem shapeKept_isFrame : IsFrame ShapeKept where
  refl := fun _ => ⟨rfl, rfl⟩
  trans := fun _ _ _ h1 h2 => ⟨h2.1.trans h1.1, h2.2.trans h1.2⟩
  setExpr := fun st e x => ⟨Sema.exprs_length_setExpr st e x, rfl⟩
  setType := fun _ _ _ => ⟨rfl, rfl⟩
  error := fun _ _ _ => ⟨rfl, rfl⟩
  withTypes := fun _ _ => ⟨rfl, rfl⟩
  label := fun _ _ _ _ => ⟨rfl, rfl⟩
  setDeclType := fun _ _ _ => ⟨rfl, rfl⟩

theorem exprAt_withTu_type_compatible (env : Env) (s : Sema) (a b : TypeIndex)
    (x e : ExprIndex) : (s.withTu (type_compatible env s.tu a b x).2).exprAt e = s.exprAt e :=
  exprAt_congr _ _ (type_compatible_exprs env s.tu a b x) e

theorem params_withTu_type_compatible (env : Env) (s : Sema) (a b : TypeIndex) (x : ExprIndex) :
    (s.withTu (type_compatible env s.tu a b x).2).tu.params = s.tu.params := by
  show (type_compatible env s.tu a b x).2.params = _
  rw [type_compatible_frame]

theorem paramAt_congr (a b : TranslationUnit) (h : a.params = b.params) (i : ParamIndex) :
    a.paramAt i = b.paramAt i := by
  unfold TranslationUnit.paramAt; rw [h]

/-- A returning first iteration of the typed argument loop. -/
theorem check_call_args_first (env : Env) (sema : Sema → ExprIndex → Res TypeIndex)
    (args : List ExprIndex) (param_list : ParamIndex) (to_param : Bool)
    (count : Nat) (st : Sema) (i : Nat) (st' : Sema)
    (h : check_call_args env sema args param_list to_param (count + 1) st i = Res.ok true st') :
    ∃ t s1, sema st (args.getD i 0) = Res.ok t s1
      ∧ ¬ (type_compatible env s1.tu t (s1.tu.paramAt (param_list + i)).type
          (args.getD i 0)).1 = false := by
  cases hs : sema st (args.getD i 0) with
  | abort => rw [check_call_args] at h; simp only [hs, Res.bind] at h; cases h
  | out_of_fuel => rw [check_call_args] at h; simp only [hs, Res.bind] at h; cases h
  | ok t s1 =>
    refine ⟨t, s1, rfl, fun hc => ?_⟩
    have hv := (check_call_args_stop env sema args param_list to_param count st i t s1 hs hc
      true st' h).1
    cases hv

/-- The typed argument loop, when it completes: the arena shape is kept, a node
that is no argument and that no argument check touches is as before, and every
argument has its `cast_type` set, to the parameter's type (`to_param`) or to
the argument's own type.  The arguments are taken to be valid handles, pairwise
distinct, and the check of one argument is taken to leave the nodes of the
arguments before it alone. -/
theorem check_call_args_cast_types (env : Env) (sema : Sema → ExprIndex → Res TypeIndex)
    (args : List ExprIndex) (param_list : ParamIndex) (to_param : Bool)
    (hshape : ∀ s x, Keeps ShapeKept s (sema s x)) :
    ∀ (count : Nat) (st : Sema) (i : Nat) (st' : Sema),
      check_call_args env sema args param_list to_param count st i = Res.ok true st' →
      (∀ k, k < count → args.getD (i + k) 0 < st.tu.exprs.length) →
      (∀ j, j < count → ∀ k, k < j → args.getD (i + k) 0 ≠ args.getD (i + j) 0
        ∧ LeavesNode (args.getD (i + k) 0)
            (check_call_args env sema args param_list to_param j st i).state
            (sema (check_call_args env sema args param_list to_param j st i).state
              (args.getD (i + j) 0))) →
      ShapeKept st st'
      ∧ (∀ a, (∀ j, j < count → args.getD (i + j) 0 ≠ a
            ∧ LeavesNode a (check_call_args env sema args param_list to_param j st i).state
                (sema (check_call_args env sema args param_list to_param j st i).state
                  (args.getD (i + j) 0))) →
          st'.exprAt a = st.exprAt a)
      ∧ ∀ k, k < count →
          (st'.exprAt (args.getD (i + k) 0)).cast_type
            = if to_param = true then (st.tu.paramAt (param_list + (i + k))).type
              else (st'.exprAt (args.getD (i + k) 0)).type := by
  intro count
  induction count with
  | zero =>
    intro st i st' h _ _
    rw [check_call_args] at h
    simp only [Res.ok.injEq, true_and] at h
    rw [← h]
    exact ⟨⟨rfl, rfl⟩, fun _ _ => rfl, fun k hk => absurd hk (Nat.not_lt_zero k)⟩
  | succ n ih =>
    intro st i st' h hrange hsep
    obtain ⟨t, s1, hs, hc⟩ := check_call_args_first env sema args param_list to_param n st i st' h
    have hstep := fun m =>
      check_call_args_step env sema args param_list to_param m st i t s1 hs hc
    rw [hstep n] at h
    have hk1 : ShapeKept st s1 := hshape st _ t s1 hs
    have hlen0 : args.getD i 0 < s1.tu.exprs.length := by
      rw [hk1.1]; exact hrange 0 (Nat.succ_pos n)
    have hlenW : args.getD i 0
        < (s1.withTu (type_compatible env s1.tu t (s1.tu.paramAt (param_list + i)).type
            (args.getD i 0)).2).tu.exprs.length := by
      show _ < (type_compatible env s1.tu t _ _).2.exprs.length
      rw [type_compatible_exprs]; exact hlen0
    have hkS : ∀ X, ShapeKept st
        ((s1.withTu (type_compatible env s1.tu t (s1.tu.paramAt (param_list + i)).type
            (args.getD i 0)).2).setCastType (args.getD i 0) X) := by
      intro X
      refine ⟨?_, ?_⟩
      · rw [Sema.exprs_length_setCastType]
        show (type_compatible env s1.tu t _ _).2.exprs.length = _
        rw [type_compatible_exprs]; exact hk1.1
      · show (type_compatible env s1.tu t _ _).2.params = _
        rw [type_compatible_frame]; exact hk1.2
    have hidx : ∀ k, i + (k + 1) = i + 1 + k := fun k => by omega
    obtain ⟨ih1, ih2, ih3⟩ := ih _ (i + 1) st' h
      (fun k hk => by
        rw [(hkS _).1, ← hidx k]
        exact hrange (k + 1) (Nat.succ_lt_succ hk))
      (fun j hj k hk => by
        have := hsep (j + 1) (Nat.succ_lt_succ hj) (k + 1) (Nat.succ_lt_succ hk)
        rw [hstep j, hidx k, hidx j] at this
        exact this)
    have hnode0 : st'.exprAt (args.getD i 0)
        = ((s1.withTu (type_compatible env s1.tu t (s1.tu.paramAt (param_list + i)).type
            (args.getD i 0)).2).setCastType (args.getD i 0)
            (if to_param = true then
              ((s1.withTu (type_compatible env s1.tu t (s1.tu.paramAt (param_list + i)).type
                (args.getD i 0)).2).tu.paramAt (param_list + i)).type
             else ((s1.withTu (type_compatible env s1.tu t (s1.tu.paramAt (param_list + i)).type
                (args.getD i 0)).2).exprAt (args.getD i 0)).type)).exprAt (args.getD i 0) := by
      apply ih2
      intro j hj
      have := hsep (j + 1) (Nat.succ_lt_succ hj) 0 (Nat.succ_pos j)
      rw [hstep j, hidx j, Nat.add_zero] at this
      exact ⟨fun h => this.1 h.symm, this.2⟩
    refine ⟨⟨ih1.1.trans (hkS _).1, ih1.2.trans (hkS _).2⟩, ?_, ?_⟩
    · intro a ha
      have h0 := ha 0 (Nat.succ_pos n)
      rw [ih2 a (fun j hj => by
        have := ha (j + 1) (Nat.succ_lt_succ hj)
        rw [hstep j, hidx j] at this
        exact this)]
      rw [Sema.exprAt_setCastType, if_neg (fun h => h0.1 h.1.symm),
        exprAt_withTu_type_compatible]
      have h2 := h0.2
      unfold LeavesNode at h2
      rw [show (check_call_args env sema args param_list to_param 0 st i).state = st from rfl,
        Nat.add_zero, hs] at h2
      exact h2
    · intro k hk
      cases k with
      | zero =>
        rw [Nat.add_zero, hnode0, Sema.cast_type_setCastType_self _ _ _ hlenW,
          Sema.type_setCastType]
        cases to_param with
        | true =>
          simp only [if_true]
          exact congrArg Param.type
            (paramAt_congr _ _ ((params_withTu_type_compatible env s1 _ _ _).trans hk1.2) _)
        | false => simp only [Bool.false_eq_true, if_false]
      | succ k' =>
        have := ih3 k' (Nat.lt_of_succ_lt_succ hk)
        rw [← hidx k'] at this
        rw [this]
        cases to_param with
        | true =>
          simp only [if_true]
          exact congrArg Param.type (paramAt_congr _ _ (hkS _).2 _)
        | false => simp only [Bool.false_eq_true, if_false]

/-- The node checked holds the handle returned (helper form of the final write
`ep->type = t`). -/
theorem sema_expr_stored (env : Env) (fuel : Nat) (st st' : Sema) (e : ExprIndex) (t : TypeIndex)
    (hrun : sema_expr env fuel st e = Res.ok t st') (he : e < st'.tu.exprs.length) :
    (st'.exprAt e).type = t := by
  cases fuel with
  | zero => cases hrun
  | succ n =>
    obtain ⟨s, hs⟩ := sema_expr_body_stores env (sema_expr env n) n st e t st' hrun
    rw [hs] at he ⊢
    rw [Sema.exprs_length_setExprType] at he
    exact Sema.type_setExprType_self s e t he

/-- A returning first iteration of the loop over the untyped arguments. -/
theorem check_untyped_args_first (sema : Sema → ExprIndex → Res TypeIndex)
    (args : List ExprIndex) (count : Nat) (st : Sema) (i : Nat) (u : Unit) (st' : Sema)
    (h : check_untyped_args sema args (count + 1) st i = Res.ok u st') :
    ∃ t s1, sema st (args.getD i 0) = Res.ok t s1 := by
  cases hs : sema st (args.getD i 0) with
  | abort => rw [check_untyped_args] at h; simp only [hs, Res.bind] at h; cases h
  | out_of_fuel => rw [check_untyped_args] at h; simp only [hs, Res.bind] at h; cases h
  | ok t s1 => exact ⟨t, s1, rfl⟩

/-- The loop over the untyped arguments of a variadic call, when it returns: the
arena shape is kept, a node that is no argument of the loop and that no
argument check touches is as before, and every argument of the loop has its
`cast_type` set to its own type.  Same assumptions as for the typed loop. -/
theorem check_untyped_args_cast_types (sema : Sema → ExprIndex → Res TypeIndex)
    (args : List ExprIndex)
    (hshape : ∀ s x, Keeps ShapeKept s (sema s x))
    (hstore : ∀ s x t s', sema s x = Res.ok t s' → x < s'.tu.exprs.length →
      (s'.exprAt x).type = t) :
    ∀ (count : Nat) (st : Sema) (i : Nat) (u : Unit) (st' : Sema),
      check_untyped_args sema args count st i = Res.ok u st' →
      (∀ k, k < count → args.getD (i + k) 0 < st.tu.exprs.length) →
      (∀ j, j < count → ∀ k, k < j → args.getD (i + k) 0 ≠ args.getD (i + j) 0
        ∧ LeavesNode (args.getD (i + k) 0) (check_untyped_args sema args j st i).state
            (sema (check_untyped_args sema args j st i).state (args.getD (i + j) 0))) →
      ShapeKept st st'
      ∧ (∀ a, (∀ j, j < count → args.getD (i + j) 0 ≠ a
            ∧ LeavesNode a (check_untyped_args sema args j st i).state
                (sema (check_untyped_args sema args j st i).state (args.getD (i + j) 0))) →
          st'.exprAt a = st.exprAt a)
      ∧ ∀ k, k < count →
          (st'.exprAt (args.getD (i + k) 0)).cast_type = (st'.exprAt (args.getD (i + k) 0)).type := by
  intro count
  induction count with
  | zero =>
    intro st i u st' h _ _
    rw [check_untyped_args] at h
    simp only [Res.ok.injEq, true_and] at h
    rw [← h]
    exact ⟨⟨rfl, rfl⟩, fun _ _ => rfl, fun k hk => absurd hk (Nat.not_lt_zero k)⟩
  | succ n ih =>
    intro st i u st' h hrange hsep
    obtain ⟨t, s1, hs⟩ := check_untyped_args_first sema args n st i u st' h
    have hstep := fun m => check_untyped_args_step sema args m st i t s1 hs
    rw [hstep n] at h
    have hk1 : ShapeKept st s1 := hshape st _ t s1 hs
    have hlen0 : args.getD i 0 < s1.tu.exprs.length := by
      rw [hk1.1]; exact hrange 0 (Nat.succ_pos n)
    have hkS : ShapeKept st (s1.setCastType (args.getD i 0) t) :=
      ⟨(Sema.exprs_length_setCastType _ _ _).trans hk1.1, hk1.2⟩
    have hidx : ∀ k, i + (k + 1) = i + 1 + k := fun k => by omega
    obtain ⟨ih1, ih2, ih3⟩ := ih _ (i + 1) u st' h
      (fun k hk => by
        rw [hkS.1, ← hidx k]
        exact hrange (k + 1) (Nat.succ_lt_succ hk))
      (fun j hj k hk => by
        have := hsep (j + 1) (Nat.succ_lt_succ hj) (k + 1) (Nat.succ_lt_succ hk)
        rw [hstep j, hidx k, hidx j] at this
        exact this)
    have hnode0 : st'.exprAt (args.getD i 0)
        = (s1.setCastType (args.getD i 0) t).exprAt (args.getD i 0) := by
      apply ih2
      intro j hj
      have := hsep (j + 1) (Nat.succ_lt_succ hj) 0 (Nat.succ_pos j)
      rw [hstep j, hidx j, Nat.add_zero] at this
      exact ⟨fun h => this.1 h.symm, this.2⟩
    refine ⟨⟨ih1.1.trans hkS.1, ih1.2.trans hkS.2⟩, ?_, ?_⟩
    · intro a ha
      have h0 := ha 0 (Nat.succ_pos n)
      rw [ih2 a (fun j hj => by
        have := ha (j + 1) (Nat.succ_lt_succ hj)
        rw [hstep j, hidx j] at this
        exact this)]
      rw [Sema.exprAt_setCastType, if_neg (fun h => h0.1 h.1.symm)]
      have h2 := h0.2
      unfold LeavesNode at h2
      rw [show (check_untyped_args sema args 0 st i).state = st from rfl,
        Nat.add_zero, hs] at h2
      exact h2
    · intro k hk
      cases k with
      | zero =>
        rw [Nat.add_zero, hnode0, Sema.cast_type_setCastType_self _ _ _ hlen0,
          Sema.type_setCastType, hstore st _ t s1 hs hlen0]
      | succ k' =>
        have := ih3 k' (Nat.lt_of_succ_lt_succ hk)
        rw [← hidx k'] at this
        exact this

theorem call_kids_facts (x : Expr) (e : ExprIndex) (hnodup : (e :: call_kids x).Nodup) :
    x.call.target ≠ e
    ∧ (∀ k, k < x.call.param_count → x.call.param_start.getD k 0 ≠ e
        ∧ x.call.param_start.getD k 0 ≠ x.call.target
        ∧ x.call.param_start.getD k 0 ∈ call_kids x)
    ∧ ∀ j k, j < x.call.param_count → k < x.call.param_count → j ≠ k →
        x.call.param_start.getD k 0 ≠ x.call.param_start.getD j 0 := by
  unfold call_kids at hnodup ⊢
  rw [List.nodup_cons, List.nodup_cons] at hnodup
  obtain ⟨h1, h2, h3⟩ := hnodup
  have hmem : ∀ k, k < x.call.param_count → x.call.param_start.getD k 0
      ∈ (List.range x.call.param_count).map fun i => x.call.param_start.getD i 0 :=
    fun k hk => List.mem_map.mpr ⟨k, List.mem_range.mpr hk, rfl⟩
  refine ⟨fun h => h1 (by rw [← h]; exact List.mem_cons_self _ _), ?_, ?_⟩
  · intro k hk
    exact ⟨fun h => h1 (by rw [← h]; exact List.mem_cons_of_mem _ (hmem k hk)),
      fun h => h2 (by rw [← h]; exact hmem k hk), List.mem_cons_of_mem _ (hmem k hk)⟩
  · intro j k hj hk hne h
    exact hne (List.inj_on_of_nodup_map h3 (List.mem_range.mpr hj) (List.mem_range.mpr hk) h.symm)

/-- The run of the Call case when the argument count is accepted and the typed
loop of a non-variadic call returns. -/
theorem sema_expr_call_fixed_run (env : Env) (fuel : Nat) (st st1 st2 : Sema) (e : ExprIndex)
    (tf fp : TypeIndex) (done : Bool)
    (hop : (st.exprAt e).op = ExprOp.EXPR_CALL)
    (ht : sema_expr env fuel st (st.exprAt e).call.target = Res.ok tf st1)
    (hnode1 : st1.exprAt e = st.exprAt e)
    (hfp : fp = if (st1.typeAt tf).kind = KIND_PTR then (st1.typeAt tf).ptr_to else tf)
    (hfunc : (st1.typeAt fp).kind = KIND_FUNC)
    (hv : (st1.typeAt fp).func.has_varargs = false)
    (hcount : (st.exprAt e).call.param_count = (st1.typeAt fp).func.param_count)
    (hargs : check_call_args env (sema_expr env fuel) (st.exprAt e).call.param_start
        (st1.typeAt fp).func.param_list false (st.exprAt e).call.param_count
        (st1.setCastType (st.exprAt e).call.target fp) 0 = Res.ok done st2) :
    sema_expr env (fuel + 1) st e = ret_type st2 e (st2.typeAt fp).func.return_type := by
  have hfunc' : ¬ (st1.typeAt fp).kind ≠ KIND_FUNC := by simp [hfunc]
  simp only [sema_expr, sema_expr_body, hop, ht, Res.bind, hnode1, ← hfp, hfunc',
    Sema.typeAt_setCastType, Sema.loc_setCastType, Sema.call_setCastType, hv, hcount,
    if_false, if_true, Bool.false_eq_true, ne_eq, not_true_eq_false]
  rw [← hcount, hargs]

/-- The run of the Call case when the argument count is accepted and both loops
of a variadic call return. -/
theorem sema_expr_call_variadic_run (env : Env) (fuel : Nat) (st st1 st2 st3 : Sema)
    (e : ExprIndex) (tf fp : TypeIndex) (u : Unit)
    (hop : (st.exprAt e).op = ExprOp.EXPR_CALL)
    (ht : sema_expr env fuel st (st.exprAt e).call.target = Res.ok tf st1)
    (hnode1 : st1.exprAt e = st.exprAt e)
    (hfp : fp = if (st1.typeAt tf).kind = KIND_PTR then (st1.typeAt tf).ptr_to else tf)
    (hfunc : (st1.typeAt fp).kind = KIND_FUNC)
    (hv : (st1.typeAt fp).func.has_varargs = true)
    (hcount : ¬ (st.exprAt e).call.param_count < (st1.typeAt fp).func.param_count)
    (hargs : check_call_args env (sema_expr env fuel) (st.exprAt e).call.param_start
        (st1.typeAt fp).func.param_list true (st1.typeAt fp).func.param_count
        (st1.setCastType (st.exprAt e).call.target fp) 0 = Res.ok true st2)
    (hrest : check_untyped_args (sema_expr env fuel) (st.exprAt e).call.param_start
        ((st.exprAt e).call.param_count - (st1.typeAt fp).func.param_count) st2
        (st1.typeAt fp).func.param_count = Res.ok u st3) :
    sema_expr env (fuel + 1) st e = ret_type st3 e (st3.typeAt fp).func.return_type := by
  have hfunc' : ¬ (st1.typeAt fp).kind ≠ KIND_FUNC := by simp [hfunc]
  simp only [sema_expr, sema_expr_body, hop, ht, Res.bind, hnode1, ← hfp, hfunc',
    Sema.typeAt_setCastType, Sema.loc_setCastType, Sema.call_setCastType, hv, hcount,
    if_false, if_true, hargs, hrest]

/-- C33: let `e` be a Call node whose target and arguments are valid handles,
distinct from each other and from `e`; let the target be checked to type `tf`
(leaving `e` untouched), `fp` be `tf` after the implicit dereference, of kind
Function, and let the argument count be accepted and every conversion pass
(the argument loops return without a report).  Let the check of each argument
leave the target node and the nodes of the arguments before it alone (as it
does when the sub-expressions form a tree).  Then `sema_expr` returns, and in
the state it returns in the target's `cast_type` is `fp`; in a non-variadic
call every argument's `cast_type` is that argument's own type; in a variadic
call each of the first `param_count` arguments has the type of the
corresponding parameter as `cast_type`, and each further argument its own
type. -/
theorem sema_expr_call_cast_types (env : Env) (fuel : Nat) (st st1 : Sema) (e : ExprIndex)
    (tf fp : TypeIndex) (target : ExprIndex) (args : List ExprIndex) (n : Nat)
    (pl : ParamIndex) (pc : Nat)
    (hop : (st.exprAt e).op = ExprOp.EXPR_CALL)
    (htarget : target = (st.exprAt e).call.target)
    (hargs : args = (st.exprAt e).call.param_start)
    (hn : n = (st.exprAt e).call.param_count)
    (ht : sema_expr env fuel st target = Res.ok tf st1)
    (hnode1 : st1.exprAt e = st.exprAt e)
    (hfp : fp = if (st1.typeAt tf).kind = KIND_PTR then (st1.typeAt tf).ptr_to else tf)
    (hfunc : (st1.typeAt fp).kind = KIND_FUNC)
    (hpl : pl = (st1.typeAt fp).func.param_list)
    (hpc : pc = (st1.typeAt fp).func.param_count)
    (hnodup : (e :: call_kids (st.exprAt e)).Nodup)
    (hvalid : ∀ a, a ∈ e :: call_kids (st.exprAt e) → a < st1.tu.exprs.length) :
    ((st1.typeAt fp).func.has_varargs = false → n = pc →
      ∀ st2,
        check_call_args env (sema_expr env fuel) args pl false n (st1.setCastType target fp) 0
          = Res.ok true st2 →
        (∀ j, j < n → ∀ a, a ∈ target :: (List.range j).map (fun k => args.getD k 0) →
          LeavesNode a
            (check_call_args env (sema_expr env fuel) args pl false j
              (st1.setCastType target fp) 0).state
            (sema_expr env fuel
              (check_call_args env (sema_expr env fuel) args pl false j
                (st1.setCastType target fp) 0).state (args.getD j 0))) →
        ∃ st', sema_expr env (fuel + 1) st e = Res.ok (st2.typeAt fp).func.return_type st'
          ∧ (st'.exprAt target).cast_type = fp
          ∧ ∀ k, k < n →
              (st'.exprAt (args.getD k 0)).cast_type = (st'.exprAt (args.getD k 0)).type)
    ∧ ((st1.typeAt fp).func.has_varargs = true → pc ≤ n →
      ∀ st2 st3,
        check_call_args env (sema_expr env fuel) args pl true pc (st1.setCastType target fp) 0
          = Res.ok true st2 →
        check_untyped_args (sema_expr env fuel) args (n - pc) st2 pc = Res.ok () st3 →
        (∀ j, j < pc → ∀ a, a ∈ target :: (List.range j).map (fun k => args.getD k 0) →
          LeavesNode a
            (check_call_args env (sema_expr env fuel) args pl true j
              (st1.setCastType target fp) 0).state
            (sema_expr env fuel
              (check_call_args env (sema_expr env fuel) args pl true j
                (st1.setCastType target fp) 0).state (args.getD j 0))) →
        (∀ j, j < n - pc →
          ∀ a, a ∈ target :: (List.range (pc + j)).map (fun k => args.getD k 0) →
          LeavesNode a (check_untyped_args (sema_expr env fuel) args j st2 pc).state
            (sema_expr env fuel (check_untyped_args (sema_expr env fuel) args j st2 pc).state
              (args.getD (pc + j) 0))) →
        ∃ st', sema_expr env (fuel + 1) st e = Res.ok (st3.typeAt fp).func.return_type st'
          ∧ (st'.exprAt target).cast_type = fp
          ∧ (∀ k, k < pc →
              (st'.exprAt (args.getD k 0)).cast_type = (st.tu.paramAt (pl + k)).type)
          ∧ ∀ k, pc ≤ k → k < n →
              (st'.exprAt (args.getD k 0)).cast_type = (st'.exprAt (args.getD k 0)).type) := by
  subst htarget hargs hn hpl hpc
  obtain ⟨hte, hk, hdist⟩ := call_kids_facts (st.exprAt e) e hnodup
  have F := shapeKept_isFrame
  have hshape := sema_expr_keeps F env fuel
  have hst1 : ShapeKept st st1 := hshape st _ tf st1 ht
  have htv : (st.exprAt e).call.target < st1.tu.exprs.length :=
    hvalid _ (List.mem_cons_of_mem _ (List.mem_cons_self _ _))
  have hS0 : ShapeKept st1 (st1.setCastType (st.exprAt e).call.target fp) :=
    ⟨Sema.exprs_length_setCastType _ _ _, rfl⟩
  have hmemk : ∀ j k, k < j →
      (st.exprAt e).call.param_start.getD k 0
        ∈ (st.exprAt e).call.target ::
          (List.range j).map (fun k => (st.exprAt e).call.param_start.getD k 0) :=
    fun j k hkj => List.mem_cons_of_mem _ (List.mem_map.mpr ⟨k, List.mem_range.mpr hkj, rfl⟩)
  have hother : ∀ (s : Sema) (a : ExprIndex) (r : TypeIndex), a ≠ e →
      (s.setExprType e r).exprAt a = s.exprAt a := by
    intro s a r ha
    rw [Sema.exprAt_setExprType, if_neg (fun h => ha h.1)]
  constructor
  · intro hv hcount st2 hloop hleave
    have hrun := sema_expr_call_fixed_run env fuel st st1 st2 e tf fp true hop ht hnode1 hfp
      hfunc hv hcount hloop
    obtain ⟨_, h2, h3⟩ := check_call_args_cast_types env (sema_expr env fuel) _ _ false hshape
      _ _ 0 st2 hloop
      (fun k hkn => by
        rw [Nat.zero_add, hS0.1]
        exact hvalid _ (List.mem_cons_of_mem _ (hk k hkn).2.2))
      (fun j hj k hkj => by
        rw [Nat.zero_add, Nat.zero_add]
        exact ⟨hdist j k hj (Nat.lt_trans hkj hj) (Nat.ne_of_gt hkj), hleave j hj _ (hmemk j k hkj)⟩)
    refine ⟨_, hrun, ?_, ?_⟩
    · rw [hother _ _ _ hte, h2 _ (fun j hj => by
        rw [Nat.zero_add]
        exact ⟨(hk j hj).2.1, hleave j hj _ (List.mem_cons_self _ _)⟩)]
      exact Sema.cast_type_setCastType_self _ _ _ htv
    · intro k hkn
      have := h3 k hkn
      rw [Nat.zero_add] at this
      rw [hother _ _ _ (hk k hkn).1, this]
      simp only [Bool.false_eq_true, if_false]
  · intro hv hcount st2 st3 hloop hrest hleave1 hleave2
    have hrun := sema_expr_call_variadic_run env fuel st st1 st2 st3 e tf fp () hop ht hnode1
      hfp hfunc hv (Nat.not_lt.mpr hcount) hloop hrest
    obtain ⟨g1, h2, h3⟩ := check_call_args_cast_types env (sema_expr env fuel) _ _ true hshape
      _ _ 0 st2 hloop
      (fun k hkn => by
        rw [Nat.zero_add, hS0.1]
        exact hvalid _ (List.mem_cons_of_mem _ (hk k (Nat.lt_of_lt_of_le hkn hcount)).2.2))
      (fun j hj k hkj => by
        rw [Nat.zero_add, Nat.zero_add]
        exact ⟨hdist j k (Nat.lt_of_lt_of_le hj hcount)
            (Nat.lt_of_lt_of_le (Nat.lt_trans hkj hj) hcount) (Nat.ne_of_gt hkj),
          hleave1 j hj _ (hmemk j k hkj)⟩)
    have hlt : ∀ j, j < (st.exprAt e).call.param_count - (st1.typeAt fp).func.param_count →
        (st1.typeAt fp).func.param_count + j < (st.exprAt e).call.param_count :=
      fun j hj => by omega
    obtain ⟨_, k2, k3⟩ := check_untyped_args_cast_types (sema_expr env fuel) _ hshape
      (fun s x t s' h hx => sema_expr_stored env fuel s s' x t h hx)
      _ st2 _ () st3 hrest
      (fun k hkn => by
        rw [g1.1, hS0.1]
        exact hvalid _ (List.mem_cons_of_mem _ (hk _ (hlt k hkn)).2.2))
      (fun j hj k hkj => by
        exact ⟨hdist _ _ (hlt j hj) (hlt k (Nat.lt_trans hkj hj)) (by omega),
          hleave2 j hj _ (hmemk _ _ (by omega))⟩)
    refine ⟨_, hrun, ?_, ?_, ?_⟩
    · rw [hother _ _ _ hte, k2 _ (fun j hj =>
        ⟨(hk _ (hlt j hj)).2.1, hleave2 j hj _ (List.mem_cons_self _ _)⟩),
        h2 _ (fun j hj => by
          rw [Nat.zero_add]
          exact ⟨(hk j (Nat.lt_of_lt_of_le hj hcount)).2.1,
            hleave1 j hj _ (List.mem_cons_self _ _)⟩)]
      exact Sema.cast_type_setCastType_self _ _ _ htv
    · intro k hkp
      have := h3 k hkp
      rw [Nat.zero_add] at this
      simp only [if_true] at this
      rw [hother _ _ _ (hk k (Nat.lt_of_lt_of_le hkp hcount)).1,
        k2 _ (fun j hj =>
          ⟨hdist _ _ (Nat.lt_of_lt_of_le hkp hcount) (hlt j hj) (by omega),
            hleave2 j hj _ (hmemk _ _ (by omega))⟩),
        this]
      exact congrArg Param.type (paramAt_congr _ _ (hS0.2.trans hst1.2) _)
    · intro k hk1 hk2
      have hkk : (st1.typeAt fp).func.param_count + (k - (st1.typeAt fp).func.param_count) = k := by
        omega
      have := k3 (k - (st1.typeAt fp).func.param_count) (by omega)
      rw [hkk] at this
      rw [hother _ _ _ (hk k hk2).1, this]

/-- C33 on two calls: the non-variadic `f(1, 0)` (expression 12 of `stExample2`,
`int f(int, int*)`), where the argument `0` keeps its own type Int as
`cast_type` although the parameter is a pointer; and the variadic `h(0, p, 9)`
(expression 36 of `stExample5`, `int h(int *b, ...)`), where the argument `0`
gets the parameter type `int*` (handle 11) and `p`, `9` their own types. -/
theorem sema_expr_call_cast_types_witness :
    (((sema_expr exampleEnv 2 stExample2 12).state.exprAt 11).cast_type = 18
      ∧ ∀ k, k < 2 →
          ((sema_expr exampleEnv 2 stExample2 12).state.exprAt ([3, 1].getD k 0)).cast_type
            = ((sema_expr exampleEnv 2 stExample2 12).state.exprAt ([3, 1].getD k 0)).type)
    ∧ (((sema_expr exampleEnv 2 stExample5 36).state.exprAt 35).cast_type = 21
      ∧ (∀ k, k < 1 →
          ((sema_expr exampleEnv 2 stExample5 36).state.exprAt ([1, 2, 15].getD k 0)).cast_type
            = (stExample5.tu.paramAt (1 + k)).type)
      ∧ ∀ k, 1 ≤ k → k < 3 →
          ((sema_expr exampleEnv 2 stExample5 36).state.exprAt ([1, 2, 15].getD k 0)).cast_type
            = ((sema_expr exampleEnv 2 stExample5 36).state.exprAt ([1, 2, 15].getD k 0)).type)
    ∧ (stExample5.tu.paramAt 1).type = 11
    ∧ ((sema_expr exampleEnv 2 stExample5 36).state.exprAt 1).type = 5 :=
  ⟨let ⟨_, h1, h2, h3⟩ :=
      (sema_expr_call_cast_types exampleEnv 1 stExample2
        (sema_expr exampleEnv 1 stExample2 11).state
        12 18 18 11 [3, 1] 2 0 2 (by decide) (by rfl) (by rfl) (by rfl) (by rfl) (by decide)
        (by decide) (by decide) (by decide) (by decide) (by decide) (by decide)).1
        (by decide) (by rfl)
        (check_call_args exampleEnv (sema_expr exampleEnv 1) [3, 1] 0 false 2
          ((sema_expr exampleEnv 1 stExample2 11).state.setCastType 11 18) 0).state
        (by rfl) (by decide)
    by rw [h1]; exact ⟨h2, h3⟩,
   let ⟨_, h1, h2, h3, h4⟩ :=
      (sema_expr_call_cast_types exampleEnv 1 stExample5
        (sema_expr exampleEnv 1 stExample5 35).state
        36 21 21 35 [1, 2, 15] 3 1 1 (by decide) (by rfl) (by rfl) (by rfl) (by rfl) (by decide)
        (by decide) (by decide) (by decide) (by decide) (by decide) (by decide)).2
        (by decide) (by decide)
        (check_call_args exampleEnv (sema_expr exampleEnv 1) [1, 2, 15] 1 true 1
          ((sema_expr exampleEnv 1 stExample5 35).state.setCastType 35 21) 0).state
        (check_untyped_args (sema_expr exampleEnv 1) [1, 2, 15] 2
          (check_call_args exampleEnv (sema_expr exampleEnv 1) [1, 2, 15] 1 true 1
            ((sema_expr exampleEnv 1 stExample5 35).state.setCastType 35 21) 0).state 1).state
        (by rfl) (by rfl) (by decide) (by decide)
    by rw [h1]; exact ⟨h2, h3, h4⟩,
   by decide, by decide⟩

/-! ### The `cast_type` of the node being checked -/

section OwnCast

variable {D : ExprIndex → Prop} {e : ExprIndex}

theorem getD_mem_or_default {α : Type} (l : List α) (i : Nat) (d : α) :
    l.getD i d ∈ l ∨ l.getD i d = d := by
  by_cases h : i < l.length
  · left
    rw [List.getD_eq_getElem l d h]
    exact List.getElem_mem h
  · right
    exact List.getD_eq_default l d (Nat.le_of_not_lt h)

theorem ck_refl (s : Sema) (h : SubExprsIn D e s) : CastKept D e s s := ⟨h, fun _ _ => rfl⟩

theorem subExprsIn_typeAt (s : Sema) (h : SubExprsIn D e s) (t : TypeIndex) :
    D (s.typeAt t).typeof_.src := by
  rcases getD_mem_or_default s.tu.types t {} with hm | hd
  · exact h.2.2 _ hm
  · have : s.typeAt t = {} := hd
    rw [this]; exact h.1

theorem ck_kid (b s : Sema) (x c : ExprIndex) (h : CastKept D e b s) (hx : D x ∨ x = e)
    (hc : c ∈ all_kids (s.exprAt x)) : D c := h.1.2.1 x hx c hc

theorem subExprsIn_setExpr (s : Sema) (c : ExprIndex) (y : Expr) (h : SubExprsIn D e s)
    (hy : ∀ k, k ∈ all_kids y → D k) : SubExprsIn D e (s.setExpr c y) := by
  refine ⟨h.1, ?_, h.2.2⟩
  intro x hx k hk
  rw [Sema.exprAt_setExpr] at hk
  split_ifs at hk
  · exact hy k hk
  · exact h.2.1 x hx k hk

/-- A write to a node keeps the relation when the handles stored in the new
value are in `D` and, if the node is outside `D`, the `cast_type` is the old
one. -/
theorem ck_setExpr (b s : Sema) (c : ExprIndex) (y : Expr) (h : CastKept D e b s)
    (hk : ∀ k, k ∈ all_kids y → D k) (hcast : ¬ D c → y.cast_type = (s.exprAt c).cast_type) :
    CastKept D e b (s.setExpr c y) := by
  refine ⟨subExprsIn_setExpr s c y h.1 hk, ?_⟩
  intro z hz
  rw [Sema.exprAt_setExpr]
  split_ifs with hh
  · rw [hh.1] at hz ⊢
    rw [hcast hz]; exact h.2 c hz
  · exact h.2 z hz

theorem ck_cast_D (b s : Sema) (c : ExprIndex) (t : TypeIndex)
    (h : CastKept D e b s) (hc : D c) : CastKept D e b (s.setCastType c t) :=
  ck_setExpr b s c _ h (fun k hk => h.1.2.1 c (Or.inl hc) k hk) (fun hn => absurd hc hn)

theorem ck_kid_cast (b s : Sema) (x c : ExprIndex) (t : TypeIndex)
    (h : CastKept D e b s) (hx : D x ∨ x = e) (hc : c ∈ all_kids (s.exprAt x)) :
    CastKept D e b (s.setCastType c t) :=
  ck_cast_D b s c t h (ck_kid b s x c h hx hc)

theorem ck_own (b s : Sema) (x : ExprIndex) (y : Expr) (h : CastKept D e b s)
    (hx : D x ∨ x = e) (hk : ∀ k, k ∈ all_kids y → k ∈ all_kids (s.exprAt x))
    (hcast : y.cast_type = (s.exprAt x).cast_type) : CastKept D e b (s.setExpr x y) :=
  ck_setExpr b s x y h (fun k hk' => h.1.2.1 x hx k (hk k hk')) (fun _ => hcast)

theorem ck_setExprType (b s : Sema) (x : ExprIndex) (t : TypeIndex) (h : CastKept D e b s)
    (hx : D x ∨ x = e) : CastKept D e b (s.setExprType x t) :=
  ck_own b s x _ h hx (fun _ hk => hk) rfl

theorem ck_setOp (b s : Sema) (x : ExprIndex) (op : ExprOp) (h : CastKept D e b s)
    (hx : D x ∨ x = e) : CastKept D e b (s.setOp x op) :=
  ck_own b s x _ h hx (fun _ hk => hk) rfl

theorem ck_setDotMember (b s : Sema) (x : ExprIndex) (m : MemberIndex)
    (h : CastKept D e b s) (hx : D x ∨ x = e) : CastKept D e b (s.setDotMember x m) :=
  ck_own b s x _ h hx (fun _ hk => hk) rfl

theorem ck_swapBinOp (b s : Sema) (x : ExprIndex) (h : CastKept D e b s)
    (hx : D x ∨ x = e) : CastKept D e b (s.swapBinOp x) := by
  unfold Sema.swapBinOp
  refine ck_own b s x _ h hx ?_ rfl
  intro k hk
  simp only [all_kids, List.mem_append, List.mem_cons, List.mem_map, List.mem_singleton,
    List.not_mem_nil, or_false] at hk ⊢
  tauto

theorem ck_swapSubscript (b s : Sema) (x : ExprIndex) (h : CastKept D e b s)
    (hx : D x ∨ x = e) : CastKept D e b (s.swapSubscript x) := by
  unfold Sema.swapSubscript
  refine ck_own b s x _ h hx ?_ rfl
  intro k hk
  simp only [all_kids, List.mem_append, List.mem_cons, List.mem_map, List.mem_singleton,
    List.not_mem_nil, or_false] at hk ⊢
  tauto

theorem ck_literal (env : Env) (b s : Sema) (x : ExprIndex) (n : Nat)
    (sfx : IntSuffix) (h : CastKept D e b s) (hx : D x) :
    CastKept D e b (s.setExpr x (int_literal_node env n sfx)) := by
  refine ck_setExpr b s x _ h (fun k hk => ?_) (fun hn => absurd hx hn)
  have : k = 0 := by
    simp only [all_kids, int_literal_node, List.mem_append, List.mem_cons, List.mem_map,
      List.not_mem_nil, or_false, or_self, false_and, exists_false, List.map_nil] at hk
    exact hk
  rw [this]; exact h.1.1

theorem ck_error (b s : Sema) (loc : SourceLocIndex) (fmt : String)
    (h : CastKept D e b s) : CastKept D e b (sema_error s loc fmt) := h

/-- A change of the type arena keeps the relation when the `typeof` sources of
the new arena are in `D`. -/
theorem ck_withTu (b s : Sema) (tu : TranslationUnit) (h : CastKept D e b s)
    (hexprs : tu.exprs = s.tu.exprs)
    (htypes : ∀ ty, ty ∈ tu.types → D ty.typeof_.src) :
    CastKept D e b (s.withTu tu) := by
  have hex : ∀ x, (s.withTu tu).exprAt x = s.exprAt x := fun x => exprAt_congr _ _ hexprs x
  refine ⟨⟨h.1.1, fun x hx k hk => h.1.2.1 x hx k (by rw [← hex x]; exact hk), htypes⟩, ?_⟩
  intro z hz
  rw [hex]; exact h.2 z hz

theorem ck_appendTypes (b s : Sema) (extra : List CType) (h : CastKept D e b s)
    (hextra : ∀ ty, ty ∈ extra → ty.typeof_.src = 0) :
    CastKept D e b (s.appendTypes extra) := by
  refine ck_withTu b s { s.tu with types := s.tu.types ++ extra } h rfl ?_
  intro ty hty
  rcases List.mem_append.mp hty with h1 | h1
  · exact h.1.2.2 ty h1
  · rw [hextra ty h1]; exact h.1.1

theorem ck_newPointer (b s : Sema) (base : TypeIndex) (h : CastKept D e b s) :
    CastKept D e b (s.withTu (new_pointer s.tu base).2) := by
  refine ck_appendTypes b s _ h ?_
  intro ty hty
  rw [List.mem_singleton.mp hty]

theorem ck_newArray (b s : Sema) (base : TypeIndex) (n : Nat) (t : TypeIndex)
    (tu : TranslationUnit) (h : CastKept D e b s)
    (heq : new_array s.tu base n = some (t, tu)) : CastKept D e b (s.withTu tu) := by
  unfold new_array at heq
  split_ifs at heq
  simp only [Option.some.injEq, Prod.mk.injEq] at heq
  rw [← heq.2]
  refine ck_appendTypes b s _ h ?_
  intro ty hty
  rw [List.mem_singleton.mp hty]

theorem decay_array_types (tu : TranslationUnit) (t : CType) (hD0 : D 0)
    (h : ∀ ty, ty ∈ tu.types → D ty.typeof_.src) :
    ∀ ty, ty ∈ (decay_array tu t).2.types → D ty.typeof_.src := by
  unfold decay_array
  split_ifs
  · intro ty hty
    rcases List.mem_append.mp hty with h1 | h1
    · exact h ty h1
    · rw [List.mem_singleton.mp h1]; exact hD0
  · exact h

theorem ck_typeCompatible (env : Env) (b s : Sema) (a c : TypeIndex) (x : ExprIndex)
    (h : CastKept D e b s) :
    CastKept D e b (s.withTu (type_compatible env s.tu a c x).2) := by
  apply ck_withTu b s _ h (type_compatible_exprs env s.tu a c x)
  unfold type_compatible
  split_ifs
  · exact h.1.2.2
  · exact decay_array_types _ _ h.1.1 (decay_array_types _ _ h.1.1 h.1.2.2)

theorem ck_setType (b s : Sema) (t r : TypeIndex) (h : CastKept D e b s) :
    CastKept D e b (s.setType t (s.typeAt r)) := by
  refine ⟨⟨h.1.1, h.1.2.1, ?_⟩, h.2⟩
  intro ty hty
  rcases List.mem_or_eq_of_mem_set hty with h1 | h1
  · exact h.1.2.2 ty h1
  · rw [h1]; exact subExprsIn_typeAt s h.1 r

theorem ck_ite (b : Sema) (c : Prop) [Decidable c] (x y : Sema)
    (hx : CastKept D e b x) (hy : CastKept D e b y) :
    CastKept D e b (if c then x else y) := by
  split_ifs
  · exact hx
  · exact hy

theorem ck_ret (b s : Sema) (x : ExprIndex) (t : TypeIndex) (h : CastKept D e b s)
    (hx : D x ∨ x = e) : Keeps (CastKept D e) b (ret_type s x t) :=
  keeps_ok _ _ _ (ck_setExprType b s x t h hx)

end OwnCast

section OwnCastLoops

variable {D : ExprIndex → Prop} {e : ExprIndex}

theorem ck_resolve_members (resolve : Sema → TypeIndex → Res Unit)
    (hres : ∀ b s t, CastKept D e b s → Keeps (CastKept D e) b (resolve s t)) :
    ∀ (count : Nat) (b st : Sema) (m : MemberIndex), CastKept D e b st →
      Keeps (CastKept D e) b (resolve_members resolve count st m) := by
  intro count
  induction count with
  | zero => intro b st m h; exact keeps_ok _ _ _ h
  | succ n ih =>
    intro b st m h
    rw [resolve_members]
    refine keeps_bind _ _ _ (hres b st _ h) ?_
    intro _ s hs
    exact ih b s _ hs

theorem ck_try_resolve_typeof (sema : Sema → ExprIndex → Res TypeIndex)
    (hsema : ∀ b s c, CastKept D e b s → D c → Keeps (CastKept D e) b (sema s c)) :
    ∀ (fuel : Nat) (b st : Sema) (t : TypeIndex), CastKept D e b st →
      Keeps (CastKept D e) b (try_resolve_typeof sema fuel st t) := by
  intro fuel
  induction fuel with
  | zero => intro b st t _; exact keeps_out_of_fuel b
  | succ n ih =>
    intro b st t h
    rw [try_resolve_typeof]
    apply keeps_ite
    · exact ih b st _ h
    · apply keeps_ite
      · exact ih b st _ h
      · apply keeps_ite
        · refine keeps_bind _ _ _ (ck_resolve_members _ ih _ b st _ h) ?_
          intro _ s hs
          exact ih b s _ hs
        · apply keeps_ite
          · refine keeps_bind _ _ _ (hsema b st _ h (subExprsIn_typeAt st h.1 t)) ?_
            intro _ s hs
            exact keeps_ok _ _ _ (ck_setType b s _ _ hs)
          · exact keeps_ok _ _ _ h

theorem ck_walk_initializer (sema : Sema → ExprIndex → Res TypeIndex)
    (hsema : ∀ b s c, CastKept D e b s → D c → Keeps (CastKept D e) b (sema s c))
    (nodes : List InitNode) (hnodes : ∀ i, D (nodes.getD i {}).expr) :
    ∀ (fuel : Nat) (b st : Sema) (count pos : Nat), CastKept D e b st →
      Keeps (CastKept D e) b (walk_initializer_for_sema sema nodes fuel st count pos) := by
  intro fuel
  induction fuel with
  | zero => intro b st count pos _; rw [walk_initializer_for_sema]; exact keeps_out_of_fuel b
  | succ n ih =>
    intro b st count pos h
    cases count with
    | zero => rw [walk_initializer_for_sema]; exact keeps_ok _ _ _ h
    | succ c =>
      rw [walk_initializer_for_sema]
      apply keeps_ite
      · refine keeps_bind _ _ _ (hsema b st _ h (hnodes _)) ?_
        intro _ s hs
        exact ih b s _ _ hs
      · refine keeps_bind _ _ _ (ih b st _ _ h) ?_
        intro _ s hs
        exact ih b s _ _ hs

theorem ck_check_call_args (env : Env) (sema : Sema → ExprIndex → Res TypeIndex)
    (hsema : ∀ b s c, CastKept D e b s → D c → Keeps (CastKept D e) b (sema s c))
    (args : List ExprIndex) (hargs : ∀ i, D (args.getD i 0))
    (param_list : ParamIndex) (to_param : Bool) :
    ∀ (count : Nat) (b st : Sema) (i : Nat), CastKept D e b st →
      Keeps (CastKept D e) b (check_call_args env sema args param_list to_param count st i) := by
  intro count
  induction count with
  | zero => intro b st i h; exact keeps_ok _ _ _ h
  | succ n ih =>
    intro b st i h
    rw [check_call_args]
    refine keeps_bind _ _ _ (hsema b st _ h (hargs i)) ?_
    intro _ s hs
    dsimp only
    apply keeps_ite
    · exact keeps_with_type_string _ _ _ _ _ (keeps_with_type_string _ _ _ _ _
        (keeps_ok _ _ _ (ck_error _ _ _ _ (ck_typeCompatible env _ _ _ _ _ hs))))
    · exact ih b _ _ (ck_cast_D _ _ _ _ (ck_typeCompatible env _ _ _ _ _ hs) (hargs i))

theorem ck_check_untyped_args (sema : Sema → ExprIndex → Res TypeIndex)
    (hsema : ∀ b s c, CastKept D e b s → D c → Keeps (CastKept D e) b (sema s c))
    (args : List ExprIndex) (hargs : ∀ i, D (args.getD i 0)) :
    ∀ (count : Nat) (b st : Sema) (i : Nat), CastKept D e b st →
      Keeps (CastKept D e) b (check_untyped_args sema args count st i) := by
  intro count
  induction count with
  | zero => intro b st i h; exact keeps_ok _ _ _ h
  | succ n ih =>
    intro b st i h
    rw [check_untyped_args]
    refine keeps_bind _ _ _ (hsema b st _ h (hargs i)) ?_
    intro _ s hs
    exact ih b _ _ (ck_cast_D _ _ _ _ hs (hargs i))

theorem ck_args_in (b s : Sema) (x : ExprIndex) (h : CastKept D e b s) (hx : D x ∨ x = e) :
    ∀ i, D ((s.exprAt x).call.param_start.getD i 0) := by
  intro i
  rcases getD_mem_or_default (s.exprAt x).call.param_start i 0 with hm | hd
  · apply ck_kid b s x _ h hx
    simp only [all_kids, List.mem_append]
    exact Or.inl (Or.inr hm)
  · rw [hd]; exact h.1.1

theorem ck_nodes_in (b s : Sema) (x : ExprIndex) (h : CastKept D e b s) (hx : D x ∨ x = e) :
    ∀ i, D ((s.exprAt x).init.nodes.getD i {}).expr := by
  intro i
  rcases getD_mem_or_default (s.exprAt x).init.nodes i {} with hm | hd
  · apply ck_kid b s x _ h hx
    simp only [all_kids, List.mem_append, List.mem_map]
    exact Or.inr ⟨_, hm, rfl⟩
  · rw [hd]; exact h.1.1

/-- The checker called on a handle stored in the node being checked. -/
theorem ck_self_kid (self : Sema → ExprIndex → Res TypeIndex)
    (hself : ∀ b s c, CastKept D e b s → D c → Keeps (CastKept D e) b (self s c))
    (b s : Sema) (x c : ExprIndex) (h : CastKept D e b s) (hx : D x ∨ x = e)
    (hc : c ∈ all_kids (s.exprAt x)) : Keeps (CastKept D e) b (self s c) :=
  hself b s c h (ck_kid b s x c h hx hc)

theorem ck_walk_initializer_at (self : Sema → ExprIndex → Res TypeIndex)
    (hself : ∀ b s c, CastKept D e b s → D c → Keeps (CastKept D e) b (self s c))
    (b s0 : Sema) (x : ExprIndex) (fuel : Nat) (st : Sema) (count pos : Nat)
    (h0 : CastKept D e b s0) (hx : D x ∨ x = e) (h : CastKept D e b st) :
    Keeps (CastKept D e) b
      (walk_initializer_for_sema self (s0.exprAt x).init.nodes fuel st count pos) :=
  ck_walk_initializer self hself _ (ck_nodes_in b s0 x h0 hx) fuel b st count pos h

theorem ck_check_call_args_at (env : Env) (self : Sema → ExprIndex → Res TypeIndex)
    (hself : ∀ b s c, CastKept D e b s → D c → Keeps (CastKept D e) b (self s c))
    (b s0 : Sema) (x : ExprIndex) (param_list : ParamIndex) (to_param : Bool) (count : Nat)
    (st : Sema) (i : Nat)
    (h0 : CastKept D e b s0) (hx : D x ∨ x = e) (h : CastKept D e b st) :
    Keeps (CastKept D e) b
      (check_call_args env self (s0.exprAt x).call.param_start param_list to_param count st i) :=
  ck_check_call_args env self hself _ (ck_args_in b s0 x h0 hx) param_list to_param count b st i h

theorem ck_check_untyped_args_at (self : Sema → ExprIndex → Res TypeIndex)
    (hself : ∀ b s c, CastKept D e b s → D c → Keeps (CastKept D e) b (self s c))
    (b s0 : Sema) (x : ExprIndex) (count : Nat) (st : Sema) (i : Nat)
    (h0 : CastKept D e b s0) (hx : D x ∨ x = e) (h : CastKept D e b st) :
    Keeps (CastKept D e) b
      (check_untyped_args self (s0.exprAt x).call.param_start count st i) :=
  ck_check_untyped_args self hself _ (ck_args_in b s0 x h0 hx) count b st i h

end OwnCastLoops

section OwnCastBody

variable {D : ExprIndex → Prop} {e : ExprIndex}

theorem ck_sema_expr_ptr_arith (env : Env) (b st : Sema) (x : ExprIndex) (lhs rhs : TypeIndex)
    (hb : CastKept D e b st) (hx : D x ∨ x = e) :
    Keeps (CastKept D e) b (sema_expr_ptr_arith env st x lhs rhs) := by
  unfold sema_expr_ptr_arith
  dsimp only
  repeat' first
    | assumption
    | with_reducible refine ck_ret _ _ _ _ ?_ hx
    | (with_reducible refine ck_kid_cast _ _ x _ _ ?_ hx ?_; rotate_left; · simp only [all_kids, List.mem_cons, List.mem_append, true_or, or_true])
    | with_reducible refine ck_setOp _ _ _ _ ?_ hx
    | with_reducible refine ck_swapBinOp _ _ _ ?_ hx
    | with_reducible refine ck_error _ _ _ _ ?_
    | with_reducible refine ck_ite _ _ _ _ ?_ ?_
    | with_reducible refine keeps_with_type_string _ _ _ _ _ ?_
    | with_reducible refine keeps_ok _ _ _ ?_
    | with_reducible refine keeps_ite _ _ _ _ ?_ ?_

theorem ck_sema_expr_arith (env : Env)
    (henv : ∀ tu a c ty, ty ∈ (env.get_common_type tu a c).2 → ty.typeof_.src = 0)
    (b st : Sema) (x : ExprIndex) (lhs rhs : TypeIndex)
    (hb : CastKept D e b st) (hx : D x ∨ x = e) :
    Keeps (CastKept D e) b (sema_expr_arith env st x lhs rhs) := by
  unfold sema_expr_arith
  dsimp only
  repeat' first
    | assumption
    | exact ck_sema_expr_ptr_arith env _ _ _ _ _ hb hx
    | with_reducible refine ck_ret _ _ _ _ ?_ hx
    | (with_reducible refine ck_kid_cast _ _ x _ _ ?_ hx ?_; rotate_left; · simp only [all_kids, List.mem_cons, List.mem_append, true_or, or_true])
    | with_reducible refine ck_appendTypes _ _ _ ?_ (henv _ _ _)
    | with_reducible refine ck_error _ _ _ _ ?_
    | with_reducible refine keeps_with_type_string _ _ _ _ _ ?_
    | with_reducible refine keeps_ok _ _ _ ?_
    | with_reducible refine keeps_ite _ _ _ _ ?_ ?_

theorem ck_sema_expr_body (env : Env)
    (henv : ∀ tu a c ty, ty ∈ (env.get_common_type tu a c).2 → ty.typeof_.src = 0)
    (self : Sema → ExprIndex → Res TypeIndex)
    (hself : ∀ b s c, CastKept D e b s → D c → Keeps (CastKept D e) b (self s c))
    (fuel : Nat) (b st : Sema) (x : ExprIndex) (hb : CastKept D e b st) (hx : D x ∨ x = e)
    (hbad : (st.exprAt x).op = ExprOp.EXPR_SYMBOL ∨ (st.exprAt x).op = ExprOp.EXPR_SIZEOF
      ∨ (st.exprAt x).op = ExprOp.EXPR_ALIGNOF ∨ (st.exprAt x).op = ExprOp.EXPR_SIZEOF_T
      ∨ (st.exprAt x).op = ExprOp.EXPR_ALIGNOF_T → D x) :
    Keeps (CastKept D e) b (sema_expr_body env self fuel st x) := by
  unfold sema_expr_body
  split <;> repeat' first
    | assumption
    | exact keeps_abort _
    | with_reducible refine ck_ret _ _ _ _ ?_ hx
    | (with_reducible refine ck_self_kid self hself _ _ x _ ?_ hx ?_; rotate_left; · simp only [all_kids, List.mem_cons, List.mem_append, true_or, or_true])
    | with_reducible refine ck_try_resolve_typeof self hself _ _ _ _ ?_
    | with_reducible refine ck_walk_initializer_at self hself _ _ x _ _ _ _ ?_ hx ?_
    | with_reducible refine ck_check_call_args_at env self hself _ _ x _ _ _ _ _ ?_ hx ?_
    | with_reducible refine ck_check_untyped_args_at self hself _ _ x _ _ _ ?_ hx ?_
    | with_reducible refine ck_sema_expr_arith env henv _ _ _ _ _ ?_ hx
    | (with_reducible refine ck_kid_cast _ _ x _ _ ?_ hx ?_; rotate_left; · simp only [all_kids, List.mem_cons, List.mem_append, true_or, or_true])
    | with_reducible refine ck_cast_D _ _ _ _ ?_ (hbad (Or.inl (by assumption)))
    | with_reducible refine ck_literal env _ _ _ _ _ ?_ (hbad (Or.inr (Or.inl (by assumption))))
    | with_reducible refine ck_literal env _ _ _ _ _ ?_ (hbad (Or.inr (Or.inr (Or.inl (by assumption)))))
    | with_reducible refine ck_literal env _ _ _ _ _ ?_ (hbad (Or.inr (Or.inr (Or.inr (Or.inl (by assumption))))))
    | with_reducible refine ck_literal env _ _ _ _ _ ?_ (hbad (Or.inr (Or.inr (Or.inr (Or.inr (by assumption))))))
    | with_reducible refine ck_swapSubscript _ _ _ ?_ hx
    | with_reducible refine ck_setDotMember _ _ _ _ ?_ hx
    | with_reducible refine ck_appendTypes _ _ _ ?_ (henv _ _ _)
    | with_reducible refine ck_error _ _ _ _ ?_
    | with_reducible refine ck_newPointer _ _ _ ?_
    | with_reducible refine ck_newArray _ _ _ _ _ _ ?_ (by assumption)
    | with_reducible refine ck_ite _ _ _ _ ?_ ?_
    | with_reducible refine keeps_bind _ _ _ ?_ (fun _ _ _ => ?_)
    | with_reducible refine keeps_with_type_string _ _ _ _ _ ?_
    | with_reducible refine keeps_ok _ _ _ ?_
    | with_reducible refine keeps_ite _ _ _ _ ?_ ?_
    | split
    | dsimp only

end OwnCastBody

section OwnCastFinal

theorem ck_sema_expr {D : ExprIndex → Prop} {e : ExprIndex} (env : Env)
    (henv : ∀ tu a c ty, ty ∈ (env.get_common_type tu a c).2 → ty.typeof_.src = 0) :
    ∀ (fuel : Nat) (b st : Sema) (x : ExprIndex), CastKept D e b st → D x →
      Keeps (CastKept D e) b (sema_expr env fuel st x) := by
  intro fuel
  induction fuel with
  | zero => intro b st x _ _; exact keeps_out_of_fuel b
  | succ n ih =>
    intro b st x hb hx
    rw [sema_expr]
    exact ck_sema_expr_body env henv _ ih n b st x hb (Or.inl hx) (fun _ => hx)

theorem exprAt_default_of_ge (st : Sema) (x : ExprIndex) (h : st.tu.exprs.length ≤ x) :
    st.exprAt x = {} := by
  unfold Sema.exprAt TranslationUnit.exprAt
  exact List.getD_eq_default _ _ h

theorem cast_type_after_literal (env : Env) (s : Sema) (e : ExprIndex) (n : Nat)
    (sfx : IntSuffix) (t : TypeIndex) :
    (((s.setExpr e (int_literal_node env n sfx)).setExprType e t).exprAt e).cast_type = 0 := by
  rw [Sema.exprAt_setExprType, Sema.exprAt_setExpr, Sema.exprs_length_setExpr]
  by_cases h : e < s.tu.exprs.length
  · simp [h, int_literal_node]
  · simp only [h, and_false, if_false]
    rw [exprAt_default_of_ge s e (Nat.le_of_not_lt h)]

theorem sema_expr_sizeof_family_cast (env : Env) (fuel : Nat) (st st' : Sema) (e : ExprIndex)
    (t : TypeIndex) (hrun : sema_expr env fuel st e = Res.ok t st')
    (hop : (st.exprAt e).op = ExprOp.EXPR_SIZEOF ∨ (st.exprAt e).op = ExprOp.EXPR_ALIGNOF
      ∨ (st.exprAt e).op = ExprOp.EXPR_SIZEOF_T ∨ (st.exprAt e).op = ExprOp.EXPR_ALIGNOF_T) :
    (st'.exprAt e).cast_type = 0 := by
  cases fuel with
  | zero => cases hrun
  | succ n =>
    rw [sema_expr, sema_expr_body] at hrun
    rcases hop with h | h | h | h <;>
    · rw [h] at hrun
      dsimp only at hrun
      obtain ⟨a, s, -, hk⟩ := res_bind_eq_ok _ _ _ _ hrun
      simp only [ret_type, Res.ok.injEq] at hk
      rw [← hk.2]
      exact cast_type_after_literal env s e _ _ _

end OwnCastFinal

/-- C36 (counterexample): node 9 of `stExample2` is `sizeof(int)`, an expression
whose op is not Symbol and whose stored handles are all null, so that its
sub-expressions do not contain it.  With its `cast_type` set to handle 8
beforehand, the check rewrites the whole node to an integer literal and the
node's own `cast_type` is the null handle afterwards. -/
theorem sema_expr_sizeof_resets_own_cast_type :
    ((stExample2.setCastType 9 8).exprAt 9).op = ExprOp.EXPR_SIZEOF_T
    ∧ ((stExample2.setCastType 9 8).exprAt 9).op ≠ ExprOp.EXPR_SYMBOL
    ∧ SubExprsIn (fun c => c = 0) 9 (stExample2.setCastType 9 8)
    ∧ ¬ (9 : ExprIndex) = 0
    ∧ ((stExample2.setCastType 9 8).exprAt 9).cast_type = 8
    ∧ (∀ fuel, ∃ st', sema_expr exampleEnv (fuel + 2) (stExample2.setCastType 9 8) 9
          = Res.ok 8 st' ∧ (st'.exprAt 9).cast_type = 0 ∧ (st'.exprAt 9).op = ExprOp.EXPR_INT) := by
  refine ⟨by decide, by decide, ⟨rfl, ?_, by decide⟩, by decide, by decide, ?_⟩
  · rintro x (rfl | rfl) <;> decide
  · intro fuel
    exact ⟨_, rfl, by decide, by decide⟩

/-- C36 (amended): let a call of `sema_expr` on node `e` return.  If the op of
`e` is none of Symbol, Sizeof, Alignof, SizeofT and AlignofT, and `D` is a set of
handles that holds the sub-expressions of `e` but not `e`, then the `cast_type`
of `e` is the one it had before the call, and so is that of every node outside
`D`: the call writes the `cast_type` of sub-expressions only.  If the op is one
of the four sizeof / alignof ops, the node is overwritten as a whole and its
`cast_type` is the null handle after the call.  (`get_common_type` is taken to
append no `typeof` type.) -/
theorem sema_expr_keeps_own_cast_type (env : Env)
    (henv : ∀ tu a c ty, ty ∈ (env.get_common_type tu a c).2 → ty.typeof_.src = 0)
    (fuel : Nat) (st st' : Sema) (e : ExprIndex) (t : TypeIndex)
    (hrun : sema_expr env fuel st e = Res.ok t st') :
    (∀ D : ExprIndex → Prop, SubExprsIn D e st → ¬ D e →
      (st.exprAt e).op ≠ ExprOp.EXPR_SYMBOL → (st.exprAt e).op ≠ ExprOp.EXPR_SIZEOF →
      (st.exprAt e).op ≠ ExprOp.EXPR_ALIGNOF → (st.exprAt e).op ≠ ExprOp.EXPR_SIZEOF_T →
      (st.exprAt e).op ≠ ExprOp.EXPR_ALIGNOF_T →
      (st'.exprAt e).cast_type = (st.exprAt e).cast_type
      ∧ ∀ y, ¬ D y → (st'.exprAt y).cast_type = (st.exprAt y).cast_type)
    ∧ ((st.exprAt e).op = ExprOp.EXPR_SIZEOF ∨ (st.exprAt e).op = ExprOp.EXPR_ALIGNOF
        ∨ (st.exprAt e).op = ExprOp.EXPR_SIZEOF_T ∨ (st.exprAt e).op = ExprOp.EXPR_ALIGNOF_T →
      (st'.exprAt e).cast_type = 0) := by
  refine ⟨?_, sema_expr_sizeof_family_cast env fuel st st' e t hrun⟩
  intro D hsub hne h1 h2 h3 h4 h5
  cases fuel with
  | zero => cases hrun
  | succ n =>
    rw [sema_expr] at hrun
    have hk : CastKept D e st st' :=
      ck_sema_expr_body env henv _ (ck_sema_expr env henv n) n st st e (ck_refl st hsub)
        (Or.inr rfl)
        (fun hbad => by
          rcases hbad with h | h | h | h | h
          · exact absurd h h1
          · exact absurd h h2
          · exact absurd h h3
          · exact absurd h h4
          · exact absurd h h5)
        t st' hrun
    exact ⟨hk.2 e hne, hk.2⟩

theorem get_common_type_appends_nothing (tu : TranslationUnit) (a c : TypeIndex) (ty : CType)
    (h : ty ∈ (get_common_type tu a c).2) : ty.typeof_.src = 0 := by
  unfold get_common_type at h
  split_ifs at h <;> cases h

/-- Node 4 of `stExample` is `p + 1` with sub-expressions 2 and 3: the check
sets the `cast_type` of both and leaves that of node 4 alone.  Node 9 of
`stExample2` is `sizeof(int)`: its `cast_type` is null after the check. -/
theorem sema_expr_keeps_own_cast_type_witness :
    (((sema_expr exampleEnv 2 stExample 4).state.exprAt 4).cast_type
        = (stExample.exprAt 4).cast_type
      ∧ ((sema_expr exampleEnv 2 stExample 4).state.exprAt 2).cast_type = 11
      ∧ ((sema_expr exampleEnv 2 stExample 4).state.exprAt 3).cast_type = 8)
    ∧ ((sema_expr exampleEnv 2 stExample2 9).state.exprAt 9).cast_type = 0 :=
  ⟨⟨((sema_expr_keeps_own_cast_type exampleEnv
        (fun tu a c ty h => get_common_type_appends_nothing tu a c ty h) 2 stExample
        (sema_expr exampleEnv 2 stExample 4).state 4 11 (by rfl)).1
        (fun c => c = 0 ∨ c = 2 ∨ c = 3)
        ⟨Or.inl rfl,
          fun x hx => by
            rcases hx with (rfl | rfl | rfl) | rfl <;> decide,
          by decide⟩
        (by decide) (by decide) (by decide) (by decide) (by decide) (by decide)).1,
      by decide, by decide⟩,
    (sema_expr_keeps_own_cast_type exampleEnv
        (fun tu a c ty h => get_common_type_appends_nothing tu a c ty h) 2 stExample2
        (sema_expr exampleEnv 2 stExample2 9).state 9 8 (by rfl)).2
      (by decide)⟩

/-! ### Concurrent symbol registration -/

theorem isChain_update_next (next : SymbolRef → Option SymbolRef) (s : SymbolRef)
    (v : Option SymbolRef) :
    ∀ (l : List SymbolRef) (head : Option SymbolRef), s ∉ l →
      (IsChain (Function.update next s v) head l ↔ IsChain next head l) := by
  intro l
  induction l with
  | nil => intro head _; exact Iff.rfl
  | cons a l ih =>
    intro head hs
    have ha : a ≠ s := fun h => hs (h ▸ List.mem_cons_self _ _)
    have hl : s ∉ l := fun h => hs (List.mem_cons_of_mem _ h)
    show (head = some a ∧ IsChain (Function.update next s v) (Function.update next s v a) l)
      ↔ (head = some a ∧ IsChain next (next a) l)
    rw [Function.update_noteq ha, ih _ hl]

theorem TB_FOR_FUNCTIONS_of_chain (next : SymbolRef → Option SymbolRef) :
    ∀ (l : List SymbolRef) (head : Option SymbolRef) (fuel : Nat), IsChain next head l →
      l.length ≤ fuel → TB_FOR_FUNCTIONS next fuel head = some l := by
  intro l
  induction l with
  | nil =>
    intro head fuel h _
    have h0 : head = none := h
    rw [h0]
    cases fuel <;> rfl
  | cons a l ih =>
    intro head fuel h hf
    obtain ⟨h0, h1⟩ := h
    rw [h0]
    cases fuel with
    | zero => simp at hf
    | succ n =>
      rw [TB_FOR_FUNCTIONS, ih _ n h1 (Nat.le_of_succ_le_succ hf)]
      rfl

theorem counted_total_update (workers : Nat → SymbolWorker) (w : Nat) (x : SymbolWorker) :
    ∀ N, w < N →
      counted_total (Function.update workers w x) N + counted_by (workers w)
        = counted_total workers N + counted_by x := by
  have hge : ∀ n, n ≤ w → counted_total (Function.update workers w x) n = counted_total workers n := by
    intro n
    induction n with
    | zero => intro _; rfl
    | succ k ih =>
      intro hk
      have hne : k ≠ w := Nat.ne_of_lt hk
      rw [counted_total, counted_total, ih (Nat.le_of_succ_le hk), Function.update_noteq hne]
  intro N
  induction N with
  | zero => intro h; exact absurd h (Nat.not_lt_zero _)
  | succ k ih =>
    intro hk
    rw [counted_total, counted_total]
    by_cases hw : w = k
    · subst hw
      rw [hge w (Nat.le_refl _), Function.update_same]
      omega
    · have hlt : w < k := Nat.lt_of_le_of_ne (Nat.le_of_lt_succ hk) hw
      have hne : k ≠ w := fun h => hw h.symm
      rw [Function.update_noteq hne]
      have := ih hlt
      omega

theorem counted_total_finished (workers : Nat → SymbolWorker) (M : Nat) :
    ∀ N, (∀ w, w < N → (workers w).registered = M ∧ (workers w).pc = AppendPc.idle) →
      counted_total workers N = N * M := by
  intro N
  induction N with
  | zero => intro _; simp [counted_total]
  | succ k ih =>
    intro h
    rw [counted_total, ih (fun w hw => h w (Nat.lt_succ_of_lt hw))]
    obtain ⟨h1, h2⟩ := h k (Nat.lt_succ_self k)
    rw [counted_by, h1, h2, Nat.succ_mul]
    rfl

theorem registered_update_pc (workers : Nat → SymbolWorker) (w : Nat) (pc : AppendPc) (v : Nat) :
    (Function.update workers w { workers w with pc := pc } v).registered = (workers v).registered := by
  by_cases h : v = w
  · subst h; rw [Function.update_same]
  · rw [Function.update_noteq h]

/-- A step that changes nothing but the position of worker `w`, to a position
other than the one before the compare-and-swap, and adds `k` to the count when
the worker's contribution grows by `k`, keeps the invariant. -/
theorem appendInv_set_pc (N : Nat) (cfg : Registration) (w : Nat) (pc : AppendPc) (k : Nat)
    (h : AppendInv N cfg) (hw : w < N) (hpc : ∀ old, pc ≠ AppendPc.linked old)
    (hk : counted_by { cfg.workers w with pc := pc } = counted_by (cfg.workers w) + k) :
    AppendInv N { cfg with
      symbol_count := cfg.symbol_count + k,
      workers := Function.update cfg.workers w { cfg.workers w with pc := pc } } := by
  obtain ⟨⟨l, hc, hnd, hmem⟩, hcount, hlink⟩ := h
  refine ⟨⟨l, hc, hnd, ?_⟩, ?_, ?_⟩
  · intro s
    show s ∈ l ↔ s.1 < N ∧ s.2 < (Function.update cfg.workers w _ s.1).registered
    rw [registered_update_pc]; exact hmem s
  · show cfg.symbol_count + k = counted_total (Function.update cfg.workers w _) N
    have := counted_total_update cfg.workers w { cfg.workers w with pc := pc } N hw
    omega
  · intro v old hv hvpc
    show cfg.next (v, (Function.update cfg.workers w _ v).registered) = old
    rw [registered_update_pc]
    have hvpc' : (Function.update cfg.workers w { cfg.workers w with pc := pc } v).pc
        = AppendPc.linked old := hvpc
    by_cases hvw : v = w
    · subst hvw
      rw [Function.update_same] at hvpc'
      exact absurd hvpc' (hpc old)
    · rw [Function.update_noteq hvw] at hvpc'
      exact hlink v old hv hvpc'

/-- Every atomic step keeps the invariant. -/
theorem appendInv_step (N M : Nat) (cfg : Registration) (w : Nat) (spurious : Bool)
    (h : AppendInv N cfg) : AppendInv N (symbol_append_step N M cfg w spurious) := by
  unfold symbol_append_step
  by_cases hw : w < N
  swap
  · rw [if_neg hw]; exact h
  rw [if_pos hw]
  split
  · -- allocate
    rename_i hpc
    split_ifs
    · have := appendInv_set_pc N cfg w AppendPc.allocated 0 h hw (fun _ hh => by cases hh)
        (by simp [counted_by, hpc])
      exact this
    · exact h
  · -- increment the count
    rename_i hpc
    exact appendInv_set_pc N cfg w AppendPc.counted 1 h hw (fun _ hh => by cases hh)
      (by simp [counted_by, hpc])
  · -- read the head
    rename_i hpc
    have := appendInv_set_pc N cfg w (AppendPc.loaded cfg.first_symbol_of_tag) 0 h hw
      (fun _ hh => by cases hh) (by simp [counted_by, hpc])
    exact this
  · -- write `next` of the new node
    rename_i old hpc
    obtain ⟨⟨l, hc, hnd, hmem⟩, hcount, hlink⟩ := h
    have hnew : ((w, (cfg.workers w).registered) : SymbolRef) ∉ l := by
      intro hin
      exact Nat.lt_irrefl _ ((hmem _).mp hin).2
    refine ⟨⟨l, (isChain_update_next _ _ _ l _ hnew).mpr hc, hnd, ?_⟩, ?_, ?_⟩
    · intro s
      show s ∈ l ↔ s.1 < N ∧ s.2 < (Function.update cfg.workers w _ s.1).registered
      rw [registered_update_pc]; exact hmem s
    · show cfg.symbol_count = counted_total (Function.update cfg.workers w _) N
      have := counted_total_update cfg.workers w
        { cfg.workers w with pc := AppendPc.linked old } N hw
      have hcb : counted_by { cfg.workers w with pc := AppendPc.linked old }
          = counted_by (cfg.workers w) := by simp [counted_by, hpc]
      omega
    · intro v old' hv hvpc
      show Function.update cfg.next (w, (cfg.workers w).registered) old
        (v, (Function.update cfg.workers w _ v).registered) = old'
      rw [registered_update_pc]
      have hvpc' : (Function.update cfg.workers w
          { cfg.workers w with pc := AppendPc.linked old } v).pc = AppendPc.linked old' := hvpc
      by_cases hvw : v = w
      · subst hvw
        rw [Function.update_same] at hvpc'
        rw [Function.update_same]
        simp only [AppendPc.linked.injEq] at hvpc'
        exact hvpc'
      · rw [Function.update_noteq hvw] at hvpc'
        rw [Function.update_noteq (fun hh => hvw (congrArg Prod.fst hh))]
        exact hlink v old' hv hvpc'
  · -- compare-and-swap
    rename_i old hpc
    split_ifs with hcas
    · obtain ⟨⟨l, hc, hnd, hmem⟩, hcount, hlink⟩ := h
      have hnew : ((w, (cfg.workers w).registered) : SymbolRef) ∉ l := by
        intro hin
        exact Nat.lt_irrefl _ ((hmem _).mp hin).2
      have hreg : ∀ v, (Function.update cfg.workers w
          { registered := (cfg.workers w).registered + 1, pc := AppendPc.idle } v).registered
          = if v = w then (cfg.workers w).registered + 1 else (cfg.workers v).registered := by
        intro v
        by_cases hvw : v = w
        · subst hvw; rw [Function.update_same, if_pos rfl]
        · rw [Function.update_noteq hvw, if_neg hvw]
      refine ⟨⟨(w, (cfg.workers w).registered) :: l, ⟨rfl, ?_⟩, List.nodup_cons.mpr ⟨hnew, hnd⟩, ?_⟩,
        ?_, ?_⟩
      · show IsChain cfg.next (cfg.next (w, (cfg.workers w).registered)) l
        rw [hlink w old hw hpc, ← hcas.1]; exact hc
      · intro s
        show s ∈ (w, (cfg.workers w).registered) :: l
          ↔ s.1 < N ∧ s.2 < (Function.update cfg.workers w _ s.1).registered
        rw [hreg, List.mem_cons, hmem s]
        constructor
        · rintro (rfl | ⟨h1, h2⟩)
          · exact ⟨hw, by rw [if_pos rfl]; exact Nat.lt_succ_self _⟩
          · refine ⟨h1, ?_⟩
            split_ifs with hsw
            · rw [hsw] at h2; exact Nat.lt_succ_of_lt h2
            · exact h2
        · rintro ⟨h1, h2⟩
          split_ifs at h2 with hsw
          · by_cases heq : s.2 = (cfg.workers w).registered
            · left
              exact Prod.ext hsw heq
            · right
              refine ⟨h1, ?_⟩
              rw [hsw]
              exact Nat.lt_of_le_of_ne (Nat.le_of_lt_succ h2) heq
          · exact Or.inr ⟨h1, h2⟩
      · show cfg.symbol_count = counted_total (Function.update cfg.workers w _) N
        have := counted_total_update cfg.workers w
          { registered := (cfg.workers w).registered + 1, pc := AppendPc.idle } N hw
        have hcb : counted_by { registered := (cfg.workers w).registered + 1, pc := AppendPc.idle }
            = counted_by (cfg.workers w) := by simp [counted_by, hpc]
        omega
      · intro v old' hv hvpc
        show cfg.next (v, (Function.update cfg.workers w _ v).registered) = old'
        have hvpc' : (Function.update cfg.workers w
            { registered := (cfg.workers w).registered + 1, pc := AppendPc.idle } v).pc
            = AppendPc.linked old' := hvpc
        by_cases hvw : v = w
        · subst hvw
          rw [Function.update_same] at hvpc'
          cases hvpc'
        · rw [Function.update_noteq hvw] at hvpc' ⊢
          exact hlink v old' hv hvpc'
    · have := appendInv_set_pc N cfg w (AppendPc.loaded cfg.first_symbol_of_tag) 0 h hw
        (fun _ hh => by cases hh) (by simp [counted_by, hpc])
      exact this

theorem appendInv_init (N : Nat) : AppendInv N {} := by
  refine ⟨⟨[], rfl, List.nodup_nil, ?_⟩, ?_, ?_⟩
  · intro s
    simp
  · show 0 = counted_total (fun _ => {}) N
    induction N with
    | zero => rfl
    | succ k ih => rw [counted_total, ← ih]; rfl
  · intro w old _ hpc
    cases hpc

theorem appendInv_run (N M : Nat) (schedule : List (Nat × Bool)) :
    AppendInv N (symbol_append_run N M schedule) := by
  unfold symbol_append_run
  have : ∀ (l : List (Nat × Bool)) (cfg : Registration), AppendInv N cfg →
      AppendInv N (l.foldl (fun cfg a => symbol_append_step N M cfg a.1 a.2) cfg) := by
    intro l
    induction l with
    | nil => intro cfg h; exact h
    | cons a l ih =>
      intro cfg h
      exact ih _ (appendInv_step N M cfg a.1 a.2 h)
  exact this schedule {} (appendInv_init N)

theorem length_of_mem_iff_lt (N M : Nat) (l : List SymbolRef) (hnd : l.Nodup)
    (hmem : ∀ s : SymbolRef, s ∈ l ↔ s.1 < N ∧ s.2 < M) : l.length = N * M := by
  have h : l.toFinset = Finset.range N ×ˢ Finset.range M := by
    ext s
    rw [List.mem_toFinset, hmem s, Finset.mem_product, Finset.mem_range, Finset.mem_range]
  rw [← List.toFinset_card_of_nodup hnd, h, Finset.card_product, Finset.card_range,
    Finset.card_range]

/-- C32: in every execution of `N` concurrent workers that register `M` symbols
each (allocate, atomically increment `symbol_count[tag]`, prepend to
`first_symbol_of_tag[tag]` by a compare-and-swap loop), whatever the
interleaving of their atomic steps and the failures of the compare-and-swap,
once all workers have finished `symbol_count[tag]` is `N * M` and the traversal
of the iteration macros returns a list of exactly `N * M` entries, without
repetition, which are the `M` nodes of each of the `N` workers. -/
theorem symbol_append_concurrent_registers_all (N M : Nat) (schedule : List (Nat × Bool))
    (hfin : ∀ w, w < N →
      ((symbol_append_run N M schedule).workers w).registered = M
      ∧ ((symbol_append_run N M schedule).workers w).pc = AppendPc.idle) :
    (symbol_append_run N M schedule).symbol_count = N * M
    ∧ ∃ l : List SymbolRef,
        (∀ fuel, N * M ≤ fuel →
          TB_FOR_FUNCTIONS (symbol_append_run N M schedule).next fuel
            (symbol_append_run N M schedule).first_symbol_of_tag = some l)
        ∧ l.length = N * M ∧ l.Nodup ∧ ∀ s : SymbolRef, s ∈ l ↔ s.1 < N ∧ s.2 < M := by
  obtain ⟨⟨l, hc, hnd, hmem⟩, hcount, -⟩ := appendInv_run N M schedule
  have hmem' : ∀ s : SymbolRef, s ∈ l ↔ s.1 < N ∧ s.2 < M := by
    intro s
    rw [hmem s]
    constructor
    · rintro ⟨h1, h2⟩
      rw [(hfin s.1 h1).1] at h2
      exact ⟨h1, h2⟩
    · rintro ⟨h1, h2⟩
      rw [(hfin s.1 h1).1]
      exact ⟨h1, h2⟩
  have hlen := length_of_mem_iff_lt N M l hnd hmem'
  refine ⟨?_, l, ?_, hlen, hnd, hmem'⟩
  · rw [hcount]; exact counted_total_finished _ M N hfin
  · intro fuel hf
    exact TB_FOR_FUNCTIONS_of_chain _ l _ fuel hc (by rw [hlen]; exact hf)

/-- Two workers, two symbols each, under `exampleSchedule` (one compare-and-swap
lost to the other worker, one failed spuriously): both workers finish, the
count is 4 and the traversal visits the four nodes. -/
theorem symbol_append_concurrent_registers_all_witness :
    (∀ w, w < 2 →
      ((symbol_append_run 2 2 exampleSchedule).workers w).registered = 2
      ∧ ((symbol_append_run 2 2 exampleSchedule).workers w).pc = AppendPc.idle)
    ∧ TB_FOR_FUNCTIONS (symbol_append_run 2 2 exampleSchedule).next 4
        (symbol_append_run 2 2 exampleSchedule).first_symbol_of_tag
        = some [(1, 1), (0, 1), (1, 0), (0, 0)]
    ∧ ((symbol_append_run 2 2 exampleSchedule).symbol_count = 2 * 2
      ∧ ∃ l : List SymbolRef,
        (∀ fuel, 2 * 2 ≤ fuel →
          TB_FOR_FUNCTIONS (symbol_append_run 2 2 exampleSchedule).next fuel
            (symbol_append_run 2 2 exampleSchedule).first_symbol_of_tag = some l)
        ∧ l.length = 2 * 2 ∧ l.Nodup ∧ ∀ s : SymbolRef, s ∈ l ↔ s.1 < 2 ∧ s.2 < 2) :=
  ⟨by decide!, by decide!,
    symbol_append_concurrent_registers_all 2 2 exampleSchedule (by decide!)⟩

/-! ### Arrays of records and units with record locals -/

/-- On an array whose element type is a record with members of plain types,
`try_resolve_typeof` does not return, whatever fuel it is given: the loop moves
to the element and stays on it. -/
theorem try_resolve_typeof_array_of_record_never_returns
    (sema : Sema → ExprIndex → Res TypeIndex) (st : Sema) (t : TypeIndex)
    (harr : (st.typeAt t).kind = KIND_ARRAY)
    (hloop : ∀ fuel, try_resolve_typeof sema fuel st (st.typeAt t).array_of = Res.out_of_fuel) :
    ∀ fuel, try_resolve_typeof sema fuel st t = Res.out_of_fuel := by
  intro fuel
  cases fuel with
  | zero => rfl
  | succ n =>
    rw [try_resolve_typeof]
    have h1 : ¬ (st.typeAt t).kind = KIND_PTR := by rw [harr]; decide
    simp only [if_neg h1, if_pos harr]
    exact hloop n

/-- C23 (evaluation of the code): `struct S sa[]` initialised with a list of two
lists (statement 4 of `stStructArray`) is a Decl whose declared type is an array
with count 0 and whose initializer is a compound Initializer with 2 top-level
nodes.  `sema_stmt` does not return on it for any fuel: the Decl case first
calls `try_resolve_typeof` on the declared type, which moves from the array to
its element `struct S` and never leaves the record.  The count is never
inferred.  On `int a[]` initialised with the list of `1`, `2`, `3` (statement 1)
the count becomes 3 and the size 12. -/
theorem sema_stmt_decl_struct_array_never_returns :
    (stStructArray.stmtAt 4).op = StmtOp.STMT_DECL
    ∧ (stStructArray.stmtAt 4).decl.type = 20
    ∧ (stStructArray.typeAt 20).kind = KIND_ARRAY
    ∧ (stStructArray.typeAt 20).array_count = 0
    ∧ (stStructArray.typeAt (stStructArray.typeAt 20).array_of).kind = KIND_STRUCT
    ∧ (stStructArray.exprAt (stStructArray.stmtAt 4).decl.initial).op = ExprOp.EXPR_INITIALIZER
    ∧ (stStructArray.exprAt (stStructArray.stmtAt 4).decl.initial).init.count = 2
    ∧ (∀ (sema : Sema → ExprIndex → Res TypeIndex) (fuel : Nat),
        try_resolve_typeof sema fuel stStructArray 20 = Res.out_of_fuel)
    ∧ (∀ fuel, sema_stmt exampleEnv fuel stStructArray 4 = Res.out_of_fuel)
    ∧ (∃ st', sema_stmt exampleEnv 8 stStructArray 1 = Res.ok () st'
        ∧ (stStructArray.typeAt 18).array_count = 0
        ∧ (st'.typeAt 18).array_count = 3
        ∧ (st'.typeAt 18).size = 3 * 4) := by
  have hloop : ∀ (sema : Sema → ExprIndex → Res TypeIndex) (fuel : Nat),
      try_resolve_typeof sema fuel stStructArray 20 = Res.out_of_fuel := by
    intro sema
    apply try_resolve_typeof_array_of_record_never_returns sema stStructArray 20 (by decide)
    apply try_resolve_typeof_record_never_returns sema stStructArray 13 (Or.inl (by decide))
    intro k hk1 hk2
    have hk : k = 0 := by
      have h : k < 1 := hk2
      exact Nat.lt_one_iff.mp h
    rw [hk]
    decide
  refine ⟨by decide, by decide, by decide, by decide, by decide, by decide, by decide, hloop, ?_,
    ⟨_, rfl, by decide, by decide, by decide⟩⟩
  intro fuel
  cases fuel with
  | zero => rfl
  | succ n =>
    have hop : (stStructArray.stmtAt 4).op = StmtOp.STMT_DECL := by decide
    have hinit : (stStructArray.stmtAt 4).decl.initial ≠ 0 := by decide
    have ht : (stStructArray.stmtAt 4).decl.type = 20 := by decide
    simp only [sema_stmt, hop, if_pos hinit, sema_stmt_decl, ht, hloop, Res.bind]

/-- C27 (evaluation of the code): `stUnitStructLocal` is a well-formed unit (no
declaration is both static and extern) with two roots, the function
`void f(void)`, whose body declares `struct S s` with an initializer, and the
global `int g;`.  The reachability pass returns.  The check of `f` registers
the function and then checks its body; the Decl case calls
`try_resolve_typeof` on `struct S`, which never returns.  The pipeline does
not return for any fuel, and `sema_check` is never called on the root `g`: it
gets no symbol. -/
theorem sema_check_unit_struct_local_never_returns :
    stUnitStructLocal.tu.top_level_stmts = [1, 4]
    ∧ (∀ s, s ∈ stUnitStructLocal.tu.stmts →
        ¬ (s.decl.attrs.is_static = true ∧ s.decl.attrs.is_extern = true))
    ∧ (stUnitStructLocal.stmtAt 1).op = StmtOp.STMT_FUNC_DECL
    ∧ (stUnitStructLocal.stmtAt 1).decl.attrs.is_root = true
    ∧ (stUnitStructLocal.stmtAt 4).op = StmtOp.STMT_GLOBAL_DECL
    ∧ (stUnitStructLocal.stmtAt 4).decl.attrs.is_root = true
    ∧ (stUnitStructLocal.stmtAt (stUnitStructLocal.stmtAt 1).decl.initial).compound.kids = [3]
    ∧ (stUnitStructLocal.stmtAt 3).op = StmtOp.STMT_DECL
    ∧ (stUnitStructLocal.typeAt (stUnitStructLocal.stmtAt 3).decl.type).kind = KIND_STRUCT
    ∧ (stUnitStructLocal.stmtAt 3).decl.initial ≠ 0
    ∧ (∃ st1, sema_remove_unused 1 stUnitStructLocal = Res.ok () st1)
    ∧ (∀ fuel, sema_check_unit exampleEnv exampleGen fuel {} stUnitStructLocal
        = Res.out_of_fuel) := by
  refine ⟨by decide, by decide, by decide, by decide, by decide, by decide, by decide, by decide,
    by decide, by decide, ⟨_, rfl⟩, ?_⟩
  intro fuel
  cases fuel with
  | zero => rfl
  | succ n =>
    -- the state in which the body of `f` is checked
    have hpass : sema_remove_unused (n + 1) stUnitStructLocal
        = Res.ok () (sema_remove_unused 1 stUnitStructLocal).state := rfl
    have hcheck : sema_check exampleEnv exampleGen (n + 1) {}
          (sema_remove_unused 1 stUnitStructLocal).state 1
        = (sema_stmt exampleEnv (n + 1)
            (((sema_remove_unused 1 stUnitStructLocal).state.setBackingF 1 0).setFunctionStmt 1)
            2).bind fun _ st =>
            Res.ok (tb_prototype_build {} 
              (tb_prototype_create (exampleGen.ctype_to_tbtype
                (stUnitStructLocal.typeAt 1)) 0 false) "f" TB_Linkage.TB_LINKAGE_PUBLIC).2
              (st.setFunctionStmt 0) := rfl
    have hloop : ∀ (sema : Sema → ExprIndex → Res TypeIndex) (fuel : Nat),
        try_resolve_typeof sema fuel
          (((sema_remove_unused 1 stUnitStructLocal).state.setBackingF 1 0).setFunctionStmt 1) 12
          = Res.out_of_fuel := by
      intro sema
      apply try_resolve_typeof_record_never_returns sema _ 12 (Or.inl (by decide))
      intro k hk1 hk2
      have hk : k = 0 := by
        have h : k < 1 := hk2
        exact Nat.lt_one_iff.mp h
      rw [hk]
      decide
    have hbody : sema_stmt exampleEnv (n + 1)
        (((sema_remove_unused 1 stUnitStructLocal).state.setBackingF 1 0).setFunctionStmt 1) 2
        = Res.out_of_fuel := by
      have hop2 : ((((sema_remove_unused 1 stUnitStructLocal).state.setBackingF 1 0).setFunctionStmt
          1).stmtAt 2).op = StmtOp.STMT_COMPOUND := by decide
      have hk2 : ((((sema_remove_unused 1 stUnitStructLocal).state.setBackingF 1 0).setFunctionStmt
          1).stmtAt 2).compound = { kids := [3], kids_count := 1 } := by decide
      rw [sema_stmt]
      simp only [hop2, hk2, sema_stmt_kids]
      cases n with
      | zero => rfl
      | succ m =>
        have hop : ((((sema_remove_unused 1 stUnitStructLocal).state.setBackingF 1 0).setFunctionStmt
            1).stmtAt 3).op = StmtOp.STMT_DECL := by decide
        have hinit : ((((sema_remove_unused 1 stUnitStructLocal).state.setBackingF 1
            0).setFunctionStmt 1).stmtAt 3).decl.initial ≠ 0 := by decide
        have ht : ((((sema_remove_unused 1 stUnitStructLocal).state.setBackingF 1
            0).setFunctionStmt 1).stmtAt 3).decl.type = 12 := by decide
        simp only [List.getD_cons_zero, sema_stmt, hop, if_pos hinit, sema_stmt_decl, ht, hloop,
          Res.bind]
    unfold sema_check_unit
    rw [hpass]
    show sema_check_top_level exampleEnv exampleGen (n + 1) 2 {}
        (sema_remove_unused 1 stUnitStructLocal).state 0 = Res.out_of_fuel
    rw [sema_check_top_level]
    have h1 : (sema_remove_unused 1 stUnitStructLocal).state.tu.top_level_stmts.getD 0 0 = 1 := by
      decide
    rw [h1, hcheck, hbody]
    rfl

end Cuik
